import Mathlib

/-!
# MyCraft: voxel world model, physics tick, block editing and inventory

A shallow embedding of the C++ sources (`Block.h`, `Chunk.{h,cpp}`,
`World.{h,cpp}`, `Renderer.cpp`, `main.cpp`, `Inventory.{h,cpp}`) and theorems
about it.

Conventions of the embedding:

* C++ `int` is `Int` (no arithmetic of the modelled code can overflow on the
  coordinates the program produces); `/` and `%` on `int` are the truncating
  `Int.tdiv` and `Int.tmod`.
* C++ `float` is read as an exact rational (`ℚ`); decimal literals such as
  `0.1f` and `1.8f` denote `1/10` and `9/5`. The one exception is the variable
  `dist` of the raycast loop of `mouse`, whose repeated `float` additions decide
  how many samples the loop takes: its values are the `float` values exactly
  (`roundFloat`, `distAt`).
* `(int)f` on a float is truncation toward zero (`ftoi`); `(int)floor(f)` is
  `Int.floor`.
* `std::vector<std::vector<std::vector<T>>>` is `Vec3 T`, nested arrays; the
  `std::vector<InventorySlot>` of the inventory is a list, read and written by
  index.
* A loop whose body touches one element and a counter is written as a function
  of that element and the counter (`Inventory.slotLoop`).
* References and pointers to blocks are modelled by what they designate
  (`CellRef`, `BlockPtr`); reading and assigning through them is explicit. The
  function-local static block of `Chunk::getBlock` is part of the state: the
  chunk accessors take and return its value, and the world state carries it.
* `rand()` is a stream of values read in order (`Rand`); `sin` and `cos` are
  parameters of the generator (`Trig`). Theorems hold for every stream and all
  values of `sin` and `cos`; the examples on the generated world use the values
  of `sin` and `cos` to five decimals (`sampleTrig`).
* Console output and OpenGL calls are not modelled.
-/

set_option autoImplicit false

namespace MyCraft

/-! ## Numeric conversions -/

/-- The C++ conversion `(int)f` of a float: truncation toward zero. -/
def ftoi (q : ℚ) : Int := if 0 ≤ q then Int.floor q else Int.ceil q

/-! ## Nested vectors -/

/-- The type `std::vector<std::vector<std::vector<T>>>`. -/
abbrev Vec3 (α : Type) := Array (Array (Array α))

namespace Vec3

variable {α : Type}

/-- Reading `g[i][j][k]`. Indexing outside a vector is undefined behaviour in
C++; the model returns the default element there. -/
def get [Inhabited α] (g : Vec3 α) (i j k : Nat) : α :=
  ((g.getD i #[]).getD j #[]).getD k default

/-- The assignment `g[i][j][k] = v` (no effect outside the vectors). -/
def set (g : Vec3 α) (i j k : Nat) (v : α) : Vec3 α :=
  g.modify i fun plane => plane.modify j fun row => row.setD k v

/-- The vector built by `resize(n, vector(m, vector(p, v)))` on an empty vector. -/
def fill (n m p : Nat) (v : α) : Vec3 α := mkArray n (mkArray m (mkArray p v))

/-- All three levels have the extents `n`, `m`, `p`. -/
def WF (g : Vec3 α) (n m p : Nat) : Prop :=
  g.size = n ∧ ∀ (i : Nat) (hi : i < g.size), g[i].size = m ∧
    ∀ (j : Nat) (hj : j < g[i].size), g[i][j].size = p

end Vec3

/-! ## Block.h -/

/-- The enumeration `BlockType`. -/
inductive BlockType
  | AIR | GRASS | DIRT | STONE | WOOD | LEAVES | WATER | SAND
  | COAL_ORE | IRON_ORE | DIAMOND_ORE
  deriving DecidableEq, Repr

/-- Modelled from the spec: `Vector3.h` is not among the sources; the spec
describes positions and velocities as float triples, and the sources only use
the fields `x`, `y`, `z` and the three-argument constructor. -/
structure Vector3 where
  x : ℚ
  y : ℚ
  z : ℚ
  deriving DecidableEq

/-- The struct `Block`. -/
structure Block where
  type : BlockType
  position : Vector3
  deriving DecidableEq

namespace Block

/-- The constructor `Block()`. -/
def default : Block := ⟨BlockType.AIR, ⟨0, 0, 0⟩⟩

/-- The constructor `Block(BlockType t)`. -/
def ofType (t : BlockType) : Block := ⟨t, ⟨0, 0, 0⟩⟩

/-- The method `Block::isSolid`. -/
def isSolid (b : Block) : Bool :=
  match b.type with
  | BlockType.AIR => false
  | BlockType.WATER => false
  | BlockType.LEAVES => false
  | _ => true

/-- The method `Block::isEmpty`. -/
def isEmpty (b : Block) : Bool := b.type == BlockType.AIR

end Block

instance : Inhabited Block := ⟨Block.default⟩

/-! ## Chunk.h, Chunk.cpp -/

def CHUNK_WIDTH : Int := 16
def CHUNK_HEIGHT : Int := 128
def CHUNK_DEPTH : Int := 16

/-- The class `Chunk`: the block vectors and the chunk-grid position. -/
structure Chunk where
  blocks : Vec3 Block
  position : Vector3

/-- What a `Block&` returned by `Chunk::getBlock` designates: the stored
element `blocks[x][y][z]`, or the function-local `static Block defaultBlock`. -/
inductive CellRef
  | stored (x y z : Nat)
  | defaultBlock
  deriving DecidableEq, Repr

namespace Chunk

/-- The constructor `Chunk::Chunk(Vector3 pos)`. -/
def new (pos : Vector3) : Chunk :=
  ⟨Vec3.fill CHUNK_WIDTH.toNat CHUNK_HEIGHT.toNat CHUNK_DEPTH.toNat Block.default, pos⟩

/-- The block vectors have the extents the constructor gives them. -/
def WF (c : Chunk) : Prop :=
  Vec3.WF c.blocks CHUNK_WIDTH.toNat CHUNK_HEIGHT.toNat CHUNK_DEPTH.toNat

/-- The bounds check shared by the four accessors. -/
def inBounds (x y z : Int) : Bool :=
  decide (x ≥ 0 ∧ x < CHUNK_WIDTH ∧ y ≥ 0 ∧ y < CHUNK_HEIGHT ∧ z ≥ 0 ∧ z < CHUNK_DEPTH)

/-- The reference `Chunk::getBlock(x, y, z)` returns. -/
def getBlockRef (x y z : Int) : CellRef :=
  if inBounds x y z then CellRef.stored x.toNat y.toNat z.toNat
  else CellRef.defaultBlock

/-- Reading through a reference that `getBlock` of the chunk returned.
`defaultBlock` is the value the function-local `static Block defaultBlock` of
`Chunk::getBlock` holds at that time: one block shared by all chunks,
default-constructed, and changed by every assignment through a reference that
designates it. -/
def load (c : Chunk) (defaultBlock : Block) : CellRef → Block
  | CellRef.stored x y z => c.blocks.get x y z
  | CellRef.defaultBlock => defaultBlock

/-- Assigning through a reference that `getBlock` of the chunk returned: the
chunk and the static block afterwards. -/
def store (c : Chunk) (defaultBlock : Block) (r : CellRef) (b : Block) : Chunk × Block :=
  match r with
  | CellRef.stored x y z => ({ c with blocks := c.blocks.set x y z b }, defaultBlock)
  | CellRef.defaultBlock => (c, b)

/-- The block `Chunk::getBlock(x, y, z)` refers to, when the static block
holds `defaultBlock`. -/
def getBlock (c : Chunk) (defaultBlock : Block) (x y z : Int) : Block :=
  c.load defaultBlock (getBlockRef x y z)

/-- The method `Chunk::setBlock`. -/
def setBlock (c : Chunk) (x y z : Int) (block : Block) : Chunk :=
  if inBounds x y z then
    { c with blocks := c.blocks.set x.toNat y.toNat z.toNat block }
  else c

end Chunk

/-! ## World.h, World.cpp: storage and lookup -/

def WORLD_WIDTH : Int := 8
def WORLD_HEIGHT : Int := 4
def WORLD_DEPTH : Int := 8

/-- The class `World`: the grid of `shared_ptr<Chunk>` (`none` is a null
pointer) and the last known player position. The state carries with them the
value of the `static Block defaultBlock` of `Chunk::getBlock`, the one object
outside the grid that a `Block*` can designate, so that reading and assigning
through block pointers are functions of the state. -/
structure World where
  chunks : Vec3 (Option Chunk)
  playerPosition : Vector3
  defaultBlock : Block

/-- A non-null `Chunk*`: the grid slot whose chunk it points to. -/
structure ChunkPtr where
  cx : Nat
  cy : Nat
  cz : Nat
  deriving DecidableEq, Repr

/-- A non-null `Block*`: a reference into the chunk of a grid slot. -/
structure BlockPtr where
  chunk : ChunkPtr
  cell : CellRef
  deriving DecidableEq, Repr

/-- The chunk index `c / E` that `World::getBlockAt` computes on one axis
(C++ integer division truncates toward zero). -/
def chunkIndex (c E : Int) : Int := Int.tdiv c E

/-- The local coordinate that `World::getBlockAt` computes on one axis:
`c % E`, to which `E` is added when `c < 0`. -/
def localCoord (c E : Int) : Int :=
  let l := Int.tmod c E
  if c < 0 then E + l else l

namespace World

/-- The constructor `World::World()`: a grid of null pointers. The program
constructs its world before it forms any block reference, so the static block
still holds its default-constructed value. -/
def new : World :=
  ⟨Vec3.fill WORLD_WIDTH.toNat WORLD_HEIGHT.toNat WORLD_DEPTH.toNat none, ⟨0, 0, 0⟩,
    Block.default⟩

/-- The chunk a chunk pointer points to (`none` for an empty slot). -/
def chunk (w : World) (p : ChunkPtr) : Option Chunk := w.chunks.get p.cx p.cy p.cz

/-- The method `World::getChunkAt`: `chunks[x][y][z].get()` inside the grid,
`nullptr` outside. -/
def getChunkAt (w : World) (x y z : Int) : Option ChunkPtr :=
  if x ≥ 0 ∧ x < WORLD_WIDTH ∧ y ≥ 0 ∧ y < WORLD_HEIGHT ∧ z ≥ 0 ∧ z < WORLD_DEPTH then
    match w.chunks.get x.toNat y.toNat z.toNat with
    | some _ => some ⟨x.toNat, y.toNat, z.toNat⟩
    | none => none
  else none

/-- The method `World::getBlockAt`. -/
def getBlockAt (w : World) (x y z : Int) : Option BlockPtr :=
  let chunkX := chunkIndex x CHUNK_WIDTH
  let chunkY := chunkIndex y CHUNK_HEIGHT
  let chunkZ := chunkIndex z CHUNK_DEPTH
  match w.getChunkAt chunkX chunkY chunkZ with
  | some chunk =>
    let localX := localCoord x CHUNK_WIDTH
    let localY := localCoord y CHUNK_HEIGHT
    let localZ := localCoord z CHUNK_DEPTH
    some ⟨chunk, Chunk.getBlockRef localX localY localZ⟩
  | none => none

/-- Reading `*p` for a block pointer `p`. -/
def load (w : World) (p : BlockPtr) : Block :=
  match w.chunk p.chunk with
  | some c => c.load w.defaultBlock p.cell
  | none => Block.default

/-- The world in which slot `(i, j, k)` of the grid holds the chunk `c`. -/
def setChunk (w : World) (i j k : Nat) (c : Chunk) : World :=
  { w with chunks := w.chunks.set i j k (some c) }

/-- The assignment `*p = b` for a block pointer `p`: the chunk written, or
the static block, takes the new value. -/
def store (w : World) (p : BlockPtr) (b : Block) : World :=
  match w.chunk p.chunk with
  | some c =>
    { w.setChunk p.chunk.cx p.chunk.cy p.chunk.cz (c.store w.defaultBlock p.cell b).1 with
      defaultBlock := (c.store w.defaultBlock p.cell b).2 }
  | none => w

/-- The call `chunks[cx][cy][cz]->setBlock(x, y, z, b)`. -/
def chunkSetBlock (w : World) (cx cy cz x y z : Int) (b : Block) : World :=
  match w.chunks.get cx.toNat cy.toNat cz.toNat with
  | some c => w.setChunk cx.toNat cy.toNat cz.toNat (c.setBlock x y z b)
  | none => w

/-- The grid has the extents the constructor gives it and every chunk in it
is well formed. -/
def WF (w : World) : Prop :=
  Vec3.WF w.chunks WORLD_WIDTH.toNat WORLD_HEIGHT.toNat WORLD_DEPTH.toNat ∧
  ∀ (i j k : Nat) (c : Chunk), w.chunks.get i j k = some c → c.WF

/-- The pointer designates a stored block of a chunk held by the grid. -/
def ValidPtr (w : World) (p : BlockPtr) : Prop :=
  p.chunk.cx < WORLD_WIDTH.toNat ∧ p.chunk.cy < WORLD_HEIGHT.toNat ∧
  p.chunk.cz < WORLD_DEPTH.toNat ∧ (w.chunk p.chunk).isSome = true ∧
  ∃ x y z : Nat, p.cell = CellRef.stored x y z ∧
    x < CHUNK_WIDTH.toNat ∧ y < CHUNK_HEIGHT.toNat ∧ z < CHUNK_DEPTH.toNat

/-- Every slot of the grid holds a chunk. -/
def Populated (w : World) : Prop :=
  ∀ (i j k : Nat), i < WORLD_WIDTH.toNat → j < WORLD_HEIGHT.toNat → k < WORLD_DEPTH.toNat →
    (w.chunks.get i j k).isSome = true

end World

/-! ## Loops -/

/-- Iterations of a counting loop: at most `n` more, the counter at `i`. -/
def forLoopAux {σ : Type} (cond : Int → Bool) (body : Int → σ → σ) : Nat → Int → σ → σ
  | 0, _, s => s
  | n + 1, i, s => if cond i then forLoopAux cond body n (i + 1) (body i s) else s

/-- The loop `for (int i = lo; i < hi && cond(i); i++) body`. -/
def forLoop {σ : Type} (lo hi : Int) (cond : Int → Bool) (body : Int → σ → σ) (s : σ) : σ :=
  forLoopAux cond body (hi - lo).toNat lo s

/-! ## World.cpp: generation -/

/-- The process-wide random source behind `rand()`: the sequence of values it
will return and the number of calls made so far. -/
structure Rand where
  draws : Nat → Nat
  pos : Nat

/-- One call of `rand()`. -/
def rand (r : Rand) : Nat × Rand := (r.draws r.pos, ⟨r.draws, r.pos + 1⟩)

/-- The `<cmath>` functions `sin` and `cos` used by the generator, as
parameters of the model. -/
structure Trig where
  sin : ℚ → ℚ
  cos : ℚ → ℚ

/-- The state the generation loops thread: the world and the random source. -/
structure GenState where
  world : World
  rng : Rand

/-- The body of the terrain-layer loop of `World::generateWorld` for local
height `y` of the column `(x, z)` of chunk `(cx, cy, cz)`. -/
def fillBody (cx cy cz x z terrainHeight : Int) (isDesert isMountain isWater : Bool)
    (y : Int) (s : GenState) : GenState :=
  let worldY := cy * CHUNK_HEIGHT + y
  if worldY ≤ terrainHeight then
    let r : BlockType × Rand :=
      if worldY = terrainHeight then
        if isWater then (BlockType.SAND, s.rng)
        else if isDesert then (BlockType.SAND, s.rng)
        else if isMountain then (BlockType.STONE, s.rng)
        else (BlockType.GRASS, s.rng)
      else if worldY > terrainHeight - 4 ∧ worldY > 4 then
        if isDesert then (BlockType.SAND, s.rng) else (BlockType.DIRT, s.rng)
      else
        let d := rand s.rng
        let oreRandom := d.1 % 100
        if worldY < 6 ∧ oreRandom < 2 then (BlockType.DIAMOND_ORE, d.2)
        else if worldY < 12 ∧ oreRandom < 5 then (BlockType.IRON_ORE, d.2)
        else if worldY < 20 ∧ oreRandom < 8 then (BlockType.COAL_ORE, d.2)
        else (BlockType.STONE, d.2)
    ⟨s.world.chunkSetBlock cx cy cz x y z (Block.ofType r.1), r.2⟩
  else if worldY ≤ 8 then
    ⟨s.world.chunkSetBlock cx cy cz x y z (Block.ofType BlockType.WATER), s.rng⟩
  else s

/-- The body of the trunk loop for world height `treeY`. -/
def trunkBody (cx cy cz x z : Int) (treeY : Int) (w : World) : World :=
  if treeY < cy * CHUNK_HEIGHT + CHUNK_HEIGHT then
    let localY := treeY - cy * CHUNK_HEIGHT
    if localY ≥ 0 ∧ localY < CHUNK_HEIGHT then
      w.chunkSetBlock cx cy cz x localY z (Block.ofType BlockType.WOOD)
    else w
  else w

/-- The body of the innermost leaves loop for the offsets `lx`, `lz` and the
world height `ly`. -/
def leafBody (cx cy cz x z : Int) (lx lz ly : Int) (w : World) : World :=
  if |lx| + |lz| ≤ 2 ∧ ly < cy * CHUNK_HEIGHT + CHUNK_HEIGHT then
    let leafX := x + lx
    let leafZ := z + lz
    let localY := ly - cy * CHUNK_HEIGHT
    if leafX ≥ 0 ∧ leafX < CHUNK_WIDTH ∧ leafZ ≥ 0 ∧ leafZ < CHUNK_DEPTH ∧
        localY ≥ 0 ∧ localY < CHUNK_HEIGHT then
      w.chunkSetBlock cx cy cz leafX localY leafZ (Block.ofType BlockType.LEAVES)
    else w
  else w

/-- The trunk loop of a tree:
`for (int treeY = terrainHeight + 1; treeY < terrainHeight + 6; treeY++)`. -/
def stampTrunk (cx cy cz x z terrainHeight : Int) (w : World) : World :=
  forLoop (terrainHeight + 1) (terrainHeight + 6) (fun _ => true) (trunkBody cx cy cz x z) w

/-- The three leaves loops of a tree, over `lx`, `lz` in `-2..2` and
`ly` in `terrainHeight + 4 .. terrainHeight + 7`. -/
def stampCanopy (cx cy cz x z terrainHeight : Int) (w : World) : World :=
  forLoop (-2) 3 (fun _ => true) (fun lx =>
    forLoop (-2) 3 (fun _ => true) (fun lz =>
      forLoop (terrainHeight + 4) (terrainHeight + 8) (fun _ => true)
        (leafBody cx cy cz x z lx lz))) w

/-- The condition under which the generator stamps a tree on a column. -/
def treeCondition (worldX worldZ terrainHeight : Int) (isDesert isMountain isWater : Bool) :
    Bool :=
  decide ((!isWater ∧ terrainHeight > 8) ∧
    (Int.tmod (worldX + worldZ) 25 = 0 ∧ !isDesert ∧ !isMountain))

/-- The vegetation part of a column: trunk loop, then leaves loops. -/
def vegetation (cx cy cz x z worldX worldZ terrainHeight : Int)
    (isDesert isMountain isWater : Bool) (w : World) : World :=
  if !isWater ∧ terrainHeight > 8 then
    if Int.tmod (worldX + worldZ) 25 = 0 ∧ !isDesert ∧ !isMountain then
      stampCanopy cx cy cz x z terrainHeight (stampTrunk cx cy cz x z terrainHeight w)
    else w
  else w

/-- The values the column body computes before its loops: the height, the
terrain height, the biome flags, and the random source after the four draws. -/
structure ColumnParams where
  height : ℚ
  terrainHeight : Int
  isDesert : Bool
  isMountain : Bool
  isWater : Bool
  rng : Rand

/-- The head of the column body of `World::generateWorld`: height map and
biome of the column `(x, z)` of the chunks `(cx, _, cz)`. -/
def columnParams (T : Trig) (cx cz x z : Int) (rng : Rand) : ColumnParams :=
  let worldX := cx * CHUNK_WIDTH + x
  let worldZ := cz * CHUNK_DEPTH + z
  let d1 := rand rng
  let randomOffset1 : ℚ := ((d1.1 % 1000 : Nat) : ℚ) / 10000
  let d2 := rand d1.2
  let randomOffset2 : ℚ := ((d2.1 % 1000 : Nat) : ℚ) / 10000
  let d3 := rand d2.2
  let randomOffset3 : ℚ := ((d3.1 % 1000 : Nat) : ℚ) / 10000
  let d4 := rand d3.2
  let height0 : ℚ := 12 + ((d4.1 % 4 : Nat) : ℚ) - 2
  let height1 : ℚ := height0 +
    8 * T.sin (((worldX : ℚ) + randomOffset1) * (3 / 100)) *
      T.cos (((worldZ : ℚ) + randomOffset1) * (3 / 100))
  let height2 : ℚ := height1 +
    4 * T.sin (((worldX : ℚ) + randomOffset2) * (1 / 10)) *
      T.sin (((worldZ : ℚ) + randomOffset2) * (1 / 10))
  let height : ℚ := height2 +
    2 * T.sin (((worldX : ℚ) + randomOffset3) * (3 / 10)) *
      T.cos (((worldZ : ℚ) + randomOffset3) * (1 / 4))
  let terrainHeight : Int := ftoi height
  let biomeNoise : ℚ := T.sin ((worldX : ℚ) * (2 / 100)) + T.cos ((worldZ : ℚ) * (2 / 100))
  { height := height
    terrainHeight := terrainHeight
    isDesert := decide (biomeNoise > 1 / 2)
    isMountain := decide (height > 18)
    isWater := decide (terrainHeight < 8)
    rng := d4.2 }

/-- The terrain-layer loop of a column:
`for (int y = 0; y < CHUNK_HEIGHT && (cy * CHUNK_HEIGHT + y) <= terrainHeight + 10; y++)`. -/
def fillColumn (cx cy cz x z : Int) (p : ColumnParams) (w : World) : GenState :=
  forLoop 0 CHUNK_HEIGHT (fun y => decide (cy * CHUNK_HEIGHT + y ≤ p.terrainHeight + 10))
    (fillBody cx cy cz x z p.terrainHeight p.isDesert p.isMountain p.isWater) ⟨w, p.rng⟩

/-- The body of the column loops of `World::generateWorld`: the column
`(x, z)` of chunk `(cx, cy, cz)`. -/
def columnBody (T : Trig) (cx cy cz x z : Int) (s : GenState) : GenState :=
  let p := columnParams T cx cz x z s.rng
  let s1 := fillColumn cx cy cz x z p s.world
  ⟨vegetation cx cy cz x z (cx * CHUNK_WIDTH + x) (cz * CHUNK_DEPTH + z) p.terrainHeight
      p.isDesert p.isMountain p.isWater s1.world,
    s1.rng⟩

/-- The body of the chunk loops of `World::generateWorld`: the slot
`(cx, cy, cz)` receives a fresh chunk, whose columns are then generated. -/
def chunkBody (T : Trig) (cx cy cz : Int) (s : GenState) : GenState :=
  let w1 : World := s.world.setChunk cx.toNat cy.toNat cz.toNat (Chunk.new ⟨cx, cy, cz⟩)
  forLoop 0 CHUNK_WIDTH (fun _ => true) (fun x =>
    forLoop 0 CHUNK_DEPTH (fun _ => true) (fun z => columnBody T cx cy cz x z)) ⟨w1, s.rng⟩

/-- The method `World::generateWorld` (the block counter, which only feeds
the console message, is left out). -/
def generateWorld (T : Trig) (s : GenState) : GenState :=
  forLoop 0 WORLD_WIDTH (fun _ => true) (fun cx =>
    forLoop 0 WORLD_HEIGHT (fun _ => true) (fun cy =>
      forLoop 0 WORLD_DEPTH (fun _ => true) (fun cz => chunkBody T cx cy cz))) s

/-! ## Renderer.cpp: player physics -/

/-- The fields of the class `Renderer` that the physics reads or writes. The
`World*` it holds is passed to the methods as an argument (`none` is a null
pointer). -/
structure Renderer where
  cameraPosition : Vector3
  velocity : Vector3
  cameraYaw : ℚ
  cameraPitch : ℚ
  isOnGround : Bool
  isJumping : Bool
  isInWater : Bool
  isSwimming : Bool
  flightMode : Bool
  movementSpeed : ℚ
  isSwinging : Bool
  swingProgress : ℚ
  swingTimer : ℚ

namespace Renderer

/-- The method `Renderer::isBlockAt`. -/
def isBlockAt (world : Option World) (x y z : Int) : Bool :=
  match world with
  | none => false
  | some w =>
    if x < 0 ∨ z < 0 ∨ y < 0 then false
    else if x ≥ WORLD_WIDTH * CHUNK_WIDTH ∨ z ≥ WORLD_DEPTH * CHUNK_DEPTH ∨
        y ≥ WORLD_HEIGHT * CHUNK_HEIGHT then false
    else
      match w.getBlockAt x y z with
      | none => false
      | some block => !(w.load block).isEmpty && (w.load block).isSolid

/-- The method `Renderer::isWaterAt`. -/
def isWaterAt (world : Option World) (x y z : Int) : Bool :=
  match world with
  | none => false
  | some w =>
    if x < 0 ∨ z < 0 ∨ y < 0 then false
    else if x ≥ WORLD_WIDTH * CHUNK_WIDTH ∨ z ≥ WORLD_DEPTH * CHUNK_DEPTH ∨
        y ≥ WORLD_HEIGHT * CHUNK_HEIGHT then false
    else
      match w.getBlockAt x y z with
      | none => false
      | some block => decide ((w.load block).type = BlockType.WATER)

def airGravity : ℚ := -25
def waterGravity : ℚ := -5
def terminalVelocity : ℚ := -50
def waterTerminalVelocity : ℚ := -8
def playerHeight : ℚ := 9 / 5
def waterResistance : ℚ := 7 / 10
def airFriction : ℚ := 85 / 100
def flightFriction : ℚ := 9 / 10

/-- The arm-swing animation step of `Renderer::update`. -/
def swingStep (r : Renderer) (deltaTime : ℚ) : Renderer :=
  if r.isSwinging then
    let swingTimer := r.swingTimer + deltaTime
    let swingProgress := swingTimer / (15 / 100)
    if swingProgress ≥ 1 then
      { r with isSwinging := false, swingProgress := 0, swingTimer := 0 }
    else { r with swingProgress := swingProgress, swingTimer := swingTimer }
  else r

/-- The flight-mode branch of `Renderer::update`. -/
def updateFlight (r : Renderer) (deltaTime : ℚ) : Renderer :=
  let v : Vector3 :=
    ⟨r.velocity.x * flightFriction, r.velocity.y * flightFriction, r.velocity.z * flightFriction⟩
  let px := r.cameraPosition.x + v.x * deltaTime
  let py := r.cameraPosition.y + v.y * deltaTime
  let pz := r.cameraPosition.z + v.z * deltaTime
  let px := if px < 0 then 0 else px
  let pz := if pz < 0 then 0 else pz
  let px := if px ≥ ((WORLD_WIDTH * CHUNK_WIDTH : Int) : ℚ)
    then ((WORLD_WIDTH * CHUNK_WIDTH - 1 : Int) : ℚ) else px
  let pz := if pz ≥ ((WORLD_DEPTH * CHUNK_DEPTH : Int) : ℚ)
    then ((WORLD_DEPTH * CHUNK_DEPTH - 1 : Int) : ℚ) else pz
  let py := if py < 0 then 0 else py
  let py := if py ≥ ((WORLD_HEIGHT * CHUNK_HEIGHT : Int) : ℚ)
    then ((WORLD_HEIGHT * CHUNK_HEIGHT - 1 : Int) : ℚ) else py
  swingStep { r with velocity := v, cameraPosition := ⟨px, py, pz⟩ } deltaTime

/-- Water detection and gravity of `Renderer::update`. -/
def applyGravity (world : Option World) (r : Renderer) (deltaTime : ℚ) : Renderer :=
  let posX := Int.floor r.cameraPosition.x
  let posZ := Int.floor r.cameraPosition.z
  let headY := Int.floor r.cameraPosition.y
  let bodyY := Int.floor (r.cameraPosition.y - 1 / 2)
  let inWater := isWaterAt world posX headY posZ || isWaterAt world posX bodyY posZ
  if inWater then
    let vy := r.velocity.y + waterGravity * deltaTime
    let vy := if vy < waterTerminalVelocity then waterTerminalVelocity else vy
    { r with isInWater := true, velocity := ⟨r.velocity.x, vy, r.velocity.z⟩,
             isSwimming := true, isOnGround := false }
  else
    if !r.isOnGround then
      let vy := r.velocity.y + airGravity * deltaTime
      let vy := if vy < terminalVelocity then terminalVelocity else vy
      { r with isInWater := false, isSwimming := false,
               velocity := ⟨r.velocity.x, vy, r.velocity.z⟩ }
    else { r with isInWater := false, isSwimming := false }

/-- The X movement with collision of `Renderer::update`. -/
def moveX (world : Option World) (r : Renderer) (deltaTime : ℚ) : Renderer :=
  let newPos : Vector3 :=
    ⟨r.cameraPosition.x + r.velocity.x * deltaTime, r.cameraPosition.y, r.cameraPosition.z⟩
  if !isBlockAt world (Int.floor newPos.x) (Int.floor (newPos.y - playerHeight))
      (Int.floor newPos.z) then
    { r with cameraPosition := ⟨newPos.x, r.cameraPosition.y, r.cameraPosition.z⟩ }
  else { r with velocity := ⟨0, r.velocity.y, r.velocity.z⟩ }

/-- The Z movement with collision of `Renderer::update`. -/
def moveZ (world : Option World) (r : Renderer) (deltaTime : ℚ) : Renderer :=
  let newPos : Vector3 :=
    ⟨r.cameraPosition.x, r.cameraPosition.y, r.cameraPosition.z + r.velocity.z * deltaTime⟩
  if !isBlockAt world (Int.floor newPos.x) (Int.floor (newPos.y - playerHeight))
      (Int.floor newPos.z) then
    { r with cameraPosition := ⟨r.cameraPosition.x, r.cameraPosition.y, newPos.z⟩ }
  else { r with velocity := ⟨r.velocity.x, r.velocity.y, 0⟩ }

/-- The Y movement with collision of `Renderer::update`. -/
def moveY (world : Option World) (r : Renderer) (deltaTime : ℚ) : Renderer :=
  let newPos : Vector3 :=
    ⟨r.cameraPosition.x, r.cameraPosition.y + r.velocity.y * deltaTime, r.cameraPosition.z⟩
  let posX := Int.floor newPos.x
  let posZ := Int.floor newPos.z
  let feetY := Int.floor (newPos.y - playerHeight)
  let headY := Int.floor newPos.y
  let setY (r : Renderer) (y : ℚ) : Renderer :=
    { r with cameraPosition := ⟨r.cameraPosition.x, y, r.cameraPosition.z⟩ }
  let zeroVy (r : Renderer) : Renderer :=
    { r with velocity := ⟨r.velocity.x, 0, r.velocity.z⟩ }
  if !r.isInWater then
    if r.velocity.y < 0 then
      if isBlockAt world posX feetY posZ then
        { zeroVy (setY r ((feetY : ℚ) + 1 + playerHeight)) with
          isOnGround := true, isJumping := false }
      else { setY r newPos.y with isOnGround := false }
    else if r.velocity.y > 0 then
      if isBlockAt world posX headY posZ then
        setY (zeroVy r) ((headY : ℚ) - 1 / 10)
      else { setY r newPos.y with isOnGround := false }
    else
      if isBlockAt world posX feetY posZ then { r with isOnGround := true }
      else { r with isOnGround := false }
  else
    if r.velocity.y < 0 ∧ isBlockAt world posX feetY posZ then
      zeroVy (setY r ((feetY : ℚ) + 1 + playerHeight))
    else if r.velocity.y > 0 ∧ isBlockAt world posX headY posZ then
      setY (zeroVy r) ((headY : ℚ) - 1 / 10)
    else setY r newPos.y

/-- The friction step of `Renderer::update`. -/
def applyFriction (r : Renderer) : Renderer :=
  if r.isInWater then
    { r with velocity :=
      ⟨r.velocity.x * waterResistance, r.velocity.y * (95 / 100), r.velocity.z * waterResistance⟩ }
  else
    { r with velocity := ⟨r.velocity.x * airFriction, r.velocity.y, r.velocity.z * airFriction⟩ }

/-- The method `Renderer::update` (the periodic console message is left out). -/
def update (world : Option World) (r : Renderer) (deltaTime : ℚ) : Renderer :=
  if r.flightMode then updateFlight r deltaTime
  else
    let r1 := swingStep r deltaTime
    let r2 := applyGravity world r1 deltaTime
    let r3 := moveX world r2 deltaTime
    let r4 := moveZ world r3 deltaTime
    let r5 := moveY world r4 deltaTime
    applyFriction r5

/-- The method `Renderer::moveCameraPhysics`; `sin` and `cos` are those of the
parameter `T`. -/
def moveCameraPhysics (T : Trig) (r : Renderer) (forward right : ℚ) : Renderer :=
  let speed := r.movementSpeed
  let radians := r.cameraYaw * (314159 / 100000) / 180
  let forwardX := -T.sin radians
  let forwardZ := -T.cos radians
  let rightX := T.cos radians
  let rightZ := -T.sin radians
  { r with velocity :=
    ⟨r.velocity.x + (forwardX * forward + rightX * right) * speed, r.velocity.y,
     r.velocity.z + (forwardZ * forward + rightZ * right) * speed⟩ }

/-- The method `Renderer::jump`. -/
def jump (r : Renderer) : Renderer :=
  if r.flightMode then
    let vy := r.velocity.y + 10
    let vy := if vy > 15 then 15 else vy
    { r with velocity := ⟨r.velocity.x, vy, r.velocity.z⟩ }
  else if r.isInWater then
    let vy := r.velocity.y + 5
    let vy := if vy > 8 then 8 else vy
    { r with velocity := ⟨r.velocity.x, vy, r.velocity.z⟩ }
  else if r.isOnGround ∧ !r.isJumping then
    { r with velocity := ⟨r.velocity.x, 8, r.velocity.z⟩, isOnGround := false,
             isJumping := true }
  else r

/-- The method `Renderer::swimDown`. -/
def swimDown (r : Renderer) : Renderer :=
  if r.flightMode then
    let vy := r.velocity.y - 10
    let vy := if vy < -15 then -15 else vy
    { r with velocity := ⟨r.velocity.x, vy, r.velocity.z⟩ }
  else if r.isInWater then
    let vy := r.velocity.y - 5
    let vy := if vy < -8 then -8 else vy
    { r with velocity := ⟨r.velocity.x, vy, r.velocity.z⟩ }
  else
    { r with cameraPosition :=
      ⟨r.cameraPosition.x, r.cameraPosition.y - 1 / 2, r.cameraPosition.z⟩ }

/-- The method `Renderer::flyUp`. -/
def flyUp (r : Renderer) : Renderer :=
  if r.flightMode then
    let vy := r.velocity.y + 10
    let vy := if vy > 15 then 15 else vy
    { r with velocity := ⟨r.velocity.x, vy, r.velocity.z⟩ }
  else r

/-- The method `Renderer::flyDown`. -/
def flyDown (r : Renderer) : Renderer :=
  if r.flightMode then
    let vy := r.velocity.y - 10
    let vy := if vy < -15 then -15 else vy
    { r with velocity := ⟨r.velocity.x, vy, r.velocity.z⟩ }
  else r

/-- The method `Renderer::toggleFlightMode`. -/
def toggleFlightMode (r : Renderer) : Renderer :=
  if !r.flightMode then
    { r with flightMode := true, velocity := ⟨0, 0, 0⟩, isOnGround := false,
             isJumping := false }
  else { r with flightMode := false, velocity := ⟨0, 0, 0⟩ }

/-- The player state the constructor `Renderer::Renderer` sets up. -/
def new : Renderer :=
  { cameraPosition := ⟨64, 50, 64⟩
    velocity := ⟨0, 0, 0⟩
    cameraYaw := -45
    cameraPitch := -20
    isOnGround := false
    isJumping := false
    isInWater := false
    isSwimming := false
    flightMode := false
    movementSpeed := 8
    isSwinging := false
    swingProgress := 0
    swingTimer := 0 }

/-- The X movement of a normal-mode tick is blocked: the cell at foot level
at the X destination is solid. -/
def blockedX (world : Option World) (r : Renderer) (dt : ℚ) : Bool :=
  isBlockAt world (Int.floor (r.cameraPosition.x + r.velocity.x * dt))
    (Int.floor (r.cameraPosition.y - playerHeight)) (Int.floor r.cameraPosition.z)

/-- The X position after the X movement of a normal-mode tick. -/
def resolvedX (world : Option World) (r : Renderer) (dt : ℚ) : ℚ :=
  if blockedX world r dt then r.cameraPosition.x else r.cameraPosition.x + r.velocity.x * dt

/-- The Z movement of a normal-mode tick is blocked: the cell at foot level
at the Z destination, taken at the already resolved X, is solid. -/
def blockedZ (world : Option World) (r : Renderer) (dt : ℚ) : Bool :=
  isBlockAt world (Int.floor (resolvedX world r dt))
    (Int.floor (r.cameraPosition.y - playerHeight))
    (Int.floor (r.cameraPosition.z + r.velocity.z * dt))

/-- The Z position after the Z movement of a normal-mode tick. -/
def resolvedZ (world : Option World) (r : Renderer) (dt : ℚ) : ℚ :=
  if blockedZ world r dt then r.cameraPosition.z else r.cameraPosition.z + r.velocity.z * dt

/-- The vertical velocity after gravity of a normal-mode tick out of water:
unchanged on the ground, otherwise decreased by `25 * dt` and kept above the
terminal velocity. -/
def airVelocityY (r : Renderer) (dt : ℚ) : ℚ :=
  if r.isOnGround then r.velocity.y
  else if r.velocity.y + airGravity * dt < terminalVelocity then terminalVelocity
  else r.velocity.y + airGravity * dt

/-- The player states reachable from the constructed state by update ticks
with a positive time step (against any world), jump, swimDown, flyUp, flyDown,
moveCameraPhysics and toggleFlightMode. -/
inductive Reachable (T : Trig) : Renderer → Prop
  | init : Reachable T Renderer.new
  | update (world : Option World) (dt : ℚ) (hdt : 0 < dt) {r : Renderer} :
      Reachable T r → Reachable T (Renderer.update world r dt)
  | jump {r : Renderer} : Reachable T r → Reachable T (Renderer.jump r)
  | swimDown {r : Renderer} : Reachable T r → Reachable T (Renderer.swimDown r)
  | flyUp {r : Renderer} : Reachable T r → Reachable T (Renderer.flyUp r)
  | flyDown {r : Renderer} : Reachable T r → Reachable T (Renderer.flyDown r)
  | moveCameraPhysics (forward right : ℚ) {r : Renderer} :
      Reachable T r → Reachable T (Renderer.moveCameraPhysics T r forward right)
  | toggleFlightMode {r : Renderer} :
      Reachable T r → Reachable T (Renderer.toggleFlightMode r)

/-- The player states reachable from entering flight mode (`toggleFlightMode`
on a state with flight mode off) by jump, swimDown, flyUp, flyDown and update
ticks (any time step, any world). -/
inductive FlightReachable : Renderer → Prop
  | enter {r : Renderer} : r.flightMode = false → FlightReachable (Renderer.toggleFlightMode r)
  | update (world : Option World) (dt : ℚ) {r : Renderer} :
      FlightReachable r → FlightReachable (Renderer.update world r dt)
  | jump {r : Renderer} : FlightReachable r → FlightReachable (Renderer.jump r)
  | swimDown {r : Renderer} : FlightReachable r → FlightReachable (Renderer.swimDown r)
  | flyUp {r : Renderer} : FlightReachable r → FlightReachable (Renderer.flyUp r)
  | flyDown {r : Renderer} : FlightReachable r → FlightReachable (Renderer.flyDown r)

end Renderer

/-! ## main.cpp: block editing on a mouse click -/

/-- The GLUT constant `GLUT_LEFT_BUTTON`. -/
def GLUT_LEFT_BUTTON : Int := 0
/-- The GLUT constant `GLUT_RIGHT_BUTTON`. -/
def GLUT_RIGHT_BUTTON : Int := 2

/-! ### The `float` variable of the raycast loop

The loop `for (float dist = 0.5f; dist < maxDistance; dist += stepSize)` adds in
`float`: each sum is rounded to a 24-bit significand, the values of `dist`
drift from `0.5 + 0.1 k`, and the loop takes 46 samples, the last at
`4.9999976`. The values of `dist` are therefore counted exactly, as whole
numbers of units of `2^-27`. -/

/-- The value of the `float` that is `units` units of `2^-27`. -/
def floatValue (units : Nat) : ℚ := (units : ℚ) / 134217728

/-- The spacing, in units, of the floats around `n` units: one unit below
`2^24` units, doubling with each further bit. The first argument bounds the
number of halvings; `n` itself is always enough. -/
def ulpOf : Nat → Nat → Nat
  | 0, _ => 1
  | fuel + 1, n => if n < 16777216 then 1 else 2 * ulpOf fuel (n / 2)

/-- The rounding of an exact sum or difference of `n` units to `float`: to the
nearest multiple of the spacing, ties to the even significand. -/
def roundFloat (n : Nat) : Nat :=
  let u := ulpOf n n
  let q := n / u
  let r := n % u
  if 2 * r > u ∨ (2 * r = u ∧ q % 2 = 1) then (q + 1) * u else q * u

/-- The constant `float stepSize = 0.1f`, in units: the float nearest to 0.1
is `13421773 * 2^-27`. -/
def stepSize : Nat := 13421773

/-- The constant `float maxDistance = 5.0f`, in units. -/
def maxDistance : Nat := 671088640

/-- The initial value `0.5f` of `dist`, in units. -/
def startDistance : Nat := 67108864

/-- The integer block coordinates `((int)(pos.x + ray.x * dist), ...)` of the
point at distance `dist` on the ray. -/
def samplePoint (pos ray : Vector3) (dist : ℚ) : Int × Int × Int :=
  (ftoi (pos.x + ray.x * dist), ftoi (pos.y + ray.y * dist), ftoi (pos.z + ray.z * dist))

/-- The test `block && !block->isEmpty()` on the result of `getBlockAt`. -/
def foundNonEmpty (w : World) (block : Option BlockPtr) : Bool :=
  match block with
  | some b => !(w.load b).isEmpty
  | none => false

/-- The action of the raycast loop of `mouse` on the first non-empty sample,
found at distance `dist` (in units): a right click places one step back, at
the distance `dist - stepSize` computed in `float`. -/
def hitAction (button : Int) (pos ray : Vector3) (selectedBlockType : BlockType)
    (dist : Nat) (w : World) : World :=
  if button = GLUT_RIGHT_BUTTON then
    let place := samplePoint pos ray (floatValue (roundFloat (dist - stepSize)))
    let placeBlock := w.getBlockAt place.1 place.2.1 place.2.2
    match placeBlock with
    | some p =>
      if (w.load p).isEmpty then w.store p (Block.ofType selectedBlockType) else w
    | none => w
  else w

/-- The raycast loop of `mouse`,
`for (float dist = ...; dist < maxDistance; dist += stepSize)`, with at most
`fuel` iterations left and `dist` in units. -/
def raycastLoop (button : Int) (pos ray : Vector3) (selectedBlockType : BlockType) :
    Nat → Nat → World → World
  | 0, _, w => w
  | fuel + 1, dist, w =>
    if dist < maxDistance then
      let b := samplePoint pos ray (floatValue dist)
      let block := w.getBlockAt b.1 b.2.1 b.2.2
      if foundNonEmpty w block then hitAction button pos ray selectedBlockType dist w
      else raycastLoop button pos ray selectedBlockType fuel (roundFloat (dist + stepSize)) w
    else w

/-- The direct probe of a left click in `mouse`: the block two units along
the ray is broken when it is found and not empty. -/
def breakProbe (button : Int) (pos ray : Vector3) (w : World) : World :=
  if button = GLUT_LEFT_BUTTON then
    let test := samplePoint pos ray 2
    let testBlock := w.getBlockAt test.1 test.2.1 test.2.2
    match testBlock with
    | some p => if !(w.load p).isEmpty then w.store p (Block.ofType BlockType.AIR) else w
    | none => w
  else w

/-- The number of iterations after which the raycast loop has left its range:
the 46 values of `dist` from `0.5` to `4.9999976` are below 5, the next,
`5.0999975`, is not. -/
def raycastFuel : Nat := 46

/-- The block-editing part of the GLUT callback `mouse` (a button press with
the menu closed), as a function of the camera position `pos`, the ray
direction `ray` derived from yaw and pitch, and the global
`selectedBlockType`. The arm-swing trigger and console output are left out. -/
def mouse (button : Int) (pos ray : Vector3) (selectedBlockType : BlockType) (w : World) :
    World :=
  raycastLoop button pos ray selectedBlockType raycastFuel startDistance
    (breakProbe button pos ray w)

/-! ## The samples of the stepped ray -/

/-- The ray meets a non-empty cell at distance `d`: `getBlockAt` finds a block
at the integer coordinates of the sample and the block is not empty. -/
def nonEmptyAt (w : World) (pos ray : Vector3) (d : ℚ) : Bool :=
  foundNonEmpty w
    (w.getBlockAt (samplePoint pos ray d).1 (samplePoint pos ray d).2.1
      (samplePoint pos ray d).2.2)

/-- The value of `dist`, in units, in iteration `k` of the raycast loop. -/
def distAt : Nat → Nat
  | 0 => startDistance
  | k + 1 => roundFloat (distAt k + stepSize)

/-- The distances, in units, of the 46 samples of the stepped ray: `0.5`,
`0.6000000238`, ..., `4.9999976`. -/
def sampleDistances : List Nat := (List.range 46).map distAt

/-- The distance, in units, of the first sample at which the ray meets a
non-empty block. -/
def firstHitUnits (w : World) (pos ray : Vector3) : Option Nat :=
  sampleDistances.find? (fun (n : Nat) => nonEmptyAt w pos ray (floatValue n))

/-- The distance of the first sample at which the ray meets a non-empty
block. -/
def firstHit (w : World) (pos ray : Vector3) : Option ℚ :=
  (firstHitUnits w pos ray).map floatValue

/-! ## Generation rules, as the specification describes them -/

/-- The cap block of a column: sand for water and desert columns, stone for
mountains, grass otherwise. -/
def surfaceCap (isWater isDesert isMountain : Bool) : BlockType :=
  if isWater then BlockType.SAND
  else if isDesert then BlockType.SAND
  else if isMountain then BlockType.STONE
  else BlockType.GRASS

/-- The type of a deep cell at world height `worldY` with ore draw `r`:
diamond below 6 with `r < 2`, else iron below 12 with `r < 5`, else coal below
20 with `r < 8`, else stone. -/
def oreChoice (worldY : Int) (r : Nat) : BlockType :=
  if worldY < 6 ∧ r < 2 then BlockType.DIAMOND_ORE
  else if worldY < 12 ∧ r < 5 then BlockType.IRON_ORE
  else if worldY < 20 ∧ r < 8 then BlockType.COAL_ORE
  else BlockType.STONE

/-- The cell `(a, b, c)` of the chunk lies in the canopy of a tree on the local
column `(x, z)` of a chunk with index `cy` in Y and terrain height
`terrainHeight`: within Manhattan distance 2 of the column, in one of the four
layers from `terrainHeight + 4`, and inside the chunk. -/
def inCanopy (cy x z terrainHeight a b c : Int) : Prop :=
  |a - x| + |c - z| ≤ 2 ∧
  terrainHeight + 4 ≤ cy * CHUNK_HEIGHT + b ∧ cy * CHUNK_HEIGHT + b < terrainHeight + 8 ∧
  0 ≤ a ∧ a < CHUNK_WIDTH ∧ 0 ≤ b ∧ b < CHUNK_HEIGHT ∧ 0 ≤ c ∧ c < CHUNK_DEPTH

/-! ## Addressing by world coordinate, and an example world -/

namespace World

/-- The pointer to the stored block at the world coordinate `(x, y, z)`:
floor quotients select the chunk, floor remainders the cell. -/
def cellPtr (x y z : Int) : BlockPtr :=
  ⟨⟨(x / 16).toNat, (y / 128).toNat, (z / 16).toNat⟩,
    CellRef.stored (x % 16).toNat (y % 128).toNat (z % 16).toNat⟩

/-- The block stored at the world coordinate `(x, y, z)`. -/
def blockAt (w : World) (x y z : Int) : Block := w.load (cellPtr x y z)

/-- The pointer to the stored block `blocks[x][y][z]` of the chunk in slot
`(cx, cy, cz)`. -/
def localPtr (cx cy cz x y z : Int) : BlockPtr :=
  ⟨⟨cx.toNat, cy.toNat, cz.toNat⟩, CellRef.stored x.toNat y.toNat z.toNat⟩

/-- The world with the block `b` stored at the world coordinate `(x, y, z)`. -/
def withBlock (w : World) (x y z : Int) (b : Block) : World := w.store (cellPtr x y z) b

end World

/-- The functions `sin` and `cos` of the examples: constantly zero. -/
def zeroTrig : Trig := ⟨fun _ => 0, fun _ => 0⟩

/-- A world in which every slot of the grid holds a newly constructed chunk,
so that every block is Air; the static block holds its default-constructed
value. -/
def airWorld : World :=
  ⟨Array.ofFn (n := 8) fun cx => Array.ofFn (n := 4) fun cy => Array.ofFn (n := 8) fun cz =>
      some (Chunk.new ⟨(cx : Nat), (cy : Nat), (cz : Nat)⟩),
    ⟨0, 0, 0⟩, Block.default⟩

/-- The world of the landing examples: Air everywhere except a Stone block at
the world coordinate `(5, 10, 5)`. -/
def landingWorld : World := airWorld.withBlock 5 10 5 (Block.ofType BlockType.STONE)

/-- The player of the landing examples: in normal mode, off the ground, at
`(5.5, 10 + 1 + 1.8, 5.5)` with vertical velocity `vy` and no horizontal
velocity; the other fields as the constructor of `Renderer` sets them. -/
def fallingPlayer (vy : ℚ) : Renderer :=
  { cameraPosition := ⟨11 / 2, ((10 : Int) : ℚ) + 1 + 9 / 5, 11 / 2⟩
    velocity := ⟨0, vy, 0⟩
    cameraYaw := -45
    cameraPitch := -20
    isOnGround := false
    isJumping := false
    isInWater := false
    isSwimming := false
    flightMode := false
    movementSpeed := 8
    isSwinging := false
    swingProgress := 0
    swingTimer := 0 }

/-- The player of the sliding example: in normal mode at `(4.5, 12, 5.5)`, feet
in the layer of the Stone block of `landingWorld`, moving towards it in X and
along it in Z. -/
def slidingPlayer : Renderer :=
  { fallingPlayer 0 with cameraPosition := ⟨9 / 2, 12, 11 / 2⟩, velocity := ⟨10, 0, 10⟩ }

/-- The world of the block-editing examples: Air everywhere except Stone
blocks at the world coordinates `(11, 10, 10)` and `(12, 10, 10)`. -/
def twoStoneWorld : World :=
  (airWorld.withBlock 11 10 10 (Block.ofType BlockType.STONE)).withBlock 12 10 10
    (Block.ofType BlockType.STONE)

/-- The camera position of the block-editing examples. -/
def examplePos : Vector3 := ⟨21 / 2, 21 / 2, 21 / 2⟩

/-- The world of the low-face example: Air everywhere except a Stone block at
the world coordinate `(15, 10, 10)`. -/
def edgeWorld : World := airWorld.withBlock 15 10 10 (Block.ofType BlockType.STONE)

/-- The camera position of the low-face example: in the cell `(0, 10, 10)`,
`0.45` from the face `x = 0` of the world. -/
def edgePos : Vector3 := ⟨9 / 20, 21 / 2, 21 / 2⟩

/-- The ray direction of the low-face example: along the x axis, toward the
face `x = 0`. -/
def edgeRay : Vector3 := ⟨-1, 0, 0⟩

/-- The ray direction of the block-editing examples: along the x axis. -/
def exampleRay : Vector3 := ⟨1, 0, 0⟩

/-! ## What generation can store at a height -/

/-- The block types a `setBlock` call of `World::generateWorld` can store at
world height `worldY`: water up to 8, the ores below 20, 12 and 6, wood from 10
and leaves from 13 (a tree stands on a column of terrain height above 8). -/
def Generable (worldY : Int) : BlockType → Prop
  | BlockType.AIR => False
  | BlockType.GRASS => True
  | BlockType.DIRT => True
  | BlockType.STONE => True
  | BlockType.WOOD => 10 ≤ worldY
  | BlockType.LEAVES => 13 ≤ worldY
  | BlockType.WATER => worldY ≤ 8
  | BlockType.SAND => True
  | BlockType.COAL_ORE => worldY < 20
  | BlockType.IRON_ORE => worldY < 12
  | BlockType.DIAMOND_ORE => worldY < 6

/-- The state in which `World::generateWorld` reaches the column `(x, z)` of
chunk `(cx, cy, cz)`: the chunks before `(cx, cy, cz)` in the order of the
loops are complete, the slot `(cx, cy, cz)` holds its new chunk, and the
columns of that chunk before `(x, z)` are complete. -/
def generateUpTo (T : Trig) (cx cy cz x z : Int) (s : GenState) : GenState :=
  let s1 := forLoop 0 cx (fun _ => true) (fun cx' =>
    forLoop 0 WORLD_HEIGHT (fun _ => true) (fun cy' =>
      forLoop 0 WORLD_DEPTH (fun _ => true) (fun cz' => chunkBody T cx' cy' cz'))) s
  let s2 := forLoop 0 cy (fun _ => true) (fun cy' =>
    forLoop 0 WORLD_DEPTH (fun _ => true) (fun cz' => chunkBody T cx cy' cz')) s1
  let s3 := forLoop 0 cz (fun _ => true) (fun cz' => chunkBody T cx cy cz') s2
  let s4 : GenState :=
    ⟨s3.world.setChunk cx.toNat cy.toNat cz.toNat (Chunk.new ⟨cx, cy, cz⟩), s3.rng⟩
  let s5 := forLoop 0 x (fun _ => true) (fun x' =>
    forLoop 0 CHUNK_DEPTH (fun _ => true) (fun z' => columnBody T cx cy cz x' z')) s4
  forLoop 0 z (fun _ => true) (fun z' => columnBody T cx cy cz x z') s5

/-- The rest of `World::generateWorld` after the column `(x, z)` of chunk
`(cx, cy, cz)`: the remaining columns of the chunk, then the remaining chunks. -/
def generateAfter (T : Trig) (cx cy cz x z : Int) (s : GenState) : GenState :=
  let s1 := forLoop (z + 1) CHUNK_DEPTH (fun _ => true) (fun z' => columnBody T cx cy cz x z') s
  let s2 := forLoop (x + 1) CHUNK_WIDTH (fun _ => true) (fun x' =>
    forLoop 0 CHUNK_DEPTH (fun _ => true) (fun z' => columnBody T cx cy cz x' z')) s1
  let s3 := forLoop (cz + 1) WORLD_DEPTH (fun _ => true) (fun cz' => chunkBody T cx cy cz') s2
  let s4 := forLoop (cy + 1) WORLD_HEIGHT (fun _ => true) (fun cy' =>
    forLoop 0 WORLD_DEPTH (fun _ => true) (fun cz' => chunkBody T cx cy' cz')) s3
  forLoop (cx + 1) WORLD_WIDTH (fun _ => true) (fun cx' =>
    forLoop 0 WORLD_HEIGHT (fun _ => true) (fun cy' =>
      forLoop 0 WORLD_DEPTH (fun _ => true) (fun cz' => chunkBody T cx' cy' cz'))) s4

/-! ## Examples for generation -/

/-- A random source whose every value is 0. -/
def zeroRand : Rand := ⟨fun _ => 0, 0⟩

/-- The values of a column of terrain height 10 that is neither desert nor
mountain nor water: what `columnParams` computes from `zeroTrig` and `zeroRand`. -/
def plainColumn : ColumnParams := ⟨10, 10, false, false, false, ⟨fun _ => 0, 4⟩⟩

/-- The values `World::generateWorld`, run on a newly constructed `World` with
the random source `rng`, computes for the column `(x, z)` of chunk
`(cx, cy, cz)` when it reaches it. -/
def columnOf (T : Trig) (rng : Rand) (cx cy cz x z : Int) : ColumnParams :=
  columnParams T cx cz x z (generateUpTo T cx cy cz x z ⟨World.new, rng⟩).rng

/-- A generation step reads the random source in order: it leaves the sequence
of values in place, never moves the position back, and does the same to the
world and the position when the values from its final position on are replaced. -/
def StreamLocal (F : GenState → GenState) : Prop :=
  ∀ s : GenState, (F s).rng.draws = s.rng.draws ∧ s.rng.pos ≤ (F s).rng.pos ∧
    ∀ d : Nat → Nat, (∀ k, k < (F s).rng.pos → s.rng.draws k = d k) →
      F ⟨s.world, ⟨d, s.rng.pos⟩⟩ = ⟨(F s).world, ⟨d, (F s).rng.pos⟩⟩

/-- A random source whose every value is 3. -/
def threeRand : Rand := ⟨fun _ => 3, 0⟩

/-- A random source that returns 3 on the calls number `0` to `N` and 0 on
every later call. -/
def switchRand (N : Nat) : Rand := ⟨fun k => if k ≤ N then 3 else 0, 0⟩

/-- The values of `sin` and `cos`, to five decimals, at the arguments that the
columns `(11, 88)`, `(11, 89)` and `(3, 112)` of the world use: the first with
the random offsets `0.0003`, the other two with the random offsets `0`. The
values at other arguments play no part in the examples and are set to 0. -/
def sampleTrig : Trig :=
  ⟨fun q =>
      if q = 330009 / 1000000 then 32405 / 100000
      else if q = 110003 / 100000 then 89122 / 100000
      else if q = 880003 / 100000 then 58489 / 100000
      else if q = 330009 / 100000 then -15783 / 100000
      else if q = 11 / 50 then 21823 / 100000
      else if q = 33 / 100 then 32404 / 100000
      else if q = 11 / 10 then 89121 / 100000
      else if q = 89 / 10 then 50102 / 100000
      else if q = 33 / 10 then -15775 / 100000
      else if q = 9 / 100 then 8988 / 100000
      else if q = 3 / 10 then 29552 / 100000
      else if q = 56 / 5 then -97918 / 100000
      else if q = 9 / 10 then 78333 / 100000
      else if q = 3 / 50 then 5996 / 100000
      else 0,
    fun q =>
      if q = 2640009 / 1000000 then -87682 / 100000
      else if q = 880003 / 40000 then -99996 / 100000
      else if q = 44 / 25 then -18808 / 100000
      else if q = 267 / 100 then -89085 / 100000
      else if q = 89 / 4 then -96668 / 100000
      else if q = 89 / 50 then -20768 / 100000
      else if q = 84 / 25 then -97624 / 100000
      else if q = 28 then -96261 / 100000
      else if q = 56 / 25 then -62036 / 100000
      else 0⟩

/-! ## Renderer.cpp: the spawn position, and the reachable player states -/

namespace Renderer

/-- The first loop of `Renderer::initPlayerPosition`,
`for (int y = WORLD_HEIGHT * CHUNK_HEIGHT - 1; y >= 0; y--)`, with `n` values of
`y` left to try: the highest `y` below `n` with a block at `(x, y, z)`, and the
initial value 0 of `groundY` when there is none. -/
def findGroundFrom (world : Option World) (x z : Int) : Nat → Int
  | 0 => 0
  | n + 1 => if isBlockAt world x (n : Int) z then (n : Int) else findGroundFrom world x z n

/-- The second loop of `Renderer::initPlayerPosition`,
`for (int testY = groundY + 2; testY < maxHeight; testY++)`, with `n` values of
`testY` left to try: the first `testY` with no block at `testY` and `testY + 1`. -/
def findClearFrom (world : Option World) (x z : Int) : Nat → Int → Option Int
  | 0, _ => none
  | n + 1, testY =>
    if !isBlockAt world x testY z && !isBlockAt world x (testY + 1) z then some testY
    else findClearFrom world x z n (testY + 1)

/-- The method `Renderer::initPlayerPosition`. -/
def initPlayerPosition (world : Option World) (r : Renderer) : Renderer :=
  let startX : Int := 64
  let startZ : Int := 64
  let groundY := findGroundFrom world startX startZ (WORLD_HEIGHT * CHUNK_HEIGHT).toNat
  let maxHeight := groundY + 20
  let y : ℚ :=
    match findClearFrom world startX startZ (maxHeight - (groundY + 2)).toNat (groundY + 2) with
    | some testY => (testY : ℚ) + 1 / 2
    | none => (groundY : ℚ) + 10
  { r with cameraPosition := ⟨(startX : ℚ) + 1 / 2, y, (startZ : ℚ) + 1 / 2⟩,
           velocity := ⟨0, 0, 0⟩, isOnGround := false, isJumping := false }

/-- The player states reachable from the constructed state by update ticks
(any time step, any world), jump, swimDown, flyUp, flyDown, moveCameraPhysics,
toggleFlightMode and initPlayerPosition. -/
inductive Playable (T : Trig) : Renderer → Prop
  | init : Playable T Renderer.new
  | update (world : Option World) (dt : ℚ) {r : Renderer} :
      Playable T r → Playable T (Renderer.update world r dt)
  | jump {r : Renderer} : Playable T r → Playable T (Renderer.jump r)
  | swimDown {r : Renderer} : Playable T r → Playable T (Renderer.swimDown r)
  | flyUp {r : Renderer} : Playable T r → Playable T (Renderer.flyUp r)
  | flyDown {r : Renderer} : Playable T r → Playable T (Renderer.flyDown r)
  | moveCameraPhysics (forward right : ℚ) {r : Renderer} :
      Playable T r → Playable T (Renderer.moveCameraPhysics T r forward right)
  | toggleFlightMode {r : Renderer} :
      Playable T r → Playable T (Renderer.toggleFlightMode r)
  | initPlayerPosition (world : Option World) {r : Renderer} :
      Playable T r → Playable T (Renderer.initPlayerPosition world r)

/-- The position on one axis after the flight tick: the position moved by
`v * dt`, set to 0 when that is negative and to `extent - 1` when it is at
least `extent`. -/
def flightClamp (p : ℚ) (extent : Int) : ℚ :=
  if p < 0 then 0 else if p ≥ (extent : ℚ) then ((extent - 1 : Int) : ℚ) else p

end Renderer

/-- The player of the standing example: the state a landing on the Stone block
of `landingWorld` produces: in normal mode at `(5.5, 10 + 1 + 1.8, 5.5)`, on the
ground, with zero velocity. -/
def standingPlayer : Renderer := { fallingPlayer 0 with isOnGround := true }

/-- The player of the flight example: the constructed player after
`toggleFlightMode` and `jump`. -/
def flyingPlayer : Renderer := Renderer.jump (Renderer.toggleFlightMode Renderer.new)

/-! ## Inventory.h, Inventory.cpp -/

/-- The struct `InventorySlot`. -/
structure InventorySlot where
  itemType : BlockType
  count : Int
  deriving DecidableEq, Repr

namespace InventorySlot

/-- The constructor `InventorySlot()`. -/
def default : InventorySlot := ⟨BlockType.AIR, 0⟩

/-- The method `InventorySlot::isEmpty`. -/
def isEmpty (s : InventorySlot) : Bool := s.itemType == BlockType.AIR || decide (s.count ≤ 0)

/-- The method `InventorySlot::canStack`. -/
def canStack (s : InventorySlot) : Bool := decide (s.count < 64)

end InventorySlot

/-- The class `Inventory`: the vector of slots and the selected hotbar slot. -/
structure Inventory where
  slots : List InventorySlot
  selectedSlot : Int
  deriving DecidableEq, Repr

namespace Inventory

def HOTBAR_SIZE : Int := 9
def INVENTORY_ROWS : Int := 3
def INVENTORY_COLS : Int := 9
def TOTAL_SLOTS : Int := HOTBAR_SIZE + INVENTORY_ROWS * INVENTORY_COLS

/-- The loop `for (int i = 0; i < TOTAL_SLOTS && remainingAmount > 0; i++)` of
`addItem` and `removeItem`, whose body reads and writes `slots[i]` and
`remainingAmount` only: at most `n` more iterations, the counter at `i`. -/
def slotLoopAux (body : InventorySlot → Int → InventorySlot × Int) :
    Nat → Int → List InventorySlot × Int → List InventorySlot × Int
  | 0, _, s => s
  | n + 1, i, s =>
    if s.2 > 0 then
      let r := body (s.1.getD i.toNat InventorySlot.default) s.2
      slotLoopAux body n (i + 1) (s.1.set i.toNat r.1, r.2)
    else s

/-- The loop over all slots, from `i = 0`. -/
def slotLoop (body : InventorySlot → Int → InventorySlot × Int) (slots : List InventorySlot)
    (remainingAmount : Int) : List InventorySlot × Int :=
  slotLoopAux body TOTAL_SLOTS.toNat 0 (slots, remainingAmount)

/-- The body of the first loop of `Inventory::addItem`, on `slots[i]` and
`remainingAmount`. -/
def stackBody (itemType : BlockType) (slot : InventorySlot) (remainingAmount : Int) :
    InventorySlot × Int :=
  if slot.itemType = itemType ∧ slot.canStack = true then
    let canAdd := min remainingAmount (64 - slot.count)
    ({ slot with count := slot.count + canAdd }, remainingAmount - canAdd)
  else (slot, remainingAmount)

/-- The body of the second loop of `Inventory::addItem`. -/
def emptyBody (itemType : BlockType) (slot : InventorySlot) (remainingAmount : Int) :
    InventorySlot × Int :=
  if slot.isEmpty = true then
    let canAdd := min remainingAmount 64
    ({ slot with itemType := itemType, count := canAdd }, remainingAmount - canAdd)
  else (slot, remainingAmount)

/-- The method `Inventory::addItem`: the value returned and the inventory
afterwards. -/
def addItem (inv : Inventory) (itemType : BlockType) (amount : Int) : Bool × Inventory :=
  if itemType = BlockType.AIR ∨ amount ≤ 0 then (false, inv)
  else
    let s1 := slotLoop (stackBody itemType) inv.slots amount
    let s2 := slotLoop (emptyBody itemType) s1.1 s1.2
    (decide (s2.2 = 0), { inv with slots := s2.1 })

/-- The body of the loop of `Inventory::removeItem`. -/
def removeBody (itemType : BlockType) (slot : InventorySlot) (remainingAmount : Int) :
    InventorySlot × Int :=
  if slot.itemType = itemType then
    let canRemove := min remainingAmount slot.count
    let slot := { slot with count := slot.count - canRemove }
    let remainingAmount := remainingAmount - canRemove
    if slot.count ≤ 0 then ({ slot with itemType := BlockType.AIR, count := 0 }, remainingAmount)
    else (slot, remainingAmount)
  else (slot, remainingAmount)

/-- The method `Inventory::removeItem`. -/
def removeItem (inv : Inventory) (itemType : BlockType) (amount : Int) : Bool × Inventory :=
  if itemType = BlockType.AIR ∨ amount ≤ 0 then (false, inv)
  else
    let s := slotLoop (removeBody itemType) inv.slots amount
    (decide (s.2 = 0), { inv with slots := s.1 })

/-- The method `Inventory::removeItemFromSlot`. -/
def removeItemFromSlot (inv : Inventory) (slotIndex amount : Int) : Bool × Inventory :=
  if slotIndex < 0 ∨ slotIndex ≥ TOTAL_SLOTS ∨ amount ≤ 0 then (false, inv)
  else
    let slot := inv.slots.getD slotIndex.toNat InventorySlot.default
    let canRemove := min amount slot.count
    let slot := { slot with count := slot.count - canRemove }
    let slot :=
      if slot.count ≤ 0 then { slot with itemType := BlockType.AIR, count := 0 } else slot
    (decide (canRemove = amount), { inv with slots := inv.slots.set slotIndex.toNat slot })

/-- The method `Inventory::getItemCount`. -/
def getItemCount (inv : Inventory) (itemType : BlockType) : Int :=
  inv.slots.foldl
    (fun total slot => if slot.itemType = itemType then total + slot.count else total) 0

/-- The method `Inventory::getSlot` (the slot it refers to; outside the range,
the static empty slot). -/
def getSlot (inv : Inventory) (index : Int) : InventorySlot :=
  if index < 0 ∨ index ≥ TOTAL_SLOTS then InventorySlot.default
  else inv.slots.getD index.toNat InventorySlot.default

/-- The method `Inventory::selectSlot` (the console message is left out). -/
def selectSlot (inv : Inventory) (slotIndex : Int) : Inventory :=
  if slotIndex ≥ 0 ∧ slotIndex < HOTBAR_SIZE then { inv with selectedSlot := slotIndex }
  else inv

/-- The method `Inventory::clearInventory`. -/
def clearInventory (inv : Inventory) : Inventory :=
  { inv with slots :=
      inv.slots.map (fun slot => { slot with itemType := BlockType.AIR, count := 0 }) }

/-- The members after the initialiser list and `slots.resize(TOTAL_SLOTS)` of
the constructor. -/
def blank : Inventory := ⟨List.replicate TOTAL_SLOTS.toNat InventorySlot.default, 0⟩

/-- The constructor `Inventory::Inventory`. -/
def new : Inventory :=
  let inv := (blank.addItem BlockType.DIRT 64).2
  let inv := (inv.addItem BlockType.STONE 32).2
  let inv := (inv.addItem BlockType.WOOD 16).2
  (inv.addItem BlockType.GRASS 8).2

/-- The inventory states reachable from construction by `addItem`,
`removeItem`, `removeItemFromSlot`, `clearInventory` and `selectSlot`. -/
inductive Reachable : Inventory → Prop
  | init : Reachable Inventory.new
  | addItem (itemType : BlockType) (amount : Int) {inv : Inventory} :
      Reachable inv → Reachable (inv.addItem itemType amount).2
  | removeItem (itemType : BlockType) (amount : Int) {inv : Inventory} :
      Reachable inv → Reachable (inv.removeItem itemType amount).2
  | removeItemFromSlot (slotIndex amount : Int) {inv : Inventory} :
      Reachable inv → Reachable (inv.removeItemFromSlot slotIndex amount).2
  | clearInventory {inv : Inventory} : Reachable inv → Reachable inv.clearInventory
  | selectSlot (slotIndex : Int) {inv : Inventory} :
      Reachable inv → Reachable (inv.selectSlot slotIndex)

/-- The slot loop as a recursion on the list of the slots still to visit. -/
def sweep (body : InventorySlot → Int → InventorySlot × Int) :
    List InventorySlot → Int → List InventorySlot × Int
  | [], r => ([], r)
  | s :: rest, r =>
    if r > 0 then
      ((body s r).1 :: (sweep body rest (body s r).2).1, (sweep body rest (body s r).2).2)
    else (s :: rest, r)

/-- The slot invariant: the count is between 0 and 64 and the type is Air
exactly when the count is 0. -/
def SlotOk (s : InventorySlot) : Prop :=
  0 ≤ s.count ∧ s.count ≤ 64 ∧ (s.itemType = BlockType.AIR ↔ s.count = 0)

/-- The inventory invariant: 36 slots, each meeting the slot invariant, and a
selected slot in `0..8`. -/
def Ok (inv : Inventory) : Prop :=
  inv.slots.length = 36 ∧ (∀ s ∈ inv.slots, SlotOk s) ∧
    0 ≤ inv.selectedSlot ∧ inv.selectedSlot ≤ 8

/-- What a slot contributes to `getItemCount(t)`. -/
def held (t : BlockType) (s : InventorySlot) : Int := if s.itemType = t then s.count else 0

/-- The room left in a slot holding `t`. -/
def room (t : BlockType) (s : InventorySlot) : Int := if s.itemType = t then 64 - s.count else 0

/-- The room an empty slot offers. -/
def vacancy (s : InventorySlot) : Int := if s.isEmpty = true then 64 else 0

/-- The capacity for `t` in the words of the specification: the sum of
`64 - count` over the slots holding `t` plus 64 times the number of empty
slots. -/
def addCapacity (inv : Inventory) (t : BlockType) : Int :=
  ((inv.slots.filter (fun s => decide (s.itemType = t))).map (fun s => 64 - s.count)).sum +
    64 * ((inv.slots.filter (fun s => s.isEmpty)).length : Int)

end Inventory

/-- The ore draw `rand() % 100` of the cell at local height `y` of the column
`(x, z)` of chunk `(cx, cy, cz)`, when `World::generateWorld` runs on a newly
constructed `World` with the random source `rng`: the value drawn in the
iteration for `y` of the terrain-layer loop of that column. -/
def oreDraw (T : Trig) (rng : Rand) (cx cy cz x z y : Int) : Nat :=
  (rand (forLoop 0 y
    (fun y' => decide (cy * CHUNK_HEIGHT + y' ≤ (columnOf T rng cx cy cz x z).terrainHeight + 10))
    (fillBody cx cy cz x z (columnOf T rng cx cy cz x z).terrainHeight
      (columnOf T rng cx cy cz x z).isDesert (columnOf T rng cx cy cz x z).isMountain
      (columnOf T rng cx cy cz x z).isWater)
    ⟨(generateUpTo T cx cy cz x z ⟨World.new, rng⟩).world,
      (columnOf T rng cx cy cz x z).rng⟩).rng).1 % 100

/-! ## Lemmas on nested vectors -/

namespace Vec3

variable {α : Type}

theorem getD_modify {β : Type} (a : Array β) (i j : Nat) (f : β → β) (d : β) :
    (a.modify i f).getD j d =
      if j < a.size then (if i = j then f (a.getD j d) else a.getD j d) else d := by
  unfold Array.getD
  by_cases hj : j < a.size
  · have hj' : j < (a.modify i f).size := by simpa using hj
    simp only [Array.get_eq_getElem, hj, hj', dite_true, if_true, Array.getElem_modify]
  · have hj' : ¬ j < (a.modify i f).size := by simpa using hj
    simp only [hj, hj', dite_false, if_false]

theorem getD_setD {β : Type} (a : Array β) (i j : Nat) (v d : β) :
    (a.setD i v).getD j d = if i = j ∧ j < a.size then v else a.getD j d := by
  unfold Array.getD
  by_cases hj : j < a.size
  · have hj' : j < (a.setD i v).size := by simpa using hj
    simp only [Array.get_eq_getElem, hj, hj', dite_true, and_true]
    by_cases hij : i = j
    · subst hij
      simp
    · simp only [hij, if_false]
      unfold Array.setD
      split
      · simp [Array.getElem_set, hij]
      · rfl
  · have hj' : ¬ j < (a.setD i v).size := by simpa using hj
    simp only [hj, hj', dite_false, and_false, if_false]

theorem size_set (g : Vec3 α) (i j k : Nat) (v : α) : (g.set i j k v).size = g.size := by
  simp [set]

theorem wf_fill (n m p : Nat) (v : α) : WF (fill n m p v) n m p := by
  refine ⟨by simp [fill], ?_⟩
  intro i hi
  simp [fill]

theorem wf_set {g : Vec3 α} {n m p : Nat} (h : WF g n m p) (i j k : Nat) (v : α) :
    WF (g.set i j k v) n m p := by
  obtain ⟨h1, h2⟩ := h
  refine ⟨by simp [set, h1], ?_⟩
  intro a ha
  have ha' : a < g.size := by simpa [set] using ha
  obtain ⟨h3, h4⟩ := h2 a ha'
  simp only [set, Array.getElem_modify]
  by_cases hia : i = a
  · subst hia
    simp only [if_true]
    refine ⟨by simp [h3], ?_⟩
    intro b hb
    have hb' : b < g[i].size := by simpa using hb
    simp only [Array.getElem_modify]
    by_cases hjb : j = b
    · subst hjb
      simp [h4 j hb']
    · simp [hjb, h4 b hb']
  · simp only [hia, if_false]
    exact ⟨h3, h4⟩

theorem getD_of_not_lt {β : Type} (a : Array β) (j : Nat) (d : β) (h : ¬ j < a.size) :
    a.getD j d = d := by
  simp [Array.getD, h]

theorem getD_of_lt {β : Type} (a : Array β) (j : Nat) (d : β) (h : j < a.size) :
    a.getD j d = a[j] := by
  simp [Array.getD, h]

theorem get_set_eq [Inhabited α] {g : Vec3 α} {n m p : Nat} (h : WF g n m p)
    {i j k : Nat} (hi : i < n) (hj : j < m) (hk : k < p) (v : α) :
    (g.set i j k v).get i j k = v := by
  obtain ⟨h1, h2⟩ := h
  have hi' : i < g.size := by omega
  obtain ⟨h3, h4⟩ := h2 i hi'
  have hj' : j < g[i].size := by omega
  have hk' : k < g[i][j].size := by have := h4 j hj'; omega
  unfold get set
  rw [getD_modify, if_pos hi', if_pos rfl, getD_of_lt g i _ hi', getD_modify, if_pos hj',
    if_pos rfl, getD_of_lt _ j _ hj', getD_setD, if_pos ⟨rfl, hk'⟩]

theorem get_set_ne [Inhabited α] (g : Vec3 α) {i j k a b c : Nat}
    (hne : ¬ (i = a ∧ j = b ∧ k = c)) (v : α) :
    (g.set i j k v).get a b c = g.get a b c := by
  unfold get set
  rw [getD_modify]
  by_cases ha : a < g.size
  · rw [if_pos ha]
    by_cases hia : i = a
    · rw [if_pos hia, getD_modify]
      by_cases hb : b < (g.getD a #[]).size
      · rw [if_pos hb]
        by_cases hjb : j = b
        · have hkc : ¬ (k = c ∧ c < ((g.getD a #[]).getD b #[]).size) :=
            fun hkc => hne ⟨hia, hjb, hkc.1⟩
          rw [if_pos hjb, getD_setD, if_neg hkc]
        · rw [if_neg hjb]
      · rw [if_neg hb, getD_of_not_lt _ b _ hb]
    · rw [if_neg hia]
  · rw [if_neg ha, getD_of_not_lt _ a _ ha]

theorem get_set_cases [Inhabited α] (g : Vec3 α) (i j k a b c : Nat) (v : α) :
    (g.set i j k v).get a b c = v ∨ (g.set i j k v).get a b c = g.get a b c := by
  by_cases hne : i = a ∧ j = b ∧ k = c
  · obtain ⟨rfl, rfl, rfl⟩ := hne
    unfold get set
    rw [getD_modify]
    by_cases ha : i < g.size
    · rw [if_pos ha, if_pos rfl, getD_modify]
      by_cases hb : j < (g.getD i #[]).size
      · rw [if_pos hb, if_pos rfl, getD_setD]
        by_cases hc : k < ((g.getD i #[]).getD j #[]).size
        · left
          rw [if_pos ⟨rfl, hc⟩]
        · right
          rw [if_neg (fun h => hc h.2)]
      · right
        rw [if_neg hb, getD_of_not_lt _ j _ hb]
    · right
      rw [if_neg ha, getD_of_not_lt _ i _ ha]
  · right
    exact get_set_ne g hne v

theorem get_fill_cases [Inhabited α] (n m p i j k : Nat) (v : α) :
    (fill n m p v).get i j k = v ∨ (fill n m p v).get i j k = default := by
  unfold get fill
  by_cases hi : i < n
  · rw [getD_of_lt _ i _ (by simpa using hi), Array.getElem_mkArray]
    by_cases hj : j < m
    · rw [getD_of_lt _ j _ (by simpa using hj), Array.getElem_mkArray]
      by_cases hk : k < p
      · left
        rw [getD_of_lt _ k _ (by simpa using hk), Array.getElem_mkArray]
      · right
        rw [getD_of_not_lt _ k _ (by simpa using hk)]
    · right
      rw [getD_of_not_lt _ j _ (by simpa using hj)]
      rfl
  · right
    rw [getD_of_not_lt _ i _ (by simpa using hi)]
    rfl

end Vec3

/-! ## Lemmas on chunks -/

namespace Chunk

theorem inBounds_iff (x y z : Int) :
    inBounds x y z = true ↔ (0 ≤ x ∧ x < 16 ∧ 0 ≤ y ∧ y < 128 ∧ 0 ≤ z ∧ z < 16) := by
  simp [inBounds, CHUNK_WIDTH, CHUNK_HEIGHT, CHUNK_DEPTH]

theorem wf_new (pos : Vector3) : (Chunk.new pos).WF := Vec3.wf_fill _ _ _ _

theorem wf_setBlock {c : Chunk} (h : c.WF) (x y z : Int) (b : Block) :
    (c.setBlock x y z b).WF := by
  unfold setBlock
  split
  · exact Vec3.wf_set h _ _ _ _
  · exact h

theorem wf_store {c : Chunk} (h : c.WF) (d : Block) (r : CellRef) (b : Block) :
    (c.store d r b).1.WF := by
  cases r with
  | stored x y z => exact Vec3.wf_set h _ _ _ _
  | defaultBlock => exact h

theorem getBlock_setBlock_same {c : Chunk} (h : c.WF) {x y z : Int}
    (hb : inBounds x y z = true) (b d : Block) :
    (c.setBlock x y z b).getBlock d x y z = b := by
  have hb' := (inBounds_iff x y z).1 hb
  simp only [getBlock, getBlockRef, setBlock, hb, if_true, load]
  refine Vec3.get_set_eq h ?_ ?_ ?_ b <;> simp [CHUNK_WIDTH, CHUNK_HEIGHT, CHUNK_DEPTH] <;> omega

theorem setBlock_of_not_inBounds (c : Chunk) {x y z : Int} (hb : inBounds x y z = false)
    (b : Block) : c.setBlock x y z b = c := by
  simp [setBlock, hb]

end Chunk

/-! ## Theorems on blocks and chunks -/

/-- C1: for a chunk whose vectors have the constructor's extents, a block `b`
and a local coordinate inside `[0,16) x [0,128) x [0,16)`, `getBlock` after
`setBlock` at that coordinate returns a block whose type is the type of `b`,
whatever the static default block holds. -/
theorem chunk_setBlock_getBlock_type (c : Chunk) (hc : c.WF) (b : Block) (x y z : Int)
    (hx : 0 ≤ x ∧ x < 16) (hy : 0 ≤ y ∧ y < 128) (hz : 0 ≤ z ∧ z < 16) (d : Block) :
    ((c.setBlock x y z b).getBlock d x y z).type = b.type := by
  have hb : Chunk.inBounds x y z = true :=
    (Chunk.inBounds_iff x y z).2 ⟨hx.1, hx.2, hy.1, hy.2, hz.1, hz.2⟩
  rw [Chunk.getBlock_setBlock_same hc hb]

theorem chunk_setBlock_getBlock_type_witness :
    (Chunk.new ⟨0, 0, 0⟩).WF ∧
    (((Chunk.new ⟨0, 0, 0⟩).setBlock 3 127 15 (Block.ofType BlockType.STONE)).getBlock
      Block.default 3 127 15).type = BlockType.STONE :=
  ⟨Chunk.wf_new _,
   chunk_setBlock_getBlock_type (Chunk.new ⟨0, 0, 0⟩) (Chunk.wf_new _)
     (Block.ofType BlockType.STONE) 3 127 15 (by decide) (by decide) (by decide) Block.default⟩

/-- C5: `setBlock` at a coordinate with some component outside
`[0,16) x [0,128) x [0,16)` returns the chunk unchanged (every stored block
and the position); `setBlock` is a total function, no error is raised. -/
theorem chunk_setBlock_outside (c : Chunk) (b : Block) (x y z : Int)
    (h : ¬ (0 ≤ x ∧ x < 16 ∧ 0 ≤ y ∧ y < 128 ∧ 0 ≤ z ∧ z < 16)) :
    c.setBlock x y z b = c := by
  apply Chunk.setBlock_of_not_inBounds
  rw [Bool.eq_false_iff]
  intro hb
  exact h ((Chunk.inBounds_iff x y z).1 hb)

theorem chunk_setBlock_outside_witness :
    (Chunk.new ⟨0, 0, 0⟩).setBlock 16 0 (-1) (Block.ofType BlockType.STONE) =
      Chunk.new ⟨0, 0, 0⟩ :=
  chunk_setBlock_outside (Chunk.new ⟨0, 0, 0⟩) (Block.ofType BlockType.STONE) 16 0 (-1)
    (by decide)

/-- C7: `isSolid` is false exactly for Air, Water and Leaves and true exactly
for the other eight types; `isEmpty` is true exactly for Air; no block is both
solid and empty; the default-constructed block is Air. -/
theorem block_classification (b : Block) :
    (b.isSolid = false ↔
      (b.type = BlockType.AIR ∨ b.type = BlockType.WATER ∨ b.type = BlockType.LEAVES)) ∧
    (b.isSolid = true ↔
      (b.type = BlockType.GRASS ∨ b.type = BlockType.DIRT ∨ b.type = BlockType.STONE ∨
       b.type = BlockType.WOOD ∨ b.type = BlockType.SAND ∨ b.type = BlockType.COAL_ORE ∨
       b.type = BlockType.IRON_ORE ∨ b.type = BlockType.DIAMOND_ORE)) ∧
    (b.isEmpty = true ↔ b.type = BlockType.AIR) ∧
    (b.isSolid = true → b.isEmpty = false) ∧
    Block.default.type = BlockType.AIR := by
  obtain ⟨t, pos⟩ := b
  cases t <;> simp [Block.isSolid, Block.isEmpty, Block.default]

theorem block_classification_witness :
    (Block.ofType BlockType.STONE).isEmpty = false :=
  (block_classification (Block.ofType BlockType.STONE)).2.2.2.1 (by decide)

/-! ## Lemmas on coordinate decomposition -/

theorem tdiv_of_neg (c E : Int) (hc : c < 0) (hE : 0 < E) : Int.tdiv c E = -((-c) / E) := by
  have h : Int.tdiv (-(-c)) E = -((-c) / E) := by
    rw [Int.neg_tdiv, Int.tdiv_eq_ediv (by omega) (by omega)]
  simpa using h

theorem tmod_of_neg (c E : Int) (hc : c < 0) (hE : 0 < E) : Int.tmod c E = -((-c) % E) := by
  have h1 := Int.tmod_add_tdiv c E
  have h2 := tdiv_of_neg c E hc hE
  have h3 := Int.emod_add_ediv (-c) E
  rw [h2] at h1
  have : E * -(-c / E) = -(E * (-c / E)) := by ring
  omega

theorem chunkIndex_of_nonneg (c E : Int) (hc : 0 ≤ c) (hE : 0 < E) : chunkIndex c E = c / E :=
  Int.tdiv_eq_ediv hc (by omega)

theorem localCoord_of_nonneg (c E : Int) (hc : 0 ≤ c) (hE : 0 < E) : localCoord c E = c % E := by
  simp only [localCoord, if_neg (by omega : ¬ c < 0)]
  exact Int.tmod_eq_emod hc (by omega)

theorem chunkIndex_of_neg (c E : Int) (hc : c < 0) (hE : 0 < E) :
    chunkIndex c E = -((-c) / E) := tdiv_of_neg c E hc hE

theorem localCoord_of_neg (c E : Int) (hc : c < 0) (hE : 0 < E) :
    localCoord c E = E - (-c) % E := by
  simp only [localCoord, if_pos hc, tmod_of_neg c E hc hE]
  ring

/-- Whenever the chunk index computed on an axis is not negative, the local
coordinate computed on that axis is inside the chunk. -/
theorem localCoord_bounds (c E : Int) (hE : E = 16 ∨ E = 128) (h : 0 ≤ chunkIndex c E) :
    0 ≤ localCoord c E ∧ localCoord c E < E := by
  by_cases hc : 0 ≤ c
  · rw [localCoord_of_nonneg c E hc (by omega)]
    rcases hE with rfl | rfl <;> omega
  · rw [chunkIndex_of_neg c E (by omega) (by omega)] at h
    rw [localCoord_of_neg c E (by omega) (by omega)]
    rcases hE with rfl | rfl <;> omega

/-! ## Lemmas on the world grid -/

namespace World

theorem grid_wf_new : World.new.WF := by
  refine ⟨Vec3.wf_fill _ _ _ _, ?_⟩
  intro i j k c h
  rcases Vec3.get_fill_cases WORLD_WIDTH.toNat WORLD_HEIGHT.toNat WORLD_DEPTH.toNat i j k
    (none : Option Chunk) with h' | h' <;>
  · simp only [World.new] at h
    rw [h'] at h
    cases h

theorem wf_setChunk {w : World} (h : w.WF) (i j k : Nat) {c : Chunk} (hc : c.WF) :
    (w.setChunk i j k c).WF := by
  refine ⟨Vec3.wf_set h.1 _ _ _ _, ?_⟩
  intro a b d c' hget
  simp only [setChunk] at hget
  rcases Vec3.get_set_cases w.chunks i j k a b d (some c) with h' | h'
  · rw [h'] at hget
    cases hget
    exact hc
  · rw [h'] at hget
    exact h.2 a b d c' hget

theorem isSome_setChunk (w : World) (i j k a b d : Nat) (c : Chunk)
    (h : (w.chunks.get a b d).isSome = true) :
    ((w.setChunk i j k c).chunks.get a b d).isSome = true := by
  simp only [setChunk]
  rcases Vec3.get_set_cases w.chunks i j k a b d (some c) with h' | h'
  · rw [h']; rfl
  · rw [h']; exact h

theorem get_setChunk_same {w : World} (h : w.WF) {i j k : Nat} (hi : i < WORLD_WIDTH.toNat)
    (hj : j < WORLD_HEIGHT.toNat) (hk : k < WORLD_DEPTH.toNat) (c : Chunk) :
    (w.setChunk i j k c).chunks.get i j k = some c :=
  Vec3.get_set_eq h.1 hi hj hk _

theorem get_setChunk_ne (w : World) {i j k a b d : Nat} (hne : ¬ (i = a ∧ j = b ∧ k = d))
    (c : Chunk) : (w.setChunk i j k c).chunks.get a b d = w.chunks.get a b d :=
  Vec3.get_set_ne _ hne _

theorem wf_chunkSetBlock {w : World} (h : w.WF) (cx cy cz x y z : Int) (b : Block) :
    (w.chunkSetBlock cx cy cz x y z b).WF := by
  unfold chunkSetBlock
  split
  · next c hc => exact wf_setChunk h _ _ _ (Chunk.wf_setBlock (h.2 _ _ _ c hc) _ _ _ _)
  · exact h

theorem isSome_chunkSetBlock (w : World) (cx cy cz x y z : Int) (b : Block) (i j k : Nat)
    (h : (w.chunks.get i j k).isSome = true) :
    ((w.chunkSetBlock cx cy cz x y z b).chunks.get i j k).isSome = true := by
  unfold chunkSetBlock
  split
  · exact isSome_setChunk _ _ _ _ _ _ _ _ h
  · exact h

theorem grid_wf_store {w : World} (h : w.WF) (p : BlockPtr) (b : Block) : (w.store p b).WF := by
  unfold store
  split
  · next c hc => exact wf_setChunk h _ _ _ (Chunk.wf_store (h.2 _ _ _ c hc) _ _ _)
  · exact h

theorem populated_store {w : World} (h : w.Populated) (p : BlockPtr) (b : Block) :
    (w.store p b).Populated := by
  intro i j k hi hj hk
  unfold store
  split
  · exact isSome_setChunk _ _ _ _ _ _ _ _ (h i j k hi hj hk)
  · exact h i j k hi hj hk

end World

/-! ## Lemmas on loops -/

theorem forLoopAux_inv {σ : Type} (P : σ → Prop) (cond : Int → Bool) (body : Int → σ → σ)
    (h : ∀ i s, P s → P (body i s)) :
    ∀ (n : Nat) (i : Int) (s : σ), P s → P (forLoopAux cond body n i s) := by
  intro n
  induction n with
  | zero => intro i s hs; exact hs
  | succ n ih =>
    intro i s hs
    simp only [forLoopAux]
    split
    · exact ih _ _ (h i s hs)
    · exact hs

/-- A property that every iteration preserves holds after the loop. -/
theorem forLoop_inv {σ : Type} (P : σ → Prop) (lo hi : Int) (cond : Int → Bool)
    (body : Int → σ → σ) (h : ∀ i s, P s → P (body i s)) (s : σ) (hs : P s) :
    P (forLoop lo hi cond body s) :=
  forLoopAux_inv P cond body h _ _ _ hs

theorem forLoopAux_establish {σ : Type} (R Q : σ → Prop) (body : Int → σ → σ)
    (hR : ∀ i s, R s → R (body i s)) (hQ : ∀ i s, R s → Q s → Q (body i s))
    (i0 : Int) (hE : ∀ s, R s → Q (body i0 s)) :
    ∀ (n : Nat) (i : Int) (s : σ), R s → i ≤ i0 → i0 < i + n →
      Q (forLoopAux (fun _ => true) body n i s) := by
  intro n
  induction n with
  | zero => intro i s _ h1 h2; simp at h2; omega
  | succ n ih =>
    intro i s hs h1 h2
    simp only [forLoopAux, if_true]
    by_cases hi : i = i0
    · subst hi
      have hRQ : R (body i s) ∧ Q (body i s) := ⟨hR i s hs, hE s hs⟩
      exact (forLoopAux_inv (fun s => R s ∧ Q s) (fun _ => true) body
        (fun j t ht => ⟨hR j t ht.1, hQ j t ht.1 ht.2⟩) n (i + 1) _ hRQ).2
    · apply ih (i + 1) _ (hR i s hs) (by omega)
      push_cast at h2
      omega

/-- In an unconditional counting loop, a property that iteration `i0`
establishes and every iteration preserves holds after the loop. -/
theorem forLoop_establish {σ : Type} (R Q : σ → Prop) (lo hi : Int) (body : Int → σ → σ)
    (hR : ∀ i s, R s → R (body i s)) (hQ : ∀ i s, R s → Q s → Q (body i s))
    (i0 : Int) (hlo : lo ≤ i0) (hhi : i0 < hi) (hE : ∀ s, R s → Q (body i0 s))
    (s : σ) (hs : R s) : Q (forLoop lo hi (fun _ => true) body s) := by
  apply forLoopAux_establish R Q body hR hQ i0 hE _ _ _ hs hlo
  have : ((hi - lo).toNat : Int) = hi - lo := Int.toNat_of_nonneg (by omega)
  omega

/-! ## Lemmas on generation -/

/-- A property of worlds that every `chunks[cx][cy][cz]->setBlock` call preserves. -/
theorem fillBody_preserves (P : World → Prop)
    (hP : ∀ w cx cy cz x y z b, P w → P (World.chunkSetBlock w cx cy cz x y z b))
    (cx cy cz x z terrainHeight : Int) (isDesert isMountain isWater : Bool) (y : Int)
    (s : GenState) (hs : P s.world) :
    P (fillBody cx cy cz x z terrainHeight isDesert isMountain isWater y s).world := by
  unfold fillBody
  simp only
  split
  · exact hP _ _ _ _ _ _ _ _ hs
  · split
    · exact hP _ _ _ _ _ _ _ _ hs
    · exact hs

theorem trunkBody_preserves (P : World → Prop)
    (hP : ∀ w cx cy cz x y z b, P w → P (World.chunkSetBlock w cx cy cz x y z b))
    (cx cy cz x z treeY : Int) (w : World) (hw : P w) :
    P (trunkBody cx cy cz x z treeY w) := by
  unfold trunkBody
  simp only
  split
  · split
    · exact hP _ _ _ _ _ _ _ _ hw
    · exact hw
  · exact hw

theorem leafBody_preserves (P : World → Prop)
    (hP : ∀ w cx cy cz x y z b, P w → P (World.chunkSetBlock w cx cy cz x y z b))
    (cx cy cz x z lx lz ly : Int) (w : World) (hw : P w) :
    P (leafBody cx cy cz x z lx lz ly w) := by
  unfold leafBody
  simp only
  split
  · split
    · exact hP _ _ _ _ _ _ _ _ hw
    · exact hw
  · exact hw

theorem vegetation_preserves (P : World → Prop)
    (hP : ∀ w cx cy cz x y z b, P w → P (World.chunkSetBlock w cx cy cz x y z b))
    (cx cy cz x z worldX worldZ terrainHeight : Int) (isDesert isMountain isWater : Bool)
    (w : World) (hw : P w) :
    P (vegetation cx cy cz x z worldX worldZ terrainHeight isDesert isMountain isWater w) := by
  unfold vegetation stampCanopy stampTrunk
  split
  · split
    · apply forLoop_inv P
      · intro lx w1 h1
        apply forLoop_inv P
        · intro lz w2 h2
          apply forLoop_inv P
          · intro ly w3 h3
            exact leafBody_preserves P hP _ _ _ _ _ _ _ _ _ h3
          · exact h2
        · exact h1
      · apply forLoop_inv P
        · intro treeY w1 h1
          exact trunkBody_preserves P hP _ _ _ _ _ _ _ h1
        · exact hw
    · exact hw
  · exact hw

theorem columnBody_preserves (P : World → Prop)
    (hP : ∀ w cx cy cz x y z b, P w → P (World.chunkSetBlock w cx cy cz x y z b))
    (T : Trig) (cx cy cz x z : Int) (s : GenState) (hs : P s.world) :
    P (columnBody T cx cy cz x z s).world := by
  unfold columnBody fillColumn
  simp only
  apply vegetation_preserves P hP
  apply forLoop_inv (fun t : GenState => P t.world)
  · intro y t ht
    exact fillBody_preserves P hP _ _ _ _ _ _ _ _ _ _ _ ht
  · exact hs

/-- The column loops of a chunk preserve what `setBlock` calls preserve. -/
theorem columns_preserve (P : World → Prop)
    (hP : ∀ w cx cy cz x y z b, P w → P (World.chunkSetBlock w cx cy cz x y z b))
    (T : Trig) (cx cy cz : Int) (s : GenState) (hs : P s.world) :
    P (forLoop 0 CHUNK_WIDTH (fun _ => true) (fun x =>
      forLoop 0 CHUNK_DEPTH (fun _ => true) (fun z => columnBody T cx cy cz x z)) s).world := by
  apply forLoop_inv (fun t : GenState => P t.world)
  · intro x t ht
    apply forLoop_inv (fun t : GenState => P t.world)
    · intro z u hu
      exact columnBody_preserves P hP T _ _ _ _ _ _ hu
    · exact ht
  · exact hs

theorem chunkBody_wf (T : Trig) (cx cy cz : Int) (s : GenState) (hs : s.world.WF) :
    (chunkBody T cx cy cz s).world.WF := by
  unfold chunkBody
  apply columns_preserve World.WF
  · intro w cx cy cz x y z b hw
    exact World.wf_chunkSetBlock hw _ _ _ _ _ _ _
  · exact World.wf_setChunk hs _ _ _ (Chunk.wf_new _)

theorem chunkBody_isSome (T : Trig) (cx cy cz : Int) (s : GenState) (i j k : Nat)
    (hs : (s.world.chunks.get i j k).isSome = true) :
    ((chunkBody T cx cy cz s).world.chunks.get i j k).isSome = true := by
  unfold chunkBody
  apply columns_preserve (fun w => (w.chunks.get i j k).isSome = true)
  · intro w cx cy cz x y z b hw
    exact World.isSome_chunkSetBlock _ _ _ _ _ _ _ _ _ _ _ hw
  · exact World.isSome_setChunk _ _ _ _ _ _ _ _ hs

theorem chunkBody_establishes (T : Trig) (s : GenState) (hs : s.world.WF) (i j k : Nat)
    (hi : i < WORLD_WIDTH.toNat) (hj : j < WORLD_HEIGHT.toNat) (hk : k < WORLD_DEPTH.toNat) :
    ((chunkBody T i j k s).world.chunks.get i j k).isSome = true := by
  unfold chunkBody
  apply columns_preserve (fun w => (w.chunks.get i j k).isSome = true)
  · intro w cx cy cz x y z b hw
    exact World.isSome_chunkSetBlock _ _ _ _ _ _ _ _ _ _ _ hw
  · simp only [Int.toNat_ofNat]
    rw [World.get_setChunk_same hs hi hj hk]
    rfl

/-- Generation keeps the grid and its chunks well formed. -/
theorem generateWorld_wf (T : Trig) (s : GenState) (hs : s.world.WF) :
    (generateWorld T s).world.WF := by
  unfold generateWorld
  apply forLoop_inv (fun t : GenState => t.world.WF)
  · intro cx t ht
    apply forLoop_inv (fun t : GenState => t.world.WF)
    · intro cy u hu
      apply forLoop_inv (fun t : GenState => t.world.WF)
      · intro cz v hv
        exact chunkBody_wf T _ _ _ _ hv
      · exact hu
    · exact ht
  · exact hs

/-- After generation every slot of the grid holds a chunk. -/
theorem generateWorld_populated (T : Trig) (s : GenState) (hs : s.world.WF) :
    (generateWorld T s).world.Populated := by
  intro i j k hi hj hk
  have hi' : (i : Int) < WORLD_WIDTH := by
    have : (i : Int) < (WORLD_WIDTH.toNat : Int) := by exact_mod_cast hi
    simpa [WORLD_WIDTH] using this
  have hj' : (j : Int) < WORLD_HEIGHT := by
    have : (j : Int) < (WORLD_HEIGHT.toNat : Int) := by exact_mod_cast hj
    simpa [WORLD_HEIGHT] using this
  have hk' : (k : Int) < WORLD_DEPTH := by
    have : (k : Int) < (WORLD_DEPTH.toNat : Int) := by exact_mod_cast hk
    simpa [WORLD_DEPTH] using this
  -- the three chunk loops, innermost first
  have hz : ∀ (cx cy : Int) (t : GenState), t.world.WF →
      (forLoop 0 WORLD_DEPTH (fun _ => true) (fun cz => chunkBody T cx cy cz) t).world.WF := by
    intro cx cy t ht
    exact forLoop_inv (fun t : GenState => t.world.WF) _ _ _ _
      (fun cz v hv => chunkBody_wf T _ _ _ _ hv) _ ht
  have hy : ∀ (cx : Int) (t : GenState), t.world.WF →
      (forLoop 0 WORLD_HEIGHT (fun _ => true) (fun cy =>
        forLoop 0 WORLD_DEPTH (fun _ => true) (fun cz => chunkBody T cx cy cz)) t).world.WF := by
    intro cx t ht
    exact forLoop_inv (fun t : GenState => t.world.WF) _ _ _ _
      (fun cy v hv => hz cx cy v hv) _ ht
  have qz : ∀ (cx cy : Int) (t : GenState), (t.world.chunks.get i j k).isSome = true →
      ((forLoop 0 WORLD_DEPTH (fun _ => true) (fun cz => chunkBody T cx cy cz) t).world.chunks.get
        i j k).isSome = true := by
    intro cx cy t ht
    exact forLoop_inv (fun t : GenState => (t.world.chunks.get i j k).isSome = true) _ _ _ _
      (fun cz v hv => chunkBody_isSome T _ _ _ _ _ _ _ hv) _ ht
  have qy : ∀ (cx : Int) (t : GenState), (t.world.chunks.get i j k).isSome = true →
      ((forLoop 0 WORLD_HEIGHT (fun _ => true) (fun cy =>
        forLoop 0 WORLD_DEPTH (fun _ => true) (fun cz => chunkBody T cx cy cz)) t).world.chunks.get
        i j k).isSome = true := by
    intro cx t ht
    exact forLoop_inv (fun t : GenState => (t.world.chunks.get i j k).isSome = true) _ _ _ _
      (fun cy v hv => qz cx cy v hv) _ ht
  unfold generateWorld
  apply forLoop_establish (fun t : GenState => t.world.WF)
    (fun t : GenState => (t.world.chunks.get i j k).isSome = true) 0 WORLD_WIDTH _
    (fun cx t ht => hy cx t ht) (fun cx t _ hq => qy cx t hq) (i : Int) (by omega) hi' _ s hs
  intro t ht
  apply forLoop_establish (fun t : GenState => t.world.WF)
    (fun t : GenState => (t.world.chunks.get i j k).isSome = true) 0 WORLD_HEIGHT _
    (fun cy t ht => hz _ cy t ht) (fun cy t _ hq => qz _ cy t hq) (j : Int) (by omega) hj' _ t ht
  intro u hu
  apply forLoop_establish (fun t : GenState => t.world.WF)
    (fun t : GenState => (t.world.chunks.get i j k).isSome = true) 0 WORLD_DEPTH _
    (fun cz t ht => chunkBody_wf T _ _ _ t ht)
    (fun cz t _ hq => chunkBody_isSome T _ _ _ t _ _ _ hq) (k : Int) (by omega) hk' _ u hu
  intro v hv
  exact chunkBody_establishes T v hv i j k hi hj hk

/-! ## Lemmas on lookup, reading and assignment through block pointers -/

namespace Chunk

theorem load_store_same {c : Chunk} (h : c.WF) {x y z : Nat} (hx : x < CHUNK_WIDTH.toNat)
    (hy : y < CHUNK_HEIGHT.toNat) (hz : z < CHUNK_DEPTH.toNat) (b d : Block) :
    (c.store d (CellRef.stored x y z) b).1.load (c.store d (CellRef.stored x y z) b).2
      (CellRef.stored x y z) = b :=
  Vec3.get_set_eq h hx hy hz b

theorem load_store_ne (c : Chunk) (d : Block) {r q : CellRef} (hne : q ≠ r) (b : Block) :
    (c.store d r b).1.load (c.store d r b).2 q = c.load d q := by
  cases r with
  | defaultBlock =>
    cases q with
    | defaultBlock => exact absurd rfl hne
    | stored a b' e => rfl
  | stored x y z =>
    cases q with
    | defaultBlock => rfl
    | stored a b' e =>
      apply Vec3.get_set_ne
      rintro ⟨rfl, rfl, rfl⟩
      exact hne rfl

end Chunk

namespace World

theorem getChunkAt_eq_some {w : World} {x y z : Int} {c : ChunkPtr}
    (h : w.getChunkAt x y z = some c) :
    0 ≤ x ∧ x < WORLD_WIDTH ∧ 0 ≤ y ∧ y < WORLD_HEIGHT ∧ 0 ≤ z ∧ z < WORLD_DEPTH ∧
    c = ⟨x.toNat, y.toNat, z.toNat⟩ ∧ (w.chunk c).isSome = true := by
  unfold getChunkAt at h
  split at h
  · next hr =>
    split at h
    · next ch hch =>
      cases h
      refine ⟨hr.1, hr.2.1, hr.2.2.1, hr.2.2.2.1, hr.2.2.2.2.1, hr.2.2.2.2.2, rfl, ?_⟩
      simp [chunk, hch]
    · cases h
  · cases h

theorem getChunkAt_of_populated {w : World} (hp : w.Populated) {x y z : Int}
    (hx : 0 ≤ x ∧ x < 8) (hy : 0 ≤ y ∧ y < 4) (hz : 0 ≤ z ∧ z < 8) :
    w.getChunkAt x y z = some ⟨x.toNat, y.toNat, z.toNat⟩ := by
  have h := hp x.toNat y.toNat z.toNat (by simp [WORLD_WIDTH]; omega)
    (by simp [WORLD_HEIGHT]; omega) (by simp [WORLD_DEPTH]; omega)
  unfold getChunkAt
  rw [if_pos (by simp [WORLD_WIDTH, WORLD_HEIGHT, WORLD_DEPTH]; omega)]
  split
  · rfl
  · next hn => rw [hn] at h; cases h

theorem getChunkAt_outside (w : World) {x y z : Int}
    (h : ¬ (0 ≤ x ∧ x < 8 ∧ 0 ≤ y ∧ y < 4 ∧ 0 ≤ z ∧ z < 8)) :
    w.getChunkAt x y z = none := by
  unfold getChunkAt
  rw [if_neg]
  simp only [WORLD_WIDTH, WORLD_HEIGHT, WORLD_DEPTH]
  omega

/-- Every pointer `getBlockAt` returns designates a stored block: the local
coordinates it passes to `Chunk::getBlock` are inside the chunk. -/
theorem getBlockAt_valid {w : World} {x y z : Int} {p : BlockPtr}
    (h : w.getBlockAt x y z = some p) : w.ValidPtr p := by
  unfold getBlockAt at h
  simp only at h
  split at h
  · next c hc =>
    cases h
    obtain ⟨hx0, hx1, hy0, hy1, hz0, hz1, hceq, hsome⟩ := getChunkAt_eq_some hc
    obtain ⟨lx0, lx1⟩ := localCoord_bounds x CHUNK_WIDTH (Or.inl rfl) hx0
    obtain ⟨ly0, ly1⟩ := localCoord_bounds y CHUNK_HEIGHT (Or.inr rfl) hy0
    obtain ⟨lz0, lz1⟩ := localCoord_bounds z CHUNK_DEPTH (Or.inl rfl) hz0
    have hb : Chunk.inBounds (localCoord x CHUNK_WIDTH) (localCoord y CHUNK_HEIGHT)
        (localCoord z CHUNK_DEPTH) = true := by
      simp only [Chunk.inBounds, decide_eq_true_eq]
      exact ⟨lx0, lx1, ly0, ly1, lz0, lz1⟩
    refine ⟨?_, ?_, ?_, hsome, (localCoord x CHUNK_WIDTH).toNat,
      (localCoord y CHUNK_HEIGHT).toNat, (localCoord z CHUNK_DEPTH).toNat, ?_, ?_, ?_, ?_⟩
    · subst hceq
      simp only [WORLD_WIDTH] at hx1 ⊢
      simp; omega
    · subst hceq
      simp only [WORLD_HEIGHT] at hy1 ⊢
      simp; omega
    · subst hceq
      simp only [WORLD_DEPTH] at hz1 ⊢
      simp; omega
    · simp only [Chunk.getBlockRef, hb, if_true]
    · simp only [CHUNK_WIDTH] at lx1 ⊢
      simp; omega
    · simp only [CHUNK_HEIGHT] at ly1 ⊢
      simp; omega
    · simp only [CHUNK_DEPTH] at lz1 ⊢
      simp; omega
  · cases h

theorem getBlockAt_ne_defaultBlock {w : World} {x y z : Int} {p : BlockPtr}
    (h : w.getBlockAt x y z = some p) : p.cell ≠ CellRef.defaultBlock := by
  obtain ⟨_, _, _, _, a, b, c, hc, _⟩ := getBlockAt_valid h
  rw [hc]
  intro h'
  cases h'

/-- Inside the world volume of a populated grid, `getBlockAt` returns the
pointer to the cell with the floor quotients and remainders as indices. -/
theorem getBlockAt_inWorld {w : World} (hp : w.Populated) {x y z : Int}
    (hx : 0 ≤ x ∧ x < 128) (hy : 0 ≤ y ∧ y < 512) (hz : 0 ≤ z ∧ z < 128) :
    w.getBlockAt x y z =
      some ⟨⟨(x / 16).toNat, (y / 128).toNat, (z / 16).toNat⟩,
        CellRef.stored (x % 16).toNat (y % 128).toNat (z % 16).toNat⟩ := by
  unfold getBlockAt
  simp only [CHUNK_WIDTH, CHUNK_HEIGHT, CHUNK_DEPTH]
  rw [chunkIndex_of_nonneg x 16 hx.1 (by omega), chunkIndex_of_nonneg y 128 hy.1 (by omega),
    chunkIndex_of_nonneg z 16 hz.1 (by omega),
    getChunkAt_of_populated hp (by omega) (by omega) (by omega)]
  simp only
  rw [localCoord_of_nonneg x 16 hx.1 (by omega), localCoord_of_nonneg y 128 hy.1 (by omega),
    localCoord_of_nonneg z 16 hz.1 (by omega)]
  have hb : Chunk.inBounds (x % 16) (y % 128) (z % 16) = true := by
    simp only [Chunk.inBounds, decide_eq_true_eq, CHUNK_WIDTH, CHUNK_HEIGHT, CHUNK_DEPTH]
    omega
  simp only [Chunk.getBlockRef, hb, if_true]

theorem chunk_store_isSome (w : World) (p : BlockPtr) (b : Block) (c : ChunkPtr) :
    ((w.store p b).chunk c).isSome = (w.chunk c).isSome := by
  unfold store
  split
  · next ch hch =>
    simp only [chunk, setChunk]
    by_cases he : p.chunk.cx = c.cx ∧ p.chunk.cy = c.cy ∧ p.chunk.cz = c.cz
    · obtain ⟨h1, h2, h3⟩ := he
      simp only [chunk, h1, h2, h3] at hch
      rcases Vec3.get_set_cases w.chunks c.cx c.cy c.cz c.cx c.cy c.cz
        (some (ch.store w.defaultBlock p.cell b).1) with h' | h'
      · rw [h1, h2, h3, h', hch]; rfl
      · rw [h1, h2, h3, h']
    · rw [Vec3.get_set_ne _ he]
  · rfl

theorem getChunkAt_store (w : World) (p : BlockPtr) (b : Block) (x y z : Int) :
    (w.store p b).getChunkAt x y z = w.getChunkAt x y z := by
  have h := chunk_store_isSome w p b ⟨x.toNat, y.toNat, z.toNat⟩
  simp only [chunk] at h
  unfold getChunkAt
  split
  · cases h1 : (w.store p b).chunks.get x.toNat y.toNat z.toNat <;>
      cases h2 : w.chunks.get x.toNat y.toNat z.toNat <;>
      simp [h1, h2] at h ⊢
  · rfl

/-- Assignments through block pointers do not change what `getBlockAt` returns. -/
theorem getBlockAt_store (w : World) (p : BlockPtr) (b : Block) (x y z : Int) :
    (w.store p b).getBlockAt x y z = w.getBlockAt x y z := by
  unfold getBlockAt
  simp only [getChunkAt_store]

theorem ptr_load_store_same {w : World} (hw : w.WF) {p : BlockPtr} (hp : w.ValidPtr p)
    (b : Block) : (w.store p b).load p = b := by
  obtain ⟨h1, h2, h3, h4, x, y, z, hc, hx, hy, hz⟩ := hp
  cases hch : w.chunk p.chunk with
  | none => rw [hch] at h4; cases h4
  | some c =>
    have hcwf : c.WF := hw.2 _ _ _ c hch
    have hch' : w.chunks.get p.chunk.cx p.chunk.cy p.chunk.cz = some c := hch
    simp only [store, load, chunk, hch']
    rw [get_setChunk_same hw h1 h2 h3, hc]
    exact Chunk.load_store_same hcwf hx hy hz b w.defaultBlock

theorem ptr_load_store_ne {w : World} (hw : w.WF) {p : BlockPtr} (hp : w.ValidPtr p)
    {q : BlockPtr} (hne : q ≠ p) (b : Block) : (w.store p b).load q = w.load q := by
  obtain ⟨h1, h2, h3, h4, x, y, z, hc, -⟩ := hp
  cases hch : w.chunk p.chunk with
  | none => simp only [store, hch]
  | some c =>
    have hch' : w.chunks.get p.chunk.cx p.chunk.cy p.chunk.cz = some c := hch
    have hd : (c.store w.defaultBlock p.cell b).2 = w.defaultBlock := by
      rw [hc]
      rfl
    simp only [store, load, chunk, hch']
    by_cases he : p.chunk.cx = q.chunk.cx ∧ p.chunk.cy = q.chunk.cy ∧ p.chunk.cz = q.chunk.cz
    · obtain ⟨e1, e2, e3⟩ := he
      have hcell : q.cell ≠ p.cell := by
        intro hcell
        apply hne
        obtain ⟨⟨a1, a2, a3⟩, qc⟩ := q
        obtain ⟨⟨b1, b2, b3⟩, pc⟩ := p
        simp only at e1 e2 e3 hcell
        subst e1 e2 e3 hcell
        rfl
      rw [← e1, ← e2, ← e3, get_setChunk_same hw h1 h2 h3, hch']
      exact Chunk.load_store_ne c w.defaultBlock hcell b
    · rw [get_setChunk_ne _ he, hd]

/-- An assignment through a pointer to a stored block leaves the static block
as it is. -/
theorem defaultBlock_store {w : World} {p : BlockPtr} (hp : w.ValidPtr p) (b : Block) :
    (w.store p b).defaultBlock = w.defaultBlock := by
  obtain ⟨-, -, -, -, x, y, z, hc, -⟩ := hp
  unfold store
  split
  · simp only [hc]
    rfl
  · rfl

theorem validPtr_store {w : World} (p : BlockPtr) (b : Block) {q : BlockPtr}
    (hq : w.ValidPtr q) : (w.store p b).ValidPtr q := by
  obtain ⟨h1, h2, h3, h4, h5⟩ := hq
  exact ⟨h1, h2, h3, by rw [chunk_store_isSome]; exact h4, h5⟩

end World

/-! ## Theorems on world lookup -/

/-- C2 (the code departs from the claim): at world coordinate `-1` on an axis
of extent 16, `getBlockAt` computes the chunk index `-1 / 16 = 0` (truncating
division) where floor division gives `-1`, and the local coordinate `15`;
recomposing index and local coordinate gives `15`, not `-1`. -/
theorem decomposition_of_minus_one :
    chunkIndex (-1) CHUNK_WIDTH = 0 ∧ Int.fdiv (-1) CHUNK_WIDTH = -1 ∧
    localCoord (-1) CHUNK_WIDTH = 15 ∧ Int.fmod (-1) CHUNK_WIDTH = 15 ∧
    chunkIndex (-1) CHUNK_WIDTH * CHUNK_WIDTH + localCoord (-1) CHUNK_WIDTH = 15 := by
  decide

/-- C3 (the code departs from the claim): after generation of a newly
constructed world, `getBlockAt(-1, 0, 0)`, a coordinate outside the world
volume, is not null: it is the pointer to the stored block `(15, 0, 0)` of
chunk `(0, 0, 0)`, the very pointer `getBlockAt(15, 0, 0)` returns, and an
assignment through it changes the block read at world coordinate `(15, 0, 0)`. -/
theorem getBlockAt_minus_one_found (T : Trig) (r : Rand) (b : Block) :
    (generateWorld T ⟨World.new, r⟩).world.getBlockAt (-1) 0 0 =
      some ⟨⟨0, 0, 0⟩, CellRef.stored 15 0 0⟩ ∧
    (generateWorld T ⟨World.new, r⟩).world.getBlockAt 15 0 0 =
      some ⟨⟨0, 0, 0⟩, CellRef.stored 15 0 0⟩ ∧
    ((generateWorld T ⟨World.new, r⟩).world.store ⟨⟨0, 0, 0⟩, CellRef.stored 15 0 0⟩ b).load
      ⟨⟨0, 0, 0⟩, CellRef.stored 15 0 0⟩ = b := by
  have hwf := generateWorld_wf T ⟨World.new, r⟩ World.grid_wf_new
  have hp := generateWorld_populated T ⟨World.new, r⟩ World.grid_wf_new
  have h15 := World.getBlockAt_inWorld hp (x := 15) (y := 0) (z := 0)
    (by decide) (by decide) (by decide)
  have hm1 : (generateWorld T ⟨World.new, r⟩).world.getBlockAt (-1) 0 0 =
      some ⟨⟨0, 0, 0⟩, CellRef.stored 15 0 0⟩ := by
    unfold World.getBlockAt
    have e1 : chunkIndex (-1) CHUNK_WIDTH = 0 := by decide
    have e2 : chunkIndex 0 CHUNK_HEIGHT = 0 := by decide
    have e3 : chunkIndex 0 CHUNK_DEPTH = 0 := by decide
    simp only [e1, e2, e3]
    rw [World.getChunkAt_of_populated hp (by decide) (by decide) (by decide)]
    rfl
  refine ⟨hm1, h15, ?_⟩
  exact World.ptr_load_store_same hwf (World.getBlockAt_valid hm1) b

/-- C4: after generation of a world with a well-formed grid, for a chunk index
in `[0,8) x [0,4) x [0,8)` and a local coordinate in `[0,16) x [0,128) x [0,16)`,
`getChunkAt` finds the chunk and `getBlockAt` at
`(cx*CHUNK_WIDTH + lx, cy*CHUNK_HEIGHT + ly, cz*CHUNK_DEPTH + lz)` returns the
pointer to the block that `getBlock(lx, ly, lz)` of that chunk refers to, which
is the stored block `blocks[lx][ly][lz]`; reading through the pointer is
reading `getBlock(lx, ly, lz)` of the chunk. -/
theorem getBlockAt_addresses_chunk_cell (T : Trig) (s : GenState) (hs : s.world.WF)
    (cx cy cz lx ly lz : Int)
    (hcx : 0 ≤ cx ∧ cx < 8) (hcy : 0 ≤ cy ∧ cy < 4) (hcz : 0 ≤ cz ∧ cz < 8)
    (hlx : 0 ≤ lx ∧ lx < 16) (hly : 0 ≤ ly ∧ ly < 128) (hlz : 0 ≤ lz ∧ lz < 16) :
    ∃ ch : ChunkPtr,
      (generateWorld T s).world.getChunkAt cx cy cz = some ch ∧
      (generateWorld T s).world.getBlockAt
        (cx * CHUNK_WIDTH + lx) (cy * CHUNK_HEIGHT + ly) (cz * CHUNK_DEPTH + lz) =
        some ⟨ch, Chunk.getBlockRef lx ly lz⟩ ∧
      Chunk.getBlockRef lx ly lz = CellRef.stored lx.toNat ly.toNat lz.toNat ∧
      ∀ c : Chunk, (generateWorld T s).world.chunk ch = some c →
        (generateWorld T s).world.load ⟨ch, Chunk.getBlockRef lx ly lz⟩ =
          c.getBlock (generateWorld T s).world.defaultBlock lx ly lz := by
  have hp := generateWorld_populated T s hs
  have hb : Chunk.inBounds lx ly lz = true :=
    (Chunk.inBounds_iff lx ly lz).2 ⟨hlx.1, hlx.2, hly.1, hly.2, hlz.1, hlz.2⟩
  refine ⟨⟨cx.toNat, cy.toNat, cz.toNat⟩, World.getChunkAt_of_populated hp hcx hcy hcz, ?_, ?_, ?_⟩
  · rw [World.getBlockAt_inWorld hp (by simp only [CHUNK_WIDTH]; omega)
      (by simp only [CHUNK_HEIGHT]; omega) (by simp only [CHUNK_DEPTH]; omega)]
    simp only [CHUNK_WIDTH, CHUNK_HEIGHT, CHUNK_DEPTH, Chunk.getBlockRef, hb, if_true]
    have e1 : (cx * 16 + lx) / 16 = cx := by omega
    have e2 : (cy * 128 + ly) / 128 = cy := by omega
    have e3 : (cz * 16 + lz) / 16 = cz := by omega
    have e4 : (cx * 16 + lx) % 16 = lx := by omega
    have e5 : (cy * 128 + ly) % 128 = ly := by omega
    have e6 : (cz * 16 + lz) % 16 = lz := by omega
    rw [e1, e2, e3, e4, e5, e6]
  · simp only [Chunk.getBlockRef, hb, if_true]
  · intro c hc
    simp only [World.load, hc, Chunk.getBlock]

theorem getBlockAt_addresses_chunk_cell_witness :
    World.new.WF ∧
    ∃ ch : ChunkPtr,
      (generateWorld ⟨fun _ => 0, fun _ => 0⟩ ⟨World.new, ⟨fun _ => 0, 0⟩⟩).world.getChunkAt
        7 3 0 = some ch ∧
      (generateWorld ⟨fun _ => 0, fun _ => 0⟩ ⟨World.new, ⟨fun _ => 0, 0⟩⟩).world.getBlockAt
        (7 * CHUNK_WIDTH + 15) (3 * CHUNK_HEIGHT + 127) (0 * CHUNK_DEPTH + 0) =
        some ⟨ch, Chunk.getBlockRef 15 127 0⟩ ∧
      Chunk.getBlockRef 15 127 0 =
        CellRef.stored (15 : Int).toNat (127 : Int).toNat (0 : Int).toNat ∧
      ∀ c : Chunk,
        (generateWorld ⟨fun _ => 0, fun _ => 0⟩ ⟨World.new, ⟨fun _ => 0, 0⟩⟩).world.chunk ch =
          some c →
        (generateWorld ⟨fun _ => 0, fun _ => 0⟩ ⟨World.new, ⟨fun _ => 0, 0⟩⟩).world.load
          ⟨ch, Chunk.getBlockRef 15 127 0⟩ =
          c.getBlock
            (generateWorld ⟨fun _ => 0, fun _ => 0⟩ ⟨World.new, ⟨fun _ => 0, 0⟩⟩).world.defaultBlock
            15 127 0 :=
  ⟨World.grid_wf_new,
   getBlockAt_addresses_chunk_cell ⟨fun _ => 0, fun _ => 0⟩ ⟨World.new, ⟨fun _ => 0, 0⟩⟩
     World.grid_wf_new 7 3 0 15 127 0 (by decide) (by decide) (by decide) (by decide)
     (by decide) (by decide)⟩

/-! ## Lemmas on addressing by world coordinate -/

namespace Chunk

theorem load_new_stored (pos : Vector3) (d : Block) (x y z : Nat) :
    (Chunk.new pos).load d (CellRef.stored x y z) = Block.default := by
  simp only [load, Chunk.new]
  rcases Vec3.get_fill_cases CHUNK_WIDTH.toNat CHUNK_HEIGHT.toNat CHUNK_DEPTH.toNat x y z
    Block.default with h | h <;> rw [h]
  rfl

theorem load_new (pos : Vector3) (r : CellRef) :
    (Chunk.new pos).load Block.default r = Block.default := by
  cases r with
  | defaultBlock => rfl
  | stored x y z => exact load_new_stored pos _ x y z

end Chunk

namespace World

theorem cellPtr_valid {w : World} (hp : w.Populated) {x y z : Int}
    (hx : 0 ≤ x ∧ x < 128) (hy : 0 ≤ y ∧ y < 512) (hz : 0 ≤ z ∧ z < 128) :
    w.ValidPtr (cellPtr x y z) :=
  getBlockAt_valid (getBlockAt_inWorld hp hx hy hz)

theorem getBlockAt_eq_cellPtr {w : World} (hp : w.Populated) {x y z : Int}
    (hx : 0 ≤ x ∧ x < 128) (hy : 0 ≤ y ∧ y < 512) (hz : 0 ≤ z ∧ z < 128) :
    w.getBlockAt x y z = some (cellPtr x y z) :=
  getBlockAt_inWorld hp hx hy hz

theorem cellPtr_injective {x y z a b c : Int}
    (hx : 0 ≤ x) (hy : 0 ≤ y) (hz : 0 ≤ z) (ha : 0 ≤ a) (hb : 0 ≤ b) (hc : 0 ≤ c)
    (h : cellPtr x y z = cellPtr a b c) : x = a ∧ y = b ∧ z = c := by
  simp only [cellPtr, BlockPtr.mk.injEq, ChunkPtr.mk.injEq, CellRef.stored.injEq] at h
  obtain ⟨⟨h1, h2, h3⟩, h4, h5, h6⟩ := h
  have e1 := congrArg (Nat.cast (R := Int)) h1
  have e2 := congrArg (Nat.cast (R := Int)) h2
  have e3 := congrArg (Nat.cast (R := Int)) h3
  have e4 := congrArg (Nat.cast (R := Int)) h4
  have e5 := congrArg (Nat.cast (R := Int)) h5
  have e6 := congrArg (Nat.cast (R := Int)) h6
  rw [Int.toNat_of_nonneg (by omega), Int.toNat_of_nonneg (by omega)] at e1 e2 e3 e4 e5 e6
  omega

theorem blockAt_withBlock_same {w : World} (hw : w.WF) (hp : w.Populated) {x y z : Int}
    (hx : 0 ≤ x ∧ x < 128) (hy : 0 ≤ y ∧ y < 512) (hz : 0 ≤ z ∧ z < 128) (b : Block) :
    (w.withBlock x y z b).blockAt x y z = b :=
  ptr_load_store_same hw (cellPtr_valid hp hx hy hz) b

theorem blockAt_withBlock_ne {w : World} (hw : w.WF) (hp : w.Populated) {x y z a b c : Int}
    (hx : 0 ≤ x ∧ x < 128) (hy : 0 ≤ y ∧ y < 512) (hz : 0 ≤ z ∧ z < 128)
    (ha : 0 ≤ a) (hb : 0 ≤ b) (hc : 0 ≤ c) (hne : ¬ (a = x ∧ b = y ∧ c = z)) (blk : Block) :
    (w.withBlock x y z blk).blockAt a b c = w.blockAt a b c := by
  apply ptr_load_store_ne hw (cellPtr_valid hp hx hy hz)
  intro h
  exact hne (cellPtr_injective ha hb hc hx.1 hy.1 hz.1 h)

theorem wf_withBlock {w : World} (hw : w.WF) (x y z : Int) (b : Block) :
    (w.withBlock x y z b).WF := grid_wf_store hw _ _

theorem populated_withBlock {w : World} (hp : w.Populated) (x y z : Int) (b : Block) :
    (w.withBlock x y z b).Populated := populated_store hp _ _

end World

namespace Renderer

theorem isBlockAt_inWorld {w : World} (hp : w.Populated) {x y z : Int}
    (hx : 0 ≤ x ∧ x < 128) (hy : 0 ≤ y ∧ y < 512) (hz : 0 ≤ z ∧ z < 128) :
    isBlockAt (some w) x y z = (!(w.blockAt x y z).isEmpty && (w.blockAt x y z).isSolid) := by
  unfold isBlockAt
  simp only [WORLD_WIDTH, WORLD_HEIGHT, WORLD_DEPTH, CHUNK_WIDTH, CHUNK_HEIGHT, CHUNK_DEPTH]
  rw [if_neg (by omega), if_neg (by omega), World.getBlockAt_eq_cellPtr hp hx hy hz]
  rfl

theorem isWaterAt_inWorld {w : World} (hp : w.Populated) {x y z : Int}
    (hx : 0 ≤ x ∧ x < 128) (hy : 0 ≤ y ∧ y < 512) (hz : 0 ≤ z ∧ z < 128) :
    isWaterAt (some w) x y z = decide ((w.blockAt x y z).type = BlockType.WATER) := by
  unfold isWaterAt
  simp only [WORLD_WIDTH, WORLD_HEIGHT, WORLD_DEPTH, CHUNK_WIDTH, CHUNK_HEIGHT, CHUNK_DEPTH]
  rw [if_neg (by omega), if_neg (by omega), World.getBlockAt_eq_cellPtr hp hx hy hz]
  rfl

end Renderer

/-! ## Lemmas on the example world -/

theorem airWorld_slot (i j k : Nat) :
    airWorld.chunks.get i j k = none ∨
      ∃ pos : Vector3, airWorld.chunks.get i j k = some (Chunk.new pos) := by
  unfold Vec3.get airWorld
  simp only
  by_cases hi : i < 8
  · rw [Vec3.getD_of_lt _ i _ (by simpa using hi), Array.getElem_ofFn]
    by_cases hj : j < 4
    · rw [Vec3.getD_of_lt _ j _ (by simpa using hj), Array.getElem_ofFn]
      by_cases hk : k < 8
      · right
        rw [Vec3.getD_of_lt _ k _ (by simpa using hk), Array.getElem_ofFn]
        exact ⟨_, rfl⟩
      · left
        rw [Vec3.getD_of_not_lt _ k _ (by simpa using hk)]
        rfl
    · left
      rw [Vec3.getD_of_not_lt _ j _ (by simpa using hj)]
      rfl
  · left
    rw [Vec3.getD_of_not_lt _ i _ (by simpa using hi)]
    rfl

theorem airWorld_wf : airWorld.WF := by
  refine ⟨⟨by simp [airWorld, WORLD_WIDTH], ?_⟩, ?_⟩
  · intro i hi
    simp only [airWorld, Array.getElem_ofFn, Array.size_ofFn, WORLD_HEIGHT, WORLD_DEPTH]
    refine ⟨rfl, ?_⟩
    intro j hj
    simp
  · intro i j k c h
    rcases airWorld_slot i j k with h' | ⟨pos, h'⟩
    · rw [h'] at h; cases h
    · rw [h'] at h; cases h; exact Chunk.wf_new pos

theorem airWorld_populated : airWorld.Populated := by
  intro i j k hi hj hk
  simp only [WORLD_WIDTH, WORLD_HEIGHT, WORLD_DEPTH] at hi hj hk
  have hi' : i < 8 := by simpa using hi
  have hj' : j < 4 := by simpa using hj
  have hk' : k < 8 := by simpa using hk
  unfold Vec3.get airWorld
  simp only
  rw [Vec3.getD_of_lt _ i _ (by simpa using hi'), Array.getElem_ofFn,
    Vec3.getD_of_lt _ j _ (by simpa using hj'), Array.getElem_ofFn,
    Vec3.getD_of_lt _ k _ (by simpa using hk'), Array.getElem_ofFn]
  rfl

theorem airWorld_load (p : BlockPtr) : airWorld.load p = Block.default := by
  unfold World.load World.chunk
  rcases airWorld_slot p.chunk.cx p.chunk.cy p.chunk.cz with h | ⟨pos, h⟩
  · rw [h]
  · rw [h]
    exact Chunk.load_new pos p.cell

/-! ## Lemmas on the physics tick -/

namespace Renderer

theorem swingStep_fields (r : Renderer) (dt : ℚ) :
    (swingStep r dt).cameraPosition = r.cameraPosition ∧
    (swingStep r dt).velocity = r.velocity ∧
    (swingStep r dt).isOnGround = r.isOnGround ∧
    (swingStep r dt).isJumping = r.isJumping ∧
    (swingStep r dt).isInWater = r.isInWater ∧
    (swingStep r dt).isSwimming = r.isSwimming ∧
    (swingStep r dt).flightMode = r.flightMode := by
  unfold swingStep
  split
  · simp only
    split <;> simp
  · simp

theorem moveX_of_velocity_x_zero (world : Option World) (r : Renderer) (dt : ℚ)
    (h : r.velocity.x = 0) : moveX world r dt = r := by
  obtain ⟨⟨px, py, pz⟩, ⟨vx, vy, vz⟩, _⟩ := r
  simp only at h
  subst h
  unfold moveX
  simp only [zero_mul, add_zero]
  split <;> rfl

theorem moveZ_of_velocity_z_zero (world : Option World) (r : Renderer) (dt : ℚ)
    (h : r.velocity.z = 0) : moveZ world r dt = r := by
  obtain ⟨⟨px, py, pz⟩, ⟨vx, vy, vz⟩, _⟩ := r
  simp only at h
  subst h
  unfold moveZ
  simp only [zero_mul, add_zero]
  split <;> rfl

/-- Gravity in air on a player who is not on the ground. -/
theorem applyGravity_air (world : Option World) (r : Renderer) (dt : ℚ)
    (hhead : isWaterAt world (Int.floor r.cameraPosition.x) (Int.floor r.cameraPosition.y)
      (Int.floor r.cameraPosition.z) = false)
    (hbody : isWaterAt world (Int.floor r.cameraPosition.x)
      (Int.floor (r.cameraPosition.y - 1 / 2)) (Int.floor r.cameraPosition.z) = false)
    (hog : r.isOnGround = false)
    (hterm : terminalVelocity ≤ r.velocity.y + airGravity * dt) :
    applyGravity world r dt =
      { r with isInWater := false, isSwimming := false,
               velocity := ⟨r.velocity.x, r.velocity.y + airGravity * dt, r.velocity.z⟩ } := by
  unfold applyGravity
  simp only [hhead, hbody, Bool.or_self, hog, Bool.not_false, if_true,
    if_neg (not_lt.mpr hterm)]
  simp

/-- One tick in normal mode for a player in air, not on the ground, without
horizontal velocity, whose velocity after gravity is negative and above the
terminal velocity: the player lands on the destination foot cell when it is
solid and falls freely otherwise. -/
theorem update_air_fall (world : Option World) (r : Renderer) (dt : ℚ)
    (hfly : r.flightMode = false)
    (hhead : isWaterAt world (Int.floor r.cameraPosition.x) (Int.floor r.cameraPosition.y)
      (Int.floor r.cameraPosition.z) = false)
    (hbody : isWaterAt world (Int.floor r.cameraPosition.x)
      (Int.floor (r.cameraPosition.y - 1 / 2)) (Int.floor r.cameraPosition.z) = false)
    (hog : r.isOnGround = false) (hvx : r.velocity.x = 0) (hvz : r.velocity.z = 0)
    (hterm : terminalVelocity ≤ r.velocity.y + airGravity * dt)
    (hneg : r.velocity.y + airGravity * dt < 0) :
    (isBlockAt world (Int.floor r.cameraPosition.x)
        (Int.floor (r.cameraPosition.y + (r.velocity.y + airGravity * dt) * dt - playerHeight))
        (Int.floor r.cameraPosition.z) = true →
      (update world r dt).cameraPosition =
        ⟨r.cameraPosition.x,
         ((Int.floor (r.cameraPosition.y + (r.velocity.y + airGravity * dt) * dt - playerHeight) :
            Int) : ℚ) + 1 + playerHeight,
         r.cameraPosition.z⟩ ∧
      (update world r dt).velocity = ⟨0, 0, 0⟩ ∧
      (update world r dt).isOnGround = true ∧
      (update world r dt).isJumping = false ∧
      (update world r dt).isInWater = false) ∧
    (isBlockAt world (Int.floor r.cameraPosition.x)
        (Int.floor (r.cameraPosition.y + (r.velocity.y + airGravity * dt) * dt - playerHeight))
        (Int.floor r.cameraPosition.z) = false →
      (update world r dt).cameraPosition =
        ⟨r.cameraPosition.x, r.cameraPosition.y + (r.velocity.y + airGravity * dt) * dt,
         r.cameraPosition.z⟩ ∧
      (update world r dt).velocity = ⟨0, r.velocity.y + airGravity * dt, 0⟩ ∧
      (update world r dt).isOnGround = false ∧
      (update world r dt).isJumping = r.isJumping ∧
      (update world r dt).isInWater = false) := by
  obtain ⟨hc, hv, hg, hj, -, -, -⟩ := swingStep_fields r dt
  have hgrav := applyGravity_air world (swingStep r dt) dt (by rw [hc]; exact hhead)
    (by rw [hc]; exact hbody) (by rw [hg]; exact hog) (by rw [hv]; exact hterm)
  simp only [update, hfly, Bool.false_eq_true, if_false]
  rw [hgrav, moveX_of_velocity_x_zero _ _ _ (by simp [hv, hvx]),
    moveZ_of_velocity_z_zero _ _ _ (by simp [hv, hvz])]
  simp only [hc, hv, hj]
  constructor
  · intro hb
    simp [moveY, applyFriction, hneg, hb, hvx, hvz]
  · intro hb
    simp [moveY, applyFriction, hneg, hb, hvx, hvz, hj]

end Renderer

/-! ## The landing scenario -/

theorem landingWorld_facts :
    landingWorld.Populated ∧
    Renderer.isWaterAt (some landingWorld) 5 12 5 = false ∧
    Renderer.isBlockAt (some landingWorld) 5 10 5 = true ∧
    Renderer.isBlockAt (some landingWorld) 5 11 5 = false ∧
    Renderer.isBlockAt (some landingWorld) 5 9 5 = false := by
  have hp : landingWorld.Populated :=
    World.populated_withBlock airWorld_populated 5 10 5 (Block.ofType BlockType.STONE)
  have hne : ∀ b : Int, 0 ≤ b → b ≠ 10 → landingWorld.blockAt 5 b 5 = Block.default := by
    intro b hb0 hb
    unfold landingWorld
    rw [World.blockAt_withBlock_ne airWorld_wf airWorld_populated (by decide) (by decide)
      (by decide) (by decide) hb0 (by decide) (fun h => hb h.2.1)]
    exact airWorld_load _
  have hsame : landingWorld.blockAt 5 10 5 = Block.ofType BlockType.STONE :=
    World.blockAt_withBlock_same airWorld_wf airWorld_populated (by decide) (by decide)
      (by decide) _
  refine ⟨hp, ?_, ?_, ?_, ?_⟩
  · rw [Renderer.isWaterAt_inWorld hp (by decide) (by decide) (by decide),
      hne 12 (by decide) (by decide)]
    rfl
  · rw [Renderer.isBlockAt_inWorld hp (by decide) (by decide) (by decide), hsame]
    rfl
  · rw [Renderer.isBlockAt_inWorld hp (by decide) (by decide) (by decide),
      hne 11 (by decide) (by decide)]
    rfl
  · rw [Renderer.isBlockAt_inWorld hp (by decide) (by decide) (by decide),
      hne 9 (by decide) (by decide)]
    rfl

theorem floor_eleven_halves : Int.floor (11 / 2 : ℚ) = 5 := by
  norm_num [Int.floor_eq_iff]

theorem floor_head (g : Int) : Int.floor ((g : ℚ) + 1 + 9 / 5) = g + 2 := by
  rw [Int.floor_eq_iff]
  push_cast
  constructor <;> linarith

theorem floor_body (g : Int) : Int.floor ((g : ℚ) + 1 + 9 / 5 - 1 / 2) = g + 2 := by
  rw [Int.floor_eq_iff]
  push_cast
  constructor <;> linarith

theorem floor_feet_landing (g : Int) (v : ℚ) (h1 : -15 / 2 ≤ v) (h2 : v < 5 / 2) :
    Int.floor ((g : ℚ) + 1 + 9 / 5 +
      (v + Renderer.airGravity * (1 / 10)) * (1 / 10) - Renderer.playerHeight) = g := by
  rw [Int.floor_eq_iff]
  simp only [Renderer.airGravity, Renderer.playerHeight]
  constructor <;> linarith

theorem floor_feet_ten (g : Int) :
    Int.floor ((g : ℚ) + 1 + 9 / 5 +
      (-10 + Renderer.airGravity * (1 / 10)) * (1 / 10) - Renderer.playerHeight) = g - 1 := by
  rw [Int.floor_eq_iff]
  simp only [Renderer.airGravity, Renderer.playerHeight]
  push_cast
  constructor <;> linarith

/-- C8, as amended: a player in normal mode, off the ground, without
horizontal velocity, at `(x, groundY + 1 + 1.8, z)` with head and chest not in
water, over a solid block at `(floor x, groundY, floor z)`, makes one tick with
`dt = 0.1`; gravity first changes the vertical velocity `v` to `v - 2.5`.
If `-7.5 ≤ v < 2.5` the feet end in cell `groundY` and the player is at
`y = groundY + 1 + 1.8` exactly, on the ground, with vertical velocity 0.
If `v = -10` the feet end in cell `groundY - 1`: when that cell is solid the
player is put at `y = groundY + 1.8`, on the ground, with vertical velocity 0;
when it is not solid the player is at `y = groundY + 1.55`, not on the ground,
with vertical velocity `-12.5`. -/
theorem landing_tick (world : Option World) (r : Renderer) (x z v : ℚ) (groundY : Int)
    (hfly : r.flightMode = false) (hog : r.isOnGround = false)
    (hpos : r.cameraPosition = ⟨x, (groundY : ℚ) + 1 + 9 / 5, z⟩)
    (hvel : r.velocity = ⟨0, v, 0⟩)
    (hwater : Renderer.isWaterAt world (Int.floor x) (groundY + 2) (Int.floor z) = false)
    (hsolid : Renderer.isBlockAt world (Int.floor x) groundY (Int.floor z) = true) :
    (-15 / 2 ≤ v ∧ v < 5 / 2 →
      (Renderer.update world r (1 / 10)).cameraPosition.y = (groundY : ℚ) + 1 + 9 / 5 ∧
      (Renderer.update world r (1 / 10)).isOnGround = true ∧
      (Renderer.update world r (1 / 10)).velocity.y = 0) ∧
    (v = -10 →
      (Renderer.isBlockAt world (Int.floor x) (groundY - 1) (Int.floor z) = true →
        (Renderer.update world r (1 / 10)).cameraPosition.y = (groundY : ℚ) + 9 / 5 ∧
        (Renderer.update world r (1 / 10)).isOnGround = true ∧
        (Renderer.update world r (1 / 10)).velocity.y = 0) ∧
      (Renderer.isBlockAt world (Int.floor x) (groundY - 1) (Int.floor z) = false →
        (Renderer.update world r (1 / 10)).cameraPosition.y = (groundY : ℚ) + 31 / 20 ∧
        (Renderer.update world r (1 / 10)).isOnGround = false ∧
        (Renderer.update world r (1 / 10)).velocity.y = -25 / 2)) := by
  have hhead : Renderer.isWaterAt world (Int.floor r.cameraPosition.x)
      (Int.floor r.cameraPosition.y) (Int.floor r.cameraPosition.z) = false := by
    rw [hpos]; simp only; rw [floor_head]; exact hwater
  have hbody : Renderer.isWaterAt world (Int.floor r.cameraPosition.x)
      (Int.floor (r.cameraPosition.y - 1 / 2)) (Int.floor r.cameraPosition.z) = false := by
    rw [hpos]; simp only; rw [floor_body]; exact hwater
  have hvx : r.velocity.x = 0 := by rw [hvel]
  have hvz : r.velocity.z = 0 := by rw [hvel]
  have hvy : r.velocity.y = v := by rw [hvel]
  constructor
  · rintro ⟨h1, h2⟩
    have H := (Renderer.update_air_fall world r (1 / 10) hfly hhead hbody hog hvx hvz
      (by rw [hvy]; simp only [Renderer.terminalVelocity, Renderer.airGravity]; linarith)
      (by rw [hvy]; simp only [Renderer.airGravity]; linarith)).1
    rw [hpos, hvy] at H
    simp only at H
    rw [floor_feet_landing groundY v h1 h2] at H
    obtain ⟨e1, e2, e3, -, -⟩ := H hsolid
    rw [e1, e2, e3]
    simp [Renderer.playerHeight]
  · rintro rfl
    have H := Renderer.update_air_fall world r (1 / 10) hfly hhead hbody hog hvx hvz
      (by rw [hvy]; simp only [Renderer.terminalVelocity, Renderer.airGravity]; norm_num)
      (by rw [hvy]; simp only [Renderer.airGravity]; norm_num)
    rw [hpos, hvy] at H
    simp only at H
    rw [floor_feet_ten groundY] at H
    constructor
    · intro hb
      obtain ⟨e1, e2, e3, -, -⟩ := H.1 hb
      rw [e1, e2, e3]
      refine ⟨?_, rfl, rfl⟩
      simp only [Renderer.playerHeight]
      push_cast
      ring
    · intro hb
      obtain ⟨e1, e2, e3, -, -⟩ := H.2 hb
      rw [e1, e2, e3]
      refine ⟨?_, rfl, ?_⟩
      · simp only [Renderer.airGravity]
        ring
      · simp only [Renderer.airGravity]
        norm_num

theorem landing_tick_witness :
    ((Renderer.update (some landingWorld) (fallingPlayer (-5)) (1 / 10)).cameraPosition.y =
        ((10 : Int) : ℚ) + 1 + 9 / 5 ∧
      (Renderer.update (some landingWorld) (fallingPlayer (-5)) (1 / 10)).isOnGround = true ∧
      (Renderer.update (some landingWorld) (fallingPlayer (-5)) (1 / 10)).velocity.y = 0) ∧
    ((Renderer.update (some landingWorld) (fallingPlayer (-10)) (1 / 10)).cameraPosition.y =
        ((10 : Int) : ℚ) + 31 / 20 ∧
      (Renderer.update (some landingWorld) (fallingPlayer (-10)) (1 / 10)).isOnGround = false ∧
      (Renderer.update (some landingWorld) (fallingPlayer (-10)) (1 / 10)).velocity.y =
        -25 / 2) :=
  ⟨(landing_tick (some landingWorld) (fallingPlayer (-5)) (11 / 2) (11 / 2) (-5) 10 rfl rfl rfl
      rfl (by rw [floor_eleven_halves]; exact landingWorld_facts.2.1)
      (by rw [floor_eleven_halves]; exact landingWorld_facts.2.2.1)).1
      ⟨by norm_num, by norm_num⟩,
   ((landing_tick (some landingWorld) (fallingPlayer (-10)) (11 / 2) (11 / 2) (-10) 10 rfl rfl
      rfl rfl (by rw [floor_eleven_halves]; exact landingWorld_facts.2.1)
      (by rw [floor_eleven_halves]; exact landingWorld_facts.2.2.1)).2 rfl).2
      (by rw [floor_eleven_halves]; exact landingWorld_facts.2.2.2.2)⟩

/-- C8, counterexample: in `landingWorld` (Stone at `(5, 10, 5)`, Air above and
below) the player at `(5.5, 10 + 1 + 1.8, 5.5)` with vertical velocity `-10`
satisfies the premises of the scenario, and after one tick with `dt = 0.1` is
at `y = 11.55`, not at `y = 12.8`, is not on the ground and has vertical
velocity `-12.5`. -/
theorem landing_tick_counterexample :
    (fallingPlayer (-10)).flightMode = false ∧ (fallingPlayer (-10)).isOnGround = false ∧
    (fallingPlayer (-10)).isInWater = false ∧
    (fallingPlayer (-10)).cameraPosition = ⟨11 / 2, ((10 : Int) : ℚ) + 1 + 9 / 5, 11 / 2⟩ ∧
    (fallingPlayer (-10)).velocity = ⟨0, -10, 0⟩ ∧
    Renderer.isBlockAt (some landingWorld) (Int.floor (11 / 2 : ℚ)) 10
      (Int.floor (11 / 2 : ℚ)) = true ∧
    Renderer.isBlockAt (some landingWorld) (Int.floor (11 / 2 : ℚ)) 11
      (Int.floor (11 / 2 : ℚ)) = false ∧
    ¬ ((Renderer.update (some landingWorld) (fallingPlayer (-10)) (1 / 10)).cameraPosition.y =
          ((10 : Int) : ℚ) + 1 + 9 / 5 ∧
        (Renderer.update (some landingWorld) (fallingPlayer (-10)) (1 / 10)).isOnGround = true ∧
        (Renderer.update (some landingWorld) (fallingPlayer (-10)) (1 / 10)).velocity.y = 0) := by
  refine ⟨rfl, rfl, rfl, rfl, rfl, ?_, ?_, ?_⟩
  · rw [floor_eleven_halves]; exact landingWorld_facts.2.2.1
  · rw [floor_eleven_halves]; exact landingWorld_facts.2.2.2.1
  · have hhead : Renderer.isWaterAt (some landingWorld)
        (Int.floor (fallingPlayer (-10)).cameraPosition.x)
        (Int.floor (fallingPlayer (-10)).cameraPosition.y)
        (Int.floor (fallingPlayer (-10)).cameraPosition.z) = false := by
      simp only [fallingPlayer]
      rw [floor_eleven_halves, floor_head]
      exact landingWorld_facts.2.1
    have hbody : Renderer.isWaterAt (some landingWorld)
        (Int.floor (fallingPlayer (-10)).cameraPosition.x)
        (Int.floor ((fallingPlayer (-10)).cameraPosition.y - 1 / 2))
        (Int.floor (fallingPlayer (-10)).cameraPosition.z) = false := by
      simp only [fallingPlayer]
      rw [floor_eleven_halves, floor_body]
      exact landingWorld_facts.2.1
    have H := (Renderer.update_air_fall (some landingWorld) (fallingPlayer (-10)) (1 / 10)
      rfl hhead hbody rfl rfl rfl
      (by simp only [fallingPlayer, Renderer.terminalVelocity, Renderer.airGravity]; norm_num)
      (by simp only [fallingPlayer, Renderer.airGravity]; norm_num)).2
    simp only [fallingPlayer] at H
    rw [floor_eleven_halves, floor_feet_ten] at H
    obtain ⟨-, -, e3, -, -⟩ := H landingWorld_facts.2.2.2.2
    rintro ⟨-, h, -⟩
    simp only [fallingPlayer] at h
    rw [e3] at h
    cases h

/-! ## Lemmas on the raycast loop -/

/-- The 46 values of `dist` are below the range, the next is not. -/
theorem distAt_range : (∀ j : Nat, j < 46 → distAt j < maxDistance) ∧ maxDistance ≤ distAt 46 := by
  decide

theorem sampleDistances_eq :
    sampleDistances =
      [67108864, 80530640, 93952416, 107374192, 120795968, 134217744, 147639520, 161061296,
        174483072, 187904848, 201326624, 214748400, 228170176, 241591952, 255013728, 268435488,
        281857248, 295279008, 308700768, 322122528, 335544288, 348966048, 362387808, 375809568,
        389231328, 402653088, 416074848, 429496608, 442918368, 456340128, 469761888, 483183648,
        496605408, 510027168, 523448928, 536870688, 550292480, 563714240, 577136000, 590557760,
        603979520, 617401280, 630823040, 644244800, 657666560, 671088320] := by
  decide

theorem distAt_succ (k : Nat) : distAt (k + 1) = roundFloat (distAt k + stepSize) := by
  rw [distAt]

/-- The raycast loop along any sequence of distances that follows the loop
increment finds the first non-empty sample. -/
theorem raycastLoop_eq_seq (button : Int) (pos ray : Vector3) (t : BlockType) (w : World)
    (seq : Nat → Nat) (hseq : ∀ k : Nat, seq (k + 1) = roundFloat (seq k + stepSize)) :
    ∀ (n k : Nat), (∀ j : Nat, j < n → seq (k + j) < maxDistance) →
      raycastLoop button pos ray t n (seq k) w =
        match ((List.range n).map fun (j : Nat) => seq (k + j)).find?
            (fun (u : Nat) => nonEmptyAt w pos ray (floatValue u)) with
        | some u => hitAction button pos ray t u w
        | none => w := by
  intro n
  induction n with
  | zero => intro k _; rfl
  | succ n ih =>
    intro k hlt
    have e : ∀ j : Nat, k + 1 + j = k + (j + 1) := fun j => by
      rw [Nat.add_assoc, Nat.add_comm 1 j]
    have h0 : seq k < maxDistance := hlt 0 (Nat.succ_pos n)
    have hstep : ∀ j : Nat, j < n → seq (k + 1 + j) < maxDistance := by
      intro j hj
      rw [e]
      exact hlt (j + 1) (Nat.succ_lt_succ hj)
    have hlist : ((List.range (n + 1)).map fun (j : Nat) => seq (k + j)) =
        seq k :: ((List.range n).map fun (j : Nat) => seq (k + 1 + j)) := by
      rw [List.range_succ_eq_map, List.map_cons, List.map_map]
      simp only [Nat.add_zero, List.cons.injEq, true_and]
      apply List.map_congr_left
      intro j _
      simp only [Function.comp]
      rw [e]
    rw [hlist, List.find?_cons]
    simp only [raycastLoop, if_pos h0]
    rw [← hseq]
    by_cases hhit : nonEmptyAt w pos ray (floatValue (seq k)) = true
    · have hhit' : foundNonEmpty w (w.getBlockAt (samplePoint pos ray (floatValue (seq k))).1
          (samplePoint pos ray (floatValue (seq k))).2.1
          (samplePoint pos ray (floatValue (seq k))).2.2) = true := hhit
      simp only [hhit, hhit', if_true]
    · have hhit' : foundNonEmpty w (w.getBlockAt (samplePoint pos ray (floatValue (seq k))).1
          (samplePoint pos ray (floatValue (seq k))).2.1
          (samplePoint pos ray (floatValue (seq k))).2.2) = false := by
        simpa [nonEmptyAt] using hhit
      simp only [Bool.not_eq_true] at hhit
      simp only [hhit, hhit', Bool.false_eq_true, if_false]
      exact ih (k + 1) hstep

/-- The raycast loop of `mouse` acts on the first non-empty sample. -/
theorem raycastLoop_eq_firstHit (button : Int) (pos ray : Vector3) (t : BlockType)
    (w : World) :
    raycastLoop button pos ray t raycastFuel startDistance w =
      match firstHitUnits w pos ray with
      | some u => hitAction button pos ray t u w
      | none => w := by
  have h := raycastLoop_eq_seq button pos ray t w distAt distAt_succ 46 0 (by
    intro j hj
    rw [Nat.zero_add]
    exact distAt_range.1 j hj)
  have hl : ((List.range 46).map fun (j : Nat) => distAt (0 + j)) = sampleDistances := by
    unfold sampleDistances
    apply List.map_congr_left
    intro j _
    rw [Nat.zero_add]
  rw [hl] at h
  exact h

/-- After the iterations in which `dist` is below the range the loop has
ended: more fuel does not change its result. -/
theorem raycastLoop_fuel (button : Int) (pos ray : Vector3) (t : BlockType) (w : World)
    (seq : Nat → Nat) (hseq : ∀ k : Nat, seq (k + 1) = roundFloat (seq k + stepSize)) :
    ∀ (n extra k : Nat), maxDistance ≤ seq (k + n) →
      raycastLoop button pos ray t (n + extra) (seq k) w =
        raycastLoop button pos ray t n (seq k) w := by
  intro n
  induction n with
  | zero =>
    intro extra k h
    have h' : ¬ seq k < maxDistance := by
      rw [Nat.add_zero] at h
      exact Nat.not_lt.2 h
    cases extra with
    | zero => rfl
    | succ e => simp only [Nat.zero_add, raycastLoop, if_neg h']
  | succ n ih =>
    intro extra k h
    have e : n + 1 + extra = (n + extra) + 1 := by
      rw [Nat.add_assoc, Nat.add_comm 1 extra, Nat.add_assoc]
    rw [e]
    simp only [raycastLoop]
    rw [← hseq]
    split
    · split
      · rfl
      · apply ih extra (k + 1)
        have e' : k + 1 + n = k + (n + 1) := by
          rw [Nat.add_assoc, Nat.add_comm 1 n]
        rw [e']
        exact h
    · rfl

/-- The fuel `mouse` gives the raycast loop is enough: with any larger number
of iterations allowed the loop returns the same world. -/
theorem raycastLoop_fuel_enough (button : Int) (pos ray : Vector3) (t : BlockType)
    (w : World) (extra : Nat) :
    raycastLoop button pos ray t (raycastFuel + extra) startDistance w =
      raycastLoop button pos ray t raycastFuel startDistance w := by
  apply raycastLoop_fuel button pos ray t w distAt distAt_succ 46 extra 0
  rw [Nat.zero_add]
  exact distAt_range.2

theorem hitAction_not_right (button : Int) (hb : button ≠ GLUT_RIGHT_BUTTON)
    (pos ray : Vector3) (t : BlockType) (d : Nat) (w : World) :
    hitAction button pos ray t d w = w := by
  simp [hitAction, hb]

theorem raycastLoop_not_right (button : Int) (hb : button ≠ GLUT_RIGHT_BUTTON)
    (pos ray : Vector3) (t : BlockType) (w : World) :
    ∀ (n : Nat) (dist : Nat), raycastLoop button pos ray t n dist w = w := by
  intro n
  induction n with
  | zero => intro dist; rfl
  | succ n ih =>
    intro dist
    simp only [raycastLoop]
    split
    · split
      · exact hitAction_not_right button hb pos ray t dist w
      · exact ih _
    · rfl

theorem breakProbe_not_left (button : Int) (hb : button ≠ GLUT_LEFT_BUTTON)
    (pos ray : Vector3) (w : World) : breakProbe button pos ray w = w := by
  simp [breakProbe, hb]

/-! ## Lemmas on `mouse` -/

theorem ftoi_of_nonneg (q : ℚ) (n : Int) (h0 : 0 ≤ q) (h1 : (n : ℚ) ≤ q)
    (h2 : q < (n : ℚ) + 1) : ftoi q = n := by
  simp only [ftoi, if_pos h0]
  rw [Int.floor_eq_iff]
  exact ⟨h1, h2⟩

/-- A left click: the direct probe acts, the raycast loop changes nothing. -/
theorem mouse_left (pos ray : Vector3) (t : BlockType) (w : World) :
    mouse GLUT_LEFT_BUTTON pos ray t w =
      match w.getBlockAt (samplePoint pos ray 2).1 (samplePoint pos ray 2).2.1
          (samplePoint pos ray 2).2.2 with
      | some p => if (w.load p).isEmpty then w else w.store p (Block.ofType BlockType.AIR)
      | none => w := by
  unfold mouse
  rw [raycastLoop_not_right GLUT_LEFT_BUTTON (by decide)]
  simp only [breakProbe, if_true]
  split
  · next p hp =>
    cases h : (w.load p).isEmpty <;> simp [h]
  · rfl

/-- A right click: the direct probe does nothing, the raycast loop places one
step before the first non-empty sample. -/
theorem mouse_right (pos ray : Vector3) (t : BlockType) (w : World) :
    mouse GLUT_RIGHT_BUTTON pos ray t w =
      match firstHitUnits w pos ray with
      | some n =>
        match w.getBlockAt
            (samplePoint pos ray (floatValue (roundFloat (n - stepSize)))).1
            (samplePoint pos ray (floatValue (roundFloat (n - stepSize)))).2.1
            (samplePoint pos ray (floatValue (roundFloat (n - stepSize)))).2.2 with
        | some p => if (w.load p).isEmpty then w.store p (Block.ofType t) else w
        | none => w
      | none => w := by
  unfold mouse
  rw [breakProbe_not_left GLUT_RIGHT_BUTTON (by decide), raycastLoop_eq_firstHit]
  cases firstHitUnits w pos ray with
  | none => rfl
  | some d => simp only [hitAction, if_true]

/-! ## Lemmas on the block-editing example world -/

theorem twoStoneWorld_facts :
    twoStoneWorld.WF ∧ twoStoneWorld.Populated ∧
    twoStoneWorld.blockAt 11 10 10 = Block.ofType BlockType.STONE ∧
    twoStoneWorld.blockAt 12 10 10 = Block.ofType BlockType.STONE := by
  have hw1 := World.wf_withBlock airWorld_wf 11 10 10 (Block.ofType BlockType.STONE)
  have hp1 := World.populated_withBlock airWorld_populated 11 10 10
    (Block.ofType BlockType.STONE)
  refine ⟨World.wf_withBlock hw1 _ _ _ _, World.populated_withBlock hp1 _ _ _ _, ?_, ?_⟩
  · unfold twoStoneWorld
    rw [World.blockAt_withBlock_ne hw1 hp1 (by decide) (by decide) (by decide) (by decide)
      (by decide) (by decide) (by decide)]
    exact World.blockAt_withBlock_same airWorld_wf airWorld_populated (by decide) (by decide)
      (by decide) _
  · exact World.blockAt_withBlock_same hw1 hp1 (by decide) (by decide) (by decide) _

theorem samplePoint_example (d : ℚ) (n : Int) (h0 : 0 ≤ d) (h1 : (n : ℚ) ≤ 21 / 2 + d)
    (h2 : 21 / 2 + d < (n : ℚ) + 1) :
    samplePoint examplePos exampleRay d = (n, 10, 10) := by
  simp only [samplePoint, examplePos, exampleRay, one_mul, zero_mul, add_zero]
  rw [ftoi_of_nonneg (21 / 2 + d) n (by linarith) h1 h2,
    ftoi_of_nonneg (21 / 2) 10 (by norm_num) (by norm_num) (by norm_num)]

/-- For a sample inside the world volume of a populated grid, the block
`getBlockAt` finds at the integer coordinates of the sample is the block of
the grid cell that contains the sample. -/
theorem getBlockAt_samplePoint_inWorld {w : World} (hp : w.Populated) (pos ray : Vector3)
    (e : ℚ) (hx : 0 ≤ pos.x + ray.x * e ∧ pos.x + ray.x * e < 128)
    (hy : 0 ≤ pos.y + ray.y * e ∧ pos.y + ray.y * e < 512)
    (hz : 0 ≤ pos.z + ray.z * e ∧ pos.z + ray.z * e < 128) :
    w.getBlockAt (samplePoint pos ray e).1 (samplePoint pos ray e).2.1
        (samplePoint pos ray e).2.2 =
      some (World.cellPtr (Int.floor (pos.x + ray.x * e)) (Int.floor (pos.y + ray.y * e))
        (Int.floor (pos.z + ray.z * e))) := by
  simp only [samplePoint, ftoi, if_pos hx.1, if_pos hy.1, if_pos hz.1]
  apply World.getBlockAt_eq_cellPtr hp
  · exact ⟨Int.floor_nonneg.2 hx.1, Int.floor_lt.2 (by exact_mod_cast hx.2)⟩
  · exact ⟨Int.floor_nonneg.2 hy.1, Int.floor_lt.2 (by exact_mod_cast hy.2)⟩
  · exact ⟨Int.floor_nonneg.2 hz.1, Int.floor_lt.2 (by exact_mod_cast hz.2)⟩

/-! ## Theorems on block editing -/

theorem twoStoneWorld_firstHit :
    firstHit twoStoneWorld examplePos exampleRay = some (1 / 2) ∧
    twoStoneWorld.getBlockAt (samplePoint examplePos exampleRay (1 / 2)).1
      (samplePoint examplePos exampleRay (1 / 2)).2.1
      (samplePoint examplePos exampleRay (1 / 2)).2.2 = some (World.cellPtr 11 10 10) ∧
    twoStoneWorld.getBlockAt (samplePoint examplePos exampleRay 2).1
      (samplePoint examplePos exampleRay 2).2.1
      (samplePoint examplePos exampleRay 2).2.2 = some (World.cellPtr 12 10 10) := by
  obtain ⟨hw, hp, h11, h12⟩ := twoStoneWorld_facts
  have hs : samplePoint examplePos exampleRay (1 / 2) = (11, 10, 10) :=
    samplePoint_example (1 / 2) 11 (by norm_num) (by norm_num) (by norm_num)
  have hs2 : samplePoint examplePos exampleRay 2 = (12, 10, 10) :=
    samplePoint_example 2 12 (by norm_num) (by norm_num) (by norm_num)
  have hg : twoStoneWorld.getBlockAt (samplePoint examplePos exampleRay (1 / 2)).1
      (samplePoint examplePos exampleRay (1 / 2)).2.1
      (samplePoint examplePos exampleRay (1 / 2)).2.2 = some (World.cellPtr 11 10 10) := by
    rw [hs]
    exact World.getBlockAt_eq_cellPtr hp (by decide) (by decide) (by decide)
  have hg2 : twoStoneWorld.getBlockAt (samplePoint examplePos exampleRay 2).1
      (samplePoint examplePos exampleRay 2).2.1
      (samplePoint examplePos exampleRay 2).2.2 = some (World.cellPtr 12 10 10) := by
    rw [hs2]
    exact World.getBlockAt_eq_cellPtr hp (by decide) (by decide) (by decide)
  refine ⟨?_, hg, hg2⟩
  have hne : nonEmptyAt twoStoneWorld examplePos exampleRay (1 / 2) = true := by
    unfold nonEmptyAt
    rw [hg]
    simp only [foundNonEmpty]
    have : twoStoneWorld.load (World.cellPtr 11 10 10) = Block.ofType BlockType.STONE := h11
    rw [this]
    rfl
  have h0 : floatValue 67108864 = 1 / 2 := by
    unfold floatValue
    norm_num
  unfold firstHit firstHitUnits
  rw [sampleDistances_eq, List.find?_cons, h0, hne]
  simp only [Option.map_some', h0]

/-- C9, as amended: a left click sets to Air the block that `getBlockAt` finds
for the integer coordinates of the point two units along the ray, when that
block is not empty, and changes no other block; when no block is found there,
or the block found is empty, the world is unchanged. The stepped ray plays no
part in a left click. When the grid is populated and the probed point lies
inside the world volume, the block found is that of the grid cell containing
the point. -/
theorem break_acts_on_probe (w : World) (hw : w.WF) (pos ray : Vector3) (t : BlockType) :
    (∀ p : BlockPtr,
      w.getBlockAt (samplePoint pos ray 2).1 (samplePoint pos ray 2).2.1
        (samplePoint pos ray 2).2.2 = some p →
      (w.load p).isEmpty = false →
        mouse GLUT_LEFT_BUTTON pos ray t w = w.store p (Block.ofType BlockType.AIR) ∧
        (mouse GLUT_LEFT_BUTTON pos ray t w).load p = Block.ofType BlockType.AIR ∧
        ∀ q : BlockPtr, q ≠ p → (mouse GLUT_LEFT_BUTTON pos ray t w).load q = w.load q) ∧
    (∀ p : BlockPtr,
      w.getBlockAt (samplePoint pos ray 2).1 (samplePoint pos ray 2).2.1
        (samplePoint pos ray 2).2.2 = some p →
      (w.load p).isEmpty = true → mouse GLUT_LEFT_BUTTON pos ray t w = w) ∧
    (w.getBlockAt (samplePoint pos ray 2).1 (samplePoint pos ray 2).2.1
        (samplePoint pos ray 2).2.2 = none → mouse GLUT_LEFT_BUTTON pos ray t w = w) ∧
    (w.Populated →
      (0 ≤ pos.x + ray.x * 2 ∧ pos.x + ray.x * 2 < 128) →
      (0 ≤ pos.y + ray.y * 2 ∧ pos.y + ray.y * 2 < 512) →
      (0 ≤ pos.z + ray.z * 2 ∧ pos.z + ray.z * 2 < 128) →
      w.getBlockAt (samplePoint pos ray 2).1 (samplePoint pos ray 2).2.1
          (samplePoint pos ray 2).2.2 =
        some (World.cellPtr (Int.floor (pos.x + ray.x * 2)) (Int.floor (pos.y + ray.y * 2))
          (Int.floor (pos.z + ray.z * 2)))) := by
  refine ⟨?_, ?_, ?_, fun hp hx hy hz => getBlockAt_samplePoint_inWorld hp pos ray 2 hx hy hz⟩
  · intro p hp he
    have hm : mouse GLUT_LEFT_BUTTON pos ray t w = w.store p (Block.ofType BlockType.AIR) := by
      rw [mouse_left, hp]
      simp [he]
    rw [hm]
    exact ⟨rfl, World.ptr_load_store_same hw (World.getBlockAt_valid hp) _,
      fun q hq => World.ptr_load_store_ne hw (World.getBlockAt_valid hp) hq _⟩
  · intro p hp he
    rw [mouse_left, hp]
    simp [he]
  · intro hn
    rw [mouse_left, hn]

theorem break_acts_on_probe_witness :
    twoStoneWorld.WF ∧
    (mouse GLUT_LEFT_BUTTON examplePos exampleRay BlockType.GRASS twoStoneWorld).load
      (World.cellPtr 12 10 10) = Block.ofType BlockType.AIR :=
  ⟨twoStoneWorld_facts.1,
   ((break_acts_on_probe twoStoneWorld twoStoneWorld_facts.1 examplePos exampleRay
      BlockType.GRASS).1 (World.cellPtr 12 10 10) twoStoneWorld_firstHit.2.2
      (by
        have h : twoStoneWorld.load (World.cellPtr 12 10 10) = Block.ofType BlockType.STONE :=
          twoStoneWorld_facts.2.2.2
        rw [h]
        rfl)).2.1⟩

/-- C9, counterexample: in `twoStoneWorld` (Stone at `(11, 10, 10)` and at
`(12, 10, 10)`), from `(10.5, 10.5, 10.5)` along the x axis, the first
non-empty sample of the stepped ray is at distance `0.5`, in the cell
`(11, 10, 10)`; a left click leaves that cell Stone and sets to Air the cell
`(12, 10, 10)` behind it. -/
theorem break_first_hit_counterexample :
    firstHit twoStoneWorld examplePos exampleRay = some (1 / 2) ∧
    twoStoneWorld.getBlockAt (samplePoint examplePos exampleRay (1 / 2)).1
      (samplePoint examplePos exampleRay (1 / 2)).2.1
      (samplePoint examplePos exampleRay (1 / 2)).2.2 = some (World.cellPtr 11 10 10) ∧
    (twoStoneWorld.blockAt 11 10 10).type = BlockType.STONE ∧
    (twoStoneWorld.blockAt 12 10 10).type = BlockType.STONE ∧
    ((mouse GLUT_LEFT_BUTTON examplePos exampleRay BlockType.GRASS twoStoneWorld).blockAt
      11 10 10).type = BlockType.STONE ∧
    ((mouse GLUT_LEFT_BUTTON examplePos exampleRay BlockType.GRASS twoStoneWorld).blockAt
      12 10 10).type = BlockType.AIR := by
  obtain ⟨hw, hp, h11, h12⟩ := twoStoneWorld_facts
  obtain ⟨hf, hg, hg2⟩ := twoStoneWorld_firstHit
  have hm : mouse GLUT_LEFT_BUTTON examplePos exampleRay BlockType.GRASS twoStoneWorld =
      twoStoneWorld.withBlock 12 10 10 (Block.ofType BlockType.AIR) := by
    rw [mouse_left, hg2]
    have h : twoStoneWorld.load (World.cellPtr 12 10 10) = Block.ofType BlockType.STONE := h12
    simp only [h]
    rfl
  refine ⟨hf, hg, by rw [h11]; rfl, by rw [h12]; rfl, ?_, ?_⟩
  · rw [hm, World.blockAt_withBlock_ne hw hp (by decide) (by decide) (by decide) (by decide)
      (by decide) (by decide) (by decide), h11]
    rfl
  · rw [hm, World.blockAt_withBlock_same hw hp (by decide) (by decide) (by decide)]
    rfl

/-! ## Lemmas on the stages of the physics tick -/

namespace Renderer

theorem applyGravity_fields (world : Option World) (r : Renderer) (dt : ℚ) :
    (applyGravity world r dt).cameraPosition = r.cameraPosition ∧
    (applyGravity world r dt).velocity.x = r.velocity.x ∧
    (applyGravity world r dt).velocity.z = r.velocity.z ∧
    (applyGravity world r dt).flightMode = r.flightMode ∧
    (applyGravity world r dt).isJumping = r.isJumping := by
  unfold applyGravity
  simp only
  split
  · simp
  · split <;> simp

theorem moveX_fields (world : Option World) (r : Renderer) (dt : ℚ) :
    (moveX world r dt).cameraPosition.y = r.cameraPosition.y ∧
    (moveX world r dt).cameraPosition.z = r.cameraPosition.z ∧
    (moveX world r dt).velocity.y = r.velocity.y ∧
    (moveX world r dt).velocity.z = r.velocity.z ∧
    (moveX world r dt).isInWater = r.isInWater ∧
    (moveX world r dt).isOnGround = r.isOnGround ∧
    (moveX world r dt).isJumping = r.isJumping ∧
    (moveX world r dt).flightMode = r.flightMode := by
  unfold moveX
  simp only
  split <;> simp

theorem moveZ_fields (world : Option World) (r : Renderer) (dt : ℚ) :
    (moveZ world r dt).cameraPosition.x = r.cameraPosition.x ∧
    (moveZ world r dt).cameraPosition.y = r.cameraPosition.y ∧
    (moveZ world r dt).velocity.x = r.velocity.x ∧
    (moveZ world r dt).velocity.y = r.velocity.y ∧
    (moveZ world r dt).isInWater = r.isInWater ∧
    (moveZ world r dt).isOnGround = r.isOnGround ∧
    (moveZ world r dt).isJumping = r.isJumping ∧
    (moveZ world r dt).flightMode = r.flightMode := by
  unfold moveZ
  simp only
  split <;> simp

theorem moveY_fields (world : Option World) (r : Renderer) (dt : ℚ) :
    (moveY world r dt).cameraPosition.x = r.cameraPosition.x ∧
    (moveY world r dt).cameraPosition.z = r.cameraPosition.z ∧
    (moveY world r dt).velocity.x = r.velocity.x ∧
    (moveY world r dt).velocity.z = r.velocity.z ∧
    (moveY world r dt).isInWater = r.isInWater ∧
    (moveY world r dt).flightMode = r.flightMode ∧
    ((moveY world r dt).velocity.y = r.velocity.y ∨ (moveY world r dt).velocity.y = 0) := by
  unfold moveY
  simp only
  split_ifs <;> simp

theorem applyFriction_fields (r : Renderer) :
    (applyFriction r).cameraPosition = r.cameraPosition ∧
    (applyFriction r).isInWater = r.isInWater ∧
    (applyFriction r).isOnGround = r.isOnGround ∧
    (applyFriction r).isJumping = r.isJumping ∧
    (applyFriction r).flightMode = r.flightMode ∧
    (applyFriction r).velocity.x =
      r.velocity.x * (if r.isInWater then waterResistance else airFriction) ∧
    (applyFriction r).velocity.z =
      r.velocity.z * (if r.isInWater then waterResistance else airFriction) ∧
    (applyFriction r).velocity.y =
      (if r.isInWater then r.velocity.y * (95 / 100) else r.velocity.y) := by
  unfold applyFriction
  split <;> simp [*]

/-- The vertical velocity after water detection and gravity. -/
theorem applyGravity_velocity_y (world : Option World) (r : Renderer) (dt : ℚ) :
    ((applyGravity world r dt).isInWater = true ∧
      (applyGravity world r dt).velocity.y =
        (if r.velocity.y + waterGravity * dt < waterTerminalVelocity
          then waterTerminalVelocity else r.velocity.y + waterGravity * dt)) ∨
    ((applyGravity world r dt).isInWater = false ∧
      (applyGravity world r dt).isOnGround = r.isOnGround ∧
      (applyGravity world r dt).velocity.y =
        (if r.isOnGround then r.velocity.y
          else if r.velocity.y + airGravity * dt < terminalVelocity
            then terminalVelocity else r.velocity.y + airGravity * dt)) := by
  unfold applyGravity
  simp only
  split
  · left
    simp
  · right
    cases h : r.isOnGround <;> simp [h]

theorem update_flightMode (world : Option World) (r : Renderer) (dt : ℚ) :
    (update world r dt).flightMode = r.flightMode := by
  unfold update
  split
  · next h =>
    simp only [updateFlight]
    rw [(swingStep_fields _ dt).2.2.2.2.2.2]
  · simp only
    rw [(applyFriction_fields _).2.2.2.2.1, (moveY_fields _ _ _).2.2.2.2.2.1,
      (moveZ_fields _ _ _).2.2.2.2.2.2.2, (moveX_fields _ _ _).2.2.2.2.2.2.2,
      (applyGravity_fields _ _ _).2.2.2.1, (swingStep_fields _ dt).2.2.2.2.2.2]

/-- A tick in normal mode keeps the vertical velocity within `[-50, 8]` when
it starts there and the time step is positive; after a tick that finds the
player in water it is within `[-8, 8]`. -/
theorem update_normal_velocity_y (world : Option World) (r : Renderer) (dt : ℚ)
    (hfly : r.flightMode = false) (hdt : 0 < dt)
    (hlo : -50 ≤ r.velocity.y) (hhi : r.velocity.y ≤ 8) :
    (-50 ≤ (update world r dt).velocity.y ∧ (update world r dt).velocity.y ≤ 8) ∧
    ((update world r dt).isInWater = true →
      -8 ≤ (update world r dt).velocity.y ∧ (update world r dt).velocity.y ≤ 8) := by
  obtain ⟨-, hv, -, -, -, -, -⟩ := swingStep_fields r dt
  simp only [update, hfly, Bool.false_eq_true, if_false]
  obtain ⟨-, hfw, -, -, -, -, -, hfy⟩ := applyFriction_fields
    (moveY world (moveZ world (moveX world (applyGravity world (swingStep r dt) dt) dt) dt) dt)
  obtain ⟨-, -, -, -, hyw, -, hyy⟩ := moveY_fields world
    (moveZ world (moveX world (applyGravity world (swingStep r dt) dt) dt) dt) dt
  obtain ⟨-, -, -, hzy, hzw, -, -, -⟩ := moveZ_fields world
    (moveX world (applyGravity world (swingStep r dt) dt) dt) dt
  obtain ⟨-, -, hxy, -, hxw, -, -, -⟩ := moveX_fields world
    (applyGravity world (swingStep r dt) dt) dt
  rw [hfy, hfw, hyw, hzw, hxw]
  rw [hzy, hxy] at hyy
  have hg := applyGravity_velocity_y world (swingStep r dt) dt
  rw [hv] at hg
  simp only [waterGravity, waterTerminalVelocity, airGravity, terminalVelocity] at hg
  rcases hg with ⟨hw, hvy⟩ | ⟨hw, -, hvy⟩
  · rw [hw] at *
    simp only [if_true]
    have hb : -8 ≤ (applyGravity world (swingStep r dt) dt).velocity.y ∧
        (applyGravity world (swingStep r dt) dt).velocity.y ≤ 8 := by
      rw [hvy]
      split <;> constructor <;> linarith
    rcases hyy with h | h
    · rw [h]
      refine ⟨⟨by linarith [hb.1, hb.2], by linarith [hb.1, hb.2]⟩, fun _ =>
        ⟨by linarith [hb.1, hb.2], by linarith [hb.1, hb.2]⟩⟩
    · rw [h]
      norm_num
  · rw [hw] at *
    simp only [Bool.false_eq_true, if_false]
    have hb : -50 ≤ (applyGravity world (swingStep r dt) dt).velocity.y ∧
        (applyGravity world (swingStep r dt) dt).velocity.y ≤ 8 := by
      rw [hvy]
      split
      · exact ⟨hlo, hhi⟩
      · split <;> constructor <;> linarith
    rcases hyy with h | h
    · rw [h]
      exact ⟨hb, fun hc => by cases hc⟩
    · rw [h]
      norm_num

end Renderer

/-! ## Theorems on vertical velocity bounds -/

namespace Renderer

theorem reachable_velocity_y (T : Trig) (r : Renderer) (h : Reachable T r) :
    r.flightMode = false → -50 ≤ r.velocity.y ∧ r.velocity.y ≤ 8 := by
  induction h with
  | init => intro _; simp [Renderer.new]
  | update world dt hdt hr ih =>
    intro hf
    rw [update_flightMode] at hf
    obtain ⟨h1, h2⟩ := ih hf
    exact (update_normal_velocity_y world _ dt hf hdt h1 h2).1
  | @jump r hr ih =>
    intro hf
    unfold jump at hf ⊢
    cases hfm : r.flightMode
    · obtain ⟨h1, h2⟩ := ih hfm
      simp only [hfm, Bool.false_eq_true, if_false] at hf ⊢
      split
      · simp only
        split <;> constructor <;> linarith
      · split
        · norm_num
        · exact ⟨h1, h2⟩
    · simp [hfm] at hf
  | @swimDown r hr ih =>
    intro hf
    unfold swimDown at hf ⊢
    cases hfm : r.flightMode
    · obtain ⟨h1, h2⟩ := ih hfm
      simp only [hfm, Bool.false_eq_true, if_false] at hf ⊢
      split
      · simp only
        split <;> constructor <;> linarith
      · exact ⟨h1, h2⟩
    · simp [hfm] at hf
  | @flyUp r hr ih =>
    intro hf
    unfold flyUp at hf ⊢
    cases hfm : r.flightMode
    · simp only [hfm, Bool.false_eq_true, if_false]
      exact ih hfm
    · simp [hfm] at hf
  | @flyDown r hr ih =>
    intro hf
    unfold flyDown at hf ⊢
    cases hfm : r.flightMode
    · simp only [hfm, Bool.false_eq_true, if_false]
      exact ih hfm
    · simp [hfm] at hf
  | @moveCameraPhysics forward right r hr ih =>
    intro hf
    exact ih hf
  | @toggleFlightMode r hr ih =>
    intro _
    unfold toggleFlightMode
    split <;> simp

end Renderer

/-- C11: in every player state reachable from the constructed state by update
ticks with a positive time step, jump, swimDown, flyUp, flyDown,
moveCameraPhysics and toggleFlightMode, the vertical velocity has magnitude at
most 50 whenever flight mode is off, and after a further normal-mode tick that
finds the player in water it has magnitude at most 8. -/
theorem terminal_velocity (T : Trig) (r : Renderer) (h : Renderer.Reachable T r) :
    (r.flightMode = false → |r.velocity.y| ≤ 50) ∧
    (∀ (world : Option World) (dt : ℚ), 0 < dt → r.flightMode = false →
      (Renderer.update world r dt).isInWater = true →
      |(Renderer.update world r dt).velocity.y| ≤ 8) := by
  constructor
  · intro hf
    obtain ⟨h1, h2⟩ := Renderer.reachable_velocity_y T r h hf
    rw [abs_le]
    constructor <;> linarith
  · intro world dt hdt hf hw
    obtain ⟨h1, h2⟩ := Renderer.reachable_velocity_y T r h hf
    obtain ⟨h3, h4⟩ := (Renderer.update_normal_velocity_y world r dt hf hdt h1 h2).2 hw
    rw [abs_le]
    exact ⟨h3, h4⟩

theorem terminal_velocity_witness :
    |(Renderer.jump (Renderer.update (some landingWorld) Renderer.new (1 / 60))).velocity.y|
      ≤ 50 :=
  (terminal_velocity zeroTrig
    (Renderer.jump (Renderer.update (some landingWorld) Renderer.new (1 / 60)))
    (Renderer.Reachable.jump
      (Renderer.Reachable.update (some landingWorld) (1 / 60) (by norm_num)
        Renderer.Reachable.init))).1
    (by
      have h : (Renderer.update (some landingWorld) Renderer.new (1 / 60)).flightMode = false :=
        Renderer.update_flightMode _ _ _
      unfold Renderer.jump
      simp only [h, Bool.false_eq_true, if_false]
      split
      · rfl
      · split
        · rfl
        · exact h)

/-- C12: in every player state reachable from entering flight mode by jump,
swimDown, flyUp, flyDown and update ticks, flight mode is on and the vertical
velocity is within `[-15, 15]`. -/
theorem flight_thrust_cap (r : Renderer) (h : Renderer.FlightReachable r) :
    r.flightMode = true ∧ -15 ≤ r.velocity.y ∧ r.velocity.y ≤ 15 := by
  induction h with
  | @enter r hf => simp [Renderer.toggleFlightMode, hf]
  | @update world dt r hr ih =>
    obtain ⟨hf, h1, h2⟩ := ih
    refine ⟨by rw [Renderer.update_flightMode]; exact hf, ?_⟩
    simp only [Renderer.update, hf, if_true, Renderer.updateFlight]
    rw [(Renderer.swingStep_fields _ dt).2.1]
    simp only [Renderer.flightFriction]
    constructor <;> linarith
  | @jump r hr ih =>
    obtain ⟨hf, h1, h2⟩ := ih
    simp only [Renderer.jump, hf, if_true]
    refine ⟨trivial, ?_⟩
    split <;> constructor <;> linarith
  | @swimDown r hr ih =>
    obtain ⟨hf, h1, h2⟩ := ih
    simp only [Renderer.swimDown, hf, if_true]
    refine ⟨trivial, ?_⟩
    split <;> constructor <;> linarith
  | @flyUp r hr ih =>
    obtain ⟨hf, h1, h2⟩ := ih
    simp only [Renderer.flyUp, hf, if_true]
    refine ⟨trivial, ?_⟩
    split <;> constructor <;> linarith
  | @flyDown r hr ih =>
    obtain ⟨hf, h1, h2⟩ := ih
    simp only [Renderer.flyDown, hf, if_true]
    refine ⟨trivial, ?_⟩
    split <;> constructor <;> linarith

theorem flight_thrust_cap_witness :
    (Renderer.flyUp (Renderer.flyUp (Renderer.toggleFlightMode Renderer.new))).flightMode = true ∧
    -15 ≤ (Renderer.flyUp (Renderer.flyUp (Renderer.toggleFlightMode Renderer.new))).velocity.y ∧
    (Renderer.flyUp (Renderer.flyUp (Renderer.toggleFlightMode Renderer.new))).velocity.y ≤ 15 :=
  flight_thrust_cap _
    (Renderer.FlightReachable.flyUp (Renderer.FlightReachable.flyUp
      (Renderer.FlightReachable.enter rfl)))

/-! ## Theorems on collision in a normal-mode tick -/

namespace Renderer

theorem applyGravity_isInWater (world : Option World) (r : Renderer) (dt : ℚ) :
    (applyGravity world r dt).isInWater =
      (isWaterAt world (Int.floor r.cameraPosition.x) (Int.floor r.cameraPosition.y)
          (Int.floor r.cameraPosition.z) ||
        isWaterAt world (Int.floor r.cameraPosition.x) (Int.floor (r.cameraPosition.y - 1 / 2))
          (Int.floor r.cameraPosition.z)) := by
  unfold applyGravity
  simp only
  split
  · next h => exact h.symm
  · next h =>
    have h' := Bool.eq_false_iff.2 h
    split <;> exact h'.symm

theorem moveX_result (world : Option World) (r : Renderer) (dt : ℚ) :
    (moveX world r dt).cameraPosition.x = resolvedX world r dt ∧
    (moveX world r dt).velocity.x = (if blockedX world r dt then 0 else r.velocity.x) := by
  unfold moveX resolvedX blockedX
  simp only
  cases h : isBlockAt world (Int.floor (r.cameraPosition.x + r.velocity.x * dt))
    (Int.floor (r.cameraPosition.y - playerHeight)) (Int.floor r.cameraPosition.z) <;> simp

theorem moveZ_result (world : Option World) (r : Renderer) (dt : ℚ) :
    (moveZ world r dt).cameraPosition.z =
      (if isBlockAt world (Int.floor r.cameraPosition.x)
          (Int.floor (r.cameraPosition.y - playerHeight))
          (Int.floor (r.cameraPosition.z + r.velocity.z * dt))
        then r.cameraPosition.z else r.cameraPosition.z + r.velocity.z * dt) ∧
    (moveZ world r dt).velocity.z =
      (if isBlockAt world (Int.floor r.cameraPosition.x)
          (Int.floor (r.cameraPosition.y - playerHeight))
          (Int.floor (r.cameraPosition.z + r.velocity.z * dt))
        then 0 else r.velocity.z) := by
  unfold moveZ
  simp only
  cases h : isBlockAt world (Int.floor r.cameraPosition.x)
    (Int.floor (r.cameraPosition.y - playerHeight))
    (Int.floor (r.cameraPosition.z + r.velocity.z * dt)) <;> simp

/-- The state after the two horizontal movements of a normal-mode tick. -/
theorem horizontal_stage (world : Option World) (r : Renderer) (dt : ℚ) :
    (moveZ world (moveX world (applyGravity world (swingStep r dt) dt) dt) dt).cameraPosition =
      ⟨resolvedX world r dt, r.cameraPosition.y, resolvedZ world r dt⟩ ∧
    (moveZ world (moveX world (applyGravity world (swingStep r dt) dt) dt) dt).velocity.x =
      (if blockedX world r dt then 0 else r.velocity.x) ∧
    (moveZ world (moveX world (applyGravity world (swingStep r dt) dt) dt) dt).velocity.z =
      (if blockedZ world r dt then 0 else r.velocity.z) ∧
    (moveZ world (moveX world (applyGravity world (swingStep r dt) dt) dt) dt).velocity.y =
      (applyGravity world (swingStep r dt) dt).velocity.y ∧
    (moveZ world (moveX world (applyGravity world (swingStep r dt) dt) dt) dt).isInWater =
      (applyGravity world (swingStep r dt) dt).isInWater ∧
    (moveZ world (moveX world (applyGravity world (swingStep r dt) dt) dt) dt).isOnGround =
      (applyGravity world (swingStep r dt) dt).isOnGround ∧
    (moveZ world (moveX world (applyGravity world (swingStep r dt) dt) dt) dt).isJumping =
      r.isJumping := by
  obtain ⟨hc, hv, -, hj, -, -, -⟩ := swingStep_fields r dt
  obtain ⟨gc, gvx, gvz, -, gj⟩ := applyGravity_fields world (swingStep r dt) dt
  have hbx : blockedX world (applyGravity world (swingStep r dt) dt) dt = blockedX world r dt := by
    simp only [blockedX, gc, gvx, hc, hv]
  have hrx : resolvedX world (applyGravity world (swingStep r dt) dt) dt =
      resolvedX world r dt := by
    simp only [resolvedX, hbx, gc, gvx, hc, hv]
  obtain ⟨xy, xz, xvy, xvz, xw, xg, xj, -⟩ :=
    moveX_fields world (applyGravity world (swingStep r dt) dt) dt
  obtain ⟨xx, xvx⟩ := moveX_result world (applyGravity world (swingStep r dt) dt) dt
  obtain ⟨zx, zy, zvx, zvy, zw, zg, zj, -⟩ :=
    moveZ_fields world (moveX world (applyGravity world (swingStep r dt) dt) dt) dt
  obtain ⟨zz, zvz⟩ := moveZ_result world (moveX world (applyGravity world (swingStep r dt) dt) dt) dt
  rw [xx, xy, xz, xvz, hrx, gc, gvz, hc, hv] at zz zvz
  have hbz : isBlockAt world (Int.floor (resolvedX world r dt))
      (Int.floor (r.cameraPosition.y - playerHeight))
      (Int.floor (r.cameraPosition.z + r.velocity.z * dt)) = blockedZ world r dt := rfl
  rw [hbz] at zz zvz
  refine ⟨?_, ?_, zvz, ?_, ?_, ?_, ?_⟩
  · have e1 : (moveZ world (moveX world (applyGravity world (swingStep r dt) dt) dt)
        dt).cameraPosition.x = resolvedX world r dt := by rw [zx, xx, hrx]
    have e2 : (moveZ world (moveX world (applyGravity world (swingStep r dt) dt) dt)
        dt).cameraPosition.y = r.cameraPosition.y := by rw [zy, xy, gc, hc]
    have e3 : (moveZ world (moveX world (applyGravity world (swingStep r dt) dt) dt)
        dt).cameraPosition.z = resolvedZ world r dt := by rw [zz]; rfl
    cases hcp : (moveZ world (moveX world (applyGravity world (swingStep r dt) dt) dt)
      dt).cameraPosition
    rw [hcp] at e1 e2 e3
    simp only at e1 e2 e3
    rw [e1, e2, e3]
  · rw [zvx, xvx, hbx, gvx, hv]
  · rw [zvy, xvy]
  · rw [zw, xw]
  · rw [zg, xg]
  · rw [zj, xj, gj, hj]

end Renderer

/-- C19: in a normal-mode tick the X position becomes `x + vx*dt` when the
cell `(floor(x + vx*dt), floor(y - 1.8), floor(z))` is not solid, and
otherwise stays `x` while the X velocity becomes 0; the Z position then
becomes `z + vz*dt` when the cell `(floor(x'), floor(y - 1.8), floor(z + vz*dt))`
at the already resolved `x'` is not solid, and otherwise stays `z` while the Z
velocity becomes 0. A velocity that is not zeroed is multiplied by the
friction factor of the tick. -/
theorem horizontal_collision (world : Option World) (r : Renderer) (dt : ℚ)
    (hfly : r.flightMode = false) :
    (Renderer.update world r dt).cameraPosition.x =
      (if Renderer.isBlockAt world (Int.floor (r.cameraPosition.x + r.velocity.x * dt))
          (Int.floor (r.cameraPosition.y - 9 / 5)) (Int.floor r.cameraPosition.z)
        then r.cameraPosition.x else r.cameraPosition.x + r.velocity.x * dt) ∧
    (Renderer.update world r dt).velocity.x =
      (if Renderer.isBlockAt world (Int.floor (r.cameraPosition.x + r.velocity.x * dt))
          (Int.floor (r.cameraPosition.y - 9 / 5)) (Int.floor r.cameraPosition.z)
        then 0
        else r.velocity.x *
          (if (Renderer.update world r dt).isInWater then 7 / 10 else 85 / 100)) ∧
    (Renderer.update world r dt).cameraPosition.z =
      (if Renderer.isBlockAt world (Int.floor (Renderer.update world r dt).cameraPosition.x)
          (Int.floor (r.cameraPosition.y - 9 / 5))
          (Int.floor (r.cameraPosition.z + r.velocity.z * dt))
        then r.cameraPosition.z else r.cameraPosition.z + r.velocity.z * dt) ∧
    (Renderer.update world r dt).velocity.z =
      (if Renderer.isBlockAt world (Int.floor (Renderer.update world r dt).cameraPosition.x)
          (Int.floor (r.cameraPosition.y - 9 / 5))
          (Int.floor (r.cameraPosition.z + r.velocity.z * dt))
        then 0
        else r.velocity.z *
          (if (Renderer.update world r dt).isInWater then 7 / 10 else 85 / 100)) := by
  obtain ⟨hpos, hvx, hvz, -, hw, -, -⟩ := Renderer.horizontal_stage world r dt
  obtain ⟨yx, yz, yvx, yvz, yw, -, -⟩ := Renderer.moveY_fields world
    (Renderer.moveZ world (Renderer.moveX world
      (Renderer.applyGravity world (Renderer.swingStep r dt) dt) dt) dt) dt
  obtain ⟨fc, fw, -, -, -, fvx, fvz, -⟩ := Renderer.applyFriction_fields
    (Renderer.moveY world (Renderer.moveZ world (Renderer.moveX world
      (Renderer.applyGravity world (Renderer.swingStep r dt) dt) dt) dt) dt)
  have ex : (Renderer.update world r dt).cameraPosition.x = Renderer.resolvedX world r dt := by
    simp only [Renderer.update, hfly, Bool.false_eq_true, if_false]
    rw [fc, yx, hpos]
  have ez : (Renderer.update world r dt).cameraPosition.z = Renderer.resolvedZ world r dt := by
    simp only [Renderer.update, hfly, Bool.false_eq_true, if_false]
    rw [fc, yz, hpos]
  have evx : (Renderer.update world r dt).velocity.x =
      (if Renderer.blockedX world r dt then 0 else r.velocity.x) *
        (if (Renderer.update world r dt).isInWater then 7 / 10 else 85 / 100) := by
    simp only [Renderer.update, hfly, Bool.false_eq_true, if_false]
    rw [fvx, fw, yvx, hvx]
    rfl
  have evz : (Renderer.update world r dt).velocity.z =
      (if Renderer.blockedZ world r dt then 0 else r.velocity.z) *
        (if (Renderer.update world r dt).isInWater then 7 / 10 else 85 / 100) := by
    simp only [Renderer.update, hfly, Bool.false_eq_true, if_false]
    rw [fvz, fw, yvz, hvz]
    rfl
  have hph : (9 / 5 : ℚ) = Renderer.playerHeight := rfl
  refine ⟨?_, ?_, ?_, ?_⟩
  · rw [ex, hph]; rfl
  · rw [evx, hph]
    show _ = if Renderer.blockedX world r dt then _ else _
    split <;> simp
  · rw [ez, ex, hph]; rfl
  · rw [evz, ex, hph]
    show _ = if Renderer.blockedZ world r dt then _ else _
    split <;> simp

theorem landingWorld_not_solid (a b c : Int) (ha : 0 ≤ a ∧ a < 128) (hb : 0 ≤ b ∧ b < 512)
    (hc : 0 ≤ c ∧ c < 128) (hne : ¬ (a = 5 ∧ b = 10 ∧ c = 5)) :
    Renderer.isBlockAt (some landingWorld) a b c = false := by
  rw [Renderer.isBlockAt_inWorld landingWorld_facts.1 ha hb hc]
  unfold landingWorld
  rw [World.blockAt_withBlock_ne airWorld_wf airWorld_populated (by decide) (by decide)
    (by decide) ha.1 hb.1 hc.1 hne]
  have h : airWorld.blockAt a b c = Block.default := airWorld_load _
  rw [h]
  rfl

theorem horizontal_collision_witness :
    (Renderer.update (some landingWorld) slidingPlayer (1 / 10)).cameraPosition.x = 9 / 2 ∧
    (Renderer.update (some landingWorld) slidingPlayer (1 / 10)).velocity.x = 0 ∧
    (Renderer.update (some landingWorld) slidingPlayer (1 / 10)).cameraPosition.z = 13 / 2 := by
  have H := horizontal_collision (some landingWorld) slidingPlayer (1 / 10) rfl
  have f1 : Int.floor (slidingPlayer.cameraPosition.x + slidingPlayer.velocity.x * (1 / 10)) = 5 := by
    simp only [slidingPlayer]
    norm_num [Int.floor_eq_iff]
  have f2 : Int.floor (slidingPlayer.cameraPosition.y - 9 / 5) = 10 := by
    simp only [slidingPlayer]
    norm_num [Int.floor_eq_iff]
  have f3 : Int.floor slidingPlayer.cameraPosition.z = 5 := by
    simp only [slidingPlayer]
    norm_num [Int.floor_eq_iff]
  have f4 : Int.floor (slidingPlayer.cameraPosition.z + slidingPlayer.velocity.z * (1 / 10)) = 6 := by
    simp only [slidingPlayer]
    norm_num [Int.floor_eq_iff]
  rw [f1, f2, f3, f4, landingWorld_facts.2.2.1] at H
  simp only [if_true] at H
  obtain ⟨hx, hvx, hz, -⟩ := H
  have f5 : Int.floor (9 / 2 : ℚ) = 4 := by norm_num [Int.floor_eq_iff]
  have hx' : (Renderer.update (some landingWorld) slidingPlayer (1 / 10)).cameraPosition.x =
      9 / 2 := hx
  rw [hx', f5, landingWorld_not_solid 4 10 6 (by decide) (by decide) (by decide) (by decide)] at hz
  refine ⟨hx', hvx, ?_⟩
  rw [hz]
  simp only [slidingPlayer]
  norm_num

namespace Renderer

theorem moveY_air_fall (world : Option World) (r : Renderer) (dt : ℚ)
    (hw : r.isInWater = false) (hneg : r.velocity.y < 0) :
    (isBlockAt world (Int.floor r.cameraPosition.x)
        (Int.floor (r.cameraPosition.y + r.velocity.y * dt - playerHeight))
        (Int.floor r.cameraPosition.z) = true →
      (moveY world r dt).cameraPosition.y =
        ((Int.floor (r.cameraPosition.y + r.velocity.y * dt - playerHeight) : Int) : ℚ) + 1 +
          playerHeight ∧
      (moveY world r dt).velocity.y = 0 ∧
      (moveY world r dt).isOnGround = true ∧
      (moveY world r dt).isJumping = false) ∧
    (isBlockAt world (Int.floor r.cameraPosition.x)
        (Int.floor (r.cameraPosition.y + r.velocity.y * dt - playerHeight))
        (Int.floor r.cameraPosition.z) = false →
      (moveY world r dt).cameraPosition.y = r.cameraPosition.y + r.velocity.y * dt ∧
      (moveY world r dt).velocity.y = r.velocity.y ∧
      (moveY world r dt).isOnGround = false) := by
  constructor
  · intro hb
    simp [moveY, hw, hneg, hb]
  · intro hb
    simp [moveY, hw, hneg, hb]

end Renderer

/-- C20: in a normal-mode tick with head and chest not in water, let `vy` be
the vertical velocity after gravity (unchanged on the ground, otherwise
`max(v - 25*dt, -50)`), `(x', z')` the horizontal position after the X and Z
movements, and `F = floor(y + vy*dt - 1.8)`. If `vy < 0` and the cell
`(floor x', F, floor z')` is solid, then after the tick `position.y = F + 1 + 1.8`,
the vertical velocity is 0, on-ground is true and jumping is false; if
`vy < 0` and that cell is not solid, `position.y = y + vy*dt`, on-ground is
false and the vertical velocity is `vy`. -/
theorem landing_snap (world : Option World) (r : Renderer) (dt : ℚ)
    (hfly : r.flightMode = false)
    (hhead : Renderer.isWaterAt world (Int.floor r.cameraPosition.x)
      (Int.floor r.cameraPosition.y) (Int.floor r.cameraPosition.z) = false)
    (hbody : Renderer.isWaterAt world (Int.floor r.cameraPosition.x)
      (Int.floor (r.cameraPosition.y - 1 / 2)) (Int.floor r.cameraPosition.z) = false)
    (hneg : Renderer.airVelocityY r dt < 0) :
    (Renderer.isBlockAt world (Int.floor (Renderer.resolvedX world r dt))
        (Int.floor (r.cameraPosition.y + Renderer.airVelocityY r dt * dt - 9 / 5))
        (Int.floor (Renderer.resolvedZ world r dt)) = true →
      (Renderer.update world r dt).cameraPosition.y =
        ((Int.floor (r.cameraPosition.y + Renderer.airVelocityY r dt * dt - 9 / 5) : Int) : ℚ)
          + 1 + 9 / 5 ∧
      (Renderer.update world r dt).velocity.y = 0 ∧
      (Renderer.update world r dt).isOnGround = true ∧
      (Renderer.update world r dt).isJumping = false) ∧
    (Renderer.isBlockAt world (Int.floor (Renderer.resolvedX world r dt))
        (Int.floor (r.cameraPosition.y + Renderer.airVelocityY r dt * dt - 9 / 5))
        (Int.floor (Renderer.resolvedZ world r dt)) = false →
      (Renderer.update world r dt).cameraPosition.y =
        r.cameraPosition.y + Renderer.airVelocityY r dt * dt ∧
      (Renderer.update world r dt).velocity.y = Renderer.airVelocityY r dt ∧
      (Renderer.update world r dt).isOnGround = false) := by
  obtain ⟨hc, hv, hg, -, -, -, -⟩ := Renderer.swingStep_fields r dt
  have hwater : (Renderer.applyGravity world (Renderer.swingStep r dt) dt).isInWater = false := by
    rw [Renderer.applyGravity_isInWater, hc, hhead, hbody]
    rfl
  have hvy : (Renderer.applyGravity world (Renderer.swingStep r dt) dt).velocity.y =
      Renderer.airVelocityY r dt := by
    rcases Renderer.applyGravity_velocity_y world (Renderer.swingStep r dt) dt with
      ⟨h1, -⟩ | ⟨-, -, h3⟩
    · rw [hwater] at h1; cases h1
    · rw [h3, hv, hg]; rfl
  obtain ⟨hpos, -, -, zvy, zw, -, -⟩ := Renderer.horizontal_stage world r dt
  rw [hvy] at zvy
  rw [hwater] at zw
  have H := Renderer.moveY_air_fall world
    (Renderer.moveZ world (Renderer.moveX world
      (Renderer.applyGravity world (Renderer.swingStep r dt) dt) dt) dt) dt zw
    (by rw [zvy]; exact hneg)
  rw [hpos, zvy] at H
  simp only at H
  obtain ⟨fc, fw, fg, fj, -, -, -, fvy⟩ := Renderer.applyFriction_fields
    (Renderer.moveY world (Renderer.moveZ world (Renderer.moveX world
      (Renderer.applyGravity world (Renderer.swingStep r dt) dt) dt) dt) dt)
  have yw := (Renderer.moveY_fields world (Renderer.moveZ world (Renderer.moveX world
      (Renderer.applyGravity world (Renderer.swingStep r dt) dt) dt) dt) dt).2.2.2.2.1
  rw [yw, zw] at fvy
  simp only [Bool.false_eq_true, if_false] at fvy
  have hph : (9 / 5 : ℚ) = Renderer.playerHeight := rfl
  simp only [Renderer.update, hfly, Bool.false_eq_true, if_false, hph]
  rw [fc, fg, fj, fvy]
  exact H

theorem landing_snap_witness :
    (Renderer.update (some landingWorld) (fallingPlayer (-5)) (1 / 10)).cameraPosition.y =
        ((10 : Int) : ℚ) + 1 + 9 / 5 ∧
    (Renderer.update (some landingWorld) (fallingPlayer (-5)) (1 / 10)).velocity.y = 0 ∧
    (Renderer.update (some landingWorld) (fallingPlayer (-5)) (1 / 10)).isOnGround = true ∧
    (Renderer.update (some landingWorld) (fallingPlayer (-5)) (1 / 10)).isJumping = false := by
  have hv : Renderer.airVelocityY (fallingPlayer (-5)) (1 / 10) = -15 / 2 := by
    simp only [Renderer.airVelocityY, fallingPlayer, Renderer.airGravity,
      Renderer.terminalVelocity]
    norm_num
  have hx : Renderer.resolvedX (some landingWorld) (fallingPlayer (-5)) (1 / 10) = 11 / 2 := by
    simp only [Renderer.resolvedX, fallingPlayer]
    split <;> norm_num
  have hz : Renderer.resolvedZ (some landingWorld) (fallingPlayer (-5)) (1 / 10) = 11 / 2 := by
    simp only [Renderer.resolvedZ, fallingPlayer]
    split <;> norm_num
  have hF : Int.floor ((fallingPlayer (-5)).cameraPosition.y +
      Renderer.airVelocityY (fallingPlayer (-5)) (1 / 10) * (1 / 10) - 9 / 5) = 10 := by
    rw [hv]
    simp only [fallingPlayer]
    norm_num [Int.floor_eq_iff]
  have H := (landing_snap (some landingWorld) (fallingPlayer (-5)) (1 / 10) rfl
    (by
      simp only [fallingPlayer]
      rw [floor_eleven_halves, floor_head]
      exact landingWorld_facts.2.1)
    (by
      simp only [fallingPlayer]
      rw [floor_eleven_halves, floor_body]
      exact landingWorld_facts.2.1)
    (by rw [hv]; norm_num)).1
  rw [hF, hx, hz, floor_eleven_halves] at H
  exact H landingWorld_facts.2.2.1

/-! ## Lemmas on reading after the writes of generation -/

namespace World

theorem load_of_new (q : BlockPtr) : World.new.load q = Block.default := by
  unfold load chunk
  rcases Vec3.get_fill_cases WORLD_WIDTH.toNat WORLD_HEIGHT.toNat WORLD_DEPTH.toNat
    q.chunk.cx q.chunk.cy q.chunk.cz (none : Option Chunk) with h | h <;>
  · simp only [World.new]
    rw [h]

theorem localPtr_inj {cx cy cz x y z cx' cy' cz' x' y' z' : Int}
    (h1 : 0 ≤ cx) (h2 : 0 ≤ cy) (h3 : 0 ≤ cz) (h4 : 0 ≤ x) (h5 : 0 ≤ y) (h6 : 0 ≤ z)
    (g1 : 0 ≤ cx') (g2 : 0 ≤ cy') (g3 : 0 ≤ cz') (g4 : 0 ≤ x') (g5 : 0 ≤ y') (g6 : 0 ≤ z')
    (h : localPtr cx cy cz x y z = localPtr cx' cy' cz' x' y' z') :
    cx = cx' ∧ cy = cy' ∧ cz = cz' ∧ x = x' ∧ y = y' ∧ z = z' := by
  simp only [localPtr, BlockPtr.mk.injEq, ChunkPtr.mk.injEq, CellRef.stored.injEq] at h
  obtain ⟨⟨e1, e2, e3⟩, e4, e5, e6⟩ := h
  have e1 := congrArg (Nat.cast (R := Int)) e1
  have e2 := congrArg (Nat.cast (R := Int)) e2
  have e3 := congrArg (Nat.cast (R := Int)) e3
  have e4 := congrArg (Nat.cast (R := Int)) e4
  have e5 := congrArg (Nat.cast (R := Int)) e5
  have e6 := congrArg (Nat.cast (R := Int)) e6
  rw [Int.toNat_of_nonneg (by omega), Int.toNat_of_nonneg (by omega)] at e1 e2 e3 e4 e5 e6
  omega

/-- A `setBlock` call on a chunk of the grid changes at most the block it
names. -/
theorem load_chunkSetBlock_cases (w : World) (cx cy cz x y z : Int) (b : Block) (q : BlockPtr) :
    (w.chunkSetBlock cx cy cz x y z b).load q = w.load q ∨
      (q = localPtr cx cy cz x y z ∧ Chunk.inBounds x y z = true ∧
        (w.chunkSetBlock cx cy cz x y z b).load q = b) := by
  unfold chunkSetBlock
  cases hch : w.chunks.get cx.toNat cy.toNat cz.toNat with
  | none => left; rfl
  | some c =>
    simp only
    by_cases hb : Chunk.inBounds x y z = true
    · by_cases hq : q = localPtr cx cy cz x y z
      · subst hq
        rcases Vec3.get_set_cases w.chunks cx.toNat cy.toNat cz.toNat cx.toNat cy.toNat cz.toNat
          (some (c.setBlock x y z b)) with h | h
        · rcases Vec3.get_set_cases c.blocks x.toNat y.toNat z.toNat x.toNat y.toNat z.toNat b
            with h' | h'
          · right
            refine ⟨rfl, hb, ?_⟩
            simp only [load, chunk, localPtr, setChunk]
            rw [h]
            simp only [Chunk.setBlock, hb, if_true, Chunk.load]
            exact h'
          · left
            simp only [load, chunk, localPtr, setChunk]
            rw [h, hch]
            simp only [Chunk.setBlock, hb, if_true, Chunk.load]
            exact h'
        · left
          simp only [load, chunk, localPtr, setChunk]
          rw [h]
      · left
        simp only [load, chunk, setChunk]
        by_cases he : cx.toNat = q.chunk.cx ∧ cy.toNat = q.chunk.cy ∧ cz.toNat = q.chunk.cz
        · obtain ⟨e1, e2, e3⟩ := he
          rw [← e1, ← e2, ← e3]
          rcases Vec3.get_set_cases w.chunks cx.toNat cy.toNat cz.toNat cx.toNat cy.toNat cz.toNat
            (some (c.setBlock x y z b)) with h | h
          · rw [h, hch]
            simp only [Chunk.setBlock, hb, if_true]
            have hcell : q.cell ≠ CellRef.stored x.toNat y.toNat z.toNat := by
              intro hcell
              apply hq
              obtain ⟨⟨a1, a2, a3⟩, qc⟩ := q
              simp only at e1 e2 e3 hcell
              subst e1 e2 e3 hcell
              rfl
            exact Chunk.load_store_ne c w.defaultBlock hcell b
          · rw [h]
        · rw [Vec3.get_set_ne _ he]
    · left
      have hb' : Chunk.inBounds x y z = false := by simpa using hb
      rw [Chunk.setBlock_of_not_inBounds c hb']
      simp only [load, chunk, setChunk]
      by_cases he : cx.toNat = q.chunk.cx ∧ cy.toNat = q.chunk.cy ∧ cz.toNat = q.chunk.cz
      · obtain ⟨e1, e2, e3⟩ := he
        rw [← e1, ← e2, ← e3]
        rcases Vec3.get_set_cases w.chunks cx.toNat cy.toNat cz.toNat cx.toNat cy.toNat cz.toNat
          (some c) with h | h
        · rw [h, hch]
        · rw [h]
      · rw [Vec3.get_set_ne _ he]

theorem load_chunkSetBlock_ne (w : World) (cx cy cz x y z : Int) (b : Block) {q : BlockPtr}
    (hq : q ≠ localPtr cx cy cz x y z) : (w.chunkSetBlock cx cy cz x y z b).load q = w.load q := by
  rcases load_chunkSetBlock_cases w cx cy cz x y z b q with h | ⟨h, -, -⟩
  · exact h
  · exact absurd h hq

/-- A `setBlock` call inside the bounds of a chunk held by the grid stores
the block. -/
theorem load_chunkSetBlock_same {w : World} (hw : w.WF) {cx cy cz x y z : Int}
    (hcx : 0 ≤ cx ∧ cx < WORLD_WIDTH) (hcy : 0 ≤ cy ∧ cy < WORLD_HEIGHT)
    (hcz : 0 ≤ cz ∧ cz < WORLD_DEPTH)
    (hsome : (w.chunks.get cx.toNat cy.toNat cz.toNat).isSome = true)
    (hb : Chunk.inBounds x y z = true) (b : Block) :
    (w.chunkSetBlock cx cy cz x y z b).load (localPtr cx cy cz x y z) = b := by
  have h1 : cx.toNat < WORLD_WIDTH.toNat := by
    simp only [WORLD_WIDTH] at hcx ⊢; omega
  have h2 : cy.toNat < WORLD_HEIGHT.toNat := by
    simp only [WORLD_HEIGHT] at hcy ⊢; omega
  have h3 : cz.toNat < WORLD_DEPTH.toNat := by
    simp only [WORLD_DEPTH] at hcz ⊢; omega
  cases hch : w.chunks.get cx.toNat cy.toNat cz.toNat with
  | none => rw [hch] at hsome; cases hsome
  | some c =>
    have hcwf : c.WF := hw.2 _ _ _ c hch
    have hb' := (Chunk.inBounds_iff x y z).1 hb
    simp only [chunkSetBlock, hch, load, chunk, localPtr]
    rw [get_setChunk_same hw h1 h2 h3]
    simp only [Chunk.setBlock, hb, if_true, Chunk.load]
    apply Vec3.get_set_eq hcwf
    · simp only [CHUNK_WIDTH]; omega
    · simp only [CHUNK_HEIGHT]; omega
    · simp only [CHUNK_DEPTH]; omega

/-- Assigning a newly constructed chunk to a slot leaves every block either
unchanged or default-constructed. -/
theorem load_setChunk_new (w : World) (i j k : Nat) (pos : Vector3) (q : BlockPtr)
    (hq : q.cell ≠ CellRef.defaultBlock) :
    (w.setChunk i j k (Chunk.new pos)).load q = Block.default ∨
      (w.setChunk i j k (Chunk.new pos)).load q = w.load q := by
  simp only [load, chunk, setChunk]
  rcases Vec3.get_set_cases w.chunks i j k q.chunk.cx q.chunk.cy q.chunk.cz
    (some (Chunk.new pos)) with h | h
  · left
    rw [h]
    cases hc : q.cell with
    | defaultBlock => exact absurd hc hq
    | stored x y z => exact Chunk.load_new_stored pos _ x y z
  · right
    rw [h]

theorem load_setChunk_ne (w : World) {i j k : Nat} (c : Chunk) {q : BlockPtr}
    (hq : ¬ (i = q.chunk.cx ∧ j = q.chunk.cy ∧ k = q.chunk.cz)) :
    (w.setChunk i j k c).load q = w.load q := by
  simp only [load, chunk, setChunk]
  rw [Vec3.get_set_ne _ hq]

end World

/-! ## Further lemmas on loops -/

theorem forLoopAux_inv_idx {σ : Type} (P : σ → Prop) (cond : Int → Bool) (body : Int → σ → σ) :
    ∀ (n : Nat) (i : Int) (s : σ),
      (∀ j t, i ≤ j → j < i + n → P t → P (body j t)) → P s →
      P (forLoopAux cond body n i s) := by
  intro n
  induction n with
  | zero => intro i s _ hs; exact hs
  | succ n ih =>
    intro i s h hs
    simp only [forLoopAux]
    split
    · apply ih
      · intro j t h1 h2 ht
        apply h j t (by omega) _ ht
        push_cast
        omega
      · apply h i s (le_refl _) _ hs
        push_cast
        omega
    · exact hs

/-- A property that every iteration with its counter in the range of the
loop preserves holds after the loop. -/
theorem forLoop_inv_idx {σ : Type} (P : σ → Prop) (lo hi : Int) (cond : Int → Bool)
    (body : Int → σ → σ) (h : ∀ i s, lo ≤ i → i < hi → P s → P (body i s)) (s : σ) (hs : P s) :
    P (forLoop lo hi cond body s) := by
  apply forLoopAux_inv_idx P cond body _ _ _ _ hs
  intro j t h1 h2 ht
  apply h j t h1 _ ht
  by_cases hle : lo ≤ hi
  · have : ((hi - lo).toNat : Int) = hi - lo := Int.toNat_of_nonneg (by omega)
    omega
  · have : (hi - lo).toNat = 0 := Int.toNat_eq_zero.mpr (by omega)
    rw [this] at h2
    simp at h2
    omega

theorem forLoopAux_add {σ : Type} (cond : Int → Bool) (body : Int → σ → σ) :
    ∀ (m n : Nat) (i : Int) (s : σ), (∀ j, i ≤ j → j < i + m → cond j = true) →
      forLoopAux cond body (m + n) i s =
        forLoopAux cond body n (i + m) (forLoopAux cond body m i s) := by
  intro m
  induction m with
  | zero => intro n i s _; simp [forLoopAux]
  | succ m ih =>
    intro n i s h
    have hi : cond i = true := h i (le_refl _) (by push_cast; omega)
    have e : m + 1 + n = (m + n) + 1 := by omega
    rw [e]
    simp only [forLoopAux, hi, if_true]
    rw [ih n (i + 1) (body i s) (fun j h1 h2 => h j (by omega) (by push_cast; omega))]
    congr 1
    push_cast
    ring

/-- A loop whose condition holds up to the counter value `i` runs the
iterations before `i`, then iteration `i`, then the remaining ones. -/
theorem forLoop_split {σ : Type} (lo hi : Int) (cond : Int → Bool) (body : Int → σ → σ)
    (i : Int) (hlo : lo ≤ i) (hhi : i < hi) (hc : ∀ j, lo ≤ j → j ≤ i → cond j = true) (s : σ) :
    forLoop lo hi cond body s =
      forLoop (i + 1) hi cond body (body i (forLoop lo i cond body s)) := by
  unfold forLoop
  have e : (hi - lo).toNat = (i - lo).toNat + (1 + (hi - (i + 1)).toNat) := by omega
  have h1 : ((i - lo).toNat : Int) = i - lo := Int.toNat_of_nonneg (by omega)
  rw [e, forLoopAux_add cond body _ _ lo s (fun j h1 h2 => hc j h1 (by omega)),
    forLoopAux_add cond body 1 _ _ _ (fun j h1 h2 => hc j (by omega) (by push_cast at h2; omega))]
  have e2 : lo + ((i - lo).toNat : Int) = i := by omega
  rw [e2]
  have hci : cond i = true := hc i hlo (le_refl _)
  simp only [forLoopAux, hci, if_true, Nat.cast_one]

/-! ## Lemmas on the terrain-layer loop -/

theorem generateWorld_split (T : Trig) (cx cy cz x z : Int)
    (hcx : 0 ≤ cx ∧ cx < WORLD_WIDTH) (hcy : 0 ≤ cy ∧ cy < WORLD_HEIGHT)
    (hcz : 0 ≤ cz ∧ cz < WORLD_DEPTH) (hx : 0 ≤ x ∧ x < CHUNK_WIDTH)
    (hz : 0 ≤ z ∧ z < CHUNK_DEPTH) (s : GenState) :
    generateWorld T s =
      generateAfter T cx cy cz x z (columnBody T cx cy cz x z (generateUpTo T cx cy cz x z s)) := by
  unfold generateWorld generateAfter generateUpTo
  rw [forLoop_split 0 WORLD_WIDTH _ _ cx hcx.1 hcx.2 (fun _ _ _ => rfl),
    forLoop_split 0 WORLD_HEIGHT _ _ cy hcy.1 hcy.2 (fun _ _ _ => rfl),
    forLoop_split 0 WORLD_DEPTH _ _ cz hcz.1 hcz.2 (fun _ _ _ => rfl)]
  conv_lhs => rw [chunkBody]
  simp only
  rw [forLoop_split 0 CHUNK_WIDTH _ _ x hx.1 hx.2 (fun _ _ _ => rfl),
    forLoop_split 0 CHUNK_DEPTH _ _ z hz.1 hz.2 (fun _ _ _ => rfl)]

theorem fillBody_surface (cx cy cz x z T : Int) (d m wtr : Bool) (y : Int) (s : GenState)
    (h : cy * CHUNK_HEIGHT + y = T) :
    fillBody cx cy cz x z T d m wtr y s =
      ⟨s.world.chunkSetBlock cx cy cz x y z (Block.ofType (surfaceCap wtr d m)), s.rng⟩ := by
  unfold fillBody surfaceCap
  simp only [h, le_refl, if_true]
  cases wtr <;> cases d <;> cases m <;> rfl

theorem fillBody_band (cx cy cz x z T : Int) (d m wtr : Bool) (y : Int) (s : GenState)
    (h1 : cy * CHUNK_HEIGHT + y < T)
    (h2 : cy * CHUNK_HEIGHT + y > T - 4 ∧ cy * CHUNK_HEIGHT + y > 4) :
    fillBody cx cy cz x z T d m wtr y s =
      ⟨s.world.chunkSetBlock cx cy cz x y z
        (Block.ofType (if d then BlockType.SAND else BlockType.DIRT)), s.rng⟩ := by
  unfold fillBody
  simp only [if_pos (le_of_lt h1), if_neg (ne_of_lt h1), if_pos h2]
  cases d <;> rfl

theorem fillBody_deep (cx cy cz x z T : Int) (d m wtr : Bool) (y : Int) (s : GenState)
    (h1 : cy * CHUNK_HEIGHT + y < T)
    (h2 : ¬ (cy * CHUNK_HEIGHT + y > T - 4 ∧ cy * CHUNK_HEIGHT + y > 4)) :
    fillBody cx cy cz x z T d m wtr y s =
      ⟨s.world.chunkSetBlock cx cy cz x y z
        (Block.ofType (oreChoice (cy * CHUNK_HEIGHT + y) ((rand s.rng).1 % 100))),
        (rand s.rng).2⟩ := by
  unfold fillBody oreChoice
  simp only [if_pos (le_of_lt h1), if_neg (ne_of_lt h1), if_neg h2]
  split
  · rfl
  · split
    · rfl
    · split <;> rfl

theorem fillBody_water (cx cy cz x z T : Int) (d m wtr : Bool) (y : Int) (s : GenState)
    (h1 : T < cy * CHUNK_HEIGHT + y) (h2 : cy * CHUNK_HEIGHT + y ≤ 8) :
    fillBody cx cy cz x z T d m wtr y s =
      ⟨s.world.chunkSetBlock cx cy cz x y z (Block.ofType BlockType.WATER), s.rng⟩ := by
  unfold fillBody
  simp only [if_neg (not_le.mpr h1), if_pos h2]

theorem fillBody_above (cx cy cz x z T : Int) (d m wtr : Bool) (y : Int) (s : GenState)
    (h1 : T < cy * CHUNK_HEIGHT + y) (h2 : 8 < cy * CHUNK_HEIGHT + y) :
    fillBody cx cy cz x z T d m wtr y s = s := by
  unfold fillBody
  simp only [if_neg (not_le.mpr h1), if_neg (not_le.mpr h2)]

theorem oreChoice_cases (worldY : Int) (r : Nat) :
    (oreChoice worldY r = BlockType.DIAMOND_ORE ∧ worldY < 6 ∧ r < 2) ∨
    (oreChoice worldY r = BlockType.IRON_ORE ∧ worldY < 12 ∧ r < 5) ∨
    (oreChoice worldY r = BlockType.COAL_ORE ∧ worldY < 20 ∧ r < 8) ∨
    oreChoice worldY r = BlockType.STONE := by
  unfold oreChoice
  split
  · next h => exact Or.inl ⟨rfl, h⟩
  · split
    · next h => exact Or.inr (Or.inl ⟨rfl, h⟩)
    · split
      · next h => exact Or.inr (Or.inr (Or.inl ⟨rfl, h⟩))
      · exact Or.inr (Or.inr (Or.inr rfl))

theorem generable_oreChoice (worldY : Int) (r : Nat) :
    Generable worldY (oreChoice worldY r) ∧ oreChoice worldY r ≠ BlockType.LEAVES := by
  rcases oreChoice_cases worldY r with ⟨h, h1, -⟩ | ⟨h, h1, -⟩ | ⟨h, h1, -⟩ | h <;> rw [h] <;>
    refine ⟨?_, by decide⟩
  · exact h1
  · exact h1
  · exact h1
  · trivial

theorem generable_surfaceCap (worldY : Int) (wtr d m : Bool) :
    Generable worldY (surfaceCap wtr d m) ∧ surfaceCap wtr d m ≠ BlockType.LEAVES := by
  cases wtr <;> cases d <;> cases m <;> exact ⟨trivial, by decide⟩

/-- An iteration of the terrain-layer loop either does nothing or stores, in
the cell of its column at its height, a block that is not Leaves and that
generation can store at that height. -/
theorem fillBody_writes (P : World → Prop) (cx cy cz x z T : Int) (d m wtr : Bool) (y : Int)
    (hP : ∀ w t, t ≠ BlockType.LEAVES → Generable (cy * CHUNK_HEIGHT + y) t → P w →
      P (World.chunkSetBlock w cx cy cz x y z (Block.ofType t)))
    (s : GenState) (hs : P s.world) : P (fillBody cx cy cz x z T d m wtr y s).world := by
  rcases lt_trichotomy (cy * CHUNK_HEIGHT + y) T with h | h | h
  · by_cases h2 : cy * CHUNK_HEIGHT + y > T - 4 ∧ cy * CHUNK_HEIGHT + y > 4
    · rw [fillBody_band _ _ _ _ _ _ _ _ _ _ _ h h2]
      cases d
      · exact hP _ _ (by decide) trivial hs
      · exact hP _ _ (by decide) trivial hs
    · rw [fillBody_deep _ _ _ _ _ _ _ _ _ _ _ h h2]
      exact hP _ _ (generable_oreChoice _ _).2 (generable_oreChoice _ _).1 hs
  · rw [fillBody_surface _ _ _ _ _ _ _ _ _ _ _ h]
    exact hP _ _ (generable_surfaceCap 0 _ _ _).2 (generable_surfaceCap _ _ _ _).1 hs
  · by_cases h2 : cy * CHUNK_HEIGHT + y ≤ 8
    · rw [fillBody_water _ _ _ _ _ _ _ _ _ _ _ h h2]
      exact hP _ _ (by decide) h2 hs
    · rw [fillBody_above _ _ _ _ _ _ _ _ _ _ _ h (not_le.mp h2)]
      exact hs

theorem fillBody_draws (cx cy cz x z T : Int) (d m wtr : Bool) (y : Int) (s : GenState) :
    (fillBody cx cy cz x z T d m wtr y s).rng.draws = s.rng.draws := by
  rcases lt_trichotomy (cy * CHUNK_HEIGHT + y) T with h | h | h
  · by_cases h2 : cy * CHUNK_HEIGHT + y > T - 4 ∧ cy * CHUNK_HEIGHT + y > 4
    · rw [fillBody_band _ _ _ _ _ _ _ _ _ _ _ h h2]
    · rw [fillBody_deep _ _ _ _ _ _ _ _ _ _ _ h h2]
      rfl
  · rw [fillBody_surface _ _ _ _ _ _ _ _ _ _ _ h]
  · by_cases h2 : cy * CHUNK_HEIGHT + y ≤ 8
    · rw [fillBody_water _ _ _ _ _ _ _ _ _ _ _ h h2]
    · rw [fillBody_above _ _ _ _ _ _ _ _ _ _ _ h (not_le.mp h2)]

/-! ## Lemmas on the writes of a column and of a chunk -/

theorem trunkBody_writes (P : World → Prop) (cx cy cz x z treeY : Int)
    (hP : ∀ w y, 0 ≤ y → y < CHUNK_HEIGHT → cy * CHUNK_HEIGHT + y = treeY → P w →
      P (World.chunkSetBlock w cx cy cz x y z (Block.ofType BlockType.WOOD)))
    (w : World) (hw : P w) : P (trunkBody cx cy cz x z treeY w) := by
  unfold trunkBody
  simp only
  split
  · split
    · next h => exact hP _ _ h.1 h.2 (by ring) hw
    · exact hw
  · exact hw

theorem leafBody_writes (P : World → Prop) (cx cy cz x z lx lz ly : Int)
    (hP : ∀ w a b c, Chunk.inBounds a b c = true → a = x + lx → c = z + lz →
      cy * CHUNK_HEIGHT + b = ly → |lx| + |lz| ≤ 2 → P w →
      P (World.chunkSetBlock w cx cy cz a b c (Block.ofType BlockType.LEAVES)))
    (w : World) (hw : P w) : P (leafBody cx cy cz x z lx lz ly w) := by
  unfold leafBody
  simp only
  split
  · next h1 =>
    split
    · next h =>
      refine hP _ _ _ _ ?_ rfl rfl (by ring) h1.1 hw
      rw [Chunk.inBounds_iff]
      simp only [CHUNK_WIDTH, CHUNK_HEIGHT, CHUNK_DEPTH] at h ⊢
      omega
    · exact hw
  · exact hw

/-- The trunk loop only stores Wood in its own column, at the five heights
above the terrain height. -/
theorem stampTrunk_writes (P : World → Prop) (cx cy cz x z T : Int)
    (hP : ∀ w y, 0 ≤ y → y < CHUNK_HEIGHT → T + 1 ≤ cy * CHUNK_HEIGHT + y →
      cy * CHUNK_HEIGHT + y < T + 6 → P w →
      P (World.chunkSetBlock w cx cy cz x y z (Block.ofType BlockType.WOOD)))
    (w : World) (hw : P w) : P (stampTrunk cx cy cz x z T w) := by
  unfold stampTrunk
  apply forLoop_inv_idx P _ _ _ _ _ _ hw
  intro treeY w1 h1 h2 hw1
  apply trunkBody_writes P _ _ _ _ _ _ _ _ hw1
  intro w2 y hy1 hy2 hy3 hw2
  exact hP w2 y hy1 hy2 (by omega) (by omega) hw2

/-- The leaves loops only store Leaves in cells of the canopy. -/
theorem stampCanopy_writes (P : World → Prop) (cx cy cz x z T : Int)
    (hP : ∀ w a b c, inCanopy cy x z T a b c → P w →
      P (World.chunkSetBlock w cx cy cz a b c (Block.ofType BlockType.LEAVES)))
    (w : World) (hw : P w) : P (stampCanopy cx cy cz x z T w) := by
  unfold stampCanopy
  apply forLoop_inv_idx P _ _ _ _ _ _ hw
  intro lx w1 _ _ hw1
  apply forLoop_inv_idx P _ _ _ _ _ _ hw1
  intro lz w2 _ _ hw2
  apply forLoop_inv_idx P _ _ _ _ _ _ hw2
  intro ly w3 h1 h2 hw3
  apply leafBody_writes P _ _ _ _ _ _ _ _ _ _ hw3
  intro w4 a b c hb ha hc hy hd hw4
  apply hP w4 a b c _ hw4
  have hb' := (Chunk.inBounds_iff a b c).1 hb
  unfold inCanopy
  simp only [CHUNK_WIDTH, CHUNK_HEIGHT, CHUNK_DEPTH] at hy ⊢
  have e1 : a - x = lx := by omega
  have e2 : c - z = lz := by omega
  rw [e1, e2]
  refine ⟨hd, ?_, ?_, hb'.1, hb'.2.1, hb'.2.2.1, hb'.2.2.2.1, hb'.2.2.2.2.1, hb'.2.2.2.2.2⟩ <;> omega

theorem vegetation_writes (P : World → Prop) (cx cy cz x z worldX worldZ T : Int)
    (d m wtr : Bool)
    (htrunk : 8 < T → ∀ w y, 0 ≤ y → y < CHUNK_HEIGHT → T + 1 ≤ cy * CHUNK_HEIGHT + y →
      cy * CHUNK_HEIGHT + y < T + 6 → P w →
      P (World.chunkSetBlock w cx cy cz x y z (Block.ofType BlockType.WOOD)))
    (hleaf : 8 < T → ∀ w a b c, inCanopy cy x z T a b c → P w →
      P (World.chunkSetBlock w cx cy cz a b c (Block.ofType BlockType.LEAVES)))
    (w : World) (hw : P w) : P (vegetation cx cy cz x z worldX worldZ T d m wtr w) := by
  unfold vegetation
  split
  · next h =>
    split
    · exact stampCanopy_writes P _ _ _ _ _ _ (hleaf h.2) _
        (stampTrunk_writes P _ _ _ _ _ _ (htrunk h.2) _ hw)
    · exact hw
  · exact hw

theorem fillColumn_writes (P : World → Prop) (cx cy cz x z : Int) (p : ColumnParams)
    (hP : ∀ w y t, 0 ≤ y → y < CHUNK_HEIGHT → t ≠ BlockType.LEAVES →
      Generable (cy * CHUNK_HEIGHT + y) t → P w →
      P (World.chunkSetBlock w cx cy cz x y z (Block.ofType t)))
    (w : World) (hw : P w) : P (fillColumn cx cy cz x z p w).world := by
  unfold fillColumn
  apply forLoop_inv_idx (fun t : GenState => P t.world) _ _ _ _ _ _ hw
  intro y s h1 h2 hs
  exact fillBody_writes P _ _ _ _ _ _ _ _ _ _ (fun w t ht hg hw => hP w y t h1 h2 ht hg hw) s hs

/-- What a column stores: in its own cells blocks other than Leaves that can
be generated at their height; Leaves only at heights from 13, inside the chunk. -/
theorem columnBody_writes (P : World → Prop) (T : Trig) (cx cy cz x z : Int)
    (hown : ∀ w y t, 0 ≤ y → y < CHUNK_HEIGHT → t ≠ BlockType.LEAVES →
      Generable (cy * CHUNK_HEIGHT + y) t → P w →
      P (World.chunkSetBlock w cx cy cz x y z (Block.ofType t)))
    (hleaf : ∀ w a b c, Chunk.inBounds a b c = true → 13 ≤ cy * CHUNK_HEIGHT + b → P w →
      P (World.chunkSetBlock w cx cy cz a b c (Block.ofType BlockType.LEAVES)))
    (s : GenState) (hs : P s.world) : P (columnBody T cx cy cz x z s).world := by
  unfold columnBody
  simp only
  apply vegetation_writes P
  · intro h8 w y h1 h2 h3 _ hw
    exact hown w y _ h1 h2 (by decide) (by show (10 : Int) ≤ _; omega) hw
  · intro h8 w a b c hc hw
    unfold inCanopy at hc
    apply hleaf w a b c _ (by omega) hw
    rw [Chunk.inBounds_iff]
    simp only [CHUNK_WIDTH, CHUNK_HEIGHT, CHUNK_DEPTH] at hc
    omega
  · exact fillColumn_writes P _ _ _ _ _ _ hown _ hs

/-- What the generation of a chunk does to the world: it assigns a new chunk to
the slot and stores, inside the bounds of that chunk, blocks that can be
generated at their height. -/
theorem chunkBody_writes (P : World → Prop) (T : Trig) (cx cy cz : Int)
    (hnew : ∀ w pos, P w → P (World.setChunk w cx.toNat cy.toNat cz.toNat (Chunk.new pos)))
    (hwrite : ∀ w x y z t, Chunk.inBounds x y z = true → Generable (cy * CHUNK_HEIGHT + y) t →
      P w → P (World.chunkSetBlock w cx cy cz x y z (Block.ofType t)))
    (s : GenState) (hs : P s.world) : P (chunkBody T cx cy cz s).world := by
  unfold chunkBody
  simp only
  apply forLoop_inv_idx (fun t : GenState => P t.world) _ _ _ _ _ _ (hnew _ _ hs)
  intro x t hx1 hx2 ht
  apply forLoop_inv_idx (fun t : GenState => P t.world) _ _ _ _ _ _ ht
  intro z u hz1 hz2 hu
  apply columnBody_writes P T _ _ _ _ _ _ _ _ hu
  · intro w y b hy1 hy2 _ hg hw
    apply hwrite w x y z b _ hg hw
    rw [Chunk.inBounds_iff]
    simp only [CHUNK_WIDTH, CHUNK_HEIGHT, CHUNK_DEPTH] at hx2 hy2 hz2
    omega
  · intro w a b c hb h13 hw
    exact hwrite w a b c _ hb h13 hw

theorem columnBody_draws (T : Trig) (cx cy cz x z : Int) (s : GenState) :
    (columnBody T cx cy cz x z s).rng.draws = s.rng.draws := by
  unfold columnBody fillColumn
  simp only
  apply forLoop_inv (fun t : GenState => t.rng.draws = s.rng.draws)
  · intro y t ht
    rw [fillBody_draws]
    exact ht
  · rfl

theorem chunkBody_draws (T : Trig) (cx cy cz : Int) (s : GenState) :
    (chunkBody T cx cy cz s).rng.draws = s.rng.draws := by
  unfold chunkBody
  simp only
  apply forLoop_inv (fun t : GenState => t.rng.draws = s.rng.draws)
  · intro x t ht
    apply forLoop_inv (fun t : GenState => t.rng.draws = s.rng.draws)
    · intro z u hu
      rw [columnBody_draws]
      exact hu
    · exact ht
  · rfl

/-- Generation reads the random source in order and never replaces it: on
arrival at a column the sequence of values is the one generation started with. -/
theorem generateUpTo_draws (T : Trig) (cx cy cz x z : Int) (s : GenState) :
    (generateUpTo T cx cy cz x z s).rng.draws = s.rng.draws := by
  unfold generateUpTo
  simp only
  apply forLoop_inv (fun t : GenState => t.rng.draws = s.rng.draws)
  · intro z' u hu
    rw [columnBody_draws]
    exact hu
  apply forLoop_inv (fun t : GenState => t.rng.draws = s.rng.draws)
  · intro x' t ht
    apply forLoop_inv (fun t : GenState => t.rng.draws = s.rng.draws)
    · intro z' u hu
      rw [columnBody_draws]
      exact hu
    · exact ht
  show (forLoop 0 cz (fun _ => true) (fun cz' => chunkBody T cx cy cz') _ : GenState).rng.draws =
    s.rng.draws
  apply forLoop_inv (fun t : GenState => t.rng.draws = s.rng.draws)
  · intro cz' u hu
    rw [chunkBody_draws]
    exact hu
  apply forLoop_inv (fun t : GenState => t.rng.draws = s.rng.draws)
  · intro cy' t ht
    apply forLoop_inv (fun t : GenState => t.rng.draws = s.rng.draws)
    · intro cz' u hu
      rw [chunkBody_draws]
      exact hu
    · exact ht
  apply forLoop_inv (fun t : GenState => t.rng.draws = s.rng.draws)
  · intro cx' t ht
    apply forLoop_inv (fun t : GenState => t.rng.draws = s.rng.draws)
    · intro cy' u hu
      apply forLoop_inv (fun t : GenState => t.rng.draws = s.rng.draws)
      · intro cz' v hv
        rw [chunkBody_draws]
        exact hv
      · exact hu
    · exact ht
  · rfl

/-! ## Lemmas on the cells of a column after its terrain-layer loop -/

/-- The terrain-layer loop, from any start, keeps the grid well formed and
the chunk of the slot in place. -/
theorem fillLoop_ready (cx cy cz x z T : Int) (d m wtr : Bool) (lo hi : Int)
    (cond : Int → Bool) (s : GenState) (hw : s.world.WF) (i j k : Nat)
    (hsome : (s.world.chunks.get i j k).isSome = true) :
    (forLoop lo hi cond (fillBody cx cy cz x z T d m wtr) s).world.WF ∧
      ((forLoop lo hi cond (fillBody cx cy cz x z T d m wtr) s).world.chunks.get i j k).isSome
        = true := by
  apply forLoop_inv (fun t : GenState => t.world.WF ∧ (t.world.chunks.get i j k).isSome = true)
  · intro y t ht
    exact fillBody_preserves
      (fun w => w.WF ∧ (w.chunks.get i j k).isSome = true)
      (fun w cx cy cz x y z b hw' => ⟨World.wf_chunkSetBlock hw'.1 _ _ _ _ _ _ _,
        World.isSome_chunkSetBlock _ _ _ _ _ _ _ _ _ _ _ hw'.2⟩) _ _ _ _ _ _ _ _ _ _ _ ht
  · exact ⟨hw, hsome⟩

/-- After the terrain-layer loop, a cell of the column that the loop reaches
holds what the iteration for its height stored or left there. -/
theorem fillColumn_cell (cx cy cz x z : Int) (p : ColumnParams) (w : World)
    (hcx : 0 ≤ cx) (hcy : 0 ≤ cy) (hcz : 0 ≤ cz) (hx : 0 ≤ x) (hz : 0 ≤ z)
    (y : Int) (hy : 0 ≤ y ∧ y < CHUNK_HEIGHT)
    (hreach : cy * CHUNK_HEIGHT + y ≤ p.terrainHeight + 10) :
    (fillColumn cx cy cz x z p w).world.load (World.localPtr cx cy cz x y z) =
      (fillBody cx cy cz x z p.terrainHeight p.isDesert p.isMountain p.isWater y
        (forLoop 0 y (fun y => decide (cy * CHUNK_HEIGHT + y ≤ p.terrainHeight + 10))
          (fillBody cx cy cz x z p.terrainHeight p.isDesert p.isMountain p.isWater)
          ⟨w, p.rng⟩)).world.load (World.localPtr cx cy cz x y z) := by
  unfold fillColumn
  rw [forLoop_split 0 CHUNK_HEIGHT _ _ y hy.1 hy.2]
  · apply forLoop_inv_idx (fun t : GenState =>
      t.world.load (World.localPtr cx cy cz x y z) = _) _ _ _ _ _ _ rfl
    intro j t h1 h2 ht
    apply fillBody_writes (fun w' => w'.load (World.localPtr cx cy cz x y z) = _) _ _ _ _ _ _ _ _
      _ _ _ t ht
    intro w' b _ _ hw'
    rw [World.load_chunkSetBlock_ne]
    · exact hw'
    · intro h
      have := World.localPtr_inj hcx hcy hcz hx hy.1 hz hcx hcy hcz hx (by omega) hz h
      omega
  · intro j h1 h2
    simp only [CHUNK_HEIGHT] at hreach ⊢
    rw [decide_eq_true_iff]
    omega

/-- The cell of the column at the terrain height holds the cap block after
the terrain-layer loop. -/
theorem fillColumn_surface (cx cy cz x z : Int) (p : ColumnParams) (w : World) (hw : w.WF)
    (hcx : 0 ≤ cx ∧ cx < WORLD_WIDTH) (hcy : 0 ≤ cy ∧ cy < WORLD_HEIGHT)
    (hcz : 0 ≤ cz ∧ cz < WORLD_DEPTH)
    (hsome : (w.chunks.get cx.toNat cy.toNat cz.toNat).isSome = true)
    (hx : 0 ≤ x ∧ x < CHUNK_WIDTH) (hz : 0 ≤ z ∧ z < CHUNK_DEPTH)
    (y : Int) (hy : 0 ≤ y ∧ y < CHUNK_HEIGHT) (hT : cy * CHUNK_HEIGHT + y = p.terrainHeight) :
    (fillColumn cx cy cz x z p w).world.load (World.localPtr cx cy cz x y z) =
      Block.ofType (surfaceCap p.isWater p.isDesert p.isMountain) := by
  rw [fillColumn_cell cx cy cz x z p w hcx.1 hcy.1 hcz.1 hx.1 hz.1 y hy (by omega),
    fillBody_surface _ _ _ _ _ _ _ _ _ _ _ hT]
  have hr := fillLoop_ready cx cy cz x z p.terrainHeight p.isDesert p.isMountain p.isWater 0 y
    (fun y => decide (cy * CHUNK_HEIGHT + y ≤ p.terrainHeight + 10)) ⟨w, p.rng⟩ hw _ _ _ hsome
  apply World.load_chunkSetBlock_same hr.1 hcx hcy hcz hr.2
  rw [Chunk.inBounds_iff]
  simp only [CHUNK_WIDTH, CHUNK_HEIGHT, CHUNK_DEPTH] at hx hy hz
  omega

/-- A cell of the column above the terrain height and up to height 8 that
the loop reaches holds Water after the terrain-layer loop. -/
theorem fillColumn_water (cx cy cz x z : Int) (p : ColumnParams) (w : World) (hw : w.WF)
    (hcx : 0 ≤ cx ∧ cx < WORLD_WIDTH) (hcy : 0 ≤ cy ∧ cy < WORLD_HEIGHT)
    (hcz : 0 ≤ cz ∧ cz < WORLD_DEPTH)
    (hsome : (w.chunks.get cx.toNat cy.toNat cz.toNat).isSome = true)
    (hx : 0 ≤ x ∧ x < CHUNK_WIDTH) (hz : 0 ≤ z ∧ z < CHUNK_DEPTH)
    (y : Int) (hy : 0 ≤ y ∧ y < CHUNK_HEIGHT) (h1 : p.terrainHeight < cy * CHUNK_HEIGHT + y)
    (h2 : cy * CHUNK_HEIGHT + y ≤ 8) (hreach : cy * CHUNK_HEIGHT + y ≤ p.terrainHeight + 10) :
    (fillColumn cx cy cz x z p w).world.load (World.localPtr cx cy cz x y z) =
      Block.ofType BlockType.WATER := by
  rw [fillColumn_cell cx cy cz x z p w hcx.1 hcy.1 hcz.1 hx.1 hz.1 y hy hreach,
    fillBody_water _ _ _ _ _ _ _ _ _ _ _ h1 h2]
  have hr := fillLoop_ready cx cy cz x z p.terrainHeight p.isDesert p.isMountain p.isWater 0 y
    (fun y => decide (cy * CHUNK_HEIGHT + y ≤ p.terrainHeight + 10)) ⟨w, p.rng⟩ hw _ _ _ hsome
  apply World.load_chunkSetBlock_same hr.1 hcx hcy hcz hr.2
  rw [Chunk.inBounds_iff]
  simp only [CHUNK_WIDTH, CHUNK_HEIGHT, CHUNK_DEPTH] at hx hy hz
  omega

theorem fillColumn_ready (cx cy cz x z : Int) (p : ColumnParams) (w : World) (hw : w.WF)
    (i j k : Nat) (hsome : (w.chunks.get i j k).isSome = true) :
    (fillColumn cx cy cz x z p w).world.WF ∧
      ((fillColumn cx cy cz x z p w).world.chunks.get i j k).isSome = true :=
  fillLoop_ready _ _ _ _ _ _ _ _ _ _ _ _ ⟨w, p.rng⟩ hw i j k hsome

/-! ## What the generated world holds at a height -/

/-- Every stored block of the world generated from a newly constructed
`World` is Air or a block that generation can store at its height. -/
theorem generateWorld_generable (T : Trig) (rng : Rand) (cx cy cz a b c : Int)
    (hcx : 0 ≤ cx) (hcy : 0 ≤ cy) (hcz : 0 ≤ cz) (ha : 0 ≤ a) (hb : 0 ≤ b) (hc : 0 ≤ c) :
    ((generateWorld T ⟨World.new, rng⟩).world.load (World.localPtr cx cy cz a b c)).type =
        BlockType.AIR ∨
      Generable (cy * CHUNK_HEIGHT + b)
        ((generateWorld T ⟨World.new, rng⟩).world.load (World.localPtr cx cy cz a b c)).type := by
  have key : (fun w : World => (w.load (World.localPtr cx cy cz a b c)).type = BlockType.AIR ∨
      Generable (cy * CHUNK_HEIGHT + b) (w.load (World.localPtr cx cy cz a b c)).type)
      (generateWorld T ⟨World.new, rng⟩).world := by
    unfold generateWorld
    apply forLoop_inv_idx (fun t : GenState =>
      (t.world.load (World.localPtr cx cy cz a b c)).type = BlockType.AIR ∨
      Generable (cy * CHUNK_HEIGHT + b) (t.world.load (World.localPtr cx cy cz a b c)).type)
    · intro cx' t h1 _ ht
      apply forLoop_inv_idx (fun t : GenState =>
        (t.world.load (World.localPtr cx cy cz a b c)).type = BlockType.AIR ∨
        Generable (cy * CHUNK_HEIGHT + b) (t.world.load (World.localPtr cx cy cz a b c)).type)
        _ _ _ _ _ _ ht
      intro cy' u h2 _ hu
      apply forLoop_inv_idx (fun t : GenState =>
        (t.world.load (World.localPtr cx cy cz a b c)).type = BlockType.AIR ∨
        Generable (cy * CHUNK_HEIGHT + b) (t.world.load (World.localPtr cx cy cz a b c)).type)
        _ _ _ _ _ _ hu
      intro cz' v h3 _ hv
      apply chunkBody_writes (fun w : World =>
        (w.load (World.localPtr cx cy cz a b c)).type = BlockType.AIR ∨
        Generable (cy * CHUNK_HEIGHT + b) (w.load (World.localPtr cx cy cz a b c)).type)
        T cx' cy' cz' _ _ v hv
      · intro w pos hw
        rcases World.load_setChunk_new w cx'.toNat cy'.toNat cz'.toNat pos
          (World.localPtr cx cy cz a b c) (fun h => CellRef.noConfusion h) with h | h
        · left
          rw [h]
          rfl
        · simp only [h]
          exact hw
      · intro w x y z t hin hg hw
        rcases World.load_chunkSetBlock_cases w cx' cy' cz' x y z (Block.ofType t)
          (World.localPtr cx cy cz a b c) with h | ⟨hq, -, h⟩
        · simp only [h]
          exact hw
        · right
          have hin' := (Chunk.inBounds_iff x y z).1 hin
          have e := World.localPtr_inj hcx hcy hcz ha hb hc h1 h2 h3 hin'.1 hin'.2.2.1
            hin'.2.2.2.2.1 hq
          rw [h, e.2.1, e.2.2.2.2.1]
          exact hg
    · left
      rw [World.load_of_new]
      rfl
  exact key

/-! ## Theorems on the terrain layers -/

theorem columnParams_zero (cx cz x z : Int) (n : Nat) :
    columnParams zeroTrig cx cz x z ⟨fun _ => 0, n⟩ =
      ⟨10, 10, false, false, false, ⟨fun _ => 0, n + 4⟩⟩ := by
  have h10 : ftoi (10 : ℚ) = 10 := by
    unfold ftoi
    rw [if_pos (by norm_num)]
    norm_num [Int.floor_eq_iff]
  simp only [columnParams, rand, zeroTrig]
  norm_num [h10]

/-- C14: surface cap selection. In the iteration of the terrain-layer loop of
any column at the height `worldY == terrainHeight`, the block stored is Sand if
the column is water, otherwise Sand if it is desert, otherwise Stone if it is
mountain, otherwise Grass, and no random value is drawn; when that height lies
in the chunk, the cell holds this cap block once the loop is complete; and the
cap block is solid whichever flags hold. -/
theorem surface_cap_selection (cx cy cz x z : Int) (p : ColumnParams) (w : World)
    (hw : w.WF) (hcx : 0 ≤ cx ∧ cx < WORLD_WIDTH) (hcy : 0 ≤ cy ∧ cy < WORLD_HEIGHT)
    (hcz : 0 ≤ cz ∧ cz < WORLD_DEPTH)
    (hsome : (w.chunks.get cx.toNat cy.toNat cz.toNat).isSome = true)
    (hx : 0 ≤ x ∧ x < CHUNK_WIDTH) (hz : 0 ≤ z ∧ z < CHUNK_DEPTH)
    (y : Int) (hy : 0 ≤ y ∧ y < CHUNK_HEIGHT) (hT : cy * CHUNK_HEIGHT + y = p.terrainHeight) :
    (∀ s : GenState,
      fillBody cx cy cz x z p.terrainHeight p.isDesert p.isMountain p.isWater y s =
        ⟨s.world.chunkSetBlock cx cy cz x y z
          (Block.ofType (surfaceCap p.isWater p.isDesert p.isMountain)), s.rng⟩) ∧
    (fillColumn cx cy cz x z p w).world.load (World.localPtr cx cy cz x y z) =
      Block.ofType (surfaceCap p.isWater p.isDesert p.isMountain) ∧
    (Block.ofType (surfaceCap p.isWater p.isDesert p.isMountain)).isSolid = true := by
  refine ⟨fun s => fillBody_surface _ _ _ _ _ _ _ _ _ _ s hT,
    fillColumn_surface cx cy cz x z p w hw hcx hcy hcz hsome hx hz y hy hT, ?_⟩
  cases p.isWater <;> cases p.isDesert <;> cases p.isMountain <;> rfl

/-- C14, witness: the column `(0, 0)` of chunk `(0, 0, 0)` of a world of
newly constructed chunks, with terrain height 10 and no biome flag: the cap is
Grass. -/
theorem surface_cap_selection_witness :
    (∀ s : GenState,
      fillBody 0 0 0 0 0 10 false false false 10 s =
        ⟨s.world.chunkSetBlock 0 0 0 0 10 0 (Block.ofType BlockType.GRASS), s.rng⟩) ∧
    (fillColumn 0 0 0 0 0 plainColumn airWorld).world.load (World.localPtr 0 0 0 0 10 0) =
      Block.ofType BlockType.GRASS ∧
    (Block.ofType BlockType.GRASS).isSolid = true :=
  surface_cap_selection 0 0 0 0 0 plainColumn airWorld airWorld_wf (by decide) (by decide)
    (by decide) (airWorld_populated 0 0 0 (by decide) (by decide) (by decide)) (by decide)
    (by decide) 10 (by decide) (by decide)

/-! ## Lemmas on the tree loops -/

theorem ready_chunkSetBlock (i j k : Nat) (w : World) (cx cy cz x y z : Int) (b : Block)
    (h : w.WF ∧ (w.chunks.get i j k).isSome = true) :
    (w.chunkSetBlock cx cy cz x y z b).WF ∧
      ((w.chunkSetBlock cx cy cz x y z b).chunks.get i j k).isSome = true :=
  ⟨World.wf_chunkSetBlock h.1 _ _ _ _ _ _ _, World.isSome_chunkSetBlock _ _ _ _ _ _ _ _ _ _ _ h.2⟩

theorem trunkBody_ready (cx cy cz x z treeY : Int) (w : World) (i j k : Nat)
    (h : w.WF ∧ (w.chunks.get i j k).isSome = true) :
    (trunkBody cx cy cz x z treeY w).WF ∧
      ((trunkBody cx cy cz x z treeY w).chunks.get i j k).isSome = true :=
  trunkBody_preserves (fun w : World => w.WF ∧ (w.chunks.get i j k).isSome = true)
    (ready_chunkSetBlock i j k) _ _ _ _ _ _ _ h

theorem leafBody_ready (cx cy cz x z lx lz ly : Int) (w : World) (i j k : Nat)
    (h : w.WF ∧ (w.chunks.get i j k).isSome = true) :
    (leafBody cx cy cz x z lx lz ly w).WF ∧
      ((leafBody cx cy cz x z lx lz ly w).chunks.get i j k).isSome = true :=
  leafBody_preserves (fun w : World => w.WF ∧ (w.chunks.get i j k).isSome = true)
    (ready_chunkSetBlock i j k) _ _ _ _ _ _ _ _ _ h

theorem stampTrunk_ready (cx cy cz x z T : Int) (w : World) (i j k : Nat)
    (h : w.WF ∧ (w.chunks.get i j k).isSome = true) :
    (stampTrunk cx cy cz x z T w).WF ∧
      ((stampTrunk cx cy cz x z T w).chunks.get i j k).isSome = true :=
  forLoop_inv (fun w : World => w.WF ∧ (w.chunks.get i j k).isSome = true) _ _ _ _
    (fun _ _ hv => trunkBody_ready _ _ _ _ _ _ _ _ _ _ hv) _ h

theorem leafLoop_inv (P : World → Prop) (cx cy cz x z lx lz : Int)
    (hP : ∀ lx lz ly w, P w → P (leafBody cx cy cz x z lx lz ly w))
    (lo hi : Int) (cond : Int → Bool) (w : World) (hw : P w) :
    P (forLoop lo hi cond (leafBody cx cy cz x z lx lz) w) :=
  forLoop_inv P lo hi cond _ (fun ly v hv => hP lx lz ly v hv) w hw

theorem leafLoops_inv (P : World → Prop) (cx cy cz x z lx : Int)
    (hP : ∀ lx lz ly w, P w → P (leafBody cx cy cz x z lx lz ly w))
    (lo hi : Int) (cond : Int → Bool) (lo' hi' : Int) (cond' : Int → Bool) (w : World)
    (hw : P w) :
    P (forLoop lo hi cond (fun lz => forLoop lo' hi' cond' (leafBody cx cy cz x z lx lz)) w) :=
  forLoop_inv P lo hi cond _
    (fun lz v hv => leafLoop_inv P cx cy cz x z lx lz hP lo' hi' cond' v hv) w hw

/-- An iteration of the leaves loops leaves a block that is Leaves as it is. -/
theorem leafBody_keeps_leaves (cx cy cz x z lx lz ly : Int) (q : BlockPtr) (w : World)
    (h : w.load q = Block.ofType BlockType.LEAVES) :
    (leafBody cx cy cz x z lx lz ly w).load q = Block.ofType BlockType.LEAVES := by
  apply leafBody_writes (fun w' => w'.load q = Block.ofType BlockType.LEAVES) _ _ _ _ _ _ _ _ _ _ h
  intro w' a b c _ _ _ _ _ hw'
  rcases World.load_chunkSetBlock_cases w' cx cy cz a b c (Block.ofType BlockType.LEAVES) q with
    h' | ⟨-, -, h'⟩
  · rw [h']; exact hw'
  · exact h'

/-- The iteration of the leaves loops for a cell of the canopy stores Leaves
in it. -/
theorem leafBody_hit (cx cy cz x z T a b c : Int) (w : World) (hw : w.WF)
    (hcx : 0 ≤ cx ∧ cx < WORLD_WIDTH) (hcy : 0 ≤ cy ∧ cy < WORLD_HEIGHT)
    (hcz : 0 ≤ cz ∧ cz < WORLD_DEPTH)
    (hsome : (w.chunks.get cx.toNat cy.toNat cz.toNat).isSome = true)
    (hc : inCanopy cy x z T a b c) :
    (leafBody cx cy cz x z (a - x) (c - z) (cy * CHUNK_HEIGHT + b) w).load
      (World.localPtr cx cy cz a b c) = Block.ofType BlockType.LEAVES := by
  unfold inCanopy at hc
  obtain ⟨h1, h2, h3, h4, h5, h6, h7, h8, h9⟩ := hc
  unfold leafBody
  simp only
  have e1 : x + (a - x) = a := by ring
  have e2 : z + (c - z) = c := by ring
  have e3 : cy * CHUNK_HEIGHT + b - cy * CHUNK_HEIGHT = b := by ring
  rw [e1, e2, e3, if_pos ⟨h1, by omega⟩, if_pos ⟨h4, h5, h8, h9, h6, h7⟩]
  apply World.load_chunkSetBlock_same hw hcx hcy hcz hsome
  rw [Chunk.inBounds_iff]
  simp only [CHUNK_WIDTH, CHUNK_HEIGHT, CHUNK_DEPTH] at h4 h5 h6 h7 h8 h9
  omega

/-- Every cell of the canopy holds Leaves after the leaves loops. -/
theorem stampCanopy_inside (cx cy cz x z T a b c : Int) (w : World) (hw : w.WF)
    (hcx : 0 ≤ cx ∧ cx < WORLD_WIDTH) (hcy : 0 ≤ cy ∧ cy < WORLD_HEIGHT)
    (hcz : 0 ≤ cz ∧ cz < WORLD_DEPTH)
    (hsome : (w.chunks.get cx.toNat cy.toNat cz.toNat).isSome = true)
    (hc : inCanopy cy x z T a b c) :
    (stampCanopy cx cy cz x z T w).load (World.localPtr cx cy cz a b c) =
      Block.ofType BlockType.LEAVES := by
  have hc' := hc
  unfold inCanopy at hc'
  obtain ⟨h1, h2, h3, -⟩ := hc'
  have hlx : -2 ≤ a - x ∧ a - x < 3 := by
    rcases abs_cases (a - x) with h | h <;> rcases abs_cases (c - z) with h' | h' <;> omega
  have hlz : -2 ≤ c - z ∧ c - z < 3 := by
    rcases abs_cases (a - x) with h | h <;> rcases abs_cases (c - z) with h' | h' <;> omega
  unfold stampCanopy
  apply forLoop_establish
    (fun w : World => w.WF ∧ (w.chunks.get cx.toNat cy.toNat cz.toNat).isSome = true)
    (fun w : World => w.load (World.localPtr cx cy cz a b c) = Block.ofType BlockType.LEAVES)
    (-2) 3 _ _ _ (a - x) hlx.1 hlx.2 _ w ⟨hw, hsome⟩
  · intro lx v hv
    exact leafLoops_inv
      (fun w : World => w.WF ∧ (w.chunks.get cx.toNat cy.toNat cz.toNat).isSome = true)
      cx cy cz x z lx (fun lx lz ly t ht => leafBody_ready cx cy cz x z lx lz ly t _ _ _ ht)
      _ _ _ _ _ _ v hv
  · intro lx v _ hv
    exact leafLoops_inv
      (fun w : World => w.load (World.localPtr cx cy cz a b c) = Block.ofType BlockType.LEAVES)
      cx cy cz x z lx (fun lx lz ly t ht => leafBody_keeps_leaves cx cy cz x z lx lz ly _ t ht)
      _ _ _ _ _ _ v hv
  · intro v hv
    apply forLoop_establish
      (fun w : World => w.WF ∧ (w.chunks.get cx.toNat cy.toNat cz.toNat).isSome = true)
      (fun w : World => w.load (World.localPtr cx cy cz a b c) = Block.ofType BlockType.LEAVES)
      (-2) 3 _ _ _ (c - z) hlz.1 hlz.2 _ v hv
    · intro lz u hu
      exact leafLoop_inv
        (fun w : World => w.WF ∧ (w.chunks.get cx.toNat cy.toNat cz.toNat).isSome = true)
        cx cy cz x z (a - x) lz
        (fun lx lz ly t ht => leafBody_ready cx cy cz x z lx lz ly t _ _ _ ht) _ _ _ u hu
    · intro lz u _ hu
      exact leafLoop_inv
        (fun w : World => w.load (World.localPtr cx cy cz a b c) = Block.ofType BlockType.LEAVES)
        cx cy cz x z (a - x) lz
        (fun lx lz ly t ht => leafBody_keeps_leaves cx cy cz x z lx lz ly _ t ht) _ _ _ u hu
    · intro u hu
      apply forLoop_establish
        (fun w : World => w.WF ∧ (w.chunks.get cx.toNat cy.toNat cz.toNat).isSome = true)
        (fun w : World => w.load (World.localPtr cx cy cz a b c) = Block.ofType BlockType.LEAVES)
        (T + 4) (T + 8) _ _ _ (cy * CHUNK_HEIGHT + b) h2 h3 _ u hu
      · intro ly t ht
        exact leafBody_ready _ _ _ _ _ _ _ _ _ _ _ _ ht
      · intro ly t _ ht
        exact leafBody_keeps_leaves _ _ _ _ _ _ _ _ _ _ ht
      · intro t ht
        exact leafBody_hit cx cy cz x z T a b c t ht.1 hcx hcy hcz ht.2 hc

/-- A block that is not in a cell of the canopy is as before after the
leaves loops. -/
theorem stampCanopy_outside (cx cy cz x z T : Int) (w : World) (q : BlockPtr)
    (hq : ¬ ∃ a b c, inCanopy cy x z T a b c ∧ q = World.localPtr cx cy cz a b c) :
    (stampCanopy cx cy cz x z T w).load q = w.load q := by
  apply stampCanopy_writes (fun w' => w'.load q = w.load q) _ _ _ _ _ _ _ _ rfl
  intro w' a b c hc hw'
  rw [World.load_chunkSetBlock_ne]
  · exact hw'
  · intro h
    exact hq ⟨a, b, c, hc, h⟩

/-! ## Theorems on trees -/

/-- C18: canopy shape and clipping. For a tree on the local column `(x, z)` of
the chunk in slot `(cx, cy, cz)` with terrain height `T`, the leaves loops turn
into Leaves exactly the stored blocks `(a, b, c)` of that chunk with
`|a - x| + |c - z| <= 2` in the four layers of world height `T + 4 .. T + 7`,
inside the bounds of the chunk; every other block, in this chunk or in any other
chunk, is as before. -/
theorem canopy_shape (cx cy cz x z T : Int) (w : World) (hw : w.WF)
    (hcx : 0 ≤ cx ∧ cx < WORLD_WIDTH) (hcy : 0 ≤ cy ∧ cy < WORLD_HEIGHT)
    (hcz : 0 ≤ cz ∧ cz < WORLD_DEPTH)
    (hsome : (w.chunks.get cx.toNat cy.toNat cz.toNat).isSome = true) (q : BlockPtr) :
    ((∃ a b c, inCanopy cy x z T a b c ∧ q = World.localPtr cx cy cz a b c) →
      (stampCanopy cx cy cz x z T w).load q = Block.ofType BlockType.LEAVES) ∧
    ((¬ ∃ a b c, inCanopy cy x z T a b c ∧ q = World.localPtr cx cy cz a b c) →
      (stampCanopy cx cy cz x z T w).load q = w.load q) := by
  refine ⟨?_, stampCanopy_outside cx cy cz x z T w q⟩
  rintro ⟨a, b, c, hc, rfl⟩
  exact stampCanopy_inside cx cy cz x z T a b c w hw hcx hcy hcz hsome hc

/-- C18, witness: a tree on the column `(5, 5)` of chunk `(0, 0, 0)` with
terrain height 10 in a world of newly constructed chunks: the block `(6, 14, 6)`
becomes Leaves, the block `(8, 14, 5)`, at distance 3, stays as it was. -/
theorem canopy_shape_witness :
    (stampCanopy 0 0 0 5 5 10 airWorld).load (World.localPtr 0 0 0 6 14 6) =
        Block.ofType BlockType.LEAVES ∧
      (stampCanopy 0 0 0 5 5 10 airWorld).load (World.localPtr 0 0 0 8 14 5) =
        airWorld.load (World.localPtr 0 0 0 8 14 5) :=
  ⟨(canopy_shape 0 0 0 5 5 10 airWorld airWorld_wf (by decide) (by decide) (by decide)
      (airWorld_populated 0 0 0 (by decide) (by decide) (by decide))
      (World.localPtr 0 0 0 6 14 6)).1
      ⟨6, 14, 6, by unfold inCanopy; decide, rfl⟩,
    (canopy_shape 0 0 0 5 5 10 airWorld airWorld_wf (by decide) (by decide) (by decide)
      (airWorld_populated 0 0 0 (by decide) (by decide) (by decide))
      (World.localPtr 0 0 0 8 14 5)).2
      (by
        rintro ⟨a, b, c, hc, hq⟩
        unfold inCanopy at hc
        have e := World.localPtr_inj (by decide) (by decide) (by decide) (by decide) (by decide)
          (by decide) (by decide) (by decide) (by decide) hc.2.2.2.1 hc.2.2.2.2.2.1
          hc.2.2.2.2.2.2.2.1 hq
        obtain ⟨-, -, -, ea, -, ec⟩ := e
        have h1 := hc.1
        rw [← ea, ← ec] at h1
        revert h1
        decide)⟩

/-- An iteration of the trunk loop leaves a block that is Wood as it is. -/
theorem trunkBody_keeps_wood (cx cy cz x z treeY : Int) (q : BlockPtr) (w : World)
    (h : w.load q = Block.ofType BlockType.WOOD) :
    (trunkBody cx cy cz x z treeY w).load q = Block.ofType BlockType.WOOD := by
  apply trunkBody_writes (fun w' => w'.load q = Block.ofType BlockType.WOOD) _ _ _ _ _ _ _ _ h
  intro w' y _ _ _ hw'
  rcases World.load_chunkSetBlock_cases w' cx cy cz x y z (Block.ofType BlockType.WOOD) q with
    h' | ⟨-, -, h'⟩
  · rw [h']; exact hw'
  · exact h'

/-- The iteration of the trunk loop for a height inside the chunk stores Wood
in the cell of the column at that height. -/
theorem trunkBody_hit (cx cy cz x z y : Int) (w : World) (hw : w.WF)
    (hcx : 0 ≤ cx ∧ cx < WORLD_WIDTH) (hcy : 0 ≤ cy ∧ cy < WORLD_HEIGHT)
    (hcz : 0 ≤ cz ∧ cz < WORLD_DEPTH)
    (hsome : (w.chunks.get cx.toNat cy.toNat cz.toNat).isSome = true)
    (hx : 0 ≤ x ∧ x < CHUNK_WIDTH) (hz : 0 ≤ z ∧ z < CHUNK_DEPTH)
    (hy : 0 ≤ y ∧ y < CHUNK_HEIGHT) :
    (trunkBody cx cy cz x z (cy * CHUNK_HEIGHT + y) w).load (World.localPtr cx cy cz x y z) =
      Block.ofType BlockType.WOOD := by
  unfold trunkBody
  simp only
  have e : cy * CHUNK_HEIGHT + y - cy * CHUNK_HEIGHT = y := by ring
  rw [e, if_pos (by omega), if_pos ⟨hy.1, hy.2⟩]
  apply World.load_chunkSetBlock_same hw hcx hcy hcz hsome
  rw [Chunk.inBounds_iff]
  simp only [CHUNK_WIDTH, CHUNK_HEIGHT, CHUNK_DEPTH] at hx hy hz
  omega

/-- After the trunk loop the cells of the column at the five heights above
the terrain height, as far as they lie in the chunk, hold Wood. -/
theorem stampTrunk_cell (cx cy cz x z T y : Int) (w : World) (hw : w.WF)
    (hcx : 0 ≤ cx ∧ cx < WORLD_WIDTH) (hcy : 0 ≤ cy ∧ cy < WORLD_HEIGHT)
    (hcz : 0 ≤ cz ∧ cz < WORLD_DEPTH)
    (hsome : (w.chunks.get cx.toNat cy.toNat cz.toNat).isSome = true)
    (hx : 0 ≤ x ∧ x < CHUNK_WIDTH) (hz : 0 ≤ z ∧ z < CHUNK_DEPTH)
    (hy : 0 ≤ y ∧ y < CHUNK_HEIGHT) (h1 : T + 1 ≤ cy * CHUNK_HEIGHT + y)
    (h2 : cy * CHUNK_HEIGHT + y ≤ T + 5) :
    (stampTrunk cx cy cz x z T w).load (World.localPtr cx cy cz x y z) =
      Block.ofType BlockType.WOOD := by
  unfold stampTrunk
  apply forLoop_establish
    (fun w : World => w.WF ∧ (w.chunks.get cx.toNat cy.toNat cz.toNat).isSome = true)
    (fun w : World => w.load (World.localPtr cx cy cz x y z) = Block.ofType BlockType.WOOD)
    (T + 1) (T + 6) _ _ _ (cy * CHUNK_HEIGHT + y) h1 (by omega) _ w ⟨hw, hsome⟩
  · intro treeY v hv
    exact trunkBody_ready _ _ _ _ _ _ _ _ _ _ hv
  · intro treeY v _ hv
    exact trunkBody_keeps_wood _ _ _ _ _ _ _ _ hv
  · intro v hv
    exact trunkBody_hit cx cy cz x z y v hv.1 hcx hcy hcz hv.2 hx hz hy

theorem vegetation_tree (cx cy cz x z worldX worldZ T : Int) (d m wtr : Bool) (w : World)
    (h : treeCondition worldX worldZ T d m wtr = true) :
    vegetation cx cy cz x z worldX worldZ T d m wtr w =
      stampCanopy cx cy cz x z T (stampTrunk cx cy cz x z T w) := by
  unfold treeCondition at h
  rw [decide_eq_true_iff] at h
  unfold vegetation
  rw [if_pos h.1, if_pos h.2]

theorem vegetation_no_tree (cx cy cz x z worldX worldZ T : Int) (d m wtr : Bool) (w : World)
    (h : treeCondition worldX worldZ T d m wtr = false) :
    vegetation cx cy cz x z worldX worldZ T d m wtr w = w := by
  unfold treeCondition at h
  rw [decide_eq_false_iff_not] at h
  unfold vegetation
  split
  · next h1 =>
    split
    · next h2 => exact absurd ⟨h1, h2⟩ h
    · rfl
  · rfl

/-- C17 (the code departs from the claim): the tree trunk, as the code builds
it. On a column that fails one of the conditions (not water, terrain height
above 8, `(worldX + worldZ) % 25 == 0`, not desert, not mountain) the vegetation
step changes nothing. On a column that meets them, the trunk loop stores Wood in
the five cells of the column at `terrainHeight + 1 .. terrainHeight + 5` (as far
as they lie in the chunk), but the leaves loops that follow store Leaves over
the upper two: once the tree is stamped, the cells at `terrainHeight + 1 ..
terrainHeight + 3` hold Wood and those at `terrainHeight + 4` and
`terrainHeight + 5` hold Leaves. -/
theorem tree_trunk (cx cy cz x z worldX worldZ T : Int) (d m wtr : Bool) (w : World)
    (hw : w.WF) (hcx : 0 ≤ cx ∧ cx < WORLD_WIDTH) (hcy : 0 ≤ cy ∧ cy < WORLD_HEIGHT)
    (hcz : 0 ≤ cz ∧ cz < WORLD_DEPTH)
    (hsome : (w.chunks.get cx.toNat cy.toNat cz.toNat).isSome = true)
    (hx : 0 ≤ x ∧ x < CHUNK_WIDTH) (hz : 0 ≤ z ∧ z < CHUNK_DEPTH) :
    (treeCondition worldX worldZ T d m wtr = false →
      vegetation cx cy cz x z worldX worldZ T d m wtr w = w) ∧
    (treeCondition worldX worldZ T d m wtr = true →
      ∀ y : Int, 0 ≤ y → y < CHUNK_HEIGHT →
        (T + 1 ≤ cy * CHUNK_HEIGHT + y → cy * CHUNK_HEIGHT + y ≤ T + 5 →
          (stampTrunk cx cy cz x z T w).load (World.localPtr cx cy cz x y z) =
            Block.ofType BlockType.WOOD) ∧
        (T + 1 ≤ cy * CHUNK_HEIGHT + y → cy * CHUNK_HEIGHT + y ≤ T + 3 →
          (vegetation cx cy cz x z worldX worldZ T d m wtr w).load
            (World.localPtr cx cy cz x y z) = Block.ofType BlockType.WOOD) ∧
        (T + 4 ≤ cy * CHUNK_HEIGHT + y → cy * CHUNK_HEIGHT + y ≤ T + 5 →
          (vegetation cx cy cz x z worldX worldZ T d m wtr w).load
            (World.localPtr cx cy cz x y z) = Block.ofType BlockType.LEAVES)) := by
  refine ⟨vegetation_no_tree cx cy cz x z worldX worldZ T d m wtr w, ?_⟩
  intro htree y hy1 hy2
  have htrunk : T + 1 ≤ cy * CHUNK_HEIGHT + y → cy * CHUNK_HEIGHT + y ≤ T + 5 →
      (stampTrunk cx cy cz x z T w).load (World.localPtr cx cy cz x y z) =
        Block.ofType BlockType.WOOD :=
    fun h1 h2 => stampTrunk_cell cx cy cz x z T y w hw hcx hcy hcz hsome hx hz ⟨hy1, hy2⟩ h1 h2
  refine ⟨htrunk, ?_, ?_⟩
  · intro h1 h2
    rw [vegetation_tree _ _ _ _ _ _ _ _ _ _ _ _ htree, stampCanopy_outside]
    · exact htrunk h1 (by omega)
    · rintro ⟨a, b, c, hc, hq⟩
      unfold inCanopy at hc
      have e := World.localPtr_inj hcx.1 hcy.1 hcz.1 hx.1 hy1 hz.1 hcx.1 hcy.1 hcz.1 hc.2.2.2.1
        hc.2.2.2.2.2.1 hc.2.2.2.2.2.2.2.1 hq
      have := hc.2.1
      omega
  · intro h1 h2
    rw [vegetation_tree _ _ _ _ _ _ _ _ _ _ _ _ htree]
    have hr := stampTrunk_ready cx cy cz x z T w cx.toNat cy.toNat cz.toNat ⟨hw, hsome⟩
    apply stampCanopy_inside cx cy cz x z T x y z _ hr.1 hcx hcy hcz hr.2
    unfold inCanopy
    refine ⟨by simp, h1, by omega, hx.1, hx.2, hy1, hy2, hz.1, hz.2⟩

/-- C17, witness: a tree on the column `(0, 0)` of chunk `(0, 0, 0)` with
terrain height 10 in a world of newly constructed chunks: after the trunk loop
the cell at height 14 holds Wood; once the tree is stamped the cell at height 13
holds Wood and the cell at height 14 holds Leaves. -/
theorem tree_trunk_witness :
    (stampTrunk 0 0 0 0 0 10 airWorld).load (World.localPtr 0 0 0 0 14 0) =
        Block.ofType BlockType.WOOD ∧
      (vegetation 0 0 0 0 0 0 0 10 false false false airWorld).load
        (World.localPtr 0 0 0 0 13 0) = Block.ofType BlockType.WOOD ∧
      (vegetation 0 0 0 0 0 0 0 10 false false false airWorld).load
        (World.localPtr 0 0 0 0 14 0) = Block.ofType BlockType.LEAVES :=
  ⟨((tree_trunk 0 0 0 0 0 0 0 10 false false false airWorld airWorld_wf (by decide) (by decide)
      (by decide) (airWorld_populated 0 0 0 (by decide) (by decide) (by decide)) (by decide)
      (by decide)).2 (by decide) 14 (by decide) (by decide)).1 (by decide) (by decide),
    ((tree_trunk 0 0 0 0 0 0 0 10 false false false airWorld airWorld_wf (by decide) (by decide)
      (by decide) (airWorld_populated 0 0 0 (by decide) (by decide) (by decide)) (by decide)
      (by decide)).2 (by decide) 13 (by decide) (by decide)).2.1 (by decide) (by decide),
    ((tree_trunk 0 0 0 0 0 0 0 10 false false false airWorld airWorld_wf (by decide) (by decide)
      (by decide) (airWorld_populated 0 0 0 (by decide) (by decide) (by decide)) (by decide)
      (by decide)).2 (by decide) 14 (by decide) (by decide)).2.2 (by decide) (by decide)⟩

/-! ## Lemmas on a column within the whole generation -/

/-- On arrival at a column the grid is well formed and the slot of the chunk
holds its chunk. -/
theorem generateUpTo_ready (T : Trig) (cx cy cz x z : Int) (s : GenState) (hs : s.world.WF)
    (hcx : 0 ≤ cx ∧ cx < WORLD_WIDTH) (hcy : 0 ≤ cy ∧ cy < WORLD_HEIGHT)
    (hcz : 0 ≤ cz ∧ cz < WORLD_DEPTH) :
    (generateUpTo T cx cy cz x z s).world.WF ∧
      ((generateUpTo T cx cy cz x z s).world.chunks.get cx.toNat cy.toNat cz.toNat).isSome
        = true := by
  have h1 : cx.toNat < WORLD_WIDTH.toNat := by
    simp only [WORLD_WIDTH] at hcx ⊢; omega
  have h2 : cy.toNat < WORLD_HEIGHT.toNat := by
    simp only [WORLD_HEIGHT] at hcy ⊢; omega
  have h3 : cz.toNat < WORLD_DEPTH.toNat := by
    simp only [WORLD_DEPTH] at hcz ⊢; omega
  have hchunks : ∀ (a b : Int) (lo hi : Int) (t : GenState), t.world.WF →
      (forLoop lo hi (fun _ => true) (fun c => chunkBody T a b c) t).world.WF := by
    intro a b lo hi t ht
    exact forLoop_inv (fun t : GenState => t.world.WF) _ _ _ _
      (fun c v hv => chunkBody_wf T _ _ _ _ hv) _ ht
  have hrows : ∀ (a : Int) (lo hi : Int) (t : GenState), t.world.WF →
      (forLoop lo hi (fun _ => true) (fun b =>
        forLoop 0 WORLD_DEPTH (fun _ => true) (fun c => chunkBody T a b c)) t).world.WF := by
    intro a lo hi t ht
    exact forLoop_inv (fun t : GenState => t.world.WF) _ _ _ _
      (fun b v hv => hchunks a b _ _ v hv) _ ht
  have hplanes : ∀ (lo hi : Int) (t : GenState), t.world.WF →
      (forLoop lo hi (fun _ => true) (fun a =>
        forLoop 0 WORLD_HEIGHT (fun _ => true) (fun b =>
          forLoop 0 WORLD_DEPTH (fun _ => true) (fun c => chunkBody T a b c))) t).world.WF := by
    intro lo hi t ht
    exact forLoop_inv (fun t : GenState => t.world.WF) _ _ _ _
      (fun a v hv => hrows a _ _ v hv) _ ht
  have hcol : ∀ (a c : Int) (t : GenState),
      (t.world.WF ∧ (t.world.chunks.get cx.toNat cy.toNat cz.toNat).isSome = true) →
      ((columnBody T cx cy cz a c t).world.WF ∧
        ((columnBody T cx cy cz a c t).world.chunks.get cx.toNat cy.toNat cz.toNat).isSome
          = true) := by
    intro a c t ht
    exact columnBody_preserves
      (fun w : World => w.WF ∧ (w.chunks.get cx.toNat cy.toNat cz.toNat).isSome = true)
      (ready_chunkSetBlock _ _ _) T cx cy cz a c t ht
  unfold generateUpTo
  simp only
  apply forLoop_inv (fun t : GenState =>
    t.world.WF ∧ (t.world.chunks.get cx.toNat cy.toNat cz.toNat).isSome = true)
  · intro c t ht
    exact hcol x c t ht
  apply forLoop_inv (fun t : GenState =>
    t.world.WF ∧ (t.world.chunks.get cx.toNat cy.toNat cz.toNat).isSome = true)
  · intro a t ht
    apply forLoop_inv (fun t : GenState =>
      t.world.WF ∧ (t.world.chunks.get cx.toNat cy.toNat cz.toNat).isSome = true)
    · intro c u hu
      exact hcol a c u hu
    · exact ht
  have hw3 := hchunks cx cy 0 cz _ (hrows cx 0 cy _ (hplanes 0 cx s hs))
  refine ⟨World.wf_setChunk hw3 _ _ _ (Chunk.wf_new _), ?_⟩
  show ((World.setChunk _ cx.toNat cy.toNat cz.toNat _).chunks.get cx.toNat cy.toNat
    cz.toNat).isSome = true
  rw [World.get_setChunk_same hw3 h1 h2 h3]
  rfl

/-- After a column is generated, its cell at the terrain height holds the
cap block: the tree loops only store above the terrain height. -/
theorem columnBody_surface (T : Trig) (cx cy cz x z : Int) (s : GenState) (hw : s.world.WF)
    (hcx : 0 ≤ cx ∧ cx < WORLD_WIDTH) (hcy : 0 ≤ cy ∧ cy < WORLD_HEIGHT)
    (hcz : 0 ≤ cz ∧ cz < WORLD_DEPTH)
    (hsome : (s.world.chunks.get cx.toNat cy.toNat cz.toNat).isSome = true)
    (hx : 0 ≤ x ∧ x < CHUNK_WIDTH) (hz : 0 ≤ z ∧ z < CHUNK_DEPTH)
    (y : Int) (hy : 0 ≤ y ∧ y < CHUNK_HEIGHT)
    (hT : cy * CHUNK_HEIGHT + y = (columnParams T cx cz x z s.rng).terrainHeight) :
    (columnBody T cx cy cz x z s).world.load (World.localPtr cx cy cz x y z) =
      Block.ofType (surfaceCap (columnParams T cx cz x z s.rng).isWater
        (columnParams T cx cz x z s.rng).isDesert (columnParams T cx cz x z s.rng).isMountain) := by
  unfold columnBody
  simp only
  apply vegetation_writes (fun w' : World => w'.load (World.localPtr cx cy cz x y z) = _)
  · intro _ w' y' h1 _ h3 _ hw'
    rw [World.load_chunkSetBlock_ne]
    · exact hw'
    · intro h
      have := World.localPtr_inj hcx.1 hcy.1 hcz.1 hx.1 hy.1 hz.1 hcx.1 hcy.1 hcz.1 hx.1 h1 hz.1 h
      omega
  · intro _ w' a b c hc hw'
    unfold inCanopy at hc
    rw [World.load_chunkSetBlock_ne]
    · exact hw'
    · intro h
      have := World.localPtr_inj hcx.1 hcy.1 hcz.1 hx.1 hy.1 hz.1 hcx.1 hcy.1 hcz.1 hc.2.2.2.1
        hc.2.2.2.2.2.1 hc.2.2.2.2.2.2.2.1 h
      have := hc.2.1
      omega
  · exact fillColumn_surface cx cy cz x z _ s.world hw hcx hcy hcz hsome hx hz y hy hT

/-- After a column of terrain height below 8 and at least -2 is generated,
its cells above the terrain height and up to height 8 hold Water. -/
theorem columnBody_water (T : Trig) (cx cy cz x z : Int) (s : GenState) (hw : s.world.WF)
    (hcx : 0 ≤ cx ∧ cx < WORLD_WIDTH) (hcy : 0 ≤ cy ∧ cy < WORLD_HEIGHT)
    (hcz : 0 ≤ cz ∧ cz < WORLD_DEPTH)
    (hsome : (s.world.chunks.get cx.toNat cy.toNat cz.toNat).isSome = true)
    (hx : 0 ≤ x ∧ x < CHUNK_WIDTH) (hz : 0 ≤ z ∧ z < CHUNK_DEPTH)
    (y : Int) (hy : 0 ≤ y ∧ y < CHUNK_HEIGHT)
    (hlow : -2 ≤ (columnParams T cx cz x z s.rng).terrainHeight)
    (h1 : (columnParams T cx cz x z s.rng).terrainHeight < cy * CHUNK_HEIGHT + y)
    (h2 : cy * CHUNK_HEIGHT + y ≤ 8) :
    (columnBody T cx cy cz x z s).world.load (World.localPtr cx cy cz x y z) =
      Block.ofType BlockType.WATER := by
  unfold columnBody
  simp only
  apply vegetation_writes (fun w' : World => w'.load (World.localPtr cx cy cz x y z) = _)
  · intro h8 w' y' _ _ _ _ _
    omega
  · intro h8 w' a b c _ _
    omega
  · exact fillColumn_water cx cy cz x z _ s.world hw hcx hcy hcz hsome hx hz y hy h1 h2 (by omega)

/-- What a stored block of another column satisfies stays true while a
column is generated, when Leaves satisfy it or the block lies below height 13. -/
theorem columnBody_keeps (φ : Block → Prop) (T : Trig) (cx cy cz x z a b c : Int)
    (hcx : 0 ≤ cx) (hcy : 0 ≤ cy) (hcz : 0 ≤ cz) (hx : 0 ≤ x) (hz : 0 ≤ z)
    (ha : 0 ≤ a) (hb : 0 ≤ b) (hc : 0 ≤ c) (hne : ¬ (a = x ∧ c = z))
    (hφ : 13 ≤ cy * CHUNK_HEIGHT + b → φ (Block.ofType BlockType.LEAVES))
    (s : GenState) (hs : φ (s.world.load (World.localPtr cx cy cz a b c))) :
    φ ((columnBody T cx cy cz x z s).world.load (World.localPtr cx cy cz a b c)) := by
  apply columnBody_writes (fun w : World => φ (w.load (World.localPtr cx cy cz a b c)))
    T cx cy cz x z _ _ s hs
  · intro w y t hy _ _ _ hw
    rw [World.load_chunkSetBlock_ne]
    · exact hw
    · intro h
      have := World.localPtr_inj hcx hcy hcz ha hb hc hcx hcy hcz hx hy hz h
      exact hne ⟨this.2.2.2.1, this.2.2.2.2.2⟩
  · intro w a' b' c' hin h13 hw
    rcases World.load_chunkSetBlock_cases w cx cy cz a' b' c' (Block.ofType BlockType.LEAVES)
      (World.localPtr cx cy cz a b c) with h | ⟨hq, -, h⟩
    · simp only [h]
      exact hw
    · have hin' := (Chunk.inBounds_iff a' b' c').1 hin
      have e := World.localPtr_inj hcx hcy hcz ha hb hc hcx hcy hcz hin'.1 hin'.2.2.1
        hin'.2.2.2.2.1 hq
      simp only [h]
      apply hφ
      rw [e.2.2.2.2.1]
      exact h13

/-- The generation of a chunk leaves the stored blocks of the other chunks
as they are. -/
theorem chunkBody_keeps (T : Trig) (cx' cy' cz' cx cy cz a b c : Int)
    (gx : 0 ≤ cx') (gy : 0 ≤ cy') (gz : 0 ≤ cz')
    (hcx : 0 ≤ cx) (hcy : 0 ≤ cy) (hcz : 0 ≤ cz) (ha : 0 ≤ a) (hb : 0 ≤ b) (hc : 0 ≤ c)
    (hne : ¬ (cx' = cx ∧ cy' = cy ∧ cz' = cz)) (s : GenState) :
    (chunkBody T cx' cy' cz' s).world.load (World.localPtr cx cy cz a b c) =
      s.world.load (World.localPtr cx cy cz a b c) := by
  apply chunkBody_writes
    (fun w : World => w.load (World.localPtr cx cy cz a b c) =
      s.world.load (World.localPtr cx cy cz a b c)) T cx' cy' cz' _ _ s rfl
  · intro w pos hw
    rw [World.load_setChunk_ne]
    · exact hw
    · simp only [World.localPtr]
      omega
  · intro w x y z t hin _ hw
    rw [World.load_chunkSetBlock_ne]
    · exact hw
    · intro h
      have hin' := (Chunk.inBounds_iff x y z).1 hin
      have e := World.localPtr_inj hcx hcy hcz ha hb hc gx gy gz hin'.1 hin'.2.2.1
        hin'.2.2.2.2.1 h
      exact hne ⟨e.1.symm, e.2.1.symm, e.2.2.1.symm⟩

/-- What a stored block of a column satisfies when the generation of that
column, or of a later column of the chunk, is complete stays true to the end of
generation, when Leaves satisfy it or the block lies below height 13: the later
columns of the chunk store only Leaves outside their own cells, from height 13,
and the later chunks store nothing in this one. -/
theorem generateAfter_keeps (φ : Block → Prop) (T : Trig) (cx cy cz x z a b c : Int)
    (hcx : 0 ≤ cx) (hcy : 0 ≤ cy) (hcz : 0 ≤ cz) (hx : 0 ≤ x) (hz : 0 ≤ z)
    (ha : 0 ≤ a) (hb : 0 ≤ b) (hc : 0 ≤ c) (hord : a < x ∨ (a = x ∧ c ≤ z))
    (hφ : 13 ≤ cy * CHUNK_HEIGHT + b → φ (Block.ofType BlockType.LEAVES))
    (s : GenState) (hs : φ (s.world.load (World.localPtr cx cy cz a b c))) :
    φ ((generateAfter T cx cy cz x z s).world.load (World.localPtr cx cy cz a b c)) := by
  unfold generateAfter
  simp only
  apply forLoop_inv_idx (fun t : GenState => φ (t.world.load (World.localPtr cx cy cz a b c)))
  · intro cx' t h1 _ ht
    apply forLoop_inv_idx
      (fun t : GenState => φ (t.world.load (World.localPtr cx cy cz a b c))) _ _ _ _ _ _ ht
    intro cy' u h2 _ hu
    apply forLoop_inv_idx
      (fun t : GenState => φ (t.world.load (World.localPtr cx cy cz a b c))) _ _ _ _ _ _ hu
    intro cz' v h3 _ hv
    show φ ((chunkBody T cx' cy' cz' v).world.load (World.localPtr cx cy cz a b c))
    rw [chunkBody_keeps T cx' cy' cz' cx cy cz a b c (by omega) h2 h3 hcx hcy hcz ha hb hc
      (by omega)]
    exact hv
  apply forLoop_inv_idx (fun t : GenState => φ (t.world.load (World.localPtr cx cy cz a b c)))
  · intro cy' u h2 _ hu
    apply forLoop_inv_idx
      (fun t : GenState => φ (t.world.load (World.localPtr cx cy cz a b c))) _ _ _ _ _ _ hu
    intro cz' v h3 _ hv
    show φ ((chunkBody T cx cy' cz' v).world.load (World.localPtr cx cy cz a b c))
    rw [chunkBody_keeps T cx cy' cz' cx cy cz a b c hcx (by omega) h3 hcx hcy hcz ha hb hc
      (by omega)]
    exact hv
  apply forLoop_inv_idx (fun t : GenState => φ (t.world.load (World.localPtr cx cy cz a b c)))
  · intro cz' v h3 _ hv
    show φ ((chunkBody T cx cy cz' v).world.load (World.localPtr cx cy cz a b c))
    rw [chunkBody_keeps T cx cy cz' cx cy cz a b c hcx hcy (by omega) hcx hcy hcz ha hb hc
      (by omega)]
    exact hv
  apply forLoop_inv_idx (fun t : GenState => φ (t.world.load (World.localPtr cx cy cz a b c)))
  · intro x' t h1 _ ht
    apply forLoop_inv_idx
      (fun t : GenState => φ (t.world.load (World.localPtr cx cy cz a b c))) _ _ _ _ _ _ ht
    intro z' u h2 _ hu
    exact columnBody_keeps φ T cx cy cz x' z' a b c hcx hcy hcz (by omega) h2 ha hb hc
      (by omega) hφ u hu
  apply forLoop_inv_idx (fun t : GenState => φ (t.world.load (World.localPtr cx cy cz a b c)))
  · intro z' u h2 _ hu
    exact columnBody_keeps φ T cx cy cz x z' a b c hcx hcy hcz hx (by omega) ha hb hc
      (by omega) hφ u hu
  · exact hs

namespace World

/-- The pointer that addresses a world coordinate is the pointer to the
stored block at the local coordinates of its chunk. -/
theorem cellPtr_local (cx cy cz x y z : Int)
    (hx : 0 ≤ x ∧ x < CHUNK_WIDTH) (hy : 0 ≤ y ∧ y < CHUNK_HEIGHT)
    (hz : 0 ≤ z ∧ z < CHUNK_DEPTH) :
    cellPtr (cx * CHUNK_WIDTH + x) (cy * CHUNK_HEIGHT + y) (cz * CHUNK_DEPTH + z) =
      localPtr cx cy cz x y z := by
  simp only [CHUNK_WIDTH, CHUNK_HEIGHT, CHUNK_DEPTH] at hx hy hz ⊢
  unfold cellPtr localPtr
  have e1 : (cx * 16 + x) / 16 = cx := by omega
  have e2 : (cy * 128 + y) / 128 = cy := by omega
  have e3 : (cz * 16 + z) / 16 = cz := by omega
  have e4 : (cx * 16 + x) % 16 = x := by omega
  have e5 : (cy * 128 + y) % 128 = y := by omega
  have e6 : (cz * 16 + z) % 16 = z := by omega
  rw [e1, e2, e3, e4, e5, e6]

end World

theorem rand_eta (r : Rand) : r = ⟨r.draws, r.pos⟩ := rfl

/-! ## Theorems on the finished world -/

/-- C16: water fill. In the world generated from a newly constructed `World`,
for every column of every chunk: the column is flagged water exactly when its
terrain height is below 8; when the terrain height is at least -2 (the
terrain-layer loop stops at `terrainHeight + 10`), every cell of the column
with `terrainHeight < worldY <= 8` is Water after generation; and no cell with
`worldY > 8` is Water. -/
theorem water_fill (T : Trig) (rng : Rand) (cx cy cz x z : Int)
    (hcx : 0 ≤ cx ∧ cx < WORLD_WIDTH) (hcy : 0 ≤ cy ∧ cy < WORLD_HEIGHT)
    (hcz : 0 ≤ cz ∧ cz < WORLD_DEPTH) (hx : 0 ≤ x ∧ x < CHUNK_WIDTH)
    (hz : 0 ≤ z ∧ z < CHUNK_DEPTH)
    (hlow : -2 ≤ (columnOf T rng cx cy cz x z).terrainHeight)
    (y : Int) (hy : 0 ≤ y ∧ y < CHUNK_HEIGHT) :
    (columnOf T rng cx cy cz x z).isWater =
      decide ((columnOf T rng cx cy cz x z).terrainHeight < 8) ∧
    ((columnOf T rng cx cy cz x z).terrainHeight < cy * CHUNK_HEIGHT + y →
      cy * CHUNK_HEIGHT + y ≤ 8 →
      (generateWorld T ⟨World.new, rng⟩).world.blockAt (cx * CHUNK_WIDTH + x)
        (cy * CHUNK_HEIGHT + y) (cz * CHUNK_DEPTH + z) = Block.ofType BlockType.WATER) ∧
    (8 < cy * CHUNK_HEIGHT + y →
      ((generateWorld T ⟨World.new, rng⟩).world.blockAt (cx * CHUNK_WIDTH + x)
        (cy * CHUNK_HEIGHT + y) (cz * CHUNK_DEPTH + z)).type ≠ BlockType.WATER) := by
  refine ⟨rfl, ?_, ?_⟩
  · intro h1 h2
    unfold World.blockAt
    rw [World.cellPtr_local cx cy cz x y z hx hy hz,
      generateWorld_split T cx cy cz x z hcx hcy hcz hx hz]
    have hr := generateUpTo_ready T cx cy cz x z ⟨World.new, rng⟩ World.grid_wf_new hcx hcy hcz
    apply generateAfter_keeps (fun blk => blk = Block.ofType BlockType.WATER) T cx cy cz x z x y z
      hcx.1 hcy.1 hcz.1 hx.1 hz.1 hx.1 hy.1 hz.1 (Or.inr ⟨rfl, le_refl _⟩)
    · intro h13
      omega
    · exact columnBody_water T cx cy cz x z _ hr.1 hcx hcy hcz hr.2 hx hz y hy hlow h1 h2
  · intro h8 hwater
    unfold World.blockAt at hwater
    rw [World.cellPtr_local cx cy cz x y z hx hy hz] at hwater
    rcases generateWorld_generable T rng cx cy cz x y z hcx.1 hcy.1 hcz.1 hx.1 hy.1 hz.1 with
      h | h
    · rw [hwater] at h
      cases h
    · rw [hwater] at h
      have h' : cy * CHUNK_HEIGHT + y ≤ 8 := h
      omega

/-- C13, as amended: in the world generated from a newly constructed `World`,
for every column of every chunk whose terrain height lies in the chunk, the
block at `(worldX, terrainHeight, worldZ)` is the cap block of the column's
flags (Sand when the column is flagged water or desert, else Stone when
mountain, else Grass), which is solid; or it is Leaves, which is possible only
when the terrain height is at least 13 (the leaves loops of a column generated
later store Leaves over what the cells of the canopy hold). -/
theorem surface_after_generation (T : Trig) (rng : Rand) (cx cy cz x z : Int)
    (hcx : 0 ≤ cx ∧ cx < WORLD_WIDTH) (hcy : 0 ≤ cy ∧ cy < WORLD_HEIGHT)
    (hcz : 0 ≤ cz ∧ cz < WORLD_DEPTH) (hx : 0 ≤ x ∧ x < CHUNK_WIDTH)
    (hz : 0 ≤ z ∧ z < CHUNK_DEPTH) (y : Int) (hy : 0 ≤ y ∧ y < CHUNK_HEIGHT)
    (hT : cy * CHUNK_HEIGHT + y = (columnOf T rng cx cy cz x z).terrainHeight) :
    ((generateWorld T ⟨World.new, rng⟩).world.blockAt (cx * CHUNK_WIDTH + x)
        (columnOf T rng cx cy cz x z).terrainHeight (cz * CHUNK_DEPTH + z) =
        Block.ofType (surfaceCap (columnOf T rng cx cy cz x z).isWater
          (columnOf T rng cx cy cz x z).isDesert (columnOf T rng cx cy cz x z).isMountain) ∧
      ((generateWorld T ⟨World.new, rng⟩).world.blockAt (cx * CHUNK_WIDTH + x)
        (columnOf T rng cx cy cz x z).terrainHeight (cz * CHUNK_DEPTH + z)).isSolid = true) ∨
    (13 ≤ (columnOf T rng cx cy cz x z).terrainHeight ∧
      (generateWorld T ⟨World.new, rng⟩).world.blockAt (cx * CHUNK_WIDTH + x)
        (columnOf T rng cx cy cz x z).terrainHeight (cz * CHUNK_DEPTH + z) =
        Block.ofType BlockType.LEAVES) := by
  have hr := generateUpTo_ready T cx cy cz x z ⟨World.new, rng⟩ World.grid_wf_new hcx hcy hcz
  have key := generateAfter_keeps
    (fun blk => blk = Block.ofType (surfaceCap (columnOf T rng cx cy cz x z).isWater
        (columnOf T rng cx cy cz x z).isDesert (columnOf T rng cx cy cz x z).isMountain) ∨
      (13 ≤ (columnOf T rng cx cy cz x z).terrainHeight ∧ blk = Block.ofType BlockType.LEAVES))
    T cx cy cz x z x y z hcx.1 hcy.1 hcz.1 hx.1 hz.1 hx.1 hy.1 hz.1 (Or.inr ⟨rfl, le_refl _⟩)
    (fun h13 => Or.inr ⟨by rw [← hT]; exact h13, rfl⟩)
    (columnBody T cx cy cz x z (generateUpTo T cx cy cz x z ⟨World.new, rng⟩))
    (Or.inl (columnBody_surface T cx cy cz x z _ hr.1 hcx hcy hcz hr.2 hx hz y hy hT))
  rw [← generateWorld_split T cx cy cz x z hcx hcy hcz hx hz,
    ← World.cellPtr_local cx cy cz x y z hx hy hz, hT] at key
  rcases key with h | h
  · left
    refine ⟨h, ?_⟩
    unfold World.blockAt
    rw [h]
    cases (columnOf T rng cx cy cz x z).isWater <;>
      cases (columnOf T rng cx cy cz x z).isDesert <;>
      cases (columnOf T rng cx cy cz x z).isMountain <;> rfl
  · right
    exact h

/-- A column that carries a tree stores Leaves in every cell of the canopy,
whatever the cell held. -/
theorem columnBody_canopy (T : Trig) (cx cy cz x z a b c : Int) (s : GenState)
    (hw : s.world.WF) (hcx : 0 ≤ cx ∧ cx < WORLD_WIDTH) (hcy : 0 ≤ cy ∧ cy < WORLD_HEIGHT)
    (hcz : 0 ≤ cz ∧ cz < WORLD_DEPTH)
    (hsome : (s.world.chunks.get cx.toNat cy.toNat cz.toNat).isSome = true)
    (htree : treeCondition (cx * CHUNK_WIDTH + x) (cz * CHUNK_DEPTH + z)
      (columnParams T cx cz x z s.rng).terrainHeight (columnParams T cx cz x z s.rng).isDesert
      (columnParams T cx cz x z s.rng).isMountain (columnParams T cx cz x z s.rng).isWater = true)
    (hc : inCanopy cy x z (columnParams T cx cz x z s.rng).terrainHeight a b c) :
    (columnBody T cx cy cz x z s).world.load (World.localPtr cx cy cz a b c) =
      Block.ofType BlockType.LEAVES := by
  unfold columnBody
  simp only
  rw [vegetation_tree _ _ _ _ _ _ _ _ _ _ _ _ htree]
  have hf := fillColumn_ready cx cy cz x z (columnParams T cx cz x z s.rng) s.world hw _ _ _ hsome
  have ht := stampTrunk_ready cx cy cz x z (columnParams T cx cz x z s.rng).terrainHeight
    _ _ _ _ hf
  exact stampCanopy_inside cx cy cz x z (columnParams T cx cz x z s.rng).terrainHeight a b c _
    ht.1 hcx hcy hcz ht.2 hc

/-! ## Lemmas on the order in which generation reads the random source -/

theorem streamLocal_comp {F G : GenState → GenState} (hF : StreamLocal F)
    (hG : StreamLocal G) : StreamLocal (fun s => G (F s)) := by
  intro s
  obtain ⟨f1, f2, f3⟩ := hF s
  obtain ⟨g1, g2, g3⟩ := hG (F s)
  refine ⟨by rw [g1, f1], le_trans f2 g2, ?_⟩
  intro d hd
  show G (F ⟨s.world, ⟨d, s.rng.pos⟩⟩) = _
  rw [f3 d (fun k hk => hd k (lt_of_lt_of_le hk g2))]
  exact g3 d (fun k hk => by rw [f1]; exact hd k hk)

theorem streamLocal_id : StreamLocal (fun s => s) := by
  intro s
  exact ⟨rfl, le_refl _, fun d _ => rfl⟩

theorem streamLocal_world (f : World → World) :
    StreamLocal (fun s => ⟨f s.world, s.rng⟩) := by
  intro s
  exact ⟨rfl, le_refl _, fun d _ => rfl⟩

theorem streamLocal_forLoopAux (cond : Int → Bool) (body : Int → GenState → GenState)
    (h : ∀ i, StreamLocal (body i)) :
    ∀ (n : Nat) (i : Int), StreamLocal (forLoopAux cond body n i) := by
  intro n
  induction n with
  | zero => intro i; exact streamLocal_id
  | succ n ih =>
    intro i
    by_cases hc : cond i = true
    · have e : forLoopAux cond body (n + 1) i =
          fun s => forLoopAux cond body n (i + 1) (body i s) := by
        funext s
        simp only [forLoopAux, hc, if_true]
      rw [e]
      exact streamLocal_comp (h i) (ih (i + 1))
    · have e : forLoopAux cond body (n + 1) i = fun s => s := by
        funext s
        simp only [forLoopAux, hc]
        rfl
      rw [e]
      exact streamLocal_id

theorem streamLocal_forLoop (lo hi : Int) (cond : Int → Bool)
    (body : Int → GenState → GenState) (h : ∀ i, StreamLocal (body i)) :
    StreamLocal (forLoop lo hi cond body) :=
  streamLocal_forLoopAux cond body h _ _

theorem streamLocal_fillBody (cx cy cz x z T : Int) (d m wtr : Bool) (y : Int) :
    StreamLocal (fillBody cx cy cz x z T d m wtr y) := by
  intro s
  rcases lt_trichotomy (cy * CHUNK_HEIGHT + y) T with h | h | h
  · by_cases h2 : cy * CHUNK_HEIGHT + y > T - 4 ∧ cy * CHUNK_HEIGHT + y > 4
    · simp only [fillBody_band _ _ _ _ _ _ _ _ _ _ _ h h2]
      exact ⟨trivial, le_refl _, fun _ _ => trivial⟩
    · simp only [fillBody_deep _ _ _ _ _ _ _ _ _ _ _ h h2]
      refine ⟨rfl, Nat.le_succ _, ?_⟩
      intro d' hd
      have e : s.rng.draws s.rng.pos = d' s.rng.pos := hd _ (Nat.lt_succ_self _)
      simp only [rand, e]
  · simp only [fillBody_surface _ _ _ _ _ _ _ _ _ _ _ h]
    exact ⟨trivial, le_refl _, fun _ _ => trivial⟩
  · by_cases h2 : cy * CHUNK_HEIGHT + y ≤ 8
    · simp only [fillBody_water _ _ _ _ _ _ _ _ _ _ _ h h2]
      exact ⟨trivial, le_refl _, fun _ _ => trivial⟩
    · simp only [fillBody_above _ _ _ _ _ _ _ _ _ _ _ h (not_le.mp h2)]
      exact ⟨trivial, le_refl _, fun _ _ => trivial⟩

theorem columnParams_rng (T : Trig) (cx cz x z : Int) (r : Rand) :
    (columnParams T cx cz x z r).rng = ⟨r.draws, r.pos + 4⟩ := rfl

/-- The head of the column body depends on the four values it draws only. -/
theorem columnParams_congr (T : Trig) (cx cz x z : Int) (d d' : Nat → Nat) (p : Nat)
    (h : ∀ k, k < p + 4 → d k = d' k) :
    columnParams T cx cz x z ⟨d', p⟩ =
      { columnParams T cx cz x z ⟨d, p⟩ with rng := ⟨d', p + 4⟩ } := by
  have e0 : d p = d' p := h p (by omega)
  have e1 : d (p + 1) = d' (p + 1) := h _ (by omega)
  have e2 : d (p + 1 + 1) = d' (p + 1 + 1) := h _ (by omega)
  have e3 : d (p + 1 + 1 + 1) = d' (p + 1 + 1 + 1) := h _ (by omega)
  simp only [columnParams, rand, e0, e1, e2, e3]

theorem streamLocal_columnBody (T : Trig) (cx cy cz x z : Int) :
    StreamLocal (columnBody T cx cy cz x z) := by
  intro s
  have hloop := streamLocal_forLoop 0 CHUNK_HEIGHT
    (fun y => decide (cy * CHUNK_HEIGHT + y ≤ (columnParams T cx cz x z s.rng).terrainHeight + 10))
    (fillBody cx cy cz x z (columnParams T cx cz x z s.rng).terrainHeight
      (columnParams T cx cz x z s.rng).isDesert (columnParams T cx cz x z s.rng).isMountain
      (columnParams T cx cz x z s.rng).isWater)
    (fun y => streamLocal_fillBody _ _ _ _ _ _ _ _ _ y)
    ⟨s.world, ⟨s.rng.draws, s.rng.pos + 4⟩⟩
  obtain ⟨l1, l2, l3⟩ := hloop
  refine ⟨columnBody_draws T cx cy cz x z s, ?_, ?_⟩
  · unfold columnBody fillColumn
    simp only [columnParams_rng]
    exact le_trans (Nat.le_add_right _ 4) l2
  · intro d hd
    have hpos : (columnBody T cx cy cz x z s).rng.pos =
        (forLoop 0 CHUNK_HEIGHT
          (fun y => decide (cy * CHUNK_HEIGHT + y ≤
            (columnParams T cx cz x z s.rng).terrainHeight + 10))
          (fillBody cx cy cz x z (columnParams T cx cz x z s.rng).terrainHeight
            (columnParams T cx cz x z s.rng).isDesert (columnParams T cx cz x z s.rng).isMountain
            (columnParams T cx cz x z s.rng).isWater)
          ⟨s.world, ⟨s.rng.draws, s.rng.pos + 4⟩⟩).rng.pos := rfl
    rw [hpos] at hd
    have hc := columnParams_congr T cx cz x z s.rng.draws d s.rng.pos
      (fun k hk => hd k (lt_of_lt_of_le hk l2))
    have l3' := l3 d hd
    unfold columnBody fillColumn
    simp only [columnParams_rng]
    simp only at l3'
    rw [hc]
    simp only
    rw [l3']

theorem columnBody_pos (T : Trig) (cx cy cz x z : Int) (s : GenState) :
    s.rng.pos + 4 ≤ (columnBody T cx cy cz x z s).rng.pos := by
  have hloop := streamLocal_forLoop 0 CHUNK_HEIGHT
    (fun y => decide (cy * CHUNK_HEIGHT + y ≤ (columnParams T cx cz x z s.rng).terrainHeight + 10))
    (fillBody cx cy cz x z (columnParams T cx cz x z s.rng).terrainHeight
      (columnParams T cx cz x z s.rng).isDesert (columnParams T cx cz x z s.rng).isMountain
      (columnParams T cx cz x z s.rng).isWater)
    (fun y => streamLocal_fillBody _ _ _ _ _ _ _ _ _ y)
    ⟨s.world, ⟨s.rng.draws, s.rng.pos + 4⟩⟩
  exact hloop.2.1

theorem streamLocal_chunkBody (T : Trig) (cx cy cz : Int) :
    StreamLocal (chunkBody T cx cy cz) := by
  have e : chunkBody T cx cy cz = fun s =>
      forLoop 0 CHUNK_WIDTH (fun _ => true) (fun x =>
        forLoop 0 CHUNK_DEPTH (fun _ => true) (fun z => columnBody T cx cy cz x z))
        ((fun s : GenState => (⟨s.world.setChunk cx.toNat cy.toNat cz.toNat
          (Chunk.new ⟨cx, cy, cz⟩), s.rng⟩ : GenState)) s) := rfl
  rw [e]
  exact streamLocal_comp
    (streamLocal_world (fun w => w.setChunk cx.toNat cy.toNat cz.toNat (Chunk.new ⟨cx, cy, cz⟩)))
    (streamLocal_forLoop _ _ _ _ (fun x =>
      streamLocal_forLoop _ _ _ _ (fun z => streamLocal_columnBody T cx cy cz x z)))

theorem streamLocal_generateUpTo (T : Trig) (cx cy cz x z : Int) :
    StreamLocal (generateUpTo T cx cy cz x z) := by
  have e : generateUpTo T cx cy cz x z = fun s =>
      forLoop 0 z (fun _ => true) (fun z' => columnBody T cx cy cz x z')
        (forLoop 0 x (fun _ => true) (fun x' =>
          forLoop 0 CHUNK_DEPTH (fun _ => true) (fun z' => columnBody T cx cy cz x' z'))
          ((fun s : GenState => (⟨s.world.setChunk cx.toNat cy.toNat cz.toNat
            (Chunk.new ⟨cx, cy, cz⟩), s.rng⟩ : GenState))
            (forLoop 0 cz (fun _ => true) (fun cz' => chunkBody T cx cy cz')
              (forLoop 0 cy (fun _ => true) (fun cy' =>
                forLoop 0 WORLD_DEPTH (fun _ => true) (fun cz' => chunkBody T cx cy' cz'))
                (forLoop 0 cx (fun _ => true) (fun cx' =>
                  forLoop 0 WORLD_HEIGHT (fun _ => true) (fun cy' =>
                    forLoop 0 WORLD_DEPTH (fun _ => true)
                      (fun cz' => chunkBody T cx' cy' cz'))) s))))) := by
    funext s
    unfold generateUpTo
    simp only
  rw [e]
  have h1 : StreamLocal (forLoop 0 cx (fun _ => true) (fun cx' =>
      forLoop 0 WORLD_HEIGHT (fun _ => true) (fun cy' =>
        forLoop 0 WORLD_DEPTH (fun _ => true) (fun cz' => chunkBody T cx' cy' cz')))) :=
    streamLocal_forLoop _ _ _ _ (fun a => streamLocal_forLoop _ _ _ _ (fun b =>
      streamLocal_forLoop _ _ _ _ (fun c => streamLocal_chunkBody T a b c)))
  have h2 : StreamLocal (forLoop 0 cy (fun _ => true) (fun cy' =>
      forLoop 0 WORLD_DEPTH (fun _ => true) (fun cz' => chunkBody T cx cy' cz'))) :=
    streamLocal_forLoop _ _ _ _ (fun b =>
      streamLocal_forLoop _ _ _ _ (fun c => streamLocal_chunkBody T cx b c))
  have h3 : StreamLocal (forLoop 0 cz (fun _ => true) (fun cz' => chunkBody T cx cy cz')) :=
    streamLocal_forLoop _ _ _ _ (fun c => streamLocal_chunkBody T cx cy c)
  have h4 := streamLocal_world
    (fun w => w.setChunk cx.toNat cy.toNat cz.toNat (Chunk.new ⟨cx, cy, cz⟩))
  have h5 : StreamLocal (forLoop 0 x (fun _ => true) (fun x' =>
      forLoop 0 CHUNK_DEPTH (fun _ => true) (fun z' => columnBody T cx cy cz x' z'))) :=
    streamLocal_forLoop _ _ _ _ (fun a =>
      streamLocal_forLoop _ _ _ _ (fun c => streamLocal_columnBody T cx cy cz a c))
  have h6 : StreamLocal (forLoop 0 z (fun _ => true)
      (fun z' => columnBody T cx cy cz x z')) :=
    streamLocal_forLoop _ _ _ _ (fun c => streamLocal_columnBody T cx cy cz x c)
  refine streamLocal_comp ?_ h6
  refine streamLocal_comp ?_ h5
  refine streamLocal_comp ?_ h4
  refine streamLocal_comp ?_ h3
  exact streamLocal_comp h1 h2

/-- The state on arrival at the next column of a row is the state after the
column before it. -/
theorem generateUpTo_succ (T : Trig) (cx cy cz x z : Int) (hz : 0 ≤ z) (s : GenState) :
    generateUpTo T cx cy cz x (z + 1) s =
      columnBody T cx cy cz x z (generateUpTo T cx cy cz x z s) := by
  unfold generateUpTo
  simp only
  rw [forLoop_split 0 (z + 1) _ _ z hz (by omega) (fun _ _ _ => rfl)]
  have e : ∀ t : GenState, forLoop (z + 1) (z + 1) (fun _ => true)
      (fun z' => columnBody T cx cy cz x z') t = t := by
    intro t
    unfold forLoop
    have : (z + 1 - (z + 1)).toNat = 0 := by omega
    rw [this]
    rfl
  rw [e]

/-! ## Lemmas on the example of a tree beside a higher column -/

theorem columnParams_sample_high (d : Nat → Nat) (P : Nat) (h0 : d P = 3)
    (h1 : d (P + 1) = 3) (h2 : d (P + 1 + 1) = 3) (h3 : d (P + 1 + 1 + 1) = 3) :
    (columnParams sampleTrig 0 5 11 8 ⟨d, P⟩).terrainHeight = 13 ∧
    (columnParams sampleTrig 0 5 11 8 ⟨d, P⟩).isWater = false ∧
    (columnParams sampleTrig 0 5 11 8 ⟨d, P⟩).isDesert = false ∧
    (columnParams sampleTrig 0 5 11 8 ⟨d, P⟩).isMountain = false := by
  have hf : ftoi (1025597021 / 78125000 : ℚ) = 13 :=
    ftoi_of_nonneg _ 13 (by norm_num) (by norm_num) (by norm_num)
  simp only [columnParams, rand, h0, h1, h2, h3, sampleTrig, CHUNK_WIDTH, CHUNK_DEPTH]
  norm_num
  rw [hf]
  exact ⟨rfl, by decide⟩

theorem columnParams_sample_tree (d : Nat → Nat) (P : Nat) (h0 : d P = 0)
    (h1 : d (P + 1) = 0) (h2 : d (P + 1 + 1) = 0) (h3 : d (P + 1 + 1 + 1) = 0) :
    (columnParams sampleTrig 0 5 11 9 ⟨d, P⟩).terrainHeight = 9 ∧
    (columnParams sampleTrig 0 5 11 9 ⟨d, P⟩).isWater = false ∧
    (columnParams sampleTrig 0 5 11 9 ⟨d, P⟩).isDesert = false ∧
    (columnParams sampleTrig 0 5 11 9 ⟨d, P⟩).isMountain = false := by
  have hf : ftoi (764193391 / 78125000 : ℚ) = 9 :=
    ftoi_of_nonneg _ 9 (by norm_num) (by norm_num) (by norm_num)
  simp only [columnParams, rand, h0, h1, h2, h3, sampleTrig, CHUNK_WIDTH, CHUNK_DEPTH]
  norm_num
  rw [hf]
  exact ⟨rfl, by decide⟩

/-- With the random source that switches from 3 to 0 after the call in which
the column `(11, 88)` draws its base height, generation reaches that column as
it does with the source that always returns 3. -/
theorem sample_arrival (N P : Nat)
    (hP : (generateUpTo sampleTrig 0 0 5 11 8 ⟨World.new, threeRand⟩).rng.pos = P)
    (hN : P ≤ N) :
    (generateUpTo sampleTrig 0 0 5 11 8 ⟨World.new, switchRand N⟩).rng =
      ⟨fun k => if k ≤ N then 3 else 0, P⟩ := by
  have h := (streamLocal_generateUpTo sampleTrig 0 0 5 11 8 ⟨World.new, threeRand⟩).2.2
    (fun k => if k ≤ N then 3 else 0)
  rw [hP] at h
  have h' := h (by
    intro k hk
    show (3 : Nat) = if k ≤ N then 3 else 0
    rw [if_pos (by omega)])
  have e : (⟨World.new, switchRand N⟩ : GenState) =
      ⟨(⟨World.new, threeRand⟩ : GenState).world,
        ⟨fun k => if k ≤ N then 3 else 0, (⟨World.new, threeRand⟩ : GenState).rng.pos⟩⟩ := rfl
  rw [e, h']

theorem sample_high_fields (N P : Nat)
    (hP : (generateUpTo sampleTrig 0 0 5 11 8 ⟨World.new, threeRand⟩).rng.pos = P)
    (hN : N = P + 3) :
    (columnOf sampleTrig (switchRand N) 0 0 5 11 8).terrainHeight = 13 ∧
    (columnOf sampleTrig (switchRand N) 0 0 5 11 8).isWater = false ∧
    (columnOf sampleTrig (switchRand N) 0 0 5 11 8).isDesert = false ∧
    (columnOf sampleTrig (switchRand N) 0 0 5 11 8).isMountain = false := by
  unfold columnOf
  rw [sample_arrival N P hP (by omega)]
  apply columnParams_sample_high
  · show (if P ≤ N then 3 else 0) = 3
    rw [if_pos (by omega)]
  · show (if P + 1 ≤ N then 3 else 0) = 3
    rw [if_pos (by omega)]
  · show (if P + 1 + 1 ≤ N then 3 else 0) = 3
    rw [if_pos (by omega)]
  · show (if P + 1 + 1 + 1 ≤ N then 3 else 0) = 3
    rw [if_pos (by omega)]

theorem sample_tree_fields (N P : Nat)
    (hP : (generateUpTo sampleTrig 0 0 5 11 8 ⟨World.new, threeRand⟩).rng.pos = P)
    (hN : N = P + 3) :
    (columnParams sampleTrig 0 5 11 9
      (generateUpTo sampleTrig 0 0 5 11 9 ⟨World.new, switchRand N⟩).rng).terrainHeight = 9 ∧
    (columnParams sampleTrig 0 5 11 9
      (generateUpTo sampleTrig 0 0 5 11 9 ⟨World.new, switchRand N⟩).rng).isWater = false ∧
    (columnParams sampleTrig 0 5 11 9
      (generateUpTo sampleTrig 0 0 5 11 9 ⟨World.new, switchRand N⟩).rng).isDesert = false ∧
    (columnParams sampleTrig 0 5 11 9
      (generateUpTo sampleTrig 0 0 5 11 9 ⟨World.new, switchRand N⟩).rng).isMountain = false := by
  have hs := generateUpTo_succ sampleTrig 0 0 5 11 8 (by decide) ⟨World.new, switchRand N⟩
  have e9 : (8 : Int) + 1 = 9 := by decide
  rw [e9] at hs
  have hd : (generateUpTo sampleTrig 0 0 5 11 9 ⟨World.new, switchRand N⟩).rng.draws =
      fun k => if k ≤ N then 3 else 0 :=
    generateUpTo_draws sampleTrig 0 0 5 11 9 ⟨World.new, switchRand N⟩
  have hpos : P + 4 ≤ (generateUpTo sampleTrig 0 0 5 11 9 ⟨World.new, switchRand N⟩).rng.pos := by
    rw [hs]
    have := columnBody_pos sampleTrig 0 0 5 11 8
      (generateUpTo sampleTrig 0 0 5 11 8 ⟨World.new, switchRand N⟩)
    rw [sample_arrival N P hP (by omega)] at this
    exact this
  rw [rand_eta (generateUpTo sampleTrig 0 0 5 11 9 ⟨World.new, switchRand N⟩).rng, hd]
  apply columnParams_sample_tree
  · show (if _ ≤ N then 3 else 0) = 0
    rw [if_neg (by omega)]
  · show (if _ ≤ N then 3 else 0) = 0
    rw [if_neg (by omega)]
  · show (if _ ≤ N then 3 else 0) = 0
    rw [if_neg (by omega)]
  · show (if _ ≤ N then 3 else 0) = 0
    rw [if_neg (by omega)]

/-- In the example the canopy of the tree on the column `(11, 89)` replaces the
Grass cap of the column `(11, 88)`, generated just before it. -/
theorem sample_overwrites (N P : Nat)
    (hP : (generateUpTo sampleTrig 0 0 5 11 8 ⟨World.new, threeRand⟩).rng.pos = P)
    (hN : N = P + 3) :
    (generateWorld sampleTrig ⟨World.new, switchRand N⟩).world.blockAt 11 13 88 =
      Block.ofType BlockType.LEAVES := by
  have hf := sample_tree_fields N P hP hN
  have hr := generateUpTo_ready sampleTrig 0 0 5 11 9 ⟨World.new, switchRand N⟩
    World.grid_wf_new (by decide) (by decide) (by decide)
  have hcol : (columnBody sampleTrig 0 0 5 11 9
      (generateUpTo sampleTrig 0 0 5 11 9 ⟨World.new, switchRand N⟩)).world.load
        (World.localPtr 0 0 5 11 13 8) = Block.ofType BlockType.LEAVES := by
    apply columnBody_canopy sampleTrig 0 0 5 11 9 11 13 8 _ hr.1 (by decide) (by decide)
      (by decide) hr.2
    · rw [hf.1, hf.2.1, hf.2.2.1, hf.2.2.2]
      decide
    · rw [hf.1]
      unfold inCanopy
      decide
  have e : World.cellPtr 11 13 88 = World.localPtr 0 0 5 11 13 8 := by decide
  unfold World.blockAt
  rw [e, generateWorld_split sampleTrig 0 0 5 11 9 (by decide) (by decide) (by decide)
    (by decide) (by decide)]
  exact generateAfter_keeps (fun blk => blk = Block.ofType BlockType.LEAVES) sampleTrig
    0 0 5 11 9 11 13 8 (by decide) (by decide) (by decide) (by decide) (by decide)
    (by decide) (by decide) (by decide) (Or.inr ⟨rfl, by decide⟩) (fun _ => rfl) _ hcol

/-- C13, counterexample: take for `sin` and `cos` their values to five
decimals (`sampleTrig`) and let `rand()` return 3 up to the call in which the
column at world `(11, 88)` draws its base height and 0 from then on
(`switchRand N` for the number `N` of that call). The column `(11, 88)` then has
the random offsets `0.0003`, the base height 13 and the terrain height 13, and is
neither water nor desert nor mountain, so that its cap block is Grass. The
column `(11, 89)`, generated next, has the offsets 0, the base height 10 and the
terrain height 9; `11 + 89` is a multiple of 25 and it carries a tree, whose
leaves in the layer 13 cover `(11, 13, 88)`. In the generated world the block at
`(11, 13, 88)` is Leaves, which is not solid. -/
theorem surface_overwritten_counterexample :
    ∃ N : Nat,
      (columnOf sampleTrig (switchRand N) 0 0 5 11 8).terrainHeight = 13 ∧
      (columnOf sampleTrig (switchRand N) 0 0 5 11 8).isWater = false ∧
      (columnOf sampleTrig (switchRand N) 0 0 5 11 8).isDesert = false ∧
      (columnOf sampleTrig (switchRand N) 0 0 5 11 8).isMountain = false ∧
      (generateWorld sampleTrig ⟨World.new, switchRand N⟩).world.blockAt 11 13 88 =
        Block.ofType BlockType.LEAVES ∧
      ((generateWorld sampleTrig ⟨World.new, switchRand N⟩).world.blockAt 11 13 88).isSolid =
        false := by
  refine ⟨(generateUpTo sampleTrig 0 0 5 11 8 ⟨World.new, threeRand⟩).rng.pos + 3, ?_⟩
  have hf := sample_high_fields _ _ rfl rfl
  have hl := sample_overwrites _ _ rfl rfl
  refine ⟨hf.1, hf.2.1, hf.2.2.1, hf.2.2.2, hl, ?_⟩
  rw [hl]
  rfl

/-! ## The example of a low column -/

theorem columnParams_sample_low (d : Nat → Nat) (P : Nat) (h0 : d P = 0)
    (h1 : d (P + 1) = 0) (h2 : d (P + 1 + 1) = 0) (h3 : d (P + 1 + 1 + 1) = 0) :
    (columnParams sampleTrig 0 7 3 0 ⟨d, P⟩).terrainHeight = 6 ∧
    (columnParams sampleTrig 0 7 3 0 ⟨d, P⟩).isWater = true := by
  have hf : ftoi (33162463567 / 5000000000 : ℚ) = 6 :=
    ftoi_of_nonneg _ 6 (by norm_num) (by norm_num) (by norm_num)
  simp only [columnParams, rand, h0, h1, h2, h3, sampleTrig, CHUNK_WIDTH, CHUNK_DEPTH]
  norm_num
  rw [hf]
  exact ⟨rfl, by decide⟩

theorem columnOf_sample_low :
    (columnOf sampleTrig zeroRand 0 0 7 3 0).terrainHeight = 6 ∧
    (columnOf sampleTrig zeroRand 0 0 7 3 0).isWater = true := by
  unfold columnOf
  have hd : (generateUpTo sampleTrig 0 0 7 3 0 ⟨World.new, zeroRand⟩).rng.draws = fun _ => 0 :=
    generateUpTo_draws sampleTrig 0 0 7 3 0 ⟨World.new, zeroRand⟩
  rw [rand_eta (generateUpTo sampleTrig 0 0 7 3 0 ⟨World.new, zeroRand⟩).rng, hd]
  exact columnParams_sample_low _ _ rfl rfl rfl rfl

/-- C16, witness: with the values of `sampleTrig` and the random source that
always returns 0, the column at world `(3, 112)` (column `(3, 0)` of chunk
`(0, 0, 7)`) has terrain height 6: the cell at height 7 is Water and the cell at
height 20 is not. -/
theorem water_fill_witness :
    (generateWorld sampleTrig ⟨World.new, zeroRand⟩).world.blockAt 3 7 112 =
        Block.ofType BlockType.WATER ∧
      ((generateWorld sampleTrig ⟨World.new, zeroRand⟩).world.blockAt 3 20 112).type ≠
        BlockType.WATER :=
  ⟨(water_fill sampleTrig zeroRand 0 0 7 3 0 (by decide) (by decide) (by decide) (by decide)
      (by decide) (by rw [columnOf_sample_low.1]; decide) 7 (by decide)).2.1
      (by rw [columnOf_sample_low.1]; decide) (by decide),
    (water_fill sampleTrig zeroRand 0 0 7 3 0 (by decide) (by decide) (by decide) (by decide)
      (by decide) (by rw [columnOf_sample_low.1]; decide) 20 (by decide)).2.2 (by decide)⟩

/-- C13 as amended, witness: with the values of `sampleTrig` and the random
source that always returns 0, the column at world `(3, 112)` has terrain height
6 and is flagged water: the block at `(3, 6, 112)` of the generated world is Sand. -/
theorem surface_after_generation_witness :
    (generateWorld sampleTrig ⟨World.new, zeroRand⟩).world.blockAt 3 6 112 =
      Block.ofType BlockType.SAND := by
  have hf := columnOf_sample_low
  have h := surface_after_generation sampleTrig zeroRand 0 0 7 3 0 (by decide) (by decide)
    (by decide) (by decide) (by decide) 6 (by decide) (by rw [hf.1]; decide)
  rw [hf.1, hf.2] at h
  rcases h with h | h
  · exact h.1
  · exact absurd h.1 (by decide)

/-! ## Theorems on the flight tick and on jump -/

namespace Renderer

theorem flightClamp_bounds (p : ℚ) (extent : Int) (h : 1 ≤ extent) :
    0 ≤ flightClamp p extent ∧ flightClamp p extent < (extent : ℚ) := by
  have h' : (1 : ℚ) ≤ (extent : ℚ) := by exact_mod_cast h
  unfold flightClamp
  split
  · exact ⟨le_refl _, by linarith⟩
  · split
    · push_cast
      exact ⟨by linarith, by linarith⟩
    · exact ⟨by linarith, by linarith⟩

/-- The flight branch of `update`, field by field. -/
theorem updateFlight_fields (r : Renderer) (dt : ℚ) :
    (updateFlight r dt).velocity =
      ⟨r.velocity.x * (9 / 10), r.velocity.y * (9 / 10), r.velocity.z * (9 / 10)⟩ ∧
    (updateFlight r dt).cameraPosition =
      ⟨flightClamp (r.cameraPosition.x + r.velocity.x * (9 / 10) * dt) 128,
       flightClamp (r.cameraPosition.y + r.velocity.y * (9 / 10) * dt) 512,
       flightClamp (r.cameraPosition.z + r.velocity.z * (9 / 10) * dt) 128⟩ ∧
    (updateFlight r dt).isOnGround = r.isOnGround ∧
    (updateFlight r dt).isJumping = r.isJumping ∧
    (updateFlight r dt).isInWater = r.isInWater ∧
    (updateFlight r dt).isSwimming = r.isSwimming ∧
    (updateFlight r dt).flightMode = r.flightMode := by
  unfold updateFlight
  simp only
  obtain ⟨h1, h2, h3, h4, h5, h6, h7⟩ := swingStep_fields
    { r with
      velocity := ⟨r.velocity.x * flightFriction, r.velocity.y * flightFriction,
        r.velocity.z * flightFriction⟩,
      cameraPosition :=
        ⟨if (if r.cameraPosition.x + r.velocity.x * flightFriction * dt < 0 then 0
              else r.cameraPosition.x + r.velocity.x * flightFriction * dt) ≥
              ((WORLD_WIDTH * CHUNK_WIDTH : Int) : ℚ)
            then ((WORLD_WIDTH * CHUNK_WIDTH - 1 : Int) : ℚ)
            else (if r.cameraPosition.x + r.velocity.x * flightFriction * dt < 0 then 0
              else r.cameraPosition.x + r.velocity.x * flightFriction * dt),
         if (if r.cameraPosition.y + r.velocity.y * flightFriction * dt < 0 then 0
              else r.cameraPosition.y + r.velocity.y * flightFriction * dt) ≥
              ((WORLD_HEIGHT * CHUNK_HEIGHT : Int) : ℚ)
            then ((WORLD_HEIGHT * CHUNK_HEIGHT - 1 : Int) : ℚ)
            else (if r.cameraPosition.y + r.velocity.y * flightFriction * dt < 0 then 0
              else r.cameraPosition.y + r.velocity.y * flightFriction * dt),
         if (if r.cameraPosition.z + r.velocity.z * flightFriction * dt < 0 then 0
              else r.cameraPosition.z + r.velocity.z * flightFriction * dt) ≥
              ((WORLD_DEPTH * CHUNK_DEPTH : Int) : ℚ)
            then ((WORLD_DEPTH * CHUNK_DEPTH - 1 : Int) : ℚ)
            else (if r.cameraPosition.z + r.velocity.z * flightFriction * dt < 0 then 0
              else r.cameraPosition.z + r.velocity.z * flightFriction * dt)⟩ } dt
  refine ⟨?_, ?_, h3, h4, h5, h6, h7⟩
  · rw [h2]
    simp only [flightFriction]
  · rw [h1]
    simp only [flightFriction, flightClamp, WORLD_WIDTH, WORLD_HEIGHT, WORLD_DEPTH, CHUNK_WIDTH,
      CHUNK_HEIGHT, CHUNK_DEPTH]
    have key : ∀ p : ℚ, ∀ e : Int, 1 ≤ e →
        (if (if p < 0 then (0 : ℚ) else p) ≥ (e : ℚ) then ((e - 1 : Int) : ℚ)
          else (if p < 0 then 0 else p)) =
        (if p < 0 then 0 else if p ≥ (e : ℚ) then ((e - 1 : Int) : ℚ) else p) := by
      intro p e he
      have he' : (1 : ℚ) ≤ (e : ℚ) := by exact_mod_cast he
      by_cases hp : p < 0
      · rw [if_pos hp, if_pos hp, if_neg (by linarith)]
      · rw [if_neg hp, if_neg hp]
    have k1 := key (r.cameraPosition.x + r.velocity.x * (9 / 10) * dt) (8 * 16) (by norm_num)
    have k2 := key (r.cameraPosition.y + r.velocity.y * (9 / 10) * dt) (4 * 128) (by norm_num)
    have k3 := key (r.cameraPosition.z + r.velocity.z * (9 / 10) * dt) (8 * 16) (by norm_num)
    norm_num at k1 k2 k3 ⊢
    exact ⟨k1, k2, k3⟩

end Renderer

/-- C21: with flight mode on and any time step `dt`, one `update` multiplies
each velocity component by 0.9; the new position is, on each axis, the old
position plus the new velocity times `dt`, set to 0 when that is negative and
to 127 (x, z) or 511 (y) when it is at least 128 or 512, so it lies in
`0 ≤ x < 128`, `0 ≤ y < 512`, `0 ≤ z < 128`; the result is the same for every
world (no block is consulted); the on-ground, jumping, in-water and swimming
flags are unchanged. -/
theorem flight_tick (world : Option World) (r : Renderer) (dt : ℚ)
    (hfly : r.flightMode = true) :
    (Renderer.update world r dt).velocity =
      ⟨r.velocity.x * (9 / 10), r.velocity.y * (9 / 10), r.velocity.z * (9 / 10)⟩ ∧
    (Renderer.update world r dt).cameraPosition =
      ⟨Renderer.flightClamp (r.cameraPosition.x + r.velocity.x * (9 / 10) * dt) 128,
       Renderer.flightClamp (r.cameraPosition.y + r.velocity.y * (9 / 10) * dt) 512,
       Renderer.flightClamp (r.cameraPosition.z + r.velocity.z * (9 / 10) * dt) 128⟩ ∧
    (∀ other : Option World, Renderer.update other r dt = Renderer.update world r dt) ∧
    (0 ≤ (Renderer.update world r dt).cameraPosition.x ∧
      (Renderer.update world r dt).cameraPosition.x < 128) ∧
    (0 ≤ (Renderer.update world r dt).cameraPosition.y ∧
      (Renderer.update world r dt).cameraPosition.y < 512) ∧
    (0 ≤ (Renderer.update world r dt).cameraPosition.z ∧
      (Renderer.update world r dt).cameraPosition.z < 128) ∧
    (Renderer.update world r dt).isOnGround = r.isOnGround ∧
    (Renderer.update world r dt).isJumping = r.isJumping ∧
    (Renderer.update world r dt).isInWater = r.isInWater ∧
    (Renderer.update world r dt).isSwimming = r.isSwimming := by
  have hu : ∀ w : Option World, Renderer.update w r dt = Renderer.updateFlight r dt := by
    intro w
    simp only [Renderer.update, hfly, if_true]
  obtain ⟨h1, h2, h3, h4, h5, h6, -⟩ := Renderer.updateFlight_fields r dt
  have bx := Renderer.flightClamp_bounds (r.cameraPosition.x + r.velocity.x * (9 / 10) * dt) 128
    (by norm_num)
  have b_y := Renderer.flightClamp_bounds (r.cameraPosition.y + r.velocity.y * (9 / 10) * dt) 512
    (by norm_num)
  have bz := Renderer.flightClamp_bounds (r.cameraPosition.z + r.velocity.z * (9 / 10) * dt) 128
    (by norm_num)
  rw [hu world]
  refine ⟨h1, h2, fun other => hu other, ?_, ?_, ?_, h3, h4, h5, h6⟩
  · rw [h2]
    exact_mod_cast bx
  · rw [h2]
    exact_mod_cast b_y
  · rw [h2]
    exact_mod_cast bz

theorem flight_tick_witness :
    flyingPlayer.flightMode = true ∧
    (Renderer.update (some airWorld) flyingPlayer (1 / 10)).velocity =
      ⟨flyingPlayer.velocity.x * (9 / 10), flyingPlayer.velocity.y * (9 / 10),
        flyingPlayer.velocity.z * (9 / 10)⟩ ∧
    (Renderer.update (some airWorld) flyingPlayer (1 / 10)).cameraPosition =
      ⟨Renderer.flightClamp
        (flyingPlayer.cameraPosition.x + flyingPlayer.velocity.x * (9 / 10) * (1 / 10)) 128,
       Renderer.flightClamp
        (flyingPlayer.cameraPosition.y + flyingPlayer.velocity.y * (9 / 10) * (1 / 10)) 512,
       Renderer.flightClamp
        (flyingPlayer.cameraPosition.z + flyingPlayer.velocity.z * (9 / 10) * (1 / 10)) 128⟩ :=
  ⟨rfl, (flight_tick (some airWorld) flyingPlayer (1 / 10) rfl).1,
    (flight_tick (some airWorld) flyingPlayer (1 / 10) rfl).2.1⟩

/-- C22: with flight mode off and in-water false, `jump` sets the vertical
velocity to 8, on-ground to false and jumping to true, leaving every other
field, if the player is on the ground and not already jumping; otherwise it
changes nothing. -/
theorem land_jump (r : Renderer) (hfly : r.flightMode = false)
    (hwater : r.isInWater = false) :
    (r.isOnGround = true ∧ r.isJumping = false →
      Renderer.jump r =
        { r with velocity := ⟨r.velocity.x, 8, r.velocity.z⟩, isOnGround := false,
                 isJumping := true }) ∧
    (¬ (r.isOnGround = true ∧ r.isJumping = false) → Renderer.jump r = r) := by
  constructor
  · rintro ⟨hg, hj⟩
    simp [Renderer.jump, hfly, hwater, hg, hj]
  · intro h
    simp only [Renderer.jump, hfly, hwater, Bool.false_eq_true, if_false]
    rw [if_neg]
    intro hc
    apply h
    refine ⟨hc.1, ?_⟩
    have := hc.2
    simpa using this

theorem land_jump_witness :
    standingPlayer.flightMode = false ∧ standingPlayer.isInWater = false ∧
    Renderer.jump standingPlayer =
      { standingPlayer with velocity := ⟨standingPlayer.velocity.x, 8, standingPlayer.velocity.z⟩,
                            isOnGround := false, isJumping := true } ∧
    Renderer.jump (Renderer.jump standingPlayer) = Renderer.jump standingPlayer :=
  ⟨rfl, rfl, (land_jump standingPlayer rfl rfl).1 ⟨rfl, rfl⟩,
    (land_jump (Renderer.jump standingPlayer) rfl rfl).2 (by decide)⟩

/-! ## Theorems on the on-ground and in-water flags -/

namespace Renderer

/-- After water detection, a player in water is not on the ground. -/
theorem applyGravity_exclusive (world : Option World) (r : Renderer) (dt : ℚ) :
    (applyGravity world r dt).isInWater = true → (applyGravity world r dt).isOnGround = false := by
  unfold applyGravity
  simp only
  split
  · intro _
    rfl
  · split <;> intro h <;> cases h

/-- The Y movement of a player in water leaves the on-ground flag. -/
theorem moveY_water_isOnGround (world : Option World) (r : Renderer) (dt : ℚ)
    (h : r.isInWater = true) : (moveY world r dt).isOnGround = r.isOnGround := by
  unfold moveY
  simp only [h, Bool.not_true, Bool.false_eq_true, if_false]
  split_ifs <;> rfl

/-- After a normal-mode tick the player is not both on the ground and in
water, whatever the state before. -/
theorem update_normal_exclusive (world : Option World) (r : Renderer) (dt : ℚ)
    (hfly : r.flightMode = false) :
    ¬ ((update world r dt).isOnGround = true ∧ (update world r dt).isInWater = true) := by
  rintro ⟨hg, hw⟩
  simp only [update, hfly, Bool.false_eq_true, if_false] at hg hw
  obtain ⟨-, -, -, -, zw, zg, -⟩ := horizontal_stage world r dt
  obtain ⟨-, fw, fg, -⟩ := applyFriction_fields
    (moveY world (moveZ world (moveX world (applyGravity world (swingStep r dt) dt) dt) dt) dt)
  have yw := (moveY_fields world (moveZ world (moveX world
      (applyGravity world (swingStep r dt) dt) dt) dt) dt).2.2.2.2.1
  rw [fw, yw, zw] at hw
  rw [fg, moveY_water_isOnGround _ _ _ (by rw [zw]; exact hw), zg,
    applyGravity_exclusive _ _ _ hw] at hg
  cases hg

theorem update_exclusive (world : Option World) (r : Renderer) (dt : ℚ)
    (h : ¬ (r.isOnGround = true ∧ r.isInWater = true)) :
    ¬ ((update world r dt).isOnGround = true ∧ (update world r dt).isInWater = true) := by
  cases hfly : r.flightMode
  · exact update_normal_exclusive world r dt hfly
  · have hu : update world r dt = updateFlight r dt := by
      simp only [update, hfly, if_true]
    obtain ⟨-, -, h3, -, h5, -⟩ := updateFlight_fields r dt
    rw [hu, h3, h5]
    exact h

theorem jump_exclusive (r : Renderer) (h : ¬ (r.isOnGround = true ∧ r.isInWater = true)) :
    ¬ ((jump r).isOnGround = true ∧ (jump r).isInWater = true) := by
  unfold jump
  split_ifs
  · exact h
  · exact h
  · rintro ⟨hg, -⟩
    cases hg
  · exact h

theorem swimDown_exclusive (r : Renderer) (h : ¬ (r.isOnGround = true ∧ r.isInWater = true)) :
    ¬ ((swimDown r).isOnGround = true ∧ (swimDown r).isInWater = true) := by
  unfold swimDown
  split_ifs <;> exact h

theorem flyUp_exclusive (r : Renderer) (h : ¬ (r.isOnGround = true ∧ r.isInWater = true)) :
    ¬ ((flyUp r).isOnGround = true ∧ (flyUp r).isInWater = true) := by
  unfold flyUp
  split_ifs <;> exact h

theorem flyDown_exclusive (r : Renderer) (h : ¬ (r.isOnGround = true ∧ r.isInWater = true)) :
    ¬ ((flyDown r).isOnGround = true ∧ (flyDown r).isInWater = true) := by
  unfold flyDown
  split_ifs <;> exact h

theorem toggleFlightMode_exclusive (r : Renderer)
    (h : ¬ (r.isOnGround = true ∧ r.isInWater = true)) :
    ¬ ((toggleFlightMode r).isOnGround = true ∧ (toggleFlightMode r).isInWater = true) := by
  unfold toggleFlightMode
  split_ifs
  · rintro ⟨hg, -⟩
    cases hg
  · exact h

theorem playable_exclusive (T : Trig) (r : Renderer) (h : Playable T r) :
    ¬ (r.isOnGround = true ∧ r.isInWater = true) := by
  induction h with
  | init =>
    rintro ⟨hg, -⟩
    cases hg
  | update world dt _ ih => exact update_exclusive world _ dt ih
  | jump _ ih => exact jump_exclusive _ ih
  | swimDown _ ih => exact swimDown_exclusive _ ih
  | flyUp _ ih => exact flyUp_exclusive _ ih
  | flyDown _ ih => exact flyDown_exclusive _ ih
  | moveCameraPhysics forward right _ ih => exact ih
  | toggleFlightMode _ ih => exact toggleFlightMode_exclusive _ ih
  | initPlayerPosition world _ ih =>
    rintro ⟨hg, -⟩
    cases hg

end Renderer

/-- C23: in every player state reachable from the constructed state by update
ticks (any world, any time step), jump, swimDown, flyUp, flyDown,
moveCameraPhysics, toggleFlightMode and initPlayerPosition, the on-ground and
in-water flags are not both true. -/
theorem ground_water_exclusive (T : Trig) (r : Renderer) (h : Renderer.Playable T r) :
    ¬ (r.isOnGround = true ∧ r.isInWater = true) :=
  Renderer.playable_exclusive T r h

theorem ground_water_exclusive_witness :
    Renderer.Playable sampleTrig
      (Renderer.update (some landingWorld)
        (Renderer.jump (Renderer.initPlayerPosition (some landingWorld) Renderer.new)) (1 / 10)) ∧
    ¬ ((Renderer.update (some landingWorld)
        (Renderer.jump (Renderer.initPlayerPosition (some landingWorld) Renderer.new))
          (1 / 10)).isOnGround = true ∧
      (Renderer.update (some landingWorld)
        (Renderer.jump (Renderer.initPlayerPosition (some landingWorld) Renderer.new))
          (1 / 10)).isInWater = true) :=
  ⟨Renderer.Playable.update _ _ (Renderer.Playable.jump
      (Renderer.Playable.initPlayerPosition _ Renderer.Playable.init)),
    ground_water_exclusive sampleTrig _
      (Renderer.Playable.update _ _ (Renderer.Playable.jump
        (Renderer.Playable.initPlayerPosition _ Renderer.Playable.init)))⟩

/-! ## The standing player -/

namespace Renderer

/-- Water detection and gravity for a player on the ground whose head and
chest are not in water: only the water flags are written. -/
theorem applyGravity_ground (world : Option World) (r : Renderer) (dt : ℚ)
    (hhead : isWaterAt world (Int.floor r.cameraPosition.x) (Int.floor r.cameraPosition.y)
      (Int.floor r.cameraPosition.z) = false)
    (hbody : isWaterAt world (Int.floor r.cameraPosition.x)
      (Int.floor (r.cameraPosition.y - 1 / 2)) (Int.floor r.cameraPosition.z) = false)
    (hog : r.isOnGround = true) :
    applyGravity world r dt = { r with isInWater := false, isSwimming := false } := by
  unfold applyGravity
  simp only [hhead, hbody, hog, Bool.or_self, Bool.false_eq_true, if_false, Bool.not_true]

/-- The Y movement of a player out of water with zero vertical velocity: the
on-ground flag becomes whether the cell holding the feet is solid; nothing
else changes. -/
theorem moveY_rest (world : Option World) (r : Renderer) (dt : ℚ)
    (hw : r.isInWater = false) (hvy : r.velocity.y = 0) :
    moveY world r dt =
      { r with isOnGround := (isBlockAt world (Int.floor r.cameraPosition.x)
          (Int.floor (r.cameraPosition.y - playerHeight)) (Int.floor r.cameraPosition.z)) } := by
  unfold moveY
  simp only [hw, hvy, zero_mul, add_zero, lt_irrefl, gt_iff_lt, Bool.not_false, if_true,
    if_false]
  cases isBlockAt world (Int.floor r.cameraPosition.x)
    (Int.floor (r.cameraPosition.y - playerHeight)) (Int.floor r.cameraPosition.z) <;> simp

end Renderer

theorem floor_feet_standing (g : Int) :
    Int.floor ((g : ℚ) + 1 + 9 / 5 - Renderer.playerHeight) = g + 1 := by
  rw [Int.floor_eq_iff]
  simp only [Renderer.playerHeight]
  push_cast
  constructor <;> linarith

/-- C25 (the code departs from the claim): from the landed state (normal mode,
`position.y = g + 1 + 1.8` over a solid block at cell `g`, cell `g + 1` not
solid, head and chest not in water, zero velocity, on-ground true), one further
tick leaves the position and the zero velocity, but sets on-ground to false: the
check made at zero vertical velocity tests the cell `floor(y - 1.8) = g + 1`
that holds the feet, not the block `g` under them. -/
theorem standing_tick (world : Option World) (r : Renderer) (g : Int) (dt : ℚ)
    (hfly : r.flightMode = false) (hog : r.isOnGround = true)
    (hvel : r.velocity = ⟨0, 0, 0⟩)
    (hy : r.cameraPosition.y = (g : ℚ) + 1 + 9 / 5)
    (_hsolid : Renderer.isBlockAt world (Int.floor r.cameraPosition.x) g
      (Int.floor r.cameraPosition.z) = true)
    (hfree : Renderer.isBlockAt world (Int.floor r.cameraPosition.x) (g + 1)
      (Int.floor r.cameraPosition.z) = false)
    (hhead : Renderer.isWaterAt world (Int.floor r.cameraPosition.x)
      (Int.floor r.cameraPosition.y) (Int.floor r.cameraPosition.z) = false)
    (hbody : Renderer.isWaterAt world (Int.floor r.cameraPosition.x)
      (Int.floor (r.cameraPosition.y - 1 / 2)) (Int.floor r.cameraPosition.z) = false) :
    (Renderer.update world r dt).isOnGround = false ∧
    (Renderer.update world r dt).cameraPosition = r.cameraPosition ∧
    (Renderer.update world r dt).velocity = ⟨0, 0, 0⟩ ∧
    (Renderer.update world r dt).isInWater = false := by
  obtain ⟨hc, hv, hg, -, -, -, -⟩ := Renderer.swingStep_fields r dt
  have hgrav := Renderer.applyGravity_ground world (Renderer.swingStep r dt) dt
    (by rw [hc]; exact hhead) (by rw [hc]; exact hbody) (by rw [hg]; exact hog)
  simp only [Renderer.update, hfly, Bool.false_eq_true, if_false]
  rw [hgrav, Renderer.moveX_of_velocity_x_zero _ _ _ (by simp [hv, hvel]),
    Renderer.moveZ_of_velocity_z_zero _ _ _ (by simp [hv, hvel]),
    Renderer.moveY_rest _ _ _ rfl (by simp [hv, hvel])]
  simp only [hc, hv, hy, floor_feet_standing, hfree, hvel]
  simp [Renderer.applyFriction]

theorem standing_tick_witness :
    standingPlayer.isOnGround = true ∧
    Renderer.isBlockAt (some landingWorld) 5 10 5 = true ∧
    (Renderer.update (some landingWorld) standingPlayer (1 / 60)).isOnGround = false ∧
    (Renderer.update (some landingWorld) standingPlayer (1 / 60)).cameraPosition =
      standingPlayer.cameraPosition := by
  have hx : Int.floor standingPlayer.cameraPosition.x = 5 := floor_eleven_halves
  have hz : Int.floor standingPlayer.cameraPosition.z = 5 := floor_eleven_halves
  have hh : Int.floor standingPlayer.cameraPosition.y = 12 := floor_head 10
  have hb : Int.floor (standingPlayer.cameraPosition.y - 1 / 2) = 12 := floor_body 10
  have H := standing_tick (some landingWorld) standingPlayer 10 (1 / 60) rfl rfl rfl rfl
    (by rw [hx, hz]; exact landingWorld_facts.2.2.1)
    (by rw [hx, hz]; exact landingWorld_facts.2.2.2.1)
    (by rw [hx, hz, hh]; exact landingWorld_facts.2.1)
    (by rw [hx, hz, hb]; exact landingWorld_facts.2.1)
  exact ⟨rfl, landingWorld_facts.2.2.1, H.1, H.2.1⟩

/-! ## Breaking twice -/

/-- A left click on the world a left click leaves changes nothing more. -/
theorem mouse_left_twice (w : World) (hw : w.WF) (pos ray : Vector3) (t : BlockType) :
    mouse GLUT_LEFT_BUTTON pos ray t (mouse GLUT_LEFT_BUTTON pos ray t w) =
      mouse GLUT_LEFT_BUTTON pos ray t w := by
  cases hg : w.getBlockAt (samplePoint pos ray 2).1 (samplePoint pos ray 2).2.1
      (samplePoint pos ray 2).2.2 with
  | none =>
    have h1 : mouse GLUT_LEFT_BUTTON pos ray t w = w := by
      rw [mouse_left, hg]
    rw [h1, h1]
  | some p =>
    cases he : (w.load p).isEmpty with
    | true =>
      have h1 : mouse GLUT_LEFT_BUTTON pos ray t w = w := by
        rw [mouse_left, hg]
        simp [he]
      rw [h1, h1]
    | false =>
      have h1 : mouse GLUT_LEFT_BUTTON pos ray t w = w.store p (Block.ofType BlockType.AIR) := by
        rw [mouse_left, hg]
        simp [he]
      rw [h1, mouse_left, World.getBlockAt_store, hg]
      simp only
      rw [World.ptr_load_store_same hw (World.getBlockAt_valid hg)]
      rfl

/-- C24: a left click (break) leaves the world unchanged when the block it
targets, the one `getBlockAt` finds two units along the ray, is empty (Air) or
is not found; and on a well-formed world a second identical left click yields
the same world as the first alone. -/
theorem break_idempotent (w : World) (hw : w.WF) (pos ray : Vector3) (t : BlockType) :
    (∀ p : BlockPtr,
      w.getBlockAt (samplePoint pos ray 2).1 (samplePoint pos ray 2).2.1
        (samplePoint pos ray 2).2.2 = some p →
      (w.load p).type = BlockType.AIR → mouse GLUT_LEFT_BUTTON pos ray t w = w) ∧
    (w.getBlockAt (samplePoint pos ray 2).1 (samplePoint pos ray 2).2.1
        (samplePoint pos ray 2).2.2 = none → mouse GLUT_LEFT_BUTTON pos ray t w = w) ∧
    mouse GLUT_LEFT_BUTTON pos ray t (mouse GLUT_LEFT_BUTTON pos ray t w) =
      mouse GLUT_LEFT_BUTTON pos ray t w := by
  refine ⟨?_, ?_, mouse_left_twice w hw pos ray t⟩
  · intro p hp he
    rw [mouse_left, hp]
    simp [Block.isEmpty, he]
  · intro hn
    rw [mouse_left, hn]

theorem break_idempotent_witness :
    twoStoneWorld.WF ∧
    mouse GLUT_LEFT_BUTTON examplePos exampleRay BlockType.GRASS
        (mouse GLUT_LEFT_BUTTON examplePos exampleRay BlockType.GRASS twoStoneWorld) =
      mouse GLUT_LEFT_BUTTON examplePos exampleRay BlockType.GRASS twoStoneWorld :=
  ⟨twoStoneWorld_facts.1,
    (break_idempotent twoStoneWorld twoStoneWorld_facts.1 examplePos exampleRay
      BlockType.GRASS).2.2⟩

/-! ## Theorems on local writes, the static block and the solidity query -/

/-- C26: after `setBlock` at an in-bounds coordinate `(x, y, z)`, `getBlock` at
every in-bounds coordinate `(a, b, c)` different from `(x, y, z)` returns the
block it returned before, whatever the static default block holds, and the
chunk's grid position is unchanged. -/
theorem chunk_setBlock_local (ch : Chunk) (blk : Block) (x y z a b c : Int)
    (hp : 0 ≤ x ∧ x < 16 ∧ 0 ≤ y ∧ y < 128 ∧ 0 ≤ z ∧ z < 16)
    (hq : 0 ≤ a ∧ a < 16 ∧ 0 ≤ b ∧ b < 128 ∧ 0 ≤ c ∧ c < 16)
    (hne : ¬ (a = x ∧ b = y ∧ c = z)) (d : Block) :
    (ch.setBlock x y z blk).getBlock d a b c = ch.getBlock d a b c ∧
    (ch.setBlock x y z blk).position = ch.position := by
  have hbp : Chunk.inBounds x y z = true := (Chunk.inBounds_iff x y z).2 hp
  have hbq : Chunk.inBounds a b c = true := (Chunk.inBounds_iff a b c).2 hq
  simp only [Chunk.getBlock, Chunk.getBlockRef, Chunk.setBlock, hbp, hbq, if_true, Chunk.load,
    and_true]
  apply Vec3.get_set_ne
  intro h
  apply hne
  omega

theorem chunk_setBlock_local_witness :
    ((Chunk.new ⟨0, 0, 0⟩).setBlock 3 127 15 (Block.ofType BlockType.STONE)).getBlock
        Block.default 3 126 15 =
      (Chunk.new ⟨0, 0, 0⟩).getBlock Block.default 3 126 15 ∧
    ((Chunk.new ⟨0, 0, 0⟩).setBlock 3 127 15 (Block.ofType BlockType.STONE)).position =
      (Chunk.new ⟨0, 0, 0⟩).position :=
  chunk_setBlock_local (Chunk.new ⟨0, 0, 0⟩) (Block.ofType BlockType.STONE) 3 127 15 3 126 15
    (by decide) (by decide) (by decide) Block.default

/-- C27: whenever `getBlockAt` finds a chunk for `(x, y, z)`, the local
coordinates it passes to `Chunk::getBlock` lie in `[0,16) x [0,128) x [0,16)`;
the pointer returned is the found chunk with the reference to the stored cell
at those coordinates, never the reference to the static default block, so an
assignment through it writes a cell of a chunk of the grid and leaves the
static default block as it is. -/
theorem sentinel_not_exposed (w : World) (x y z : Int) (c : ChunkPtr)
    (h : w.getChunkAt (chunkIndex x CHUNK_WIDTH) (chunkIndex y CHUNK_HEIGHT)
      (chunkIndex z CHUNK_DEPTH) = some c) :
    (0 ≤ localCoord x CHUNK_WIDTH ∧ localCoord x CHUNK_WIDTH < 16) ∧
    (0 ≤ localCoord y CHUNK_HEIGHT ∧ localCoord y CHUNK_HEIGHT < 128) ∧
    (0 ≤ localCoord z CHUNK_DEPTH ∧ localCoord z CHUNK_DEPTH < 16) ∧
    w.getBlockAt x y z =
      some ⟨c, CellRef.stored (localCoord x CHUNK_WIDTH).toNat (localCoord y CHUNK_HEIGHT).toNat
        (localCoord z CHUNK_DEPTH).toNat⟩ ∧
    (∀ p : BlockPtr, w.getBlockAt x y z = some p →
      p.cell ≠ CellRef.defaultBlock ∧ w.ValidPtr p ∧
      ∀ b : Block, (w.store p b).defaultBlock = w.defaultBlock) := by
  obtain ⟨hx0, -, hy0, -, hz0, -, -, -⟩ := World.getChunkAt_eq_some h
  have lx := localCoord_bounds x CHUNK_WIDTH (Or.inl rfl) hx0
  have ly := localCoord_bounds y CHUNK_HEIGHT (Or.inr rfl) hy0
  have lz := localCoord_bounds z CHUNK_DEPTH (Or.inl rfl) hz0
  have hb : Chunk.inBounds (localCoord x CHUNK_WIDTH) (localCoord y CHUNK_HEIGHT)
      (localCoord z CHUNK_DEPTH) = true :=
    (Chunk.inBounds_iff _ _ _).2 ⟨lx.1, lx.2, ly.1, ly.2, lz.1, lz.2⟩
  refine ⟨lx, ly, lz, ?_, fun p hp =>
    ⟨World.getBlockAt_ne_defaultBlock hp, World.getBlockAt_valid hp,
      fun b => World.defaultBlock_store (World.getBlockAt_valid hp) b⟩⟩
  unfold World.getBlockAt
  simp only [h, Chunk.getBlockRef, hb, if_true]

theorem sentinel_not_exposed_witness :
    airWorld.getChunkAt (chunkIndex (-1) CHUNK_WIDTH) (chunkIndex 130 CHUNK_HEIGHT)
      (chunkIndex 17 CHUNK_DEPTH) = some ⟨0, 1, 1⟩ ∧
    airWorld.getBlockAt (-1) 130 17 = some ⟨⟨0, 1, 1⟩, CellRef.stored 15 2 1⟩ :=
  ⟨by decide, (sentinel_not_exposed airWorld (-1) 130 17 ⟨0, 1, 1⟩ (by decide)).2.2.2.1⟩

namespace Renderer

theorem solid_of_nonEmpty (b : Block) : (!b.isEmpty && b.isSolid) = b.isSolid := by
  obtain ⟨t, pos⟩ := b
  cases t <;> rfl

/-- Inside the world volume `isBlockAt` is `isSolid` of the block stored at the
coordinate, whether or not the grid slot holds a chunk. -/
theorem isBlockAt_volume (w : World) {x y z : Int}
    (hx : 0 ≤ x ∧ x < 128) (hy : 0 ≤ y ∧ y < 512) (hz : 0 ≤ z ∧ z < 128) :
    isBlockAt (some w) x y z = (w.blockAt x y z).isSolid := by
  have hb : Chunk.inBounds (x % 16) (y % 128) (z % 16) = true := by
    simp only [Chunk.inBounds, decide_eq_true_eq, CHUNK_WIDTH, CHUNK_HEIGHT, CHUNK_DEPTH]
    omega
  unfold isBlockAt
  simp only [WORLD_WIDTH, WORLD_HEIGHT, WORLD_DEPTH, CHUNK_WIDTH, CHUNK_HEIGHT, CHUNK_DEPTH]
  rw [if_neg (by omega), if_neg (by omega)]
  unfold World.getBlockAt
  simp only [CHUNK_WIDTH, CHUNK_HEIGHT, CHUNK_DEPTH]
  rw [chunkIndex_of_nonneg x 16 hx.1 (by omega), chunkIndex_of_nonneg y 128 hy.1 (by omega),
    chunkIndex_of_nonneg z 16 hz.1 (by omega), localCoord_of_nonneg x 16 hx.1 (by omega),
    localCoord_of_nonneg y 128 hy.1 (by omega), localCoord_of_nonneg z 16 hz.1 (by omega)]
  unfold World.getChunkAt
  rw [if_pos (by simp only [WORLD_WIDTH, WORLD_HEIGHT, WORLD_DEPTH]; omega)]
  cases hch : w.chunks.get (x / 16).toNat (y / 128).toNat (z / 16).toNat with
  | none =>
    simp only [World.blockAt, World.load, World.chunk, World.cellPtr, hch]
    rfl
  | some ch =>
    simp only [World.blockAt, World.load, World.chunk, World.cellPtr, hch, Chunk.getBlockRef, hb,
      if_true]
    exact solid_of_nonEmpty _

/-- Outside the world volume both queries answer false, for every world and
for the null world pointer. -/
theorem queries_outside (world : Option World) {x y z : Int}
    (h : ¬ ((0 ≤ x ∧ x < 128) ∧ (0 ≤ y ∧ y < 512) ∧ (0 ≤ z ∧ z < 128))) :
    isBlockAt world x y z = false ∧ isWaterAt world x y z = false := by
  cases world with
  | none => exact ⟨rfl, rfl⟩
  | some w =>
    unfold isBlockAt isWaterAt
    simp only [WORLD_WIDTH, WORLD_HEIGHT, WORLD_DEPTH, CHUNK_WIDTH, CHUNK_HEIGHT, CHUNK_DEPTH]
    by_cases h1 : x < 0 ∨ z < 0 ∨ y < 0
    · rw [if_pos h1, if_pos h1]
      exact ⟨rfl, rfl⟩
    · rw [if_neg h1, if_neg h1, if_pos (by omega), if_pos (by omega)]
      exact ⟨rfl, rfl⟩

end Renderer

/-- C28: for every world and integer `(x, y, z)`, `isBlockAt` returns true iff
`0 ≤ x < 128`, `0 ≤ y < 512`, `0 ≤ z < 128` and the block stored at that world
coordinate is solid; outside that volume, negative coordinates included,
`isBlockAt` and `isWaterAt` return false, for every world and for the null
world pointer. -/
theorem solidity_query (w : World) (x y z : Int) :
    (Renderer.isBlockAt (some w) x y z = true ↔
      ((0 ≤ x ∧ x < 128) ∧ (0 ≤ y ∧ y < 512) ∧ (0 ≤ z ∧ z < 128)) ∧
        (w.blockAt x y z).isSolid = true) ∧
    (¬ ((0 ≤ x ∧ x < 128) ∧ (0 ≤ y ∧ y < 512) ∧ (0 ≤ z ∧ z < 128)) →
      ∀ world : Option World,
        Renderer.isBlockAt world x y z = false ∧ Renderer.isWaterAt world x y z = false) := by
  refine ⟨?_, fun h world => Renderer.queries_outside world h⟩
  by_cases hv : (0 ≤ x ∧ x < 128) ∧ (0 ≤ y ∧ y < 512) ∧ (0 ≤ z ∧ z < 128)
  · rw [Renderer.isBlockAt_volume w hv.1 hv.2.1 hv.2.2]
    exact ⟨fun h => ⟨hv, h⟩, fun h => h.2⟩
  · rw [(Renderer.queries_outside (some w) hv).1]
    exact ⟨fun h => Bool.noConfusion h, fun h => absurd h.1 hv⟩

/-! ## Lemmas on the inventory loops -/

namespace Inventory

theorem sweep_nil (body : InventorySlot → Int → InventorySlot × Int) (r : Int) :
    sweep body [] r = ([], r) := rfl

theorem sweep_cons_pos (body : InventorySlot → Int → InventorySlot × Int) (s : InventorySlot)
    (rest : List InventorySlot) (r : Int) (h : 0 < r) :
    sweep body (s :: rest) r =
      ((body s r).1 :: (sweep body rest (body s r).2).1, (sweep body rest (body s r).2).2) := by
  show (if r > 0 then _ else _) = _
  rw [if_pos h]

theorem sweep_of_nonpos (body : InventorySlot → Int → InventorySlot × Int)
    (l : List InventorySlot) (r : Int) (h : r ≤ 0) : sweep body l r = (l, r) := by
  cases l with
  | nil => rfl
  | cons s rest =>
    show (if r > 0 then _ else _) = _
    rw [if_neg (by omega)]

/-- The index loop over the slots after `pre` is the recursion on those slots. -/
theorem slotLoopAux_eq_sweep (body : InventorySlot → Int → InventorySlot × Int) :
    ∀ (suf pre : List InventorySlot) (r : Int),
      slotLoopAux body suf.length (pre.length : Int) (pre ++ suf, r) =
        (pre ++ (sweep body suf r).1, (sweep body suf r).2) := by
  intro suf
  induction suf with
  | nil =>
    intro pre r
    rfl
  | cons s rest ih =>
    intro pre r
    by_cases hr : 0 < r
    · rw [sweep_cons_pos body s rest r hr]
      show (if r > 0 then _ else _) = _
      rw [if_pos hr]
      simp only [Int.toNat_ofNat]
      have hget : (pre ++ s :: rest).getD pre.length InventorySlot.default = s := by
        rw [List.getD_eq_getElem?_getD, List.getElem?_append_right (le_refl _)]
        simp
      have hset : ∀ v : InventorySlot, (pre ++ s :: rest).set pre.length v =
          (pre ++ [v]) ++ rest := by
        intro v
        simp [List.set_append]
      rw [hget, hset]
      have hlen : ((pre.length : Int) + 1) = (((pre ++ [(body s r).1]).length : Nat) : Int) := by
        simp
      rw [hlen, ih (pre ++ [(body s r).1]) (body s r).2]
      simp
    · rw [sweep_of_nonpos body (s :: rest) r (by omega)]
      show (if r > 0 then _ else _) = _
      rw [if_neg hr]

theorem slotLoop_eq_sweep (body : InventorySlot → Int → InventorySlot × Int)
    (slots : List InventorySlot) (h : slots.length = 36) (r : Int) :
    slotLoop body slots r = sweep body slots r := by
  have e := slotLoopAux_eq_sweep body slots [] r
  have h36 : TOTAL_SLOTS.toNat = slots.length := by
    rw [h]
    rfl
  unfold slotLoop
  rw [h36]
  simpa using e

theorem sweep_length (body : InventorySlot → Int → InventorySlot × Int) :
    ∀ (l : List InventorySlot) (r : Int), (sweep body l r).1.length = l.length := by
  intro l
  induction l with
  | nil => intro r; rfl
  | cons s rest ih =>
    intro r
    by_cases hr : 0 < r
    · rw [sweep_cons_pos body s rest r hr]
      simp [ih]
    · rw [sweep_of_nonpos body (s :: rest) r (by omega)]

/-- A property of slots that the body keeps is kept by the loop. -/
theorem sweep_forall (body : InventorySlot → Int → InventorySlot × Int)
    (P : InventorySlot → Prop) (hstep : ∀ s r, P s → 0 < r → P (body s r).1) :
    ∀ (l : List InventorySlot) (r : Int), (∀ s ∈ l, P s) → ∀ s ∈ (sweep body l r).1, P s := by
  intro l
  induction l with
  | nil =>
    intro r _ s hs
    cases hs
  | cons a rest ih =>
    intro r hl
    by_cases hr : 0 < r
    · rw [sweep_cons_pos body a rest r hr]
      intro s hs
      rcases List.mem_cons.1 hs with h | h
      · rw [h]
        exact hstep a r (hl a (List.mem_cons_self _ _)) hr
      · exact ih _ (fun x hx => hl x (List.mem_cons_of_mem _ hx)) s h
    · rw [sweep_of_nonpos body (a :: rest) r (by omega)]
      exact hl

theorem min_split (r a b : Int) (hb : 0 ≤ b) :
    min r (a + b) = min r a + min (r - min r a) b := by
  omega

/-- Accounting for a loop whose body, on a slot offering `g s`, takes
`min r (g s)` from the remaining amount `r` and changes the measure `m` of the
slot by `c` times that. -/
theorem sweep_account (body : InventorySlot → Int → InventorySlot × Int)
    (P : InventorySlot → Prop) (g m : InventorySlot → Int) (c : Int)
    (hstep : ∀ s r, P s → 0 < r →
      0 ≤ g s ∧ (body s r).2 = r - min r (g s) ∧ m (body s r).1 = m s + c * min r (g s)) :
    ∀ (l : List InventorySlot) (r : Int), (∀ s ∈ l, P s) → 0 ≤ r → (∀ s ∈ l, 0 ≤ g s) →
      (sweep body l r).2 = r - min r (l.map g).sum ∧
      ((sweep body l r).1.map m).sum = (l.map m).sum + c * min r (l.map g).sum ∧
      0 ≤ (l.map g).sum := by
  intro l
  induction l with
  | nil =>
    intro r _ hr _
    rw [sweep_nil]
    simp only [List.map_nil, List.sum_nil]
    have h0 : min r 0 = 0 := by omega
    rw [h0]
    omega
  | cons a rest ih =>
    intro r hl hr hg
    have hga := hg a (List.mem_cons_self _ _)
    have hG : ∀ s ∈ rest, 0 ≤ g s := fun s hs => hg s (List.mem_cons_of_mem _ hs)
    have hP : ∀ s ∈ rest, P s := fun s hs => hl s (List.mem_cons_of_mem _ hs)
    by_cases hpos : 0 < r
    · obtain ⟨-, h2, h3⟩ := hstep a r (hl a (List.mem_cons_self _ _)) hpos
      have hr' : 0 ≤ (body a r).2 := by rw [h2]; omega
      obtain ⟨i1, i2, i3⟩ := ih (body a r).2 hP hr' hG
      rw [sweep_cons_pos body a rest r hpos]
      simp only [List.map_cons, List.sum_cons]
      rw [i1, i2, h2, h3, min_split r (g a) (rest.map g).sum i3]
      refine ⟨by omega, by ring, by omega⟩
    · have hr0 : r = 0 := by omega
      obtain ⟨-, -, i3⟩ := ih 0 hP (le_refl _) hG
      rw [sweep_of_nonpos body (a :: rest) r (by omega)]
      simp only [List.map_cons, List.sum_cons]
      subst hr0
      have h0 : min 0 (g a + (rest.map g).sum) = 0 := by omega
      rw [h0]
      refine ⟨by omega, by omega, by omega⟩

end Inventory

/-! ## The inventory invariant -/

namespace Inventory

theorem slotOk_default : SlotOk InventorySlot.default := by
  unfold SlotOk InventorySlot.default
  simp

theorem slotOk_air : SlotOk ⟨BlockType.AIR, 0⟩ := slotOk_default

theorem stackBody_ok (t : BlockType) (ht : t ≠ BlockType.AIR) (s : InventorySlot) (r : Int)
    (hs : SlotOk s) (hr : 0 < r) : SlotOk (stackBody t s r).1 := by
  obtain ⟨h0, h1, h2⟩ := hs
  unfold stackBody
  split
  · next h =>
    have hc : s.count < 64 := by simpa [InventorySlot.canStack] using h.2
    have hne : s.count ≠ 0 := fun e => ht (h.1 ▸ h2.2 e)
    refine ⟨?_, ?_, ?_⟩
    · show 0 ≤ s.count + min r (64 - s.count)
      omega
    · show s.count + min r (64 - s.count) ≤ 64
      omega
    · show s.itemType = BlockType.AIR ↔ s.count + min r (64 - s.count) = 0
      rw [h2]
      omega
  · exact ⟨h0, h1, h2⟩

theorem emptyBody_ok (t : BlockType) (ht : t ≠ BlockType.AIR) (s : InventorySlot) (r : Int)
    (hs : SlotOk s) (hr : 0 < r) : SlotOk (emptyBody t s r).1 := by
  unfold emptyBody
  split
  · refine ⟨?_, ?_, ?_⟩
    · show 0 ≤ min r 64
      omega
    · show min r 64 ≤ 64
      omega
    · show t = BlockType.AIR ↔ min r 64 = 0
      constructor
      · intro h
        exact absurd h ht
      · intro h
        omega
  · exact hs

theorem removeBody_ok (t : BlockType) (s : InventorySlot) (r : Int) (hs : SlotOk s)
    (hr : 0 < r) : SlotOk (removeBody t s r).1 := by
  obtain ⟨h0, h1, h2⟩ := hs
  unfold removeBody
  split
  · simp only
    split
    · exact slotOk_air
    · next hne hpos =>
      refine ⟨?_, ?_, ?_⟩
      · show 0 ≤ s.count - min r s.count
        omega
      · show s.count - min r s.count ≤ 64
        omega
      · show s.itemType = BlockType.AIR ↔ s.count - min r s.count = 0
        rw [h2]
        omega
  · exact ⟨h0, h1, h2⟩

theorem ok_addItem (inv : Inventory) (t : BlockType) (n : Int) (h : Ok inv) :
    Ok (inv.addItem t n).2 := by
  obtain ⟨hlen, hall, hsel⟩ := h
  unfold addItem
  split
  · exact ⟨hlen, hall, hsel⟩
  · next hg =>
    have ht : t ≠ BlockType.AIR := fun e => hg (Or.inl e)
    have hn : 0 < n := by omega
    simp only
    rw [slotLoop_eq_sweep _ inv.slots hlen]
    have hlen1 : (sweep (stackBody t) inv.slots n).1.length = 36 := by
      rw [sweep_length, hlen]
    rw [slotLoop_eq_sweep _ _ hlen1]
    refine ⟨?_, ?_, hsel⟩
    · show (sweep (emptyBody t) _ _).1.length = 36
      rw [sweep_length, hlen1]
    · exact sweep_forall (emptyBody t) SlotOk (fun s r => emptyBody_ok t ht s r) _ _
        (sweep_forall (stackBody t) SlotOk (fun s r => stackBody_ok t ht s r) _ _ hall)

theorem ok_removeItem (inv : Inventory) (t : BlockType) (n : Int) (h : Ok inv) :
    Ok (inv.removeItem t n).2 := by
  obtain ⟨hlen, hall, hsel⟩ := h
  unfold removeItem
  split
  · exact ⟨hlen, hall, hsel⟩
  · simp only
    rw [slotLoop_eq_sweep _ inv.slots hlen]
    refine ⟨?_, ?_, hsel⟩
    · show (sweep (removeBody t) _ _).1.length = 36
      rw [sweep_length, hlen]
    · exact sweep_forall (removeBody t) SlotOk (fun s r => removeBody_ok t s r) _ _ hall

theorem ok_removeItemFromSlot (inv : Inventory) (i n : Int) (h : Ok inv) :
    Ok (inv.removeItemFromSlot i n).2 := by
  obtain ⟨hlen, hall, hsel⟩ := h
  unfold removeItemFromSlot
  split
  · exact ⟨hlen, hall, hsel⟩
  · next hg =>
    simp only
    refine ⟨by simp [hlen], ?_, hsel⟩
    have hi : i.toNat < inv.slots.length := by
      rw [hlen]
      simp only [TOTAL_SLOTS, HOTBAR_SIZE, INVENTORY_ROWS, INVENTORY_COLS] at hg
      omega
    have hmem : inv.slots.getD i.toNat InventorySlot.default ∈ inv.slots := by
      rw [List.getD_eq_getElem _ _ hi]
      exact List.getElem_mem _
    obtain ⟨h0, h1, h2⟩ := hall _ hmem
    intro s hs
    rcases List.mem_or_eq_of_mem_set hs with h' | h'
    · exact hall s h'
    · rw [h']
      split
      · exact slotOk_air
      · next hpos =>
        refine ⟨?_, ?_, ?_⟩
        · show 0 ≤ _ - min n _
          omega
        · show _ - min n _ ≤ 64
          omega
        · show _ = BlockType.AIR ↔ _ - min n _ = 0
          rw [h2]
          omega

theorem ok_clearInventory (inv : Inventory) (h : Ok inv) : Ok inv.clearInventory := by
  obtain ⟨hlen, -, hsel⟩ := h
  refine ⟨by simp [clearInventory, hlen], ?_, hsel⟩
  intro s hs
  simp only [clearInventory, List.mem_map] at hs
  obtain ⟨a, -, rfl⟩ := hs
  exact slotOk_air

theorem ok_selectSlot (inv : Inventory) (i : Int) (h : Ok inv) : Ok (inv.selectSlot i) := by
  obtain ⟨hlen, hall, hsel⟩ := h
  unfold selectSlot
  split
  · next hi =>
    simp only [HOTBAR_SIZE] at hi
    exact ⟨hlen, hall, by show 0 ≤ i; omega, by show i ≤ 8; omega⟩
  · exact ⟨hlen, hall, hsel⟩

theorem ok_blank : Ok blank := by
  refine ⟨rfl, ?_, le_refl _, by decide⟩
  intro s hs
  rw [List.eq_of_mem_replicate hs]
  exact slotOk_default

theorem ok_new : Ok Inventory.new :=
  ok_addItem _ _ _ (ok_addItem _ _ _ (ok_addItem _ _ _ (ok_addItem _ _ _ ok_blank)))

theorem ok_of_reachable (inv : Inventory) (h : Reachable inv) : Ok inv := by
  induction h with
  | init => exact ok_new
  | addItem t n _ ih => exact ok_addItem _ t n ih
  | removeItem t n _ ih => exact ok_removeItem _ t n ih
  | removeItemFromSlot i n _ ih => exact ok_removeItemFromSlot _ i n ih
  | clearInventory _ ih => exact ok_clearInventory _ ih
  | selectSlot i _ ih => exact ok_selectSlot _ i ih

end Inventory

/-- C29: in every inventory state reachable from construction by `addItem`,
`removeItem`, `removeItemFromSlot`, `clearInventory` and `selectSlot`, there are
36 slots, every slot has `0 ≤ count ≤ 64` and has item type Air exactly when
its count is 0, and the selected slot index is within `0..8`. -/
theorem inventory_slot_invariant (inv : Inventory) (h : Inventory.Reachable inv) :
    inv.slots.length = 36 ∧
    (∀ s ∈ inv.slots,
      0 ≤ s.count ∧ s.count ≤ 64 ∧ (s.itemType = BlockType.AIR ↔ s.count = 0)) ∧
    (∀ index : Int, 0 ≤ index → index < 36 →
      0 ≤ (inv.getSlot index).count ∧ (inv.getSlot index).count ≤ 64 ∧
      ((inv.getSlot index).itemType = BlockType.AIR ↔ (inv.getSlot index).count = 0)) ∧
    0 ≤ inv.selectedSlot ∧ inv.selectedSlot ≤ 8 := by
  obtain ⟨hlen, hall, hsel⟩ := Inventory.ok_of_reachable inv h
  refine ⟨hlen, hall, ?_, hsel⟩
  intro index h0 h1
  have hi : index.toNat < inv.slots.length := by
    rw [hlen]
    omega
  have hg : inv.getSlot index = inv.slots.getD index.toNat InventorySlot.default := by
    unfold Inventory.getSlot
    rw [if_neg]
    simp only [Inventory.TOTAL_SLOTS, Inventory.HOTBAR_SIZE, Inventory.INVENTORY_ROWS,
      Inventory.INVENTORY_COLS]
    omega
  rw [hg, List.getD_eq_getElem _ _ hi]
  exact hall _ (List.getElem_mem _)

theorem inventory_slot_invariant_witness :
    Inventory.Reachable
      ((((Inventory.new.addItem BlockType.STONE 100).2.removeItem BlockType.DIRT 70).2
        ).selectSlot 8) ∧
    ((((Inventory.new.addItem BlockType.STONE 100).2.removeItem BlockType.DIRT 70).2
        ).selectSlot 8).slots.length = 36 ∧
    0 ≤ ((((Inventory.new.addItem BlockType.STONE 100).2.removeItem BlockType.DIRT 70).2
        ).selectSlot 8).selectedSlot :=
  ⟨Inventory.Reachable.selectSlot 8 (Inventory.Reachable.removeItem BlockType.DIRT 70
      (Inventory.Reachable.addItem BlockType.STONE 100 Inventory.Reachable.init)),
    (inventory_slot_invariant _
      (Inventory.Reachable.selectSlot 8 (Inventory.Reachable.removeItem BlockType.DIRT 70
        (Inventory.Reachable.addItem BlockType.STONE 100 Inventory.Reachable.init)))).1,
    (inventory_slot_invariant _
      (Inventory.Reachable.selectSlot 8 (Inventory.Reachable.removeItem BlockType.DIRT 70
        (Inventory.Reachable.addItem BlockType.STONE 100 Inventory.Reachable.init)))).2.2.2.1⟩

/-! ## Accounting for addItem -/

namespace Inventory

theorem foldl_count (t : BlockType) (l : List InventorySlot) (a : Int) :
    l.foldl (fun total slot => if slot.itemType = t then total + slot.count else total) a =
      a + (l.map (held t)).sum := by
  induction l generalizing a with
  | nil => simp
  | cons s rest ih =>
    simp only [List.foldl_cons, List.map_cons, List.sum_cons, held]
    rw [ih]
    split <;> omega

theorem getItemCount_eq (inv : Inventory) (t : BlockType) :
    inv.getItemCount t = (inv.slots.map (held t)).sum := by
  unfold getItemCount
  rw [foldl_count]
  omega

theorem room_sum (t : BlockType) (l : List InventorySlot) :
    ((l.filter (fun s => decide (s.itemType = t))).map (fun s => 64 - s.count)).sum =
      (l.map (room t)).sum := by
  induction l with
  | nil => rfl
  | cons s rest ih =>
    by_cases h : s.itemType = t
    · simp [List.filter_cons, h, room, ih]
    · simp [List.filter_cons, h, room, ih]

theorem vacancy_sum (l : List InventorySlot) :
    64 * ((l.filter (fun s => s.isEmpty)).length : Int) = (l.map vacancy).sum := by
  induction l with
  | nil => rfl
  | cons s rest ih =>
    cases h : s.isEmpty
    · simp [List.filter_cons, h, vacancy, ih]
    · simp only [List.filter_cons, h, if_true, List.length_cons, List.map_cons, List.sum_cons,
        vacancy, ← ih]
      push_cast
      ring

theorem addCapacity_eq (inv : Inventory) (t : BlockType) :
    addCapacity inv t = (inv.slots.map (room t)).sum + (inv.slots.map vacancy).sum := by
  unfold addCapacity
  rw [room_sum, vacancy_sum]

theorem room_nonneg (t : BlockType) (s : InventorySlot) (hs : SlotOk s) : 0 ≤ room t s := by
  obtain ⟨-, h1, -⟩ := hs
  unfold room
  split <;> omega

theorem vacancy_nonneg (s : InventorySlot) : 0 ≤ vacancy s := by
  unfold vacancy
  split <;> omega

/-- A slot meeting the invariant is empty exactly when its type is Air. -/
theorem isEmpty_of_ok (s : InventorySlot) (hs : SlotOk s) :
    s.isEmpty = true ↔ s.itemType = BlockType.AIR := by
  obtain ⟨h0, -, h2⟩ := hs
  unfold InventorySlot.isEmpty
  simp only [Bool.or_eq_true, beq_iff_eq, decide_eq_true_eq]
  constructor
  · rintro (h | h)
    · exact h
    · exact h2.2 (by omega)
  · intro h
    exact Or.inl h

/-- The first loop body, on a slot meeting the invariant: the amount taken is
`min r (room t s)`, it goes to the count of `t`, the type stays. -/
theorem stackBody_account (t : BlockType) (s : InventorySlot) (r : Int) (hs : SlotOk s)
    (hr : 0 < r) :
    (stackBody t s r).2 = r - min r (room t s) ∧
    held t (stackBody t s r).1 = held t s + 1 * min r (room t s) ∧
    (stackBody t s r).1.itemType = s.itemType ∧
    (s.itemType ≠ t → (stackBody t s r).1 = s) := by
  obtain ⟨h0, h1, h2⟩ := hs
  by_cases ht : s.itemType = t
  · have hroom : room t s = 64 - s.count := by
      unfold room
      rw [if_pos ht]
    have hheld : held t s = s.count := by
      unfold held
      rw [if_pos ht]
    by_cases hc : s.canStack = true
    · have e : stackBody t s r =
          (⟨s.itemType, s.count + min r (64 - s.count)⟩, r - min r (64 - s.count)) := by
        unfold stackBody
        rw [if_pos ⟨ht, hc⟩]
      rw [e, hroom, hheld]
      refine ⟨rfl, ?_, rfl, fun h => absurd ht h⟩
      unfold held
      dsimp only
      rw [if_pos ht]
      omega
    · have e : stackBody t s r = (s, r) := by
        unfold stackBody
        rw [if_neg (fun h => hc h.2)]
      have h64 : s.count = 64 := by
        simp only [InventorySlot.canStack, decide_eq_true_eq] at hc
        omega
      rw [e, hroom, hheld]
      refine ⟨?_, ?_, rfl, fun _ => rfl⟩
      · show r = r - min r (64 - s.count)
        omega
      · show s.count = s.count + 1 * min r (64 - s.count)
        omega
  · have e : stackBody t s r = (s, r) := by
      unfold stackBody
      rw [if_neg (fun h => ht h.1)]
    have hroom : room t s = 0 := by
      unfold room
      rw [if_neg ht]
    rw [e, hroom]
    refine ⟨?_, ?_, rfl, fun _ => rfl⟩
    · show r = r - min r 0
      omega
    · show held t s = held t s + 1 * min r 0
      omega

theorem stackBody_held_other (t u : BlockType) (hu : u ≠ t) (s : InventorySlot) (r : Int)
    (hs : SlotOk s) (hr : 0 < r) : held u (stackBody t s r).1 = held u s := by
  obtain ⟨-, -, h3, h4⟩ := stackBody_account t s r hs hr
  by_cases ht : s.itemType = t
  · have hne : ¬ s.itemType = u := by
      rw [ht]
      exact fun e => hu e.symm
    simp only [held, h3, if_neg hne]
  · rw [h4 ht]

theorem stackBody_vacancy (t : BlockType) (ht : t ≠ BlockType.AIR) (s : InventorySlot) (r : Int)
    (hs : SlotOk s) (hr : 0 < r) : vacancy (stackBody t s r).1 = vacancy s := by
  have hok := stackBody_ok t ht s r hs hr
  obtain ⟨-, -, h3, -⟩ := stackBody_account t s r hs hr
  unfold vacancy
  have e : ((stackBody t s r).1.isEmpty = true) ↔ (s.isEmpty = true) := by
    rw [isEmpty_of_ok _ hok, isEmpty_of_ok _ hs, h3]
  by_cases h : s.isEmpty = true
  · rw [if_pos h, if_pos (e.2 h)]
  · rw [if_neg h, if_neg (fun h' => h (e.1 h'))]

/-- The second loop body, on a slot meeting the invariant. -/
theorem emptyBody_account (t : BlockType) (s : InventorySlot) (r : Int) (hs : SlotOk s)
    (hr : 0 < r) :
    (emptyBody t s r).2 = r - min r (vacancy s) ∧
    held t (emptyBody t s r).1 = held t s + 1 * min r (vacancy s) ∧
    (∀ u : BlockType, u ≠ t → held u (emptyBody t s r).1 = held u s) := by
  have he := isEmpty_of_ok s hs
  obtain ⟨h0, h1, h2⟩ := hs
  by_cases h : s.isEmpty = true
  · have hair : s.itemType = BlockType.AIR := he.1 h
    have hc : s.count = 0 := h2.1 hair
    have e : emptyBody t s r = (⟨t, min r 64⟩, r - min r 64) := by
      unfold emptyBody
      rw [if_pos h]
    have hv : vacancy s = 64 := by
      unfold vacancy
      rw [if_pos h]
    have hheld : ∀ u : BlockType, held u s = 0 := by
      intro u
      unfold held
      split
      · exact hc
      · rfl
    rw [e, hv]
    refine ⟨rfl, ?_, ?_⟩
    · rw [hheld t]
      unfold held
      dsimp only
      rw [if_pos rfl]
      omega
    · intro u hu
      rw [hheld u]
      unfold held
      dsimp only
      rw [if_neg (fun e => hu e.symm)]
  · have e : emptyBody t s r = (s, r) := by
      unfold emptyBody
      rw [if_neg h]
    have hv : vacancy s = 0 := by
      unfold vacancy
      rw [if_neg h]
    rw [e, hv]
    refine ⟨?_, ?_, fun u _ => rfl⟩
    · show r = r - min r 0
      omega
    · show held t s = held t s + 1 * min r 0
      omega

/-- The two loops of `addItem` on slots meeting the invariant. -/
theorem addItem_loops (t : BlockType) (ht : t ≠ BlockType.AIR) (l : List InventorySlot)
    (hl : ∀ s ∈ l, SlotOk s) (n : Int) (hn : 0 < n) :
    (sweep (emptyBody t) (sweep (stackBody t) l n).1 (sweep (stackBody t) l n).2).2 =
      n - min n ((l.map (room t)).sum + (l.map vacancy).sum) ∧
    ((sweep (emptyBody t) (sweep (stackBody t) l n).1 (sweep (stackBody t) l n).2).1.map
        (held t)).sum =
      (l.map (held t)).sum + min n ((l.map (room t)).sum + (l.map vacancy).sum) ∧
    (∀ u : BlockType, u ≠ t →
      ((sweep (emptyBody t) (sweep (stackBody t) l n).1 (sweep (stackBody t) l n).2).1.map
        (held u)).sum = (l.map (held u)).sum) ∧
    0 ≤ (l.map (room t)).sum + (l.map vacancy).sum := by
  have hroom : ∀ s ∈ l, 0 ≤ room t s := fun s hs => room_nonneg t s (hl s hs)
  obtain ⟨a1, a2, a3⟩ := sweep_account (stackBody t) SlotOk (room t) (held t) 1
    (fun s r hs hr => ⟨room_nonneg t s hs, (stackBody_account t s r hs hr).1,
      (stackBody_account t s r hs hr).2.1⟩) l n hl (by omega) hroom
  obtain ⟨-, v2, -⟩ := sweep_account (stackBody t) SlotOk (room t) vacancy 0
    (fun s r hs hr => ⟨room_nonneg t s hs, (stackBody_account t s r hs hr).1, by
      rw [stackBody_vacancy t ht s r hs hr]; ring⟩) l n hl (by omega) hroom
  have o2 : ∀ u : BlockType, u ≠ t →
      ((sweep (stackBody t) l n).1.map (held u)).sum = (l.map (held u)).sum := by
    intro u hu
    obtain ⟨-, w2, -⟩ := sweep_account (stackBody t) SlotOk (room t) (held u) 0
      (fun s r hs hr => ⟨room_nonneg t s hs, (stackBody_account t s r hs hr).1, by
        rw [stackBody_held_other t u hu s r hs hr]; ring⟩) l n hl (by omega) hroom
    rw [w2]
    ring
  have hl1 : ∀ s ∈ (sweep (stackBody t) l n).1, SlotOk s :=
    sweep_forall (stackBody t) SlotOk (fun s r => stackBody_ok t ht s r) l n hl
  have hr1 : 0 ≤ (sweep (stackBody t) l n).2 := by
    rw [a1]
    omega
  have hvac : ∀ s ∈ (sweep (stackBody t) l n).1, 0 ≤ vacancy s := fun s _ => vacancy_nonneg s
  obtain ⟨b1, b2, b3⟩ := sweep_account (emptyBody t) SlotOk vacancy (held t) 1
    (fun s r hs hr => ⟨vacancy_nonneg s, (emptyBody_account t s r hs hr).1,
      (emptyBody_account t s r hs hr).2.1⟩) _ _ hl1 hr1 hvac
  have v2' : ((sweep (stackBody t) l n).1.map vacancy).sum = (l.map vacancy).sum := by
    rw [v2]
    ring
  rw [v2'] at b1 b2 b3
  refine ⟨?_, ?_, ?_, by omega⟩
  · rw [b1, a1]
    omega
  · rw [b2, a2, a1]
    omega
  · intro u hu
    obtain ⟨-, c2, -⟩ := sweep_account (emptyBody t) SlotOk vacancy (held u) 0
      (fun s r hs hr => ⟨vacancy_nonneg s, (emptyBody_account t s r hs hr).1, by
        rw [(emptyBody_account t s r hs hr).2.2 u hu]; ring⟩) _ _ hl1 hr1 hvac
    rw [c2, o2 u hu]
    ring

theorem addItem_account (inv : Inventory) (h : Ok inv) (t : BlockType) (n : Int)
    (ht : t ≠ BlockType.AIR) (hn : 0 < n) :
    ((inv.addItem t n).1 = true ↔ n ≤ addCapacity inv t) ∧
    (inv.addItem t n).2.getItemCount t = inv.getItemCount t + min n (addCapacity inv t) ∧
    (∀ u : BlockType, u ≠ t → (inv.addItem t n).2.getItemCount u = inv.getItemCount u) := by
  obtain ⟨hlen, hall, -⟩ := h
  have hlen1 : (sweep (stackBody t) inv.slots n).1.length = 36 := by
    rw [sweep_length, hlen]
  have e : inv.addItem t n =
      (decide ((sweep (emptyBody t) (sweep (stackBody t) inv.slots n).1
          (sweep (stackBody t) inv.slots n).2).2 = 0),
        { inv with slots := (sweep (emptyBody t) (sweep (stackBody t) inv.slots n).1
          (sweep (stackBody t) inv.slots n).2).1 }) := by
    unfold addItem
    rw [if_neg (by
      intro hc
      rcases hc with hc | hc
      · exact ht hc
      · omega)]
    simp only
    rw [slotLoop_eq_sweep _ inv.slots hlen, slotLoop_eq_sweep _ _ hlen1]
  obtain ⟨p1, p2, p3, p4⟩ := addItem_loops t ht inv.slots hall n hn
  rw [e, addCapacity_eq]
  simp only [getItemCount_eq, decide_eq_true_eq]
  refine ⟨?_, p2, p3⟩
  rw [p1]
  omega

theorem addItem_rejected (inv : Inventory) (t : BlockType) (n : Int)
    (h : t = BlockType.AIR ∨ n ≤ 0) : inv.addItem t n = (false, inv) := by
  unfold addItem
  rw [if_pos h]

end Inventory

/-- C30: for every reachable inventory state, with `cap` the sum of
`64 - count` over the slots holding `t` plus 64 times the number of empty
slots: for `t` other than Air and `n > 0`, `addItem(t, n)` returns true iff
`n ≤ cap`, `getItemCount(t)` afterwards is its previous value plus
`min(n, cap)`, and `getItemCount` of every other type is unchanged; with
`t` Air or `n ≤ 0` it returns false and changes nothing. -/
theorem addItem_accounting (inv : Inventory) (h : Inventory.Reachable inv) (t : BlockType)
    (n : Int) :
    (t ≠ BlockType.AIR → 0 < n →
      ((inv.addItem t n).1 = true ↔ n ≤ Inventory.addCapacity inv t) ∧
      (inv.addItem t n).2.getItemCount t =
        inv.getItemCount t + min n (Inventory.addCapacity inv t) ∧
      (∀ u : BlockType, u ≠ t → (inv.addItem t n).2.getItemCount u = inv.getItemCount u)) ∧
    (t = BlockType.AIR ∨ n ≤ 0 → inv.addItem t n = (false, inv)) :=
  ⟨fun ht hn => Inventory.addItem_account inv (Inventory.ok_of_reachable inv h) t n ht hn,
    fun hr => Inventory.addItem_rejected inv t n hr⟩

theorem addItem_accounting_witness :
    Inventory.Reachable Inventory.new ∧
    ((Inventory.new.addItem BlockType.STONE 40).1 = true ↔
      40 ≤ Inventory.addCapacity Inventory.new BlockType.STONE) ∧
    (Inventory.new.addItem BlockType.STONE 40).2.getItemCount BlockType.STONE =
      Inventory.new.getItemCount BlockType.STONE +
        min 40 (Inventory.addCapacity Inventory.new BlockType.STONE) ∧
    Inventory.new.addItem BlockType.AIR 5 = (false, Inventory.new) :=
  ⟨Inventory.Reachable.init,
    ((addItem_accounting Inventory.new Inventory.Reachable.init BlockType.STONE 40).1
      (by decide) (by decide)).1,
    ((addItem_accounting Inventory.new Inventory.Reachable.init BlockType.STONE 40).1
      (by decide) (by decide)).2.1,
    (addItem_accounting Inventory.new Inventory.Reachable.init BlockType.AIR 5).2
      (Or.inl rfl)⟩

/-! ## Deep cells -/

/-- The segment of the terrain-layer loop before a height leaves the sequence
of random values in place. -/
theorem fillLoop_draws (cx cy cz x z T : Int) (d m wtr : Bool) (lo hi : Int)
    (cond : Int → Bool) (s : GenState) :
    (forLoop lo hi cond (fillBody cx cy cz x z T d m wtr) s).rng.draws = s.rng.draws := by
  apply forLoop_inv (fun t : GenState => t.rng.draws = s.rng.draws)
  · intro y t ht
    rw [fillBody_draws]
    exact ht
  · rfl

/-- A deep cell of the column holds, after the terrain-layer loop, the block
chosen from its height and the value drawn in its iteration. -/
theorem fillColumn_deep (cx cy cz x z : Int) (p : ColumnParams) (w : World) (hw : w.WF)
    (hcx : 0 ≤ cx ∧ cx < WORLD_WIDTH) (hcy : 0 ≤ cy ∧ cy < WORLD_HEIGHT)
    (hcz : 0 ≤ cz ∧ cz < WORLD_DEPTH)
    (hsome : (w.chunks.get cx.toNat cy.toNat cz.toNat).isSome = true)
    (hx : 0 ≤ x ∧ x < CHUNK_WIDTH) (hz : 0 ≤ z ∧ z < CHUNK_DEPTH)
    (y : Int) (hy : 0 ≤ y ∧ y < CHUNK_HEIGHT)
    (h1 : cy * CHUNK_HEIGHT + y < p.terrainHeight)
    (h2 : ¬ (cy * CHUNK_HEIGHT + y > p.terrainHeight - 4 ∧ cy * CHUNK_HEIGHT + y > 4)) :
    (fillColumn cx cy cz x z p w).world.load (World.localPtr cx cy cz x y z) =
      Block.ofType (oreChoice (cy * CHUNK_HEIGHT + y)
        ((rand (forLoop 0 y
          (fun y' => decide (cy * CHUNK_HEIGHT + y' ≤ p.terrainHeight + 10))
          (fillBody cx cy cz x z p.terrainHeight p.isDesert p.isMountain p.isWater)
          ⟨w, p.rng⟩).rng).1 % 100)) := by
  rw [fillColumn_cell cx cy cz x z p w hcx.1 hcy.1 hcz.1 hx.1 hz.1 y hy (by omega),
    fillBody_deep _ _ _ _ _ _ _ _ _ _ _ h1 h2]
  have hr := fillLoop_ready cx cy cz x z p.terrainHeight p.isDesert p.isMountain p.isWater 0 y
    (fun y => decide (cy * CHUNK_HEIGHT + y ≤ p.terrainHeight + 10)) ⟨w, p.rng⟩ hw _ _ _ hsome
  apply World.load_chunkSetBlock_same hr.1 hcx hcy hcz hr.2
  rw [Chunk.inBounds_iff]
  simp only [CHUNK_WIDTH, CHUNK_HEIGHT, CHUNK_DEPTH] at hx hy hz
  omega

/-- After a column is generated, a deep cell of it holds the block chosen in
its iteration: the tree loops only store above the terrain height. -/
theorem columnBody_deep (T : Trig) (cx cy cz x z : Int) (s : GenState) (hw : s.world.WF)
    (hcx : 0 ≤ cx ∧ cx < WORLD_WIDTH) (hcy : 0 ≤ cy ∧ cy < WORLD_HEIGHT)
    (hcz : 0 ≤ cz ∧ cz < WORLD_DEPTH)
    (hsome : (s.world.chunks.get cx.toNat cy.toNat cz.toNat).isSome = true)
    (hx : 0 ≤ x ∧ x < CHUNK_WIDTH) (hz : 0 ≤ z ∧ z < CHUNK_DEPTH)
    (y : Int) (hy : 0 ≤ y ∧ y < CHUNK_HEIGHT)
    (h1 : cy * CHUNK_HEIGHT + y < (columnParams T cx cz x z s.rng).terrainHeight)
    (h2 : ¬ (cy * CHUNK_HEIGHT + y > (columnParams T cx cz x z s.rng).terrainHeight - 4 ∧
      cy * CHUNK_HEIGHT + y > 4)) :
    (columnBody T cx cy cz x z s).world.load (World.localPtr cx cy cz x y z) =
      Block.ofType (oreChoice (cy * CHUNK_HEIGHT + y)
        ((rand (forLoop 0 y
          (fun y' => decide (cy * CHUNK_HEIGHT + y' ≤
            (columnParams T cx cz x z s.rng).terrainHeight + 10))
          (fillBody cx cy cz x z (columnParams T cx cz x z s.rng).terrainHeight
            (columnParams T cx cz x z s.rng).isDesert (columnParams T cx cz x z s.rng).isMountain
            (columnParams T cx cz x z s.rng).isWater)
          ⟨s.world, (columnParams T cx cz x z s.rng).rng⟩).rng).1 % 100)) := by
  unfold columnBody
  simp only
  apply vegetation_writes (fun w' : World => w'.load (World.localPtr cx cy cz x y z) = _)
  · intro _ w' y' h1' _ h3 _ hw'
    rw [World.load_chunkSetBlock_ne]
    · exact hw'
    · intro h
      have := World.localPtr_inj hcx.1 hcy.1 hcz.1 hx.1 hy.1 hz.1 hcx.1 hcy.1 hcz.1 hx.1 h1' hz.1 h
      omega
  · intro _ w' a b c hc hw'
    unfold inCanopy at hc
    rw [World.load_chunkSetBlock_ne]
    · exact hw'
    · intro h
      have := World.localPtr_inj hcx.1 hcy.1 hcz.1 hx.1 hy.1 hz.1 hcx.1 hcy.1 hcz.1 hc.2.2.2.1
        hc.2.2.2.2.2.1 hc.2.2.2.2.2.2.2.1 h
      have := hc.2.1
      omega
  · exact fillColumn_deep cx cy cz x z _ s.world hw hcx hcy hcz hsome hx hz y hy h1 h2

/-- The height bounds of the ores. -/
theorem oreChoice_bounds (worldY : Int) (r : Nat) :
    (oreChoice worldY r = BlockType.DIAMOND_ORE ↔ worldY < 6 ∧ r < 2) ∧
    (oreChoice worldY r = BlockType.IRON_ORE ↔ ¬ (worldY < 6 ∧ r < 2) ∧ worldY < 12 ∧ r < 5) ∧
    (oreChoice worldY r = BlockType.COAL_ORE ↔
      ¬ (worldY < 6 ∧ r < 2) ∧ ¬ (worldY < 12 ∧ r < 5) ∧ worldY < 20 ∧ r < 8) ∧
    (oreChoice worldY r = BlockType.STONE ↔
      ¬ (worldY < 6 ∧ r < 2) ∧ ¬ (worldY < 12 ∧ r < 5) ∧ ¬ (worldY < 20 ∧ r < 8)) := by
  unfold oreChoice
  by_cases a : worldY < 6 ∧ r < 2
  · rw [if_pos a]
    simp [a]
  · rw [if_neg a]
    by_cases b : worldY < 12 ∧ r < 5
    · rw [if_pos b]
      simp [a, b]
    · rw [if_neg b]
      by_cases c : worldY < 20 ∧ r < 8
      · rw [if_pos c]
        simp [a, b, c]
      · rw [if_neg c]
        simp [a, b, c]

/-- In the generated world a deep cell holds the block chosen in its
iteration, or Leaves from height 13. -/
theorem generateWorld_deep (T : Trig) (rng : Rand) (cx cy cz x z : Int)
    (hcx : 0 ≤ cx ∧ cx < WORLD_WIDTH) (hcy : 0 ≤ cy ∧ cy < WORLD_HEIGHT)
    (hcz : 0 ≤ cz ∧ cz < WORLD_DEPTH) (hx : 0 ≤ x ∧ x < CHUNK_WIDTH)
    (hz : 0 ≤ z ∧ z < CHUNK_DEPTH) (y : Int) (hy : 0 ≤ y ∧ y < CHUNK_HEIGHT)
    (h1 : cy * CHUNK_HEIGHT + y < (columnOf T rng cx cy cz x z).terrainHeight)
    (h2 : ¬ (cy * CHUNK_HEIGHT + y > (columnOf T rng cx cy cz x z).terrainHeight - 4 ∧
      cy * CHUNK_HEIGHT + y > 4)) :
    (generateWorld T ⟨World.new, rng⟩).world.blockAt (cx * CHUNK_WIDTH + x)
        (cy * CHUNK_HEIGHT + y) (cz * CHUNK_DEPTH + z) =
        Block.ofType (oreChoice (cy * CHUNK_HEIGHT + y) (oreDraw T rng cx cy cz x z y)) ∨
    (13 ≤ cy * CHUNK_HEIGHT + y ∧
      (generateWorld T ⟨World.new, rng⟩).world.blockAt (cx * CHUNK_WIDTH + x)
        (cy * CHUNK_HEIGHT + y) (cz * CHUNK_DEPTH + z) = Block.ofType BlockType.LEAVES) := by
  have hr := generateUpTo_ready T cx cy cz x z ⟨World.new, rng⟩ World.grid_wf_new hcx hcy hcz
  have key := generateAfter_keeps
    (fun blk => blk = Block.ofType (oreChoice (cy * CHUNK_HEIGHT + y)
        (oreDraw T rng cx cy cz x z y)) ∨
      (13 ≤ cy * CHUNK_HEIGHT + y ∧ blk = Block.ofType BlockType.LEAVES))
    T cx cy cz x z x y z hcx.1 hcy.1 hcz.1 hx.1 hz.1 hx.1 hy.1 hz.1 (Or.inr ⟨rfl, le_refl _⟩)
    (fun h13 => Or.inr ⟨h13, rfl⟩)
    (columnBody T cx cy cz x z (generateUpTo T cx cy cz x z ⟨World.new, rng⟩))
    (Or.inl (columnBody_deep T cx cy cz x z _ hr.1 hcx hcy hcz hr.2 hx hz y hy h1 h2))
  rw [← generateWorld_split T cx cy cz x z hcx hcy hcz hx hz,
    ← World.cellPtr_local cx cy cz x y z hx hy hz] at key
  exact key

theorem oreDraw_zeroRand (T : Trig) (cx cy cz x z y : Int) :
    oreDraw T zeroRand cx cy cz x z y = 0 := by
  have hd : (columnOf T zeroRand cx cy cz x z).rng.draws = fun _ => 0 := by
    unfold columnOf
    rw [columnParams_rng]
    exact generateUpTo_draws T cx cy cz x z ⟨World.new, zeroRand⟩
  unfold oreDraw rand
  simp only
  rw [fillLoop_draws]
  simp only [hd, Nat.zero_mod]

/-- C15: ore placement by depth and priority. For a deep cell (below the
terrain height and outside the dirt/sand band) the iteration of the
terrain-layer loop draws one value, `r = rand() % 100` lies in `[0, 100)`, and
stores the block of type DiamondOre if `worldY < 6` and `r < 2`, else IronOre
if `worldY < 12` and `r < 5`, else CoalOre if `worldY < 20` and `r < 8`, else
Stone (so diamond only below 6, iron only below 12, coal only below 20, Stone
from 20); once the loop of the column is complete the cell holds that block;
in the world generated from a newly constructed `World` the cell holds that
block, or Leaves when a canopy stamped later covers it, which needs
`worldY ≥ 13`; and no stored block of the generated world is DiamondOre at a
height from 6, IronOre from 12, or CoalOre from 20. -/
theorem ore_placement (T : Trig) (rng : Rand) (cx cy cz x z : Int)
    (hcx : 0 ≤ cx ∧ cx < WORLD_WIDTH) (hcy : 0 ≤ cy ∧ cy < WORLD_HEIGHT)
    (hcz : 0 ≤ cz ∧ cz < WORLD_DEPTH) (hx : 0 ≤ x ∧ x < CHUNK_WIDTH)
    (hz : 0 ≤ z ∧ z < CHUNK_DEPTH) (y : Int) (hy : 0 ≤ y ∧ y < CHUNK_HEIGHT)
    (h1 : cy * CHUNK_HEIGHT + y < (columnOf T rng cx cy cz x z).terrainHeight)
    (h2 : ¬ (cy * CHUNK_HEIGHT + y > (columnOf T rng cx cy cz x z).terrainHeight - 4 ∧
      cy * CHUNK_HEIGHT + y > 4)) :
    (∀ (gx gy gz a c b H : Int) (d m wtr : Bool) (s : GenState),
      gy * CHUNK_HEIGHT + b < H → ¬ (gy * CHUNK_HEIGHT + b > H - 4 ∧ gy * CHUNK_HEIGHT + b > 4) →
      (rand s.rng).1 % 100 < 100 ∧
      fillBody gx gy gz a c H d m wtr b s =
        ⟨s.world.chunkSetBlock gx gy gz a b c
          (Block.ofType (oreChoice (gy * CHUNK_HEIGHT + b) ((rand s.rng).1 % 100))),
          (rand s.rng).2⟩) ∧
    (∀ (worldY : Int) (r : Nat),
      (oreChoice worldY r = BlockType.DIAMOND_ORE ↔ worldY < 6 ∧ r < 2) ∧
      (oreChoice worldY r = BlockType.IRON_ORE ↔
        ¬ (worldY < 6 ∧ r < 2) ∧ worldY < 12 ∧ r < 5) ∧
      (oreChoice worldY r = BlockType.COAL_ORE ↔
        ¬ (worldY < 6 ∧ r < 2) ∧ ¬ (worldY < 12 ∧ r < 5) ∧ worldY < 20 ∧ r < 8) ∧
      (oreChoice worldY r = BlockType.STONE ↔
        ¬ (worldY < 6 ∧ r < 2) ∧ ¬ (worldY < 12 ∧ r < 5) ∧ ¬ (worldY < 20 ∧ r < 8))) ∧
    (∀ (p : ColumnParams) (w : World), w.WF →
      (w.chunks.get cx.toNat cy.toNat cz.toNat).isSome = true →
      cy * CHUNK_HEIGHT + y < p.terrainHeight →
      ¬ (cy * CHUNK_HEIGHT + y > p.terrainHeight - 4 ∧ cy * CHUNK_HEIGHT + y > 4) →
      (fillColumn cx cy cz x z p w).world.load (World.localPtr cx cy cz x y z) =
        Block.ofType (oreChoice (cy * CHUNK_HEIGHT + y)
          ((rand (forLoop 0 y
            (fun y' => decide (cy * CHUNK_HEIGHT + y' ≤ p.terrainHeight + 10))
            (fillBody cx cy cz x z p.terrainHeight p.isDesert p.isMountain p.isWater)
            ⟨w, p.rng⟩).rng).1 % 100))) ∧
    oreDraw T rng cx cy cz x z y < 100 ∧
    ((generateWorld T ⟨World.new, rng⟩).world.blockAt (cx * CHUNK_WIDTH + x)
        (cy * CHUNK_HEIGHT + y) (cz * CHUNK_DEPTH + z) =
        Block.ofType (oreChoice (cy * CHUNK_HEIGHT + y) (oreDraw T rng cx cy cz x z y)) ∨
      (13 ≤ cy * CHUNK_HEIGHT + y ∧
        (generateWorld T ⟨World.new, rng⟩).world.blockAt (cx * CHUNK_WIDTH + x)
          (cy * CHUNK_HEIGHT + y) (cz * CHUNK_DEPTH + z) = Block.ofType BlockType.LEAVES)) ∧
    (∀ (Tr : Trig) (rng' : Rand) (gx gy gz a b c : Int),
      0 ≤ gx → 0 ≤ gy → 0 ≤ gz → 0 ≤ a → 0 ≤ b → 0 ≤ c →
      (((generateWorld Tr ⟨World.new, rng'⟩).world.load (World.localPtr gx gy gz a b c)).type =
          BlockType.DIAMOND_ORE → gy * CHUNK_HEIGHT + b < 6) ∧
      (((generateWorld Tr ⟨World.new, rng'⟩).world.load (World.localPtr gx gy gz a b c)).type =
          BlockType.IRON_ORE → gy * CHUNK_HEIGHT + b < 12) ∧
      (((generateWorld Tr ⟨World.new, rng'⟩).world.load (World.localPtr gx gy gz a b c)).type =
          BlockType.COAL_ORE → gy * CHUNK_HEIGHT + b < 20)) ∧
    (∀ (worldY : Int) (r : Nat), 20 ≤ worldY → oreChoice worldY r = BlockType.STONE) := by
  refine ⟨?_, oreChoice_bounds, ?_, Nat.mod_lt _ (by norm_num),
    generateWorld_deep T rng cx cy cz x z hcx hcy hcz hx hz y hy h1 h2, ?_,
    fun worldY r h => (oreChoice_bounds worldY r).2.2.2.2
      ⟨fun g => absurd g.1 (by omega), fun g => absurd g.1 (by omega),
        fun g => absurd g.1 (by omega)⟩⟩
  · intro gx gy gz a c b H d m wtr s g1 g2
    exact ⟨Nat.mod_lt _ (by norm_num), fillBody_deep _ _ _ _ _ _ _ _ _ _ s g1 g2⟩
  · intro p w hw hsome g1 g2
    exact fillColumn_deep cx cy cz x z p w hw hcx hcy hcz hsome hx hz y hy g1 g2
  · intro Tr rng' gx gy gz a b c hgx hgy hgz ha hb hc
    have hg := generateWorld_generable Tr rng' gx gy gz a b c hgx hgy hgz ha hb hc
    refine ⟨?_, ?_, ?_⟩ <;>
    · intro h
      rw [h] at hg
      rcases hg with hg | hg
      · cases hg
      · exact hg

/-- C15, witness: with the values of `sampleTrig` and the random source that
always returns 0, the column at world `(3, 112)` has terrain height 6; its cell
at height 2 is deep, the draw is 0, and the generated world holds DiamondOre
there. -/
theorem ore_placement_witness :
    (columnOf sampleTrig zeroRand 0 0 7 3 0).terrainHeight = 6 ∧
    oreDraw sampleTrig zeroRand 0 0 7 3 0 2 = 0 ∧
    (generateWorld sampleTrig ⟨World.new, zeroRand⟩).world.blockAt 3 2 112 =
      Block.ofType BlockType.DIAMOND_ORE := by
  have hf := columnOf_sample_low
  have hd := oreDraw_zeroRand sampleTrig 0 0 7 3 0 2
  have h := (ore_placement sampleTrig zeroRand 0 0 7 3 0 (by decide) (by decide) (by decide)
    (by decide) (by decide) 2 (by decide) (by rw [hf.1]; decide)
    (by rw [hf.1]; decide)).2.2.2.2.1
  rw [hd] at h
  rcases h with h | h
  · exact ⟨hf.1, hd, h⟩
  · exact absurd h.1 (by decide)

/-! ## The right click, and a ray that leaves the world through a low face -/

theorem ftoi_of_neg (q : ℚ) (n : Int) (h0 : q < 0) (h1 : (n : ℚ) - 1 < q) (h2 : q ≤ (n : ℚ)) :
    ftoi q = n := by
  simp only [ftoi, if_neg (not_le.mpr h0)]
  rw [Int.ceil_eq_iff]
  exact ⟨h1, h2⟩

/-- A point with a coordinate between -1 and 0 gets the integer coordinate 0:
the conversion `(int)` truncates toward zero. -/
theorem ftoi_low (q : ℚ) (h1 : -1 < q) (h2 : q < 0) : ftoi q = 0 :=
  ftoi_of_neg q 0 h2 (by push_cast; linarith) (by push_cast; linarith)

namespace World

/-- For an x coordinate between -16 and 0, beside the world volume, `getBlockAt`
on a populated grid returns the pointer to the stored block 16 cells further,
inside the world. -/
theorem getBlockAt_low_face {w : World} (hp : w.Populated) {x y z : Int}
    (hx : -16 < x ∧ x < 0) (hy : 0 ≤ y ∧ y < 512) (hz : 0 ≤ z ∧ z < 128) :
    w.getBlockAt x y z = some (cellPtr (x + 16) y z) := by
  unfold getBlockAt
  simp only [CHUNK_WIDTH, CHUNK_HEIGHT, CHUNK_DEPTH]
  have e0 : (-x) / 16 = 0 := by omega
  have e1 : (-x) % 16 = -x := by omega
  rw [chunkIndex_of_neg x 16 hx.2 (by omega), chunkIndex_of_nonneg y 128 hy.1 (by omega),
    chunkIndex_of_nonneg z 16 hz.1 (by omega), e0,
    getChunkAt_of_populated hp (by omega) (by omega) (by omega)]
  simp only
  rw [localCoord_of_neg x 16 hx.2 (by omega), localCoord_of_nonneg y 128 hy.1 (by omega),
    localCoord_of_nonneg z 16 hz.1 (by omega), e1]
  have hb : Chunk.inBounds (16 - -x) (y % 128) (z % 16) = true := by
    simp only [Chunk.inBounds, decide_eq_true_eq, CHUNK_WIDTH, CHUNK_HEIGHT, CHUNK_DEPTH]
    omega
  simp only [Chunk.getBlockRef, hb, if_true, cellPtr]
  have e2 : (x + 16) / 16 = 0 := by omega
  have e3 : (x + 16) % 16 = 16 - -x := by omega
  rw [e2, e3]
  rfl

end World

theorem edgeWorld_facts :
    edgeWorld.WF ∧ edgeWorld.Populated ∧
    edgeWorld.blockAt 15 10 10 = Block.ofType BlockType.STONE ∧
    edgeWorld.blockAt 0 10 10 = Block.default := by
  refine ⟨World.wf_withBlock airWorld_wf _ _ _ _, World.populated_withBlock airWorld_populated _ _ _ _,
    World.blockAt_withBlock_same airWorld_wf airWorld_populated (by decide) (by decide)
      (by decide) _, ?_⟩
  unfold edgeWorld
  rw [World.blockAt_withBlock_ne airWorld_wf airWorld_populated (by decide) (by decide)
    (by decide) (by decide) (by decide) (by decide) (by decide)]
  exact airWorld_load _

theorem samplePoint_edge (e : ℚ) (n : Int) (h0 : 9 / 20 - e < 0) (h1 : (n : ℚ) - 1 < 9 / 20 - e)
    (h2 : 9 / 20 - e ≤ (n : ℚ)) : samplePoint edgePos edgeRay e = (n, 10, 10) := by
  simp only [samplePoint, edgePos, edgeRay, zero_mul, add_zero]
  have e1 : (9 / 20 : ℚ) + -1 * e = 9 / 20 - e := by ring
  rw [e1, ftoi_of_neg (9 / 20 - e) n h0 h1 h2,
    ftoi_of_nonneg (21 / 2) 10 (by norm_num) (by norm_num) (by norm_num)]

/-- The samples of the example ray between the distances 0.45 and 1.45 lie
beside the world, within one cell of the face: the block found for them is the
empty block `(0, 10, 10)`. -/
theorem edge_miss (n : Nat) (h1 : 9 / 20 < floatValue n) (h2 : floatValue n < 29 / 20) :
    nonEmptyAt edgeWorld edgePos edgeRay (floatValue n) = false := by
  obtain ⟨-, hp, -, h0⟩ := edgeWorld_facts
  unfold nonEmptyAt
  rw [samplePoint_edge (floatValue n) 0 (by linarith) (by push_cast; linarith)
    (by push_cast; linarith),
    World.getBlockAt_eq_cellPtr hp (by decide) (by decide) (by decide)]
  simp only [foundNonEmpty]
  have h : edgeWorld.load (World.cellPtr 0 10 10) = Block.default := h0
  rw [h]
  rfl

/-- The samples of the example ray between the distances 1.45 and 2.45 lie
beside the world, in the second cell from the face: the block found for them
is the Stone block `(15, 10, 10)`. -/
theorem edge_hit (n : Nat) (h1 : 29 / 20 ≤ floatValue n) (h2 : floatValue n < 49 / 20) :
    samplePoint edgePos edgeRay (floatValue n) = (-1, 10, 10) ∧
    edgeWorld.getBlockAt (-1) 10 10 = some (World.cellPtr 15 10 10) ∧
    nonEmptyAt edgeWorld edgePos edgeRay (floatValue n) = true := by
  obtain ⟨-, hp, h15, -⟩ := edgeWorld_facts
  have hs := samplePoint_edge (floatValue n) (-1) (by linarith) (by push_cast; linarith)
    (by push_cast; linarith)
  have hg : edgeWorld.getBlockAt (-1) 10 10 = some (World.cellPtr 15 10 10) :=
    World.getBlockAt_low_face hp (by decide) (by decide) (by decide)
  refine ⟨hs, hg, ?_⟩
  unfold nonEmptyAt
  rw [hs, hg]
  simp only [foundNonEmpty]
  have h : edgeWorld.load (World.cellPtr 15 10 10) = Block.ofType BlockType.STONE := h15
  rw [h]
  rfl

theorem edge_firstHit : firstHitUnits edgeWorld edgePos edgeRay = some 201326624 := by
  unfold firstHitUnits
  rw [sampleDistances_eq]
  iterate 10 rw [List.find?_cons_of_neg _
    (by rw [edge_miss _ (by unfold floatValue; norm_num) (by unfold floatValue; norm_num)]
        exact Bool.false_ne_true)]
  refine List.find?_cons_of_pos _ ?_
  exact (edge_hit 201326624 (by unfold floatValue; norm_num)
    (by unfold floatValue; norm_num)).2.2

theorem edge_place_target :
    edgeWorld.getBlockAt
      (samplePoint edgePos edgeRay (floatValue (roundFloat (201326624 - stepSize)))).1
      (samplePoint edgePos edgeRay (floatValue (roundFloat (201326624 - stepSize)))).2.1
      (samplePoint edgePos edgeRay (floatValue (roundFloat (201326624 - stepSize)))).2.2 =
      some (World.cellPtr 0 10 10) ∧
    (edgeWorld.load (World.cellPtr 0 10 10)).isEmpty = true := by
  obtain ⟨-, hp, -, h0⟩ := edgeWorld_facts
  have hr : roundFloat (201326624 - stepSize) = 187904848 := by decide
  constructor
  · rw [hr, samplePoint_edge (floatValue 187904848) 0 (by unfold floatValue; norm_num)
      (by unfold floatValue; norm_num) (by unfold floatValue; norm_num)]
    exact World.getBlockAt_eq_cellPtr hp (by decide) (by decide) (by decide)
  · have h : edgeWorld.load (World.cellPtr 0 10 10) = Block.default := h0
    rw [h]
    rfl

/-- C10 (the code departs from the claim): a right click changes at most one
block and leaves every non-empty block, the hit block included, as it was.
The loop takes the 46 samples of `sampleDistances`; the hit is the first sample
for whose truncated integer coordinates `getBlockAt` finds a non-empty block,
at distance `d` say; the block `getBlockAt` finds for the sample at
`d - stepSize` (computed in `float`) becomes a block of the selected type when
it exists and is empty, and otherwise nothing changes; without a hit nothing
changes. For a sample inside the world volume of a populated grid the block
found is that of the grid cell containing the sample. For a sample beside the
low face `x = 0` this is not so: a coordinate between -1 and 0 is truncated to
0, and for an integer x coordinate between -16 and 0 `getBlockAt` returns the
block 16 cells further inside the world, so a ray that leaves the world can
hit a block it never meets. -/
theorem place_acts_before_hit (w : World) (hw : w.WF) (pos ray : Vector3) (t : BlockType) :
    (mouse GLUT_RIGHT_BUTTON pos ray t w =
      match firstHitUnits w pos ray with
      | some n =>
        match w.getBlockAt
            (samplePoint pos ray (floatValue (roundFloat (n - stepSize)))).1
            (samplePoint pos ray (floatValue (roundFloat (n - stepSize)))).2.1
            (samplePoint pos ray (floatValue (roundFloat (n - stepSize)))).2.2 with
        | some p => if (w.load p).isEmpty then w.store p (Block.ofType t) else w
        | none => w
      | none => w) ∧
    (∀ (n : Nat) (p : BlockPtr), firstHitUnits w pos ray = some n →
      w.getBlockAt
        (samplePoint pos ray (floatValue (roundFloat (n - stepSize)))).1
        (samplePoint pos ray (floatValue (roundFloat (n - stepSize)))).2.1
        (samplePoint pos ray (floatValue (roundFloat (n - stepSize)))).2.2 = some p →
      (w.load p).isEmpty = true →
        (mouse GLUT_RIGHT_BUTTON pos ray t w).load p = Block.ofType t ∧
        ∀ q : BlockPtr, q ≠ p → (mouse GLUT_RIGHT_BUTTON pos ray t w).load q = w.load q) ∧
    (∃ p : BlockPtr, ∀ q : BlockPtr, q ≠ p →
      (mouse GLUT_RIGHT_BUTTON pos ray t w).load q = w.load q) ∧
    (∀ q : BlockPtr, (w.load q).isEmpty = false →
      (mouse GLUT_RIGHT_BUTTON pos ray t w).load q = w.load q) ∧
    (∀ (n : Nat) (h : BlockPtr), firstHitUnits w pos ray = some n →
      w.getBlockAt (samplePoint pos ray (floatValue n)).1 (samplePoint pos ray (floatValue n)).2.1
        (samplePoint pos ray (floatValue n)).2.2 = some h →
      (w.load h).isEmpty = false ∧ (mouse GLUT_RIGHT_BUTTON pos ray t w).load h = w.load h) ∧
    (sampleDistances.length = 46 ∧
      (∀ n ∈ sampleDistances, 1 / 2 ≤ floatValue n ∧ floatValue n < 5) ∧
      sampleDistances.getLast? = some 671088320) ∧
    (∀ e : ℚ, w.Populated →
      (0 ≤ pos.x + ray.x * e ∧ pos.x + ray.x * e < 128) →
      (0 ≤ pos.y + ray.y * e ∧ pos.y + ray.y * e < 512) →
      (0 ≤ pos.z + ray.z * e ∧ pos.z + ray.z * e < 128) →
      w.getBlockAt (samplePoint pos ray e).1 (samplePoint pos ray e).2.1
          (samplePoint pos ray e).2.2 =
        some (World.cellPtr (Int.floor (pos.x + ray.x * e)) (Int.floor (pos.y + ray.y * e))
          (Int.floor (pos.z + ray.z * e)))) ∧
    (∀ q : ℚ, -1 < q → q < 0 → ftoi q = 0) ∧
    (∀ x y z : Int, w.Populated → -16 < x ∧ x < 0 → 0 ≤ y ∧ y < 512 → 0 ≤ z ∧ z < 128 →
      w.getBlockAt x y z = some (World.cellPtr (x + 16) y z)) := by
  have key : ∀ q : BlockPtr, (w.load q).isEmpty = false →
      (mouse GLUT_RIGHT_BUTTON pos ray t w).load q = w.load q := by
    intro q hq
    rw [mouse_right]
    cases firstHitUnits w pos ray with
    | none => rfl
    | some n =>
      simp only
      cases hg : w.getBlockAt
          (samplePoint pos ray (floatValue (roundFloat (n - stepSize)))).1
          (samplePoint pos ray (floatValue (roundFloat (n - stepSize)))).2.1
          (samplePoint pos ray (floatValue (roundFloat (n - stepSize)))).2.2 with
      | none => rfl
      | some p =>
        simp only
        by_cases he : (w.load p).isEmpty = true
        · rw [if_pos he]
          apply World.ptr_load_store_ne hw (World.getBlockAt_valid hg)
          rintro rfl
          rw [he] at hq
          cases hq
        · rw [if_neg he]
  refine ⟨mouse_right pos ray t w, ?_, ?_, key, ?_, ?_,
    fun e hp hx hy hz => getBlockAt_samplePoint_inWorld hp pos ray e hx hy hz,
    ftoi_low, fun x y z hp hx hy hz => World.getBlockAt_low_face hp hx hy hz⟩
  · intro n p hn hg he
    have hm : mouse GLUT_RIGHT_BUTTON pos ray t w = w.store p (Block.ofType t) := by
      rw [mouse_right, hn]
      simp only [hg, he, if_true]
    rw [hm]
    exact ⟨World.ptr_load_store_same hw (World.getBlockAt_valid hg) _,
      fun q hq => World.ptr_load_store_ne hw (World.getBlockAt_valid hg) hq _⟩
  · rw [mouse_right]
    cases firstHitUnits w pos ray with
    | none => exact ⟨⟨⟨0, 0, 0⟩, CellRef.defaultBlock⟩, fun q _ => rfl⟩
    | some n =>
      simp only
      cases hg : w.getBlockAt
          (samplePoint pos ray (floatValue (roundFloat (n - stepSize)))).1
          (samplePoint pos ray (floatValue (roundFloat (n - stepSize)))).2.1
          (samplePoint pos ray (floatValue (roundFloat (n - stepSize)))).2.2 with
      | none => exact ⟨⟨⟨0, 0, 0⟩, CellRef.defaultBlock⟩, fun q _ => rfl⟩
      | some p =>
        refine ⟨p, fun q hq => ?_⟩
        simp only
        by_cases he : (w.load p).isEmpty = true
        · rw [if_pos he]
          exact World.ptr_load_store_ne hw (World.getBlockAt_valid hg) hq _
        · rw [if_neg he]
  · intro n h hn hg
    have hmem : nonEmptyAt w pos ray (floatValue n) = true := by
      unfold firstHitUnits at hn
      have := List.find?_some hn
      simpa using this
    have hne : (w.load h).isEmpty = false := by
      unfold nonEmptyAt at hmem
      rw [hg] at hmem
      simpa [foundNonEmpty] using hmem
    exact ⟨hne, key h hne⟩
  · rw [sampleDistances_eq]
    refine ⟨rfl, ?_, rfl⟩
    intro n hn
    have hb : 67108864 ≤ n ∧ n < 671088640 := by
      revert n
      decide
    unfold floatValue
    have h1 : ((67108864 : Nat) : ℚ) ≤ (n : ℚ) := by exact_mod_cast hb.1
    have h2 : (n : ℚ) < ((671088640 : Nat) : ℚ) := by exact_mod_cast hb.2
    push_cast at h1 h2
    constructor
    · rw [le_div_iff₀ (by norm_num)]
      linarith
    · rw [div_lt_iff₀ (by norm_num)]
      linarith

/-- C10, the failing input: in `edgeWorld` (Stone at `(15, 10, 10)` only), from
`(0.45, 10.5, 10.5)` toward the face `x = 0`, every sample lies beside the
world. The first ten get the integer coordinate `x = 0`, the empty cell
`(0, 10, 10)`; the eleventh, at distance `1.5000002`, gets `x = -1`, for which
`getBlockAt` returns the Stone block `(15, 10, 10)`: a right click stores a
Grass block in `(0, 10, 10)`. -/
theorem place_acts_before_hit_witness :
    edgeWorld.WF ∧
    firstHitUnits edgeWorld edgePos edgeRay = some 201326624 ∧
    samplePoint edgePos edgeRay (floatValue 201326624) = (-1, 10, 10) ∧
    edgeWorld.getBlockAt (-1) 10 10 = some (World.cellPtr 15 10 10) ∧
    (edgeWorld.blockAt 0 10 10).type = BlockType.AIR ∧
    (mouse GLUT_RIGHT_BUTTON edgePos edgeRay BlockType.GRASS edgeWorld).load
      (World.cellPtr 0 10 10) = Block.ofType BlockType.GRASS :=
  ⟨edgeWorld_facts.1, edge_firstHit,
    (edge_hit 201326624 (by unfold floatValue; norm_num) (by unfold floatValue; norm_num)).1,
    (edge_hit 201326624 (by unfold floatValue; norm_num) (by unfold floatValue; norm_num)).2.1,
    by rw [edgeWorld_facts.2.2.2]; rfl,
    ((place_acts_before_hit edgeWorld edgeWorld_facts.1 edgePos edgeRay BlockType.GRASS).2.1
      201326624 (World.cellPtr 0 10 10) edge_firstHit edge_place_target.1
      edge_place_target.2).1⟩

end MyCraft
